import Mathlib

/-!
# bgpd/bgp_debug.c : debug filters, gating predicates and the notification decoder

A shallow embedding of `bgpd/bgp_debug.c`.

* Pointers that may be `NULL` are `Option`s; a `struct peer *` is compared by
  address only, so a peer is represented by its address.
* The `unsigned long` debug masks are natural numbers, `&` is `&&&`.
* A read through a `NULL` pointer has no defined result: functions that can
  perform one return `Option`, with `none` standing for the undefined read.
* Constants that are declared in headers outside this file (`BGP_DEBUG_*`,
  `BGP_NOTIFY_*`) are not given values here: they are fields of a parameter
  record. The theorems hold for all values of them; those on the decoder's
  `switch` assume that its `case` labels are pairwise distinct, as C requires.
* The list macro `ALL_LIST_ELEMENTS` of `lib/linklist.h` visits the entries of
  a list from head to tail; a loop over it is a recursion over a `List`.
-/

namespace BgpDebug

/-! ## Data model -/

/-- The address of a `struct peer`; `struct peer *` values are compared with `==` only. -/
abbrev Peer := Nat

/-- The `struct prefix` of `lib/prefix.h`: address family, prefix length in bits and the
address bytes `u.prefix`, most significant byte first. -/
structure Prefix where
  family : Nat
  prefixlen : Nat
  u : List Nat
deriving DecidableEq, Repr

/-- The `struct bgp_debug_filter`: a peer pointer and a prefix pointer, either of which
may be `NULL`. -/
structure bgp_debug_filter where
  peer : Option Peer
  p : Option Prefix
deriving DecidableEq, Repr

/-- A `struct list *` of filters: `none` is the `NULL` pointer. -/
abbrev FilterList := Option (List bgp_debug_filter)

/-- The bit constants `BGP_DEBUG_*` of `bgpd/bgp_debug.h`. Their values are not part of
`bgp_debug.c`; they are parameters of the embedding. -/
structure DebugConsts where
  BGP_DEBUG_AS4 : Nat
  BGP_DEBUG_AS4_SEGMENT : Nat
  BGP_DEBUG_NEIGHBOR_EVENTS : Nat
  BGP_DEBUG_KEEPALIVE : Nat
  BGP_DEBUG_UPDATE_IN : Nat
  BGP_DEBUG_UPDATE_OUT : Nat
  BGP_DEBUG_UPDATE_PREFIX : Nat
  BGP_DEBUG_ZEBRA : Nat
  BGP_DEBUG_NHT : Nat
deriving DecidableEq, Repr

/-- The file-scope variables of `bgp_debug.c` (lines 40-65): the config-scope masks, the
session-scope masks and the six filter lists. -/
structure DebugState where
  conf_bgp_debug_as4 : Nat
  conf_bgp_debug_neighbor_events : Nat
  conf_bgp_debug_events : Nat
  conf_bgp_debug_packet : Nat
  conf_bgp_debug_filter : Nat
  conf_bgp_debug_keepalive : Nat
  conf_bgp_debug_update : Nat
  conf_bgp_debug_zebra : Nat
  conf_bgp_debug_nht : Nat
  term_bgp_debug_as4 : Nat
  term_bgp_debug_neighbor_events : Nat
  term_bgp_debug_events : Nat
  term_bgp_debug_packet : Nat
  term_bgp_debug_filter : Nat
  term_bgp_debug_keepalive : Nat
  term_bgp_debug_update : Nat
  term_bgp_debug_zebra : Nat
  term_bgp_debug_nht : Nat
  bgp_debug_neighbor_events_peers : FilterList
  bgp_debug_keepalive_peers : FilterList
  bgp_debug_update_out_peers : FilterList
  bgp_debug_update_in_peers : FilterList
  bgp_debug_update_prefixes : FilterList
  bgp_debug_zebra_prefixes : FilterList
deriving DecidableEq, Repr

/-- The state at daemon startup: zero-initialised masks, `NULL` list pointers. -/
def DebugState.init : DebugState :=
  { conf_bgp_debug_as4 := 0, conf_bgp_debug_neighbor_events := 0, conf_bgp_debug_events := 0,
    conf_bgp_debug_packet := 0, conf_bgp_debug_filter := 0, conf_bgp_debug_keepalive := 0,
    conf_bgp_debug_update := 0, conf_bgp_debug_zebra := 0, conf_bgp_debug_nht := 0,
    term_bgp_debug_as4 := 0, term_bgp_debug_neighbor_events := 0, term_bgp_debug_events := 0,
    term_bgp_debug_packet := 0, term_bgp_debug_filter := 0, term_bgp_debug_keepalive := 0,
    term_bgp_debug_update := 0, term_bgp_debug_zebra := 0, term_bgp_debug_nht := 0,
    bgp_debug_neighbor_events_peers := none, bgp_debug_keepalive_peers := none,
    bgp_debug_update_out_peers := none, bgp_debug_update_in_peers := none,
    bgp_debug_update_prefixes := none, bgp_debug_zebra_prefixes := none }

/-! ## Helpers declared outside `bgp_debug.c` -/

/-- Bit `i` (counted from the most significant bit of the first byte) of an address;
bytes past the end of the list read as zero. -/
def addrBit (u : List Nat) (i : Nat) : Bool :=
  (u.getD (i / 8) 0).testBit (7 - i % 8)

/-- Modelled from the spec: `prefix_match` of `lib/prefix.c`, which is not among the
sources. The spec describes its result on a filter prefix `n` and a queried prefix `p` as
"the first `f.length` bits of `queriedPrefix` equal `f`'s bits". -/
def prefix_match (n p : Prefix) : Bool :=
  (List.range n.prefixlen).all (fun i => addrBit p.u i == addrBit n.u i)

/-- Modelled from the spec: the macro `list_isempty` of `lib/linklist.h`, which is not
among the sources: the spec's `isEmpty()`, the "emptiness check" of a filter list, on a
non-`NULL` list. -/
def list_isempty (l : List bgp_debug_filter) : Bool :=
  l.isEmpty

/-- Modelled from the spec: the macro `BGP_DEBUG (a, b)` of `bgpd/bgp_debug.h`, which is
not among the sources: "session-scope bit set", the test of the session-scope mask of
category `a` against the bit `BGP_DEBUG_b`. -/
def BGP_DEBUG (term_bgp_debug_a BGP_DEBUG_b : Nat) : Bool :=
  term_bgp_debug_a &&& BGP_DEBUG_b != 0

/-! ## Gating predicates (lines 1498-1622) -/

/-- The loop of `bgp_debug_per_prefix` (lines 1519-1523). Reading `filter->p->prefixlen`
of an entry whose `p` is `NULL` is undefined: `none`. -/
def per_prefix_loop (p : Prefix) : List bgp_debug_filter → Option Bool
  | [] => some false
  | filter :: rest =>
    match filter.p with
    | none => none
    | some fp =>
      if fp.prefixlen = p.prefixlen ∧ prefix_match fp p = true then some true
      else per_prefix_loop p rest

/-- The function `bgp_debug_per_prefix` (lines 1501-1528). -/
def bgp_debug_per_prefix (p : Option Prefix) (term_bgp_debug_type BGP_DEBUG_TYPE : Nat)
    (per_prefix_list : FilterList) : Option Bool :=
  if term_bgp_debug_type &&& BGP_DEBUG_TYPE ≠ 0 then
    match per_prefix_list with
    | none => some true
    | some l =>
      if list_isempty l = true then some true
      else
        match p with
        | none => some false
        | some q => per_prefix_loop q l
  else some false

/-- The loop of `bgp_debug_per_peer` (lines 1551-1555). -/
def per_peer_loop (peer : Peer) : List bgp_debug_filter → Bool
  | [] => false
  | filter :: rest =>
    if filter.peer = some peer then true else per_peer_loop peer rest

/-- The function `bgp_debug_per_peer` (lines 1533-1560). -/
def bgp_debug_per_peer (peer : Option Peer) (term_bgp_debug_type BGP_DEBUG_TYPE : Nat)
    (per_peer_list : FilterList) : Bool :=
  if term_bgp_debug_type &&& BGP_DEBUG_TYPE ≠ 0 then
    match per_peer_list with
    | none => true
    | some l =>
      if list_isempty l = true then true
      else
        match peer with
        | none => false
        | some q => per_peer_loop q l
  else false

/-- The function `bgp_debug_neighbor_events` (lines 1562-1569). -/
def bgp_debug_neighbor_events (K : DebugConsts) (s : DebugState) (peer : Option Peer) : Bool :=
  bgp_debug_per_peer peer s.term_bgp_debug_neighbor_events K.BGP_DEBUG_NEIGHBOR_EVENTS
    s.bgp_debug_neighbor_events_peers

/-- The function `bgp_debug_keepalive` (lines 1571-1578). -/
def bgp_debug_keepalive (K : DebugConsts) (s : DebugState) (peer : Option Peer) : Bool :=
  bgp_debug_per_peer peer s.term_bgp_debug_keepalive K.BGP_DEBUG_KEEPALIVE
    s.bgp_debug_keepalive_peers

/-- The tail of `bgp_debug_update` (lines 1600-1608), reached when the neighbor clause
did not return. -/
def bgp_debug_update_tail (K : DebugConsts) (s : DebugState) (p : Option Prefix) :
    Option Bool :=
  if BGP_DEBUG s.term_bgp_debug_update K.BGP_DEBUG_UPDATE_PREFIX = true then
    match ( bgp_debug_per_prefix p s.term_bgp_debug_update K.BGP_DEBUG_UPDATE_PREFIX
        s.bgp_debug_update_prefixes) with
    | none => none
    | some true => some true
    | some false => some false
  else some false

/-- The function `bgp_debug_update` (lines 1580-1609); `inbound` is the `unsigned int`
argument, tested for being non-zero. -/
def bgp_debug_update (K : DebugConsts) (s : DebugState) (peer : Option Peer)
    (p : Option Prefix) (inbound : Nat) : Option Bool :=
  if inbound ≠ 0 then
    if bgp_debug_per_peer peer s.term_bgp_debug_update K.BGP_DEBUG_UPDATE_IN
        s.bgp_debug_update_in_peers = true then some true
    else bgp_debug_update_tail K s p
  else
    if bgp_debug_per_peer peer s.term_bgp_debug_update K.BGP_DEBUG_UPDATE_OUT
        s.bgp_debug_update_out_peers = true then some true
    else bgp_debug_update_tail K s p

/-- The function `bgp_debug_zebra` (lines 1611-1622). -/
def bgp_debug_zebra (K : DebugConsts) (s : DebugState) (p : Option Prefix) : Option Bool :=
  if BGP_DEBUG s.term_bgp_debug_zebra K.BGP_DEBUG_ZEBRA = true then
    match ( bgp_debug_per_prefix p s.term_bgp_debug_zebra K.BGP_DEBUG_ZEBRA
        s.bgp_debug_zebra_prefixes) with
    | none => none
    | some true => some true
    | some false => some false
  else some false

/-! ## Notification decoder (lines 93-165 and 393-440) -/

/-- The `struct message` of `lib/log.h`: a key and its text. -/
structure message where
  key : Int
  str : String
deriving DecidableEq, Repr

/-- The notification code and subcode constants `BGP_NOTIFY_*` of `bgpd/bgpd.h`. Their
values are not part of `bgp_debug.c`; they are parameters of the embedding. -/
structure NotifyConsts where
  BGP_NOTIFY_HEADER_ERR : Int
  BGP_NOTIFY_OPEN_ERR : Int
  BGP_NOTIFY_UPDATE_ERR : Int
  BGP_NOTIFY_HOLD_ERR : Int
  BGP_NOTIFY_FSM_ERR : Int
  BGP_NOTIFY_CEASE : Int
  BGP_NOTIFY_CAPABILITY_ERR : Int
  BGP_NOTIFY_SUBCODE_UNSPECIFIC : Int
  BGP_NOTIFY_HEADER_NOT_SYNC : Int
  BGP_NOTIFY_HEADER_BAD_MESLEN : Int
  BGP_NOTIFY_HEADER_BAD_MESTYPE : Int
  BGP_NOTIFY_OPEN_UNSUP_VERSION : Int
  BGP_NOTIFY_OPEN_BAD_PEER_AS : Int
  BGP_NOTIFY_OPEN_BAD_BGP_IDENT : Int
  BGP_NOTIFY_OPEN_UNSUP_PARAM : Int
  BGP_NOTIFY_OPEN_AUTH_FAILURE : Int
  BGP_NOTIFY_OPEN_UNACEP_HOLDTIME : Int
  BGP_NOTIFY_OPEN_UNSUP_CAPBL : Int
  BGP_NOTIFY_UPDATE_MAL_ATTR : Int
  BGP_NOTIFY_UPDATE_UNREC_ATTR : Int
  BGP_NOTIFY_UPDATE_MISS_ATTR : Int
  BGP_NOTIFY_UPDATE_ATTR_FLAG_ERR : Int
  BGP_NOTIFY_UPDATE_ATTR_LENG_ERR : Int
  BGP_NOTIFY_UPDATE_INVAL_ORIGIN : Int
  BGP_NOTIFY_UPDATE_AS_ROUTE_LOOP : Int
  BGP_NOTIFY_UPDATE_INVAL_NEXT_HOP : Int
  BGP_NOTIFY_UPDATE_OPT_ATTR_ERR : Int
  BGP_NOTIFY_UPDATE_INVAL_NETWORK : Int
  BGP_NOTIFY_UPDATE_MAL_AS_PATH : Int
  BGP_NOTIFY_CEASE_MAX_PREFIX : Int
  BGP_NOTIFY_CEASE_ADMIN_SHUTDOWN : Int
  BGP_NOTIFY_CEASE_PEER_UNCONFIG : Int
  BGP_NOTIFY_CEASE_ADMIN_RESET : Int
  BGP_NOTIFY_CEASE_CONNECT_REJECT : Int
  BGP_NOTIFY_CEASE_CONFIG_CHANGE : Int
  BGP_NOTIFY_CEASE_COLLISION_RESOLUTION : Int
  BGP_NOTIFY_CEASE_OUT_OF_RESOURCE : Int
  BGP_NOTIFY_CAPABILITY_INVALID_ACTION : Int
  BGP_NOTIFY_CAPABILITY_INVALID_LENGTH : Int
  BGP_NOTIFY_CAPABILITY_MALFORMED_CODE : Int

/-- The table `bgp_notify_msg` (lines 94-103). -/
def bgp_notify_msg (N : NotifyConsts) : List message :=
  [ ⟨N.BGP_NOTIFY_HEADER_ERR, "Message Header Error"⟩,
    ⟨N.BGP_NOTIFY_OPEN_ERR, "OPEN Message Error"⟩,
    ⟨N.BGP_NOTIFY_UPDATE_ERR, "UPDATE Message Error"⟩,
    ⟨N.BGP_NOTIFY_HOLD_ERR, "Hold Timer Expired"⟩,
    ⟨N.BGP_NOTIFY_FSM_ERR, "Neighbor Events Error"⟩,
    ⟨N.BGP_NOTIFY_CEASE, "Cease"⟩,
    ⟨N.BGP_NOTIFY_CAPABILITY_ERR, "CAPABILITY Message Error"⟩ ]

/-- The table `bgp_notify_head_msg` (lines 106-111). -/
def bgp_notify_head_msg (N : NotifyConsts) : List message :=
  [ ⟨N.BGP_NOTIFY_HEADER_NOT_SYNC, "/Connection Not Synchronized"⟩,
    ⟨N.BGP_NOTIFY_HEADER_BAD_MESLEN, "/Bad Message Length"⟩,
    ⟨N.BGP_NOTIFY_HEADER_BAD_MESTYPE, "/Bad Message Type"⟩ ]

/-- The table `bgp_notify_open_msg` (lines 114-124). -/
def bgp_notify_open_msg (N : NotifyConsts) : List message :=
  [ ⟨N.BGP_NOTIFY_SUBCODE_UNSPECIFIC, "/Unspecific"⟩,
    ⟨N.BGP_NOTIFY_OPEN_UNSUP_VERSION, "/Unsupported Version Number"⟩,
    ⟨N.BGP_NOTIFY_OPEN_BAD_PEER_AS, "/Bad Peer AS"⟩,
    ⟨N.BGP_NOTIFY_OPEN_BAD_BGP_IDENT, "/Bad BGP Identifier"⟩,
    ⟨N.BGP_NOTIFY_OPEN_UNSUP_PARAM, "/Unsupported Optional Parameter"⟩,
    ⟨N.BGP_NOTIFY_OPEN_AUTH_FAILURE, "/Authentication Failure"⟩,
    ⟨N.BGP_NOTIFY_OPEN_UNACEP_HOLDTIME, "/Unacceptable Hold Time"⟩,
    ⟨N.BGP_NOTIFY_OPEN_UNSUP_CAPBL, "/Unsupported Capability"⟩ ]

/-- The table `bgp_notify_update_msg` (lines 127-141). -/
def bgp_notify_update_msg (N : NotifyConsts) : List message :=
  [ ⟨N.BGP_NOTIFY_SUBCODE_UNSPECIFIC, "/Unspecific"⟩,
    ⟨N.BGP_NOTIFY_UPDATE_MAL_ATTR, "/Malformed Attribute List"⟩,
    ⟨N.BGP_NOTIFY_UPDATE_UNREC_ATTR, "/Unrecognized Well-known Attribute"⟩,
    ⟨N.BGP_NOTIFY_UPDATE_MISS_ATTR, "/Missing Well-known Attribute"⟩,
    ⟨N.BGP_NOTIFY_UPDATE_ATTR_FLAG_ERR, "/Attribute Flags Error"⟩,
    ⟨N.BGP_NOTIFY_UPDATE_ATTR_LENG_ERR, "/Attribute Length Error"⟩,
    ⟨N.BGP_NOTIFY_UPDATE_INVAL_ORIGIN, "/Invalid ORIGIN Attribute"⟩,
    ⟨N.BGP_NOTIFY_UPDATE_AS_ROUTE_LOOP, "/AS Routing Loop"⟩,
    ⟨N.BGP_NOTIFY_UPDATE_INVAL_NEXT_HOP, "/Invalid NEXT_HOP Attribute"⟩,
    ⟨N.BGP_NOTIFY_UPDATE_OPT_ATTR_ERR, "/Optional Attribute Error"⟩,
    ⟨N.BGP_NOTIFY_UPDATE_INVAL_NETWORK, "/Invalid Network Field"⟩,
    ⟨N.BGP_NOTIFY_UPDATE_MAL_AS_PATH, "/Malformed AS_PATH"⟩ ]

/-- The table `bgp_notify_cease_msg` (lines 144-155). -/
def bgp_notify_cease_msg (N : NotifyConsts) : List message :=
  [ ⟨N.BGP_NOTIFY_SUBCODE_UNSPECIFIC, "/Unspecific"⟩,
    ⟨N.BGP_NOTIFY_CEASE_MAX_PREFIX, "/Maximum Number of Prefixes Reached"⟩,
    ⟨N.BGP_NOTIFY_CEASE_ADMIN_SHUTDOWN, "/Administratively Shutdown"⟩,
    ⟨N.BGP_NOTIFY_CEASE_PEER_UNCONFIG, "/Peer Unconfigured"⟩,
    ⟨N.BGP_NOTIFY_CEASE_ADMIN_RESET, "/Administratively Reset"⟩,
    ⟨N.BGP_NOTIFY_CEASE_CONNECT_REJECT, "/Connection Rejected"⟩,
    ⟨N.BGP_NOTIFY_CEASE_CONFIG_CHANGE, "/Other Configuration Change"⟩,
    ⟨N.BGP_NOTIFY_CEASE_COLLISION_RESOLUTION, "/Connection collision resolution"⟩,
    ⟨N.BGP_NOTIFY_CEASE_OUT_OF_RESOURCE, "/Out of Resource"⟩ ]

/-- The table `bgp_notify_capability_msg` (lines 158-164). -/
def bgp_notify_capability_msg (N : NotifyConsts) : List message :=
  [ ⟨N.BGP_NOTIFY_SUBCODE_UNSPECIFIC, "/Unspecific"⟩,
    ⟨N.BGP_NOTIFY_CAPABILITY_INVALID_ACTION, "/Invalid Action Value"⟩,
    ⟨N.BGP_NOTIFY_CAPABILITY_INVALID_LENGTH, "/Invalid Capability Length"⟩,
    ⟨N.BGP_NOTIFY_CAPABILITY_MALFORMED_CODE, "/Malformed Capability Value"⟩ ]

/-- Modelled from the spec: the macro `LOOKUP_DEF (x, y, def)` of `lib/log.h`, which is not
among the sources. The spec describes the lookup as "a direct table scan (or indexed
array) returning a default ... label on miss": the text of the first entry of table `x`
whose key is `y`, and `def` when there is none. -/
def LOOKUP_DEF : List message → Int → String → String
  | [], _, dflt => dflt
  | m :: ms, y, dflt => if m.key = y then m.str else LOOKUP_DEF ms y dflt

/-- The `switch` of `bgp_notify_print` (lines 401 and 405-431): the value of `subcode_str`
after it. The `case` labels of a C `switch` are pairwise distinct, so the order in which
they are tried is immaterial. -/
def bgp_notify_print_subcode_str (N : NotifyConsts) (code subcode : Int) : String :=
  if code = N.BGP_NOTIFY_HEADER_ERR then
    LOOKUP_DEF (bgp_notify_head_msg N) subcode "Unrecognized Error Subcode"
  else if code = N.BGP_NOTIFY_OPEN_ERR then
    LOOKUP_DEF (bgp_notify_open_msg N) subcode "Unrecognized Error Subcode"
  else if code = N.BGP_NOTIFY_UPDATE_ERR then
    LOOKUP_DEF (bgp_notify_update_msg N) subcode "Unrecognized Error Subcode"
  else if code = N.BGP_NOTIFY_HOLD_ERR then ""
  else if code = N.BGP_NOTIFY_FSM_ERR then ""
  else if code = N.BGP_NOTIFY_CEASE then
    LOOKUP_DEF (bgp_notify_cease_msg N) subcode "Unrecognized Error Subcode"
  else if code = N.BGP_NOTIFY_CAPABILITY_ERR then
    LOOKUP_DEF (bgp_notify_capability_msg N) subcode "Unrecognized Error Subcode"
  else ""

/-- The decoding part of `bgp_notify_print` (lines 398-431), on `bgp_notify->code` and
`bgp_notify->subcode`: the pair `(code_str, subcode_str)` that the function hands to
`zlog_info` at line 435. -/
def bgp_notify_print (N : NotifyConsts) (code subcode : Int) : String × String :=
  (LOOKUP_DEF (bgp_notify_msg N) code "Unrecognized Error Code",
   bgp_notify_print_subcode_str N code subcode)

/-- The labels of the `case`s of the `switch` in `bgp_notify_print`, in source order. -/
def caseLabels (N : NotifyConsts) : List Int :=
  [ N.BGP_NOTIFY_HEADER_ERR, N.BGP_NOTIFY_OPEN_ERR, N.BGP_NOTIFY_UPDATE_ERR,
    N.BGP_NOTIFY_HOLD_ERR, N.BGP_NOTIFY_FSM_ERR, N.BGP_NOTIFY_CEASE,
    N.BGP_NOTIFY_CAPABILITY_ERR ]

/-- A sample instance of the notification constants: the code points of RFC 4271,
RFC 4486 and RFC 2842. -/
def rfcNotifyConsts : NotifyConsts :=
  { BGP_NOTIFY_HEADER_ERR := 1, BGP_NOTIFY_OPEN_ERR := 2, BGP_NOTIFY_UPDATE_ERR := 3,
    BGP_NOTIFY_HOLD_ERR := 4, BGP_NOTIFY_FSM_ERR := 5, BGP_NOTIFY_CEASE := 6,
    BGP_NOTIFY_CAPABILITY_ERR := 7, BGP_NOTIFY_SUBCODE_UNSPECIFIC := 0,
    BGP_NOTIFY_HEADER_NOT_SYNC := 1, BGP_NOTIFY_HEADER_BAD_MESLEN := 2,
    BGP_NOTIFY_HEADER_BAD_MESTYPE := 3, BGP_NOTIFY_OPEN_UNSUP_VERSION := 1,
    BGP_NOTIFY_OPEN_BAD_PEER_AS := 2, BGP_NOTIFY_OPEN_BAD_BGP_IDENT := 3,
    BGP_NOTIFY_OPEN_UNSUP_PARAM := 4, BGP_NOTIFY_OPEN_AUTH_FAILURE := 5,
    BGP_NOTIFY_OPEN_UNACEP_HOLDTIME := 6, BGP_NOTIFY_OPEN_UNSUP_CAPBL := 7,
    BGP_NOTIFY_UPDATE_MAL_ATTR := 1, BGP_NOTIFY_UPDATE_UNREC_ATTR := 2,
    BGP_NOTIFY_UPDATE_MISS_ATTR := 3, BGP_NOTIFY_UPDATE_ATTR_FLAG_ERR := 4,
    BGP_NOTIFY_UPDATE_ATTR_LENG_ERR := 5, BGP_NOTIFY_UPDATE_INVAL_ORIGIN := 6,
    BGP_NOTIFY_UPDATE_AS_ROUTE_LOOP := 7, BGP_NOTIFY_UPDATE_INVAL_NEXT_HOP := 8,
    BGP_NOTIFY_UPDATE_OPT_ATTR_ERR := 9, BGP_NOTIFY_UPDATE_INVAL_NETWORK := 10,
    BGP_NOTIFY_UPDATE_MAL_AS_PATH := 11, BGP_NOTIFY_CEASE_MAX_PREFIX := 1,
    BGP_NOTIFY_CEASE_ADMIN_SHUTDOWN := 2, BGP_NOTIFY_CEASE_PEER_UNCONFIG := 3,
    BGP_NOTIFY_CEASE_ADMIN_RESET := 4, BGP_NOTIFY_CEASE_CONNECT_REJECT := 5,
    BGP_NOTIFY_CEASE_CONFIG_CHANGE := 6, BGP_NOTIFY_CEASE_COLLISION_RESOLUTION := 7,
    BGP_NOTIFY_CEASE_OUT_OF_RESOURCE := 8, BGP_NOTIFY_CAPABILITY_INVALID_ACTION := 1,
    BGP_NOTIFY_CAPABILITY_INVALID_LENGTH := 2, BGP_NOTIFY_CAPABILITY_MALFORMED_CODE := 3 }

/-- A sample instance of the debug bit constants, one bit per flag of a mask. -/
def sampleDebugConsts : DebugConsts :=
  { BGP_DEBUG_AS4 := 1, BGP_DEBUG_AS4_SEGMENT := 2, BGP_DEBUG_NEIGHBOR_EVENTS := 1,
    BGP_DEBUG_KEEPALIVE := 1, BGP_DEBUG_UPDATE_IN := 1, BGP_DEBUG_UPDATE_OUT := 2,
    BGP_DEBUG_UPDATE_PREFIX := 4, BGP_DEBUG_ZEBRA := 1, BGP_DEBUG_NHT := 1 }

/-! ## Sample states used to instantiate the theorems -/

/-- The filter entry holding the prefix 10.0.0.0/8. -/
def filter10 : bgp_debug_filter :=
  ⟨none, some ⟨2, 8, [10, 0, 0, 0]⟩⟩

/-- A state with updates enabled in both directions and by prefix, zebra enabled, peer 7
in the inbound list and 10.0.0.0/8 in both prefix lists. -/
def sampleState : DebugState :=
  { DebugState.init with
    conf_bgp_debug_keepalive := 1
    conf_bgp_debug_neighbor_events := 1
    term_bgp_debug_update := 7
    term_bgp_debug_zebra := 1
    bgp_debug_update_in_peers := some [⟨some 7, none⟩]
    bgp_debug_neighbor_events_peers := some [⟨some 7, none⟩]
    bgp_debug_keepalive_peers := some [⟨some 7, none⟩]
    bgp_debug_update_prefixes := some [filter10]
    bgp_debug_zebra_prefixes := some [filter10] }

/-- The state `sampleState` with the update and zebra session-scope masks cleared: the config-scope bits
and the filter lists stay as they are. -/
def quietState : DebugState :=
  { sampleState with term_bgp_debug_update := 0, term_bgp_debug_zebra := 0 }

/-! ## Properties of well-formed states -/

/-- Every entry of the list holds a prefix (`filter->p` is not `NULL`): the list is a
prefix filter list. -/
def IsPrefixList (l : List bgp_debug_filter) : Prop :=
  ∀ f ∈ l, f.p ≠ none

/-- The first `n` bits of the two addresses agree. -/
def LeadingBitsEq (n : Nat) (a b : Prefix) : Prop :=
  ∀ i, i < n → addrBit a.u i = addrBit b.u i

/-- The prefix `q` matches entry `f`: the entry holds a prefix of the same length as `q`
whose leading bits, over that length, are those of `q`. -/
def EntryMatches (f : bgp_debug_filter) (q : Prefix) : Prop :=
  ∃ fp, f.p = some fp ∧ fp.prefixlen = q.prefixlen ∧ LeadingBitsEq fp.prefixlen q fp

/-- The spec's `matchesPrefixFilter` as claims C1 and C4 word it: the list is absent or
empty, or the prefix is present and matches some entry. -/
def MatchesPrefixFilter (list : FilterList) (p : Option Prefix) : Prop :=
  list = none ∨ list = some [] ∨
    ∃ l q, list = some l ∧ p = some q ∧ ∃ f ∈ l, EntryMatches f q

/-- The spec's `matchesNeighborFilter`: the list is absent or empty, or the neighbor is
present and is the neighbor of some entry. -/
def MatchesNeighborFilter (list : FilterList) (peer : Option Peer) : Prop :=
  list = none ∨ list = some [] ∨
    ∃ l q, list = some l ∧ peer = some q ∧ ∃ f ∈ l, f.peer = some q

/-- The bit (or bits) `b` is set in mask `m`: `m & b` is non-zero. -/
def BitSet (m b : Nat) : Prop :=
  m &&& b ≠ 0

instance (m b : Nat) : Decidable (BitSet m b) :=
  inferInstanceAs (Decidable (m &&& b ≠ 0))

/-! ## Command handlers: collaborators and state (lines 172-188, 442-1310) -/

/-- The two nodes at which `bgp_debug_init` installs the commands of this file (lines
1424-1496); the handlers only test `vty->node == CONFIG_NODE`. -/
inductive node_type where
  | ENABLE_NODE
  | CONFIG_NODE
deriving DecidableEq, Repr

/-- The two return values of the command handlers of this file. -/
inductive cmd_status where
  | CMD_SUCCESS
  | CMD_WARNING
deriving DecidableEq, Repr

/-- The collaborators of the command handlers, all declared outside `bgp_debug.c`; they
are parameters of the embedding. `str2sockunion` is `none` when the C function returns a
negative value, the two peer lookups (on the `struct bgp` in `vty->index`) are `none` when
they return `NULL`, `str2prefix` is `none` when the C function returns 0 and is otherwise
the prefix it stores; `host` is `peer->host` and `VTY_NEWLINE` the line end of the
terminal. -/
structure Collab where
  str2sockunion : String → Option Nat
  peer_lookup_by_conf_if : String → Option Peer
  peer_lookup : Nat → Option Peer
  str2prefix : String → Option Prefix
  host : Peer → String
  VTY_NEWLINE : String

/-- The state the command handlers work on: the file-scope variables of `bgp_debug.c` and
the reference count `peer->lock` of every peer. -/
structure World where
  dbg : DebugState
  lock : Peer → Nat

/-- What a command handler leaves behind: its return value, the state, and the lines it
wrote with `vty_out`, in order. -/
structure CmdResult where
  ret : cmd_status
  world : World
  out : List String

/-- The function `bgp_find_peer` (lines 173-188). -/
def bgp_find_peer (E : Collab) (peer_str : String) : Option Peer :=
  match E.str2sockunion peer_str with
  | none => E.peer_lookup_by_conf_if peer_str
  | some su => E.peer_lookup su

/-- Modelled from the spec: `peer_lock` of `bgpd/bgpd.c`, which is not among the sources:
"acquires a reference to the neighbor", one more on its reference count. -/
def peer_lock (lock : Peer → Nat) (peer : Peer) : Peer → Nat :=
  fun q => if q = peer then lock q + 1 else lock q

/-- Modelled from the spec: `peer_unlock` of `bgpd/bgpd.c`, which is not among the sources:
"release" of a reference to the neighbor, one less on its reference count. -/
def peer_unlock (lock : Peer → Nat) (peer : Peer) : Peer → Nat :=
  fun q => if q = peer then lock q - 1 else lock q

/-! ## The scope masks -/

/-- The first argument of the macros `DEBUG_ON`, `TERM_DEBUG_ON`, ...: the name that is
pasted onto `conf_bgp_debug_` and `term_bgp_debug_`. -/
inductive DebugVar where
  | as4
  | neighbor_events
  | keepalive
  | update
  | zebra
  | nht
deriving DecidableEq, Repr

/-- The mask `m` with the bits of `b` cleared: `m & ~b` on an `unsigned long`. -/
def clearBits (m b : Nat) : Nat :=
  m ^^^ (m &&& b)

/-- Apply `f` to the config-scope mask `conf_bgp_debug_a`. -/
def DebugState.modifyConf (a : DebugVar) (f : Nat → Nat) (s : DebugState) : DebugState :=
  match a with
  | .as4 => { s with conf_bgp_debug_as4 := f s.conf_bgp_debug_as4 }
  | .neighbor_events =>
    { s with conf_bgp_debug_neighbor_events := f s.conf_bgp_debug_neighbor_events }
  | .keepalive => { s with conf_bgp_debug_keepalive := f s.conf_bgp_debug_keepalive }
  | .update => { s with conf_bgp_debug_update := f s.conf_bgp_debug_update }
  | .zebra => { s with conf_bgp_debug_zebra := f s.conf_bgp_debug_zebra }
  | .nht => { s with conf_bgp_debug_nht := f s.conf_bgp_debug_nht }

/-- Apply `f` to the session-scope mask `term_bgp_debug_a`. -/
def DebugState.modifyTerm (a : DebugVar) (f : Nat → Nat) (s : DebugState) : DebugState :=
  match a with
  | .as4 => { s with term_bgp_debug_as4 := f s.term_bgp_debug_as4 }
  | .neighbor_events =>
    { s with term_bgp_debug_neighbor_events := f s.term_bgp_debug_neighbor_events }
  | .keepalive => { s with term_bgp_debug_keepalive := f s.term_bgp_debug_keepalive }
  | .update => { s with term_bgp_debug_update := f s.term_bgp_debug_update }
  | .zebra => { s with term_bgp_debug_zebra := f s.term_bgp_debug_zebra }
  | .nht => { s with term_bgp_debug_nht := f s.term_bgp_debug_nht }

/-- Modelled from the spec: the macro `TERM_DEBUG_ON (a, b)` of `bgpd/bgp_debug.h`, which
is not among the sources: the spec's `enableSession`, which "mutates `sessionScope`": it
sets bit `b` in `term_bgp_debug_a`. -/
def TERM_DEBUG_ON (a : DebugVar) (b : Nat) (s : DebugState) : DebugState :=
  s.modifyTerm a (fun m => m ||| b)

/-- Modelled from the spec: the macro `TERM_DEBUG_OFF (a, b)` of `bgpd/bgp_debug.h`, which
is not among the sources: the spec's `disableSession`, which "mutates `sessionScope`": it
clears bit `b` in `term_bgp_debug_a`. -/
def TERM_DEBUG_OFF (a : DebugVar) (b : Nat) (s : DebugState) : DebugState :=
  s.modifyTerm a (fun m => clearBits m b)

/-- Modelled from the spec: the macro `DEBUG_ON (a, b)` of `bgpd/bgp_debug.h`, which is
not among the sources, the macro the handlers use in declarative (config) context: the
spec's `enableConfig`. It sets bit `b` in `conf_bgp_debug_a` and in `term_bgp_debug_a`:
the gating predicates of `bgp_debug.c` read the session-scope masks only, and the lines
that `bgp_config_write_debug` writes are run again through this macro, so a `debug` line
of the configuration switches the category on. -/
def DEBUG_ON (a : DebugVar) (b : Nat) (s : DebugState) : DebugState :=
  (s.modifyConf a (fun m => m ||| b)).modifyTerm a (fun m => m ||| b)

/-- Modelled from the spec: the macro `DEBUG_OFF (a, b)` of `bgpd/bgp_debug.h`, which is
not among the sources, the macro the handlers use in declarative (config) context: the
spec's `disableConfig`. It clears bit `b` in `conf_bgp_debug_a` and in
`term_bgp_debug_a`, the counterpart of `DEBUG_ON`. -/
def DEBUG_OFF (a : DebugVar) (b : Nat) (s : DebugState) : DebugState :=
  (s.modifyConf a (fun m => clearBits m b)).modifyTerm a (fun m => clearBits m b)

/-! ## Filter list operations (lines 190-314) -/

/-- The statement `if (!list) list = list_new ();` of the handlers: the list after it. -/
def list_new_if_null (list : FilterList) : List bgp_debug_filter :=
  match list with
  | none => []
  | some l => l

/-- The loop of `bgp_debug_list_free` (lines 197-208) on the entries of a list: every
entry is deleted, and the peer of an entry that has one is unlocked. The result is the
reference counts after the loop. -/
def bgp_debug_list_free_loop (lock : Peer → Nat) : List bgp_debug_filter → (Peer → Nat)
  | [] => lock
  | filter :: rest =>
    match filter.peer with
    | some peer => bgp_debug_list_free_loop (peer_unlock lock peer) rest
    | none => bgp_debug_list_free_loop lock rest

/-- The function `bgp_debug_list_free` (lines 190-209): a `NULL` list is left alone, any
other list ends up empty. -/
def bgp_debug_list_free (list : FilterList) (lock : Peer → Nat) :
    FilterList × (Peer → Nat) :=
  match list with
  | none => (none, lock)
  | some l => (some [], bgp_debug_list_free_loop lock l)

/-- The function `bgp_debug_list_add_entry` (lines 240-260) on a non-`NULL` list:
`listnode_add` puts the new entry at the tail. -/
def bgp_debug_list_add_entry (list : List bgp_debug_filter) (peer : Option Peer)
    (p : Option Prefix) (lock : Peer → Nat) : List bgp_debug_filter × (Peer → Nat) :=
  match peer with
  | some pr => (list ++ [⟨some pr, none⟩], peer_lock lock pr)
  | none =>
    match p with
    | some q => (list ++ [⟨none, some q⟩], lock)
    | none => (list ++ [⟨none, none⟩], lock)

/-- The function `bgp_debug_list_remove_entry` (lines 262-287) on a non-`NULL` list: the
value returned, the list and the reference counts. Reading `filter->p->prefixlen` of an
entry whose `p` is `NULL` is undefined: `none`. -/
def bgp_debug_list_remove_entry (peer : Option Peer) (p : Option Prefix)
    (lock : Peer → Nat) :
    List bgp_debug_filter → Option (Nat × List bgp_debug_filter × (Peer → Nat))
  | [] => some (0, [], lock)
  | filter :: rest =>
    match peer, decide (filter.peer = peer) with
    | some pr, true => some (1, rest, peer_unlock lock pr)
    | _, _ =>
      match p with
      | none =>
        (bgp_debug_list_remove_entry peer p lock rest).map
          (fun r => (r.1, filter :: r.2.1, r.2.2))
      | some q =>
        match filter.p with
        | none => none
        | some fp =>
          if fp.prefixlen = q.prefixlen ∧ prefix_match fp q = true then some (1, rest, lock)
          else
            (bgp_debug_list_remove_entry peer p lock rest).map
              (fun r => (r.1, filter :: r.2.1, r.2.2))

/-- The function `bgp_debug_list_has_entry` (lines 289-314) on a non-`NULL` list. Reading
`filter->p->prefixlen` of an entry whose `p` is `NULL` is undefined: `none`. -/
def bgp_debug_list_has_entry (peer : Option Peer) (p : Option Prefix) :
    List bgp_debug_filter → Option Bool
  | [] => some false
  | filter :: rest =>
    match peer with
    | some pr =>
      if filter.peer = some pr then some true
      else bgp_debug_list_has_entry peer p rest
    | none =>
      match p with
      | none => bgp_debug_list_has_entry peer p rest
      | some q =>
        match filter.p with
        | none => none
        | some fp =>
          if fp.prefixlen = q.prefixlen ∧ prefix_match fp q = true then some true
          else bgp_debug_list_has_entry peer p rest

/-! ## Command handlers without a neighbor or prefix argument -/

/-- The handler of `debug bgp as4` (lines 451-466). -/
def debug_bgp_as4 (E : Collab) (K : DebugConsts) (node : node_type) (w : World) : CmdResult :=
  if node = node_type.CONFIG_NODE then
    ⟨.CMD_SUCCESS, { w with dbg := DEBUG_ON .as4 K.BGP_DEBUG_AS4 w.dbg }, []⟩
  else
    ⟨.CMD_SUCCESS, { w with dbg := TERM_DEBUG_ON .as4 K.BGP_DEBUG_AS4 w.dbg },
      ["BGP as4 debugging is on" ++ E.VTY_NEWLINE]⟩

/-- The handler of `no debug bgp as4` (lines 468-484). -/
def no_debug_bgp_as4 (E : Collab) (K : DebugConsts) (node : node_type) (w : World) :
    CmdResult :=
  if node = node_type.CONFIG_NODE then
    ⟨.CMD_SUCCESS, { w with dbg := DEBUG_OFF .as4 K.BGP_DEBUG_AS4 w.dbg }, []⟩
  else
    ⟨.CMD_SUCCESS, { w with dbg := TERM_DEBUG_OFF .as4 K.BGP_DEBUG_AS4 w.dbg },
      ["BGP as4 debugging is off" ++ E.VTY_NEWLINE]⟩

/-- The handler of `debug bgp as4 segment` (lines 486-502). -/
def debug_bgp_as4_segment (E : Collab) (K : DebugConsts) (node : node_type) (w : World) :
    CmdResult :=
  if node = node_type.CONFIG_NODE then
    ⟨.CMD_SUCCESS, { w with dbg := DEBUG_ON .as4 K.BGP_DEBUG_AS4_SEGMENT w.dbg }, []⟩
  else
    ⟨.CMD_SUCCESS, { w with dbg := TERM_DEBUG_ON .as4 K.BGP_DEBUG_AS4_SEGMENT w.dbg },
      ["BGP as4 segment debugging is on" ++ E.VTY_NEWLINE]⟩

/-- The handler of `no debug bgp as4 segment` (lines 504-521). -/
def no_debug_bgp_as4_segment (E : Collab) (K : DebugConsts) (node : node_type) (w : World) :
    CmdResult :=
  if node = node_type.CONFIG_NODE then
    ⟨.CMD_SUCCESS, { w with dbg := DEBUG_OFF .as4 K.BGP_DEBUG_AS4_SEGMENT w.dbg }, []⟩
  else
    ⟨.CMD_SUCCESS, { w with dbg := TERM_DEBUG_OFF .as4 K.BGP_DEBUG_AS4_SEGMENT w.dbg },
      ["BGP as4 segment debugging is off" ++ E.VTY_NEWLINE]⟩

/-- The handler of `debug bgp neighbor-events` (lines 524-539). -/
def debug_bgp_neighbor_events (E : Collab) (K : DebugConsts) (node : node_type) (w : World) :
    CmdResult :=
  if node = node_type.CONFIG_NODE then
    ⟨.CMD_SUCCESS,
      { w with dbg := DEBUG_ON .neighbor_events K.BGP_DEBUG_NEIGHBOR_EVENTS w.dbg }, []⟩
  else
    ⟨.CMD_SUCCESS,
      { w with dbg := TERM_DEBUG_ON .neighbor_events K.BGP_DEBUG_NEIGHBOR_EVENTS w.dbg },
      ["BGP neighbor-events debugging is on" ++ E.VTY_NEWLINE]⟩

/-- The handler of `no debug bgp neighbor-events` (lines 581-599). -/
def no_debug_bgp_neighbor_events (E : Collab) (K : DebugConsts) (node : node_type)
    (w : World) : CmdResult :=
  let r := bgp_debug_list_free w.dbg.bgp_debug_neighbor_events_peers w.lock
  let s1 := { w.dbg with bgp_debug_neighbor_events_peers := r.1 }
  if node = node_type.CONFIG_NODE then
    ⟨.CMD_SUCCESS, ⟨DEBUG_OFF .neighbor_events K.BGP_DEBUG_NEIGHBOR_EVENTS s1, r.2⟩, []⟩
  else
    ⟨.CMD_SUCCESS, ⟨TERM_DEBUG_OFF .neighbor_events K.BGP_DEBUG_NEIGHBOR_EVENTS s1, r.2⟩,
      ["BGP neighbor-events debugging is off" ++ E.VTY_NEWLINE]⟩

/-- The handler of `debug bgp nht` (lines 644-659). -/
def debug_bgp_nht (E : Collab) (K : DebugConsts) (node : node_type) (w : World) : CmdResult :=
  if node = node_type.CONFIG_NODE then
    ⟨.CMD_SUCCESS, { w with dbg := DEBUG_ON .nht K.BGP_DEBUG_NHT w.dbg }, []⟩
  else
    ⟨.CMD_SUCCESS, { w with dbg := TERM_DEBUG_ON .nht K.BGP_DEBUG_NHT w.dbg },
      ["BGP nexthop tracking debugging is on" ++ E.VTY_NEWLINE]⟩

/-- The handler of `no debug bgp nht` (lines 661-677). -/
def no_debug_bgp_nht (E : Collab) (K : DebugConsts) (node : node_type) (w : World) :
    CmdResult :=
  if node = node_type.CONFIG_NODE then
    ⟨.CMD_SUCCESS, { w with dbg := DEBUG_OFF .nht K.BGP_DEBUG_NHT w.dbg }, []⟩
  else
    ⟨.CMD_SUCCESS, { w with dbg := TERM_DEBUG_OFF .nht K.BGP_DEBUG_NHT w.dbg },
      ["BGP nexthop tracking debugging is off" ++ E.VTY_NEWLINE]⟩

/-- The handler of `debug bgp keepalives` (lines 680-695). -/
def debug_bgp_keepalive (E : Collab) (K : DebugConsts) (node : node_type) (w : World) :
    CmdResult :=
  if node = node_type.CONFIG_NODE then
    ⟨.CMD_SUCCESS, { w with dbg := DEBUG_ON .keepalive K.BGP_DEBUG_KEEPALIVE w.dbg }, []⟩
  else
    ⟨.CMD_SUCCESS, { w with dbg := TERM_DEBUG_ON .keepalive K.BGP_DEBUG_KEEPALIVE w.dbg },
      ["BGP keepalives debugging is on" ++ E.VTY_NEWLINE]⟩

/-- The handler of `no debug bgp keepalives` (lines 737-755). -/
def no_debug_bgp_keepalive (E : Collab) (K : DebugConsts) (node : node_type) (w : World) :
    CmdResult :=
  let r := bgp_debug_list_free w.dbg.bgp_debug_keepalive_peers w.lock
  let s1 := { w.dbg with bgp_debug_keepalive_peers := r.1 }
  if node = node_type.CONFIG_NODE then
    ⟨.CMD_SUCCESS, ⟨DEBUG_OFF .keepalive K.BGP_DEBUG_KEEPALIVE s1, r.2⟩, []⟩
  else
    ⟨.CMD_SUCCESS, ⟨TERM_DEBUG_OFF .keepalive K.BGP_DEBUG_KEEPALIVE s1, r.2⟩,
      ["BGP keepalives debugging is off" ++ E.VTY_NEWLINE]⟩

/-- The handler of `debug bgp updates` (lines 800-819). -/
def debug_bgp_update (E : Collab) (K : DebugConsts) (node : node_type) (w : World) :
    CmdResult :=
  if node = node_type.CONFIG_NODE then
    ⟨.CMD_SUCCESS,
      { w with dbg := (DEBUG_ON .update K.BGP_DEBUG_UPDATE_OUT
          (DEBUG_ON .update K.BGP_DEBUG_UPDATE_IN w.dbg)) }, []⟩
  else
    ⟨.CMD_SUCCESS,
      { w with dbg := (TERM_DEBUG_ON .update K.BGP_DEBUG_UPDATE_OUT
          (TERM_DEBUG_ON .update K.BGP_DEBUG_UPDATE_IN w.dbg)) },
      ["BGP updates debugging is on" ++ E.VTY_NEWLINE]⟩

/-- The test `strncmp ("i", argv[0], 1) == 0` of the update handlers: the first character
of the argument is `i`. -/
def strncmp_i (arg : String) : Bool :=
  arg.toList.head? == some 'i'

/-- The handler of `debug bgp updates (in|out)` (lines 821-859). -/
def debug_bgp_update_direct (E : Collab) (K : DebugConsts) (node : node_type)
    (argv0 : String) (w : World) : CmdResult :=
  if node = node_type.CONFIG_NODE then
    if strncmp_i argv0 = true then
      ⟨.CMD_SUCCESS,
        { w with dbg := (DEBUG_ON .update K.BGP_DEBUG_UPDATE_IN
            (DEBUG_OFF .update K.BGP_DEBUG_UPDATE_OUT w.dbg)) }, []⟩
    else
      ⟨.CMD_SUCCESS,
        { w with dbg := (DEBUG_ON .update K.BGP_DEBUG_UPDATE_OUT
            (DEBUG_OFF .update K.BGP_DEBUG_UPDATE_IN w.dbg)) }, []⟩
  else
    if strncmp_i argv0 = true then
      ⟨.CMD_SUCCESS,
        { w with dbg := (TERM_DEBUG_ON .update K.BGP_DEBUG_UPDATE_IN
            (TERM_DEBUG_OFF .update K.BGP_DEBUG_UPDATE_OUT w.dbg)) },
        ["BGP updates debugging is on (inbound)" ++ E.VTY_NEWLINE]⟩
    else
      ⟨.CMD_SUCCESS,
        { w with dbg := (TERM_DEBUG_ON .update K.BGP_DEBUG_UPDATE_OUT
            (TERM_DEBUG_OFF .update K.BGP_DEBUG_UPDATE_IN w.dbg)) },
        ["BGP updates debugging is on (outbound)" ++ E.VTY_NEWLINE]⟩

/-- The handler of `no debug bgp updates` (lines 1125-1151). -/
def no_debug_bgp_update (E : Collab) (K : DebugConsts) (node : node_type) (w : World) :
    CmdResult :=
  let r1 := bgp_debug_list_free w.dbg.bgp_debug_update_in_peers w.lock
  let r2 := bgp_debug_list_free w.dbg.bgp_debug_update_out_peers r1.2
  let r3 := bgp_debug_list_free w.dbg.bgp_debug_update_prefixes r2.2
  let s1 := { w.dbg with
    bgp_debug_update_in_peers := r1.1
    bgp_debug_update_out_peers := r2.1
    bgp_debug_update_prefixes := r3.1 }
  if node = node_type.CONFIG_NODE then
    ⟨.CMD_SUCCESS,
      ⟨DEBUG_OFF .update K.BGP_DEBUG_UPDATE_PREFIX
        (DEBUG_OFF .update K.BGP_DEBUG_UPDATE_OUT
          (DEBUG_OFF .update K.BGP_DEBUG_UPDATE_IN s1)), r3.2⟩, []⟩
  else
    ⟨.CMD_SUCCESS,
      ⟨TERM_DEBUG_OFF .update K.BGP_DEBUG_UPDATE_PREFIX
        (TERM_DEBUG_OFF .update K.BGP_DEBUG_UPDATE_OUT
          (TERM_DEBUG_OFF .update K.BGP_DEBUG_UPDATE_IN s1)), r3.2⟩,
      ["BGP updates debugging is off" ++ E.VTY_NEWLINE]⟩

/-- The handler of `debug bgp zebra` (lines 1154-1169). -/
def debug_bgp_zebra (E : Collab) (K : DebugConsts) (node : node_type) (w : World) :
    CmdResult :=
  if node = node_type.CONFIG_NODE then
    ⟨.CMD_SUCCESS, { w with dbg := DEBUG_ON .zebra K.BGP_DEBUG_ZEBRA w.dbg }, []⟩
  else
    ⟨.CMD_SUCCESS, { w with dbg := TERM_DEBUG_ON .zebra K.BGP_DEBUG_ZEBRA w.dbg },
      ["BGP zebra debugging is on" ++ E.VTY_NEWLINE]⟩

/-- The handler of `no debug bgp zebra` (lines 1216-1234). -/
def no_debug_bgp_zebra (E : Collab) (K : DebugConsts) (node : node_type) (w : World) :
    CmdResult :=
  let r := bgp_debug_list_free w.dbg.bgp_debug_zebra_prefixes w.lock
  let s1 := { w.dbg with bgp_debug_zebra_prefixes := r.1 }
  if node = node_type.CONFIG_NODE then
    ⟨.CMD_SUCCESS, ⟨DEBUG_OFF .zebra K.BGP_DEBUG_ZEBRA s1, r.2⟩, []⟩
  else
    ⟨.CMD_SUCCESS, ⟨TERM_DEBUG_OFF .zebra K.BGP_DEBUG_ZEBRA s1, r.2⟩,
      ["BGP zebra debugging is off" ++ E.VTY_NEWLINE]⟩

/-- The handler of the bare `no debug bgp` (lines 1285-1310), installed at `ENABLE_NODE`
only. -/
def no_debug_bgp (E : Collab) (K : DebugConsts) (w : World) : CmdResult :=
  let r1 := bgp_debug_list_free w.dbg.bgp_debug_neighbor_events_peers w.lock
  let r2 := bgp_debug_list_free w.dbg.bgp_debug_keepalive_peers r1.2
  let r3 := bgp_debug_list_free w.dbg.bgp_debug_update_in_peers r2.2
  let r4 := bgp_debug_list_free w.dbg.bgp_debug_update_out_peers r3.2
  let r5 := bgp_debug_list_free w.dbg.bgp_debug_update_prefixes r4.2
  let r6 := bgp_debug_list_free w.dbg.bgp_debug_zebra_prefixes r5.2
  let s1 := { w.dbg with
    bgp_debug_neighbor_events_peers := r1.1
    bgp_debug_keepalive_peers := r2.1
    bgp_debug_update_in_peers := r3.1
    bgp_debug_update_out_peers := r4.1
    bgp_debug_update_prefixes := r5.1
    bgp_debug_zebra_prefixes := r6.1 }
  ⟨.CMD_SUCCESS,
    ⟨TERM_DEBUG_OFF .zebra K.BGP_DEBUG_ZEBRA
      (TERM_DEBUG_OFF .neighbor_events K.BGP_DEBUG_NEIGHBOR_EVENTS
        (TERM_DEBUG_OFF .as4 K.BGP_DEBUG_AS4_SEGMENT
          (TERM_DEBUG_OFF .as4 K.BGP_DEBUG_AS4
            (TERM_DEBUG_OFF .update K.BGP_DEBUG_UPDATE_PREFIX
              (TERM_DEBUG_OFF .update K.BGP_DEBUG_UPDATE_OUT
                (TERM_DEBUG_OFF .update K.BGP_DEBUG_UPDATE_IN
                  (TERM_DEBUG_OFF .keepalive K.BGP_DEBUG_KEEPALIVE s1))))))), r6.2⟩,
    ["All possible debugging has been turned off" ++ E.VTY_NEWLINE]⟩

/-! ## Command handlers with a neighbor argument -/

/-- The handler of `debug bgp neighbor-events (A.B.C.D|X:X::X:X|WORD)` (lines 541-579). -/
def debug_bgp_neighbor_events_peer (E : Collab) (K : DebugConsts) (node : node_type)
    (argv0 : String) (w : World) : Option CmdResult :=
  match bgp_find_peer E argv0 with
  | none => some ⟨.CMD_WARNING, w, [argv0 ++ " is not a configured peer" ++ E.VTY_NEWLINE]⟩
  | some peer =>
    let l := list_new_if_null w.dbg.bgp_debug_neighbor_events_peers
    match bgp_debug_list_has_entry (some peer) none l with
    | none => none
    | some true =>
      some ⟨.CMD_SUCCESS,
        { w with dbg := { w.dbg with bgp_debug_neighbor_events_peers := some l } },
        ["BGP neighbor-events debugging is already enabled for " ++ E.host peer ++
          E.VTY_NEWLINE]⟩
    | some false =>
      let r := bgp_debug_list_add_entry l (some peer) none w.lock
      let s1 := { w.dbg with bgp_debug_neighbor_events_peers := some r.1 }
      if node = node_type.CONFIG_NODE then
        some ⟨.CMD_SUCCESS,
          ⟨DEBUG_ON .neighbor_events K.BGP_DEBUG_NEIGHBOR_EVENTS s1, r.2⟩, []⟩
      else
        some ⟨.CMD_SUCCESS,
          ⟨TERM_DEBUG_ON .neighbor_events K.BGP_DEBUG_NEIGHBOR_EVENTS s1, r.2⟩,
          ["BGP neighbor-events debugging is on for " ++ argv0 ++ E.VTY_NEWLINE]⟩

/-- The handler of `no debug bgp neighbor-events (A.B.C.D|X:X::X:X|WORD)` (lines
601-641). -/
def no_debug_bgp_neighbor_events_peer (E : Collab) (K : DebugConsts) (node : node_type)
    (argv0 : String) (w : World) : Option CmdResult :=
  match bgp_find_peer E argv0 with
  | none => some ⟨.CMD_WARNING, w, [argv0 ++ " is not a configured peer" ++ E.VTY_NEWLINE]⟩
  | some peer =>
    let not_enabled : CmdResult := ⟨.CMD_SUCCESS, w,
      ["BGP neighbor-events debugging was not enabled for " ++ argv0 ++ E.VTY_NEWLINE]⟩
    match w.dbg.bgp_debug_neighbor_events_peers with
    | none => some not_enabled
    | some l =>
      if list_isempty l = true then some not_enabled
      else
        match bgp_debug_list_remove_entry (some peer) none w.lock l with
        | none => none
        | some (found_peer, l2, lock2) =>
          let s1 := { w.dbg with bgp_debug_neighbor_events_peers := some l2 }
          let s2 :=
            if list_isempty l2 = true then
              if node = node_type.CONFIG_NODE then
                DEBUG_OFF .neighbor_events K.BGP_DEBUG_NEIGHBOR_EVENTS s1
              else TERM_DEBUG_OFF .neighbor_events K.BGP_DEBUG_NEIGHBOR_EVENTS s1
            else s1
          some ⟨.CMD_SUCCESS, ⟨s2, lock2⟩,
            [if found_peer ≠ 0 then
                "BGP neighbor-events debugging is off for " ++ argv0 ++ E.VTY_NEWLINE
              else
                "BGP neighbor-events debugging was not enabled for " ++ argv0 ++
                  E.VTY_NEWLINE]⟩

/-- The handler of `debug bgp keepalives (A.B.C.D|X:X::X:X|WORD)` (lines 697-735). -/
def debug_bgp_keepalive_peer (E : Collab) (K : DebugConsts) (node : node_type)
    (argv0 : String) (w : World) : Option CmdResult :=
  match bgp_find_peer E argv0 with
  | none => some ⟨.CMD_WARNING, w, [argv0 ++ " is not a configured peer" ++ E.VTY_NEWLINE]⟩
  | some peer =>
    let l := list_new_if_null w.dbg.bgp_debug_keepalive_peers
    match bgp_debug_list_has_entry (some peer) none l with
    | none => none
    | some true =>
      some ⟨.CMD_SUCCESS,
        { w with dbg := { w.dbg with bgp_debug_keepalive_peers := some l } },
        ["BGP keepalive debugging is already enabled for " ++ E.host peer ++
          E.VTY_NEWLINE]⟩
    | some false =>
      let r := bgp_debug_list_add_entry l (some peer) none w.lock
      let s1 := { w.dbg with bgp_debug_keepalive_peers := some r.1 }
      if node = node_type.CONFIG_NODE then
        some ⟨.CMD_SUCCESS, ⟨DEBUG_ON .keepalive K.BGP_DEBUG_KEEPALIVE s1, r.2⟩, []⟩
      else
        some ⟨.CMD_SUCCESS, ⟨TERM_DEBUG_ON .keepalive K.BGP_DEBUG_KEEPALIVE s1, r.2⟩,
          ["BGP keepalives debugging is on for " ++ argv0 ++ E.VTY_NEWLINE]⟩

/-- The handler of `no debug bgp keepalives (A.B.C.D|X:X::X:X|WORD)` (lines 757-797). -/
def no_debug_bgp_keepalive_peer (E : Collab) (K : DebugConsts) (node : node_type)
    (argv0 : String) (w : World) : Option CmdResult :=
  match bgp_find_peer E argv0 with
  | none => some ⟨.CMD_WARNING, w, [argv0 ++ " is not a configured peer" ++ E.VTY_NEWLINE]⟩
  | some peer =>
    let not_enabled : CmdResult := ⟨.CMD_SUCCESS, w,
      ["BGP keepalives debugging was not enabled for " ++ argv0 ++ E.VTY_NEWLINE]⟩
    match w.dbg.bgp_debug_keepalive_peers with
    | none => some not_enabled
    | some l =>
      if list_isempty l = true then some not_enabled
      else
        match bgp_debug_list_remove_entry (some peer) none w.lock l with
        | none => none
        | some (found_peer, l2, lock2) =>
          let s1 := { w.dbg with bgp_debug_keepalive_peers := some l2 }
          let s2 :=
            if list_isempty l2 = true then
              if node = node_type.CONFIG_NODE then
                DEBUG_OFF .keepalive K.BGP_DEBUG_KEEPALIVE s1
              else TERM_DEBUG_OFF .keepalive K.BGP_DEBUG_KEEPALIVE s1
            else s1
          some ⟨.CMD_SUCCESS, ⟨s2, lock2⟩,
            [if found_peer ≠ 0 then
                "BGP keepalives debugging is off for " ++ argv0 ++ E.VTY_NEWLINE
              else
                "BGP keepalives debugging was not enabled for " ++ argv0 ++ E.VTY_NEWLINE]⟩

/-- The handler of `debug bgp updates (in|out) (A.B.C.D|X:X::X:X|WORD)` (lines 861-947). -/
def debug_bgp_update_direct_peer (E : Collab) (K : DebugConsts) (node : node_type)
    (argv0 argv1 : String) (w : World) : Option CmdResult :=
  match bgp_find_peer E argv1 with
  | none => some ⟨.CMD_WARNING, w, [argv1 ++ " is not a configured peer" ++ E.VTY_NEWLINE]⟩
  | some peer =>
    let lin := list_new_if_null w.dbg.bgp_debug_update_in_peers
    let lout := list_new_if_null w.dbg.bgp_debug_update_out_peers
    let s0 := { w.dbg with
      bgp_debug_update_in_peers := some lin
      bgp_debug_update_out_peers := some lout }
    if strncmp_i argv0 = true then
      match bgp_debug_list_has_entry (some peer) none lin with
      | none => none
      | some true =>
        some ⟨.CMD_SUCCESS, ⟨s0, w.lock⟩,
          ["BGP inbound update debugging is already enabled for " ++ E.host peer ++
            E.VTY_NEWLINE]⟩
      | some false =>
        let r := bgp_debug_list_add_entry lin (some peer) none w.lock
        let s1 := { s0 with bgp_debug_update_in_peers := some r.1 }
        if node = node_type.CONFIG_NODE then
          some ⟨.CMD_SUCCESS,
            ⟨DEBUG_ON .update K.BGP_DEBUG_UPDATE_IN
              (DEBUG_OFF .update K.BGP_DEBUG_UPDATE_OUT s1), r.2⟩, []⟩
        else
          some ⟨.CMD_SUCCESS,
            ⟨TERM_DEBUG_ON .update K.BGP_DEBUG_UPDATE_IN
              (TERM_DEBUG_OFF .update K.BGP_DEBUG_UPDATE_OUT s1), r.2⟩,
            ["BGP updates debugging is on (inbound) for " ++ argv1 ++ E.VTY_NEWLINE]⟩
    else
      match bgp_debug_list_has_entry (some peer) none lout with
      | none => none
      | some true =>
        some ⟨.CMD_SUCCESS, ⟨s0, w.lock⟩,
          ["BGP outbound update debugging is already enabled for " ++ E.host peer ++
            E.VTY_NEWLINE]⟩
      | some false =>
        let r := bgp_debug_list_add_entry lout (some peer) none w.lock
        let s1 := { s0 with bgp_debug_update_out_peers := some r.1 }
        if node = node_type.CONFIG_NODE then
          some ⟨.CMD_SUCCESS,
            ⟨DEBUG_ON .update K.BGP_DEBUG_UPDATE_OUT
              (DEBUG_OFF .update K.BGP_DEBUG_UPDATE_IN s1), r.2⟩, []⟩
        else
          some ⟨.CMD_SUCCESS,
            ⟨TERM_DEBUG_ON .update K.BGP_DEBUG_UPDATE_OUT
              (TERM_DEBUG_OFF .update K.BGP_DEBUG_UPDATE_IN s1), r.2⟩,
            ["BGP updates debugging is on (outbound) for " ++ argv1 ++ E.VTY_NEWLINE]⟩

/-- The handler of `no debug bgp updates (in|out) (A.B.C.D|X:X::X:X|WORD)` (lines
949-1024). -/
def no_debug_bgp_update_direct_peer (E : Collab) (K : DebugConsts) (node : node_type)
    (argv0 argv1 : String) (w : World) : Option CmdResult :=
  match bgp_find_peer E argv1 with
  | none => some ⟨.CMD_WARNING, w, [argv1 ++ " is not a configured peer" ++ E.VTY_NEWLINE]⟩
  | some peer =>
    if strncmp_i argv0 = true then
      let not_enabled : CmdResult := ⟨.CMD_SUCCESS, w,
        ["BGP updates debugging (inbound) was not enabled for " ++ argv1 ++ E.VTY_NEWLINE]⟩
      match w.dbg.bgp_debug_update_in_peers with
      | none => some not_enabled
      | some l =>
        if list_isempty l = true then some not_enabled
        else
          match bgp_debug_list_remove_entry (some peer) none w.lock l with
          | none => none
          | some (found_peer, l2, lock2) =>
            let s1 := { w.dbg with bgp_debug_update_in_peers := some l2 }
            let s2 :=
              if list_isempty l2 = true then
                if node = node_type.CONFIG_NODE then
                  DEBUG_OFF .update K.BGP_DEBUG_UPDATE_IN s1
                else TERM_DEBUG_OFF .update K.BGP_DEBUG_UPDATE_IN s1
              else s1
            some ⟨.CMD_SUCCESS, ⟨s2, lock2⟩,
              (if list_isempty l2 = true ∧ node ≠ node_type.CONFIG_NODE then
                  ["BGP updates debugging (inbound) is off" ++ E.VTY_NEWLINE]
                else []) ++
              [if found_peer ≠ 0 then
                  "BGP updates debugging (inbound) is off for " ++ argv1 ++ E.VTY_NEWLINE
                else
                  "BGP updates debugging (inbound) was not enabled for " ++ argv1 ++
                    E.VTY_NEWLINE]⟩
    else
      let not_enabled : CmdResult := ⟨.CMD_SUCCESS, w,
        ["BGP updates debugging (outbound) was not enabled for " ++ argv1 ++ E.VTY_NEWLINE]⟩
      match w.dbg.bgp_debug_update_out_peers with
      | none => some not_enabled
      | some l =>
        if list_isempty l = true then some not_enabled
        else
          match bgp_debug_list_remove_entry (some peer) none w.lock l with
          | none => none
          | some (found_peer, l2, lock2) =>
            let s1 := { w.dbg with bgp_debug_update_out_peers := some l2 }
            let s2 :=
              if list_isempty l2 = true then
                if node = node_type.CONFIG_NODE then
                  DEBUG_OFF .update K.BGP_DEBUG_UPDATE_OUT s1
                else TERM_DEBUG_OFF .update K.BGP_DEBUG_UPDATE_OUT s1
              else s1
            some ⟨.CMD_SUCCESS, ⟨s2, lock2⟩,
              (if list_isempty l2 = true ∧ node ≠ node_type.CONFIG_NODE then
                  ["BGP updates debugging (outbound) is off" ++ E.VTY_NEWLINE]
                else []) ++
              [if found_peer ≠ 0 then
                  "BGP updates debugging (outbound) is off for " ++ argv1 ++ E.VTY_NEWLINE
                else
                  "BGP updates debugging (outbound) was not enabled for " ++ argv1 ++
                    E.VTY_NEWLINE]⟩

/-! ## Command handlers with a prefix argument -/

/-- The handler of `debug bgp updates prefix (A.B.C.D/M|X:X::X:X/M)` (lines 1026-1072). -/
def debug_bgp_update_prefix (E : Collab) (K : DebugConsts) (node : node_type)
    (argv0 : String) (w : World) : Option CmdResult :=
  match E.str2prefix argv0 with
  | none => some ⟨.CMD_WARNING, w, ["% Malformed Prefix" ++ E.VTY_NEWLINE]⟩
  | some argv_p =>
    let l := list_new_if_null w.dbg.bgp_debug_update_prefixes
    match bgp_debug_list_has_entry none (some argv_p) l with
    | none => none
    | some true =>
      some ⟨.CMD_SUCCESS,
        { w with dbg := { w.dbg with bgp_debug_update_prefixes := some l } },
        ["BGP updates debugging is already enabled for " ++ argv0 ++ E.VTY_NEWLINE]⟩
    | some false =>
      let r := bgp_debug_list_add_entry l none (some argv_p) w.lock
      let s1 := { w.dbg with bgp_debug_update_prefixes := some r.1 }
      if node = node_type.CONFIG_NODE then
        some ⟨.CMD_SUCCESS, ⟨DEBUG_ON .update K.BGP_DEBUG_UPDATE_PREFIX s1, r.2⟩, []⟩
      else
        some ⟨.CMD_SUCCESS, ⟨TERM_DEBUG_ON .update K.BGP_DEBUG_UPDATE_PREFIX s1, r.2⟩,
          ["BGP updates debugging is on for " ++ argv0 ++ E.VTY_NEWLINE]⟩

/-- The handler of `no debug bgp updates prefix (A.B.C.D/M|X:X::X:X/M)` (lines
1074-1123). -/
def no_debug_bgp_update_prefix (E : Collab) (K : DebugConsts) (node : node_type)
    (argv0 : String) (w : World) : Option CmdResult :=
  match E.str2prefix argv0 with
  | none => some ⟨.CMD_WARNING, w, ["% Malformed Prefix" ++ E.VTY_NEWLINE]⟩
  | some argv_p =>
    let not_enabled : CmdResult := ⟨.CMD_SUCCESS, w,
      ["BGP updates debugging was not enabled for " ++ argv0 ++ E.VTY_NEWLINE]⟩
    match w.dbg.bgp_debug_update_prefixes with
    | none => some not_enabled
    | some l =>
      if list_isempty l = true then some not_enabled
      else
        match bgp_debug_list_remove_entry none (some argv_p) w.lock l with
        | none => none
        | some ( found_prefix, l2, lock2) =>
          let s1 := { w.dbg with bgp_debug_update_prefixes := some l2 }
          let s2 :=
            if list_isempty l2 = true then
              if node = node_type.CONFIG_NODE then
                DEBUG_OFF .update K.BGP_DEBUG_UPDATE_PREFIX s1
              else TERM_DEBUG_OFF .update K.BGP_DEBUG_UPDATE_PREFIX s1
            else s1
          some ⟨.CMD_SUCCESS, ⟨s2, lock2⟩,
            (if list_isempty l2 = true ∧ node ≠ node_type.CONFIG_NODE then
                ["BGP updates debugging (per prefix) is off" ++ E.VTY_NEWLINE]
              else []) ++
            [if found_prefix ≠ 0 then
                "BGP updates debugging is off for " ++ argv0 ++ E.VTY_NEWLINE
              else
                "BGP updates debugging was not enabled for " ++ argv0 ++ E.VTY_NEWLINE]⟩

/-- The handler of `debug bgp zebra prefix (A.B.C.D/M|X:X::X:X/M)` (lines 1171-1214). -/
def debug_bgp_zebra_prefix (E : Collab) (K : DebugConsts) (node : node_type)
    (argv0 : String) (w : World) : Option CmdResult :=
  match E.str2prefix argv0 with
  | none => some ⟨.CMD_WARNING, w, ["% Malformed Prefix" ++ E.VTY_NEWLINE]⟩
  | some argv_p =>
    let l := list_new_if_null w.dbg.bgp_debug_zebra_prefixes
    match bgp_debug_list_has_entry none (some argv_p) l with
    | none => none
    | some true =>
      some ⟨.CMD_SUCCESS,
        { w with dbg := { w.dbg with bgp_debug_zebra_prefixes := some l } },
        ["BGP zebra debugging is already enabled for " ++ argv0 ++ E.VTY_NEWLINE]⟩
    | some false =>
      let r := bgp_debug_list_add_entry l none (some argv_p) w.lock
      let s1 := { w.dbg with bgp_debug_zebra_prefixes := some r.1 }
      if node = node_type.CONFIG_NODE then
        some ⟨.CMD_SUCCESS, ⟨DEBUG_ON .zebra K.BGP_DEBUG_ZEBRA s1, r.2⟩, []⟩
      else
        some ⟨.CMD_SUCCESS, ⟨TERM_DEBUG_ON .zebra K.BGP_DEBUG_ZEBRA s1, r.2⟩,
          ["BGP zebra debugging is on for " ++ argv0 ++ E.VTY_NEWLINE]⟩

/-- The handler of `no debug bgp zebra prefix (A.B.C.D/M|X:X::X:X/M)` (lines 1236-1283).
The call at line 1263 passes `bgp_debug_neighbor_events_peers`, not
`bgp_debug_zebra_prefixes`, to `bgp_debug_list_remove_entry`. When that list is `NULL` the
loop of `bgp_debug_list_remove_entry` starts at `listhead (NULL)`; `lib/linklist.h` is not
among the sources and the spec does not say what that is, so no result is defined for
that case: `none`. -/
def no_debug_bgp_zebra_prefix (E : Collab) (K : DebugConsts) (node : node_type)
    (argv0 : String) (w : World) : Option CmdResult :=
  match E.str2prefix argv0 with
  | none => some ⟨.CMD_WARNING, w, ["% Malformed Prefix" ++ E.VTY_NEWLINE]⟩
  | some argv_p =>
    let not_enabled : CmdResult := ⟨.CMD_SUCCESS, w,
      ["BGP zebra debugging was not enabled for " ++ argv0 ++ E.VTY_NEWLINE]⟩
    match w.dbg.bgp_debug_zebra_prefixes with
    | none => some not_enabled
    | some l =>
      if list_isempty l = true then some not_enabled
      else
        match w.dbg.bgp_debug_neighbor_events_peers with
        | none => none
        | some ln =>
          match bgp_debug_list_remove_entry none (some argv_p) w.lock ln with
          | none => none
          | some ( found_prefix, ln2, lock2) =>
            let s1 := { w.dbg with bgp_debug_neighbor_events_peers := some ln2 }
            let s2 :=
              if list_isempty l = true then
                if node = node_type.CONFIG_NODE then DEBUG_OFF .zebra K.BGP_DEBUG_ZEBRA s1
                else TERM_DEBUG_OFF .zebra K.BGP_DEBUG_ZEBRA s1
              else s1
            some ⟨.CMD_SUCCESS, ⟨s2, lock2⟩,
              (if list_isempty l = true ∧ node ≠ node_type.CONFIG_NODE then
                  ["BGP zebra debugging is off" ++ E.VTY_NEWLINE]
                else []) ++
              [if found_prefix ≠ 0 then
                  "BGP zebra debugging is off for " ++ argv0 ++ E.VTY_NEWLINE
                else
                  "BGP zebra debugging was not enabled for " ++ argv0 ++ E.VTY_NEWLINE]⟩

/-! ## The command surface as a whole -/

/-- The commands of `bgp_debug.c` that change the state, named after their `DEFUN`
command elements, with the text arguments `argv[0]`, `argv[1]` they receive. -/
inductive Command where
  | debug_bgp_as4_cmd
  | no_debug_bgp_as4_cmd
  | debug_bgp_as4_segment_cmd
  | no_debug_bgp_as4_segment_cmd
  | debug_bgp_neighbor_events_cmd
  | debug_bgp_neighbor_events_peer_cmd (argv0 : String)
  | no_debug_bgp_neighbor_events_cmd
  | no_debug_bgp_neighbor_events_peer_cmd (argv0 : String)
  | debug_bgp_nht_cmd
  | no_debug_bgp_nht_cmd
  | debug_bgp_keepalive_cmd
  | debug_bgp_keepalive_peer_cmd (argv0 : String)
  | no_debug_bgp_keepalive_cmd
  | no_debug_bgp_keepalive_peer_cmd (argv0 : String)
  | debug_bgp_update_cmd
  | debug_bgp_update_direct_cmd (argv0 : String)
  | debug_bgp_update_direct_peer_cmd (argv0 argv1 : String)
  | no_debug_bgp_update_direct_peer_cmd (argv0 argv1 : String)
  | debug_bgp_update_prefix_cmd (argv0 : String)
  | no_debug_bgp_update_prefix_cmd (argv0 : String)
  | no_debug_bgp_update_cmd
  | debug_bgp_zebra_cmd
  | debug_bgp_zebra_prefix_cmd (argv0 : String)
  | no_debug_bgp_zebra_cmd
  | no_debug_bgp_zebra_prefix_cmd (argv0 : String)
  | no_debug_bgp_cmd
deriving DecidableEq, Repr

/-- The nodes at which `bgp_debug_init` installs a command (lines 1424-1496): every command
at `ENABLE_NODE` and `CONFIG_NODE`, `no_debug_bgp_cmd` at `ENABLE_NODE` only. -/
def installed (c : Command) (node : node_type) : Bool :=
  match c with
  | .no_debug_bgp_cmd => decide (node = node_type.ENABLE_NODE)
  | _ => true

/-- Run the handler of a command at a node; `none` when the handler performs an undefined
read. -/
def exec (E : Collab) (K : DebugConsts) (c : Command) (node : node_type) (w : World) :
    Option CmdResult :=
  match c with
  | .debug_bgp_as4_cmd => some (debug_bgp_as4 E K node w)
  | .no_debug_bgp_as4_cmd => some (no_debug_bgp_as4 E K node w)
  | .debug_bgp_as4_segment_cmd => some (debug_bgp_as4_segment E K node w)
  | .no_debug_bgp_as4_segment_cmd => some (no_debug_bgp_as4_segment E K node w)
  | .debug_bgp_neighbor_events_cmd => some (debug_bgp_neighbor_events E K node w)
  | .debug_bgp_neighbor_events_peer_cmd a => debug_bgp_neighbor_events_peer E K node a w
  | .no_debug_bgp_neighbor_events_cmd => some (no_debug_bgp_neighbor_events E K node w)
  | .no_debug_bgp_neighbor_events_peer_cmd a =>
    no_debug_bgp_neighbor_events_peer E K node a w
  | .debug_bgp_nht_cmd => some (debug_bgp_nht E K node w)
  | .no_debug_bgp_nht_cmd => some (no_debug_bgp_nht E K node w)
  | .debug_bgp_keepalive_cmd => some (debug_bgp_keepalive E K node w)
  | .debug_bgp_keepalive_peer_cmd a => debug_bgp_keepalive_peer E K node a w
  | .no_debug_bgp_keepalive_cmd => some (no_debug_bgp_keepalive E K node w)
  | .no_debug_bgp_keepalive_peer_cmd a => no_debug_bgp_keepalive_peer E K node a w
  | .debug_bgp_update_cmd => some (debug_bgp_update E K node w)
  | .debug_bgp_update_direct_cmd a => some (debug_bgp_update_direct E K node a w)
  | .debug_bgp_update_direct_peer_cmd a b => debug_bgp_update_direct_peer E K node a b w
  | .no_debug_bgp_update_direct_peer_cmd a b =>
    no_debug_bgp_update_direct_peer E K node a b w
  | .debug_bgp_update_prefix_cmd a => debug_bgp_update_prefix E K node a w
  | .no_debug_bgp_update_prefix_cmd a => no_debug_bgp_update_prefix E K node a w
  | .no_debug_bgp_update_cmd => some (no_debug_bgp_update E K node w)
  | .debug_bgp_zebra_cmd => some (debug_bgp_zebra E K node w)
  | .debug_bgp_zebra_prefix_cmd a => debug_bgp_zebra_prefix E K node a w
  | .no_debug_bgp_zebra_cmd => some (no_debug_bgp_zebra E K node w)
  | .no_debug_bgp_zebra_prefix_cmd a => no_debug_bgp_zebra_prefix E K node a w
  | .no_debug_bgp_cmd => some (no_debug_bgp E K w)

/-- The states reachable from the state at startup, in which every peer `q` has the
reference count `L0 q`, by commands run at nodes where they are installed; the
collaborators (the configured peers) may differ from command to command. -/
inductive Reachable (K : DebugConsts) (L0 : Peer → Nat) : World → Prop where
  | init : Reachable K L0 ⟨DebugState.init, L0⟩
  | step (E : Collab) (c : Command) (node : node_type) (w : World) (r : CmdResult) :
      Reachable K L0 w → installed c node = true → exec E K c node w = some r →
      Reachable K L0 r.world

/-- The command has a neighbor argument that `bgp_find_peer` does not resolve, or a prefix
argument that `str2prefix` rejects. -/
def argumentRejected (E : Collab) : Command → Prop
  | .debug_bgp_neighbor_events_peer_cmd a => bgp_find_peer E a = none
  | .no_debug_bgp_neighbor_events_peer_cmd a => bgp_find_peer E a = none
  | .debug_bgp_keepalive_peer_cmd a => bgp_find_peer E a = none
  | .no_debug_bgp_keepalive_peer_cmd a => bgp_find_peer E a = none
  | .debug_bgp_update_direct_peer_cmd _ b => bgp_find_peer E b = none
  | .no_debug_bgp_update_direct_peer_cmd _ b => bgp_find_peer E b = none
  | .debug_bgp_update_prefix_cmd a => E.str2prefix a = none
  | .no_debug_bgp_update_prefix_cmd a => E.str2prefix a = none
  | .debug_bgp_zebra_prefix_cmd a => E.str2prefix a = none
  | .no_debug_bgp_zebra_prefix_cmd a => E.str2prefix a = none
  | _ => False

/-- The six filter lists of a state. -/
def DebugState.lists (s : DebugState) : List FilterList :=
  [s.bgp_debug_neighbor_events_peers, s.bgp_debug_keepalive_peers,
    s.bgp_debug_update_in_peers, s.bgp_debug_update_out_peers,
    s.bgp_debug_update_prefixes, s.bgp_debug_zebra_prefixes]

/-- The nine config-scope masks of a state. -/
def DebugState.confMasks (s : DebugState) : List Nat :=
  [s.conf_bgp_debug_as4, s.conf_bgp_debug_neighbor_events, s.conf_bgp_debug_events,
    s.conf_bgp_debug_packet, s.conf_bgp_debug_filter, s.conf_bgp_debug_keepalive,
    s.conf_bgp_debug_update, s.conf_bgp_debug_zebra, s.conf_bgp_debug_nht]

/-- The nine session-scope masks of a state. -/
def DebugState.termMasks (s : DebugState) : List Nat :=
  [s.term_bgp_debug_as4, s.term_bgp_debug_neighbor_events, s.term_bgp_debug_events,
    s.term_bgp_debug_packet, s.term_bgp_debug_filter, s.term_bgp_debug_keepalive,
    s.term_bgp_debug_update, s.term_bgp_debug_zebra, s.term_bgp_debug_nht]

/-- The number of entries of a list (none for a `NULL` list) that reference peer `q`. -/
def peerRefs (q : Peer) (list : FilterList) : Nat :=
  (list_new_if_null list).countP (fun f => decide (f.peer = some q))

/-- The number of entries that reference peer `q`, over the six filter lists. -/
def DebugState.allRefs (s : DebugState) (q : Peer) : Nat :=
  (s.lists.map (peerRefs q)).sum

/-- The entry does not hold both a peer and a prefix. -/
def NotBoth (f : bgp_debug_filter) : Prop :=
  f.peer = none ∨ f.p = none

/-- The invariant behind the reference counts: no entry of a filter list holds both a peer
and a prefix, and the reference count of every peer is its count `L0` at startup plus the
number of filter entries that reference it. -/
def RefInv (L0 : Peer → Nat) (w : World) : Prop :=
  (∀ list ∈ w.dbg.lists, ∀ l, list = some l → ∀ f ∈ l, NotBoth f) ∧
  ∀ q, w.lock q = L0 q + w.dbg.allRefs q

/-- The filter list has no entries: it is `NULL` or empty. -/
def NoEntries (list : FilterList) : Prop :=
  list = none ∨ list = some []

/-- Sample collaborators: the interface name `swp1` is that of peer 7, no other neighbor
token resolves; the prefix texts `10.0.0.0/8` and `11.0.0.0/8` are read as such, every
other prefix text is malformed. -/
def sampleEnv : Collab :=
  { str2sockunion := fun _ => none
    peer_lookup_by_conf_if := fun s => if s = "swp1" then some 7 else none
    peer_lookup := fun _ => none
    str2prefix := fun s =>
      if s = "10.0.0.0/8" then some ⟨2, 8, [10, 0, 0, 0]⟩
      else if s = "11.0.0.0/8" then some ⟨2, 8, [11, 0, 0, 0]⟩ else none
    host := fun _ => "swp1"
    VTY_NEWLINE := "\n" }

/-- Sample collaborators that resolve no neighbor token and accept no prefix text. -/
def rejectingEnv : Collab :=
  { str2sockunion := fun _ => none
    peer_lookup_by_conf_if := fun _ => none
    peer_lookup := fun _ => none
    str2prefix := fun _ => none
    host := fun _ => ""
    VTY_NEWLINE := "\n" }

/-- The startup state in which every peer has reference count 1. -/
def world0 : World :=
  ⟨DebugState.init, fun _ => 1⟩

/-- Run a sequence of commands, each at its node, from a state. -/
def execAll (E : Collab) (K : DebugConsts) :
    List (Command × node_type) → World → Option World
  | [], w => some w
  | (c, node) :: cs, w =>
    match exec E K c node w with
    | none => none
    | some r => execAll E K cs r.world

/-- The config-scope mask `conf_bgp_debug_a`. -/
def DebugState.conf (s : DebugState) (a : DebugVar) : Nat :=
  match a with
  | .as4 => s.conf_bgp_debug_as4
  | .neighbor_events => s.conf_bgp_debug_neighbor_events
  | .keepalive => s.conf_bgp_debug_keepalive
  | .update => s.conf_bgp_debug_update
  | .zebra => s.conf_bgp_debug_zebra
  | .nht => s.conf_bgp_debug_nht

/-- The session-scope mask `term_bgp_debug_a`. -/
def DebugState.term (s : DebugState) (a : DebugVar) : Nat :=
  match a with
  | .as4 => s.term_bgp_debug_as4
  | .neighbor_events => s.term_bgp_debug_neighbor_events
  | .keepalive => s.term_bgp_debug_keepalive
  | .update => s.term_bgp_debug_update
  | .zebra => s.term_bgp_debug_zebra
  | .nht => s.term_bgp_debug_nht

/-- The mask of category `a` that tells a handler run at `node` apart: the config-scope
mask at `CONFIG_NODE`, where the handlers use `DEBUG_ON` and `DEBUG_OFF` (which write the
session-scope mask as well), the session-scope mask otherwise (`TERM_DEBUG_ON`,
`TERM_DEBUG_OFF`). -/
def DebugState.written (s : DebugState) (node : node_type) (a : DebugVar) : Nat :=
  if node = node_type.CONFIG_NODE then s.conf a else s.term a

/-- No entry of the list (none for a `NULL` list) holds both a peer and a prefix. -/
def EntriesNotBoth (list : FilterList) : Prop :=
  ∀ l, list = some l → ∀ f ∈ l, NotBoth f

/-- The state after the bare `debug bgp neighbor-events` at the enable node, from the
startup state `world0`: the session-scope neighbor-events bit is set, the list is absent. -/
def sampleWorld5 : World :=
  (execAll sampleEnv sampleDebugConsts
    [(Command.debug_bgp_neighbor_events_cmd, node_type.ENABLE_NODE)] world0).getD world0

/-- The state after `debug bgp neighbor-events swp1` and `debug bgp keepalive swp1` at the
enable node, from the startup state `world0`. -/
def sampleWorld1 : World :=
  (execAll sampleEnv sampleDebugConsts
    [(Command.debug_bgp_neighbor_events_peer_cmd "swp1", node_type.ENABLE_NODE),
     (Command.debug_bgp_keepalive_peer_cmd "swp1", node_type.ENABLE_NODE)] world0).getD world0

/-- No peer has more than one entry in any of the four neighbor filter lists. -/
def AtMostOnce (s : DebugState) : Prop :=
  ∀ q, peerRefs q s.bgp_debug_neighbor_events_peers ≤ 1 ∧
    peerRefs q s.bgp_debug_keepalive_peers ≤ 1 ∧
    peerRefs q s.bgp_debug_update_in_peers ≤ 1 ∧
    peerRefs q s.bgp_debug_update_out_peers ≤ 1

/-- The list `l2` is `l` without its first entry for peer `q`; the other entries are
there, in the same order. -/
def RemovedFirstPeer (q : Peer) (l l2 : List bgp_debug_filter) : Prop :=
  ∃ l1 f l3, l = l1 ++ f :: l3 ∧ f.peer = some q ∧ (∀ g ∈ l1, g.peer ≠ some q) ∧
    l2 = l1 ++ l3

/-- The list `l2` is `l` without its first entry that matches the prefix `x`; the other
entries are there, in the same order. -/
def RemovedFirstPrefix (x : Prefix) (l l2 : List bgp_debug_filter) : Prop :=
  ∃ l1 f l3, l = l1 ++ f :: l3 ∧ EntryMatches f x ∧ (∀ g ∈ l1, ¬ EntryMatches g x) ∧
    l2 = l1 ++ l3

/-- The entry holds exactly one of a neighbor and a prefix. -/
def ExactlyOne (f : bgp_debug_filter) : Prop :=
  (f.peer ≠ none ∧ f.p = none) ∨ (f.peer = none ∧ f.p ≠ none)

/-- The two prefixes have the same length and the same leading bits over that length. -/
def SamePrefix (a b : Prefix) : Prop :=
  a.prefixlen = b.prefixlen ∧ LeadingBitsEq a.prefixlen a b

/-- A neighbor filter list (none for a `NULL` list): every entry holds a neighbor and no
prefix. -/
def PeerListOK (list : FilterList) : Prop :=
  ∀ f ∈ list_new_if_null list, f.peer ≠ none ∧ f.p = none

/-- A prefix filter list (none for a `NULL` list): every entry holds a prefix and no
neighbor, and no two entries hold prefixes of the same length and leading bits. -/
def PrefixListOK (list : FilterList) : Prop :=
  (∀ f ∈ list_new_if_null list, f.peer = none ∧ f.p ≠ none) ∧
  (list_new_if_null list).Pairwise
    (fun f g => ∀ a b, f.p = some a → g.p = some b → ¬ SamePrefix a b)

/-- The invariant of the six filter lists: the four neighbor lists hold neighbor entries,
the two prefix lists hold prefix entries without duplicates. -/
def ListsInv (s : DebugState) : Prop :=
  PeerListOK s.bgp_debug_neighbor_events_peers ∧
  PeerListOK s.bgp_debug_keepalive_peers ∧
  PeerListOK s.bgp_debug_update_in_peers ∧
  PeerListOK s.bgp_debug_update_out_peers ∧
  PrefixListOK s.bgp_debug_update_prefixes ∧
  PrefixListOK s.bgp_debug_zebra_prefixes

/-- The command is one of the five removals with a neighbor or prefix argument,
`no debug bgp ... (A.B.C.D|X:X::X:X|WORD)` or `no debug bgp ... prefix ...`. -/
def keyedRemoval : Command → Bool
  | .no_debug_bgp_neighbor_events_peer_cmd _ => true
  | .no_debug_bgp_keepalive_peer_cmd _ => true
  | .no_debug_bgp_update_direct_peer_cmd _ _ => true
  | .no_debug_bgp_update_prefix_cmd _ => true
  | .no_debug_bgp_zebra_prefix_cmd _ => true
  | _ => false

/-- The two states hold the same registry: the same masks in both scopes, the same entries
in each filter list (an absent list and an empty list both hold none) and the same
reference counts. -/
def SameRegistry (s t : World) : Prop :=
  s.dbg.confMasks = t.dbg.confMasks ∧ s.dbg.termMasks = t.dbg.termMasks ∧
  s.dbg.lists.map list_new_if_null = t.dbg.lists.map list_new_if_null ∧
  s.lock = t.lock

/-- Modelled from the spec: the macro `CONF_BGP_DEBUG (a, b)` of `bgpd/bgp_debug.h`, which
is not among the sources: the test of the "current config-scope state" of category `a`
against the bit `BGP_DEBUG_b`, the counterpart of `BGP_DEBUG` on the config-scope mask. -/
def CONF_BGP_DEBUG (conf_bgp_debug_a BGP_DEBUG_b : Nat) : Bool :=
  conf_bgp_debug_a &&& BGP_DEBUG_b != 0

/-- The lines that `bgp_config_write_debug` (lines 1358-1416) writes, in order and without
the `VTY_NEWLINE` that ends each, every line paired with the command element whose syntax
(the second string of its `DEFUN`) the line matches; `debug bgp updates in` and
`debug bgp updates out` match `debug bgp updates (in|out)` with `in`, `out` as
`argv[0]`. -/
def bgp_config_write_debug_lines (K : DebugConsts) (s : DebugState) :
    List (String × Command) :=
  (if CONF_BGP_DEBUG s.conf_bgp_debug_as4 K.BGP_DEBUG_AS4 = true then
      [("debug bgp as4", Command.debug_bgp_as4_cmd)] else []) ++
  ((if CONF_BGP_DEBUG s.conf_bgp_debug_as4 K.BGP_DEBUG_AS4_SEGMENT = true then
      [("debug bgp as4 segment", Command.debug_bgp_as4_segment_cmd)] else []) ++
  ((if CONF_BGP_DEBUG s.conf_bgp_debug_keepalive K.BGP_DEBUG_KEEPALIVE = true then
      [("debug bgp keepalives", Command.debug_bgp_keepalive_cmd)] else []) ++
  ((if CONF_BGP_DEBUG s.conf_bgp_debug_update K.BGP_DEBUG_UPDATE_IN = true ∧
        CONF_BGP_DEBUG s.conf_bgp_debug_update K.BGP_DEBUG_UPDATE_OUT = true then
      [("debug bgp updates", Command.debug_bgp_update_cmd)]
    else if CONF_BGP_DEBUG s.conf_bgp_debug_update K.BGP_DEBUG_UPDATE_IN = true then
      [("debug bgp updates in", Command.debug_bgp_update_direct_cmd "in")]
    else if CONF_BGP_DEBUG s.conf_bgp_debug_update K.BGP_DEBUG_UPDATE_OUT = true then
      [("debug bgp updates out", Command.debug_bgp_update_direct_cmd "out")]
    else []) ++
  ((if CONF_BGP_DEBUG s.conf_bgp_debug_neighbor_events K.BGP_DEBUG_NEIGHBOR_EVENTS = true then
      [("debug bgp neighbor-events", Command.debug_bgp_neighbor_events_cmd)] else []) ++
  ((if CONF_BGP_DEBUG s.conf_bgp_debug_zebra K.BGP_DEBUG_ZEBRA = true then
      [("debug bgp zebra", Command.debug_bgp_zebra_cmd)] else []) ++
  ((if CONF_BGP_DEBUG s.conf_bgp_debug_nht K.BGP_DEBUG_NHT = true then
      [("debug bgp nht", Command.debug_bgp_nht_cmd)] else []) ++ []))))))

/-- The function `bgp_config_write_debug` (lines 1358-1416): the value returned (the number
of lines written) and the lines written to the console. -/
def bgp_config_write_debug (E : Collab) (K : DebugConsts) (s : DebugState) :
    Nat × List String :=
  ((bgp_config_write_debug_lines K s).length,
    (bgp_config_write_debug_lines K s).map (fun l => l.1 ++ E.VTY_NEWLINE))

/-- The state after the lines that `bgp_config_write_debug` writes for state `s` have been
run as commands in declarative context (`CONFIG_NODE`), from the startup state in which
the reference counts are `lock`. -/
def config_replay (E : Collab) (K : DebugConsts) (s : DebugState) (lock : Peer → Nat) :
    Option World :=
  execAll E K ((bgp_config_write_debug_lines K s).map (fun l => (l.2, node_type.CONFIG_NODE)))
    ⟨DebugState.init, lock⟩

/-- The state after `debug bgp neighbor-events swp1` and `debug bgp zebra prefix 10.0.0.0/8`
at the enable node, from the startup state `world0`. -/
def sampleWorld3 : World :=
  (execAll sampleEnv sampleDebugConsts
    [(Command.debug_bgp_neighbor_events_peer_cmd "swp1", node_type.ENABLE_NODE),
     (Command.debug_bgp_zebra_prefix_cmd "10.0.0.0/8", node_type.ENABLE_NODE)] world0).getD
    world0

/-- The bits of the four categories whose filter list has a bit of its own
(neighbor-events, keepalive, update-prefix, zebra) are non-zero, and the update-prefix bit
shares no bit with the two direction bits of the update mask. -/
def CategoryBitsApart (K : DebugConsts) : Prop :=
  K.BGP_DEBUG_NEIGHBOR_EVENTS ≠ 0 ∧ K.BGP_DEBUG_KEEPALIVE ≠ 0 ∧
  K.BGP_DEBUG_UPDATE_PREFIX ≠ 0 ∧ K.BGP_DEBUG_ZEBRA ≠ 0 ∧
  K.BGP_DEBUG_UPDATE_IN &&& K.BGP_DEBUG_UPDATE_PREFIX = 0 ∧
  K.BGP_DEBUG_UPDATE_OUT &&& K.BGP_DEBUG_UPDATE_PREFIX = 0

/-- The filter list and the session-scope mask of one category: when the list has entries,
the bit `b` is set in the session-scope mask `term`. -/
def EntriesTraced (list : FilterList) (term b : Nat) : Prop :=
  ¬ NoEntries list → BitSet term b

/-- The property `EntriesTraced` of the neighbor-events, keepalive, update-prefix and zebra
categories. -/
def TracedInv (K : DebugConsts) (s : DebugState) : Prop :=
  EntriesTraced s.bgp_debug_neighbor_events_peers s.term_bgp_debug_neighbor_events
    K.BGP_DEBUG_NEIGHBOR_EVENTS ∧
  EntriesTraced s.bgp_debug_keepalive_peers s.term_bgp_debug_keepalive
    K.BGP_DEBUG_KEEPALIVE ∧
  EntriesTraced s.bgp_debug_update_prefixes s.term_bgp_debug_update
    K.BGP_DEBUG_UPDATE_PREFIX ∧
  EntriesTraced s.bgp_debug_zebra_prefixes s.term_bgp_debug_zebra K.BGP_DEBUG_ZEBRA

/-- The state after `debug bgp neighbor-events swp1` in config context, from the startup
state `world0`. -/
def sampleWorld4 : World :=
  (execAll sampleEnv sampleDebugConsts
    [(Command.debug_bgp_neighbor_events_peer_cmd "swp1", node_type.CONFIG_NODE)] world0).getD
    world0

/-! ## Lemmas on the helpers and the two loops -/

theorem BGP_DEBUG_eq_true_iff (m b : Nat) : BGP_DEBUG m b = true ↔ BitSet m b := by
  simp [BGP_DEBUG, BitSet]

theorem prefix_match_iff (n p : Prefix) :
    prefix_match n p = true ↔ LeadingBitsEq n.prefixlen p n := by
  simp [prefix_match, LeadingBitsEq, List.all_eq_true]

theorem per_peer_loop_iff (q : Peer) (l : List bgp_debug_filter) :
    per_peer_loop q l = true ↔ ∃ f ∈ l, f.peer = some q := by
  induction l with
  | nil => simp [per_peer_loop]
  | cons f rest ih =>
    by_cases h : f.peer = some q
    · simp [per_peer_loop, h]
    · simp [per_peer_loop, h, ih]

theorem per_prefix_loop_spec (q : Prefix) (l : List bgp_debug_filter) (hwf : IsPrefixList l) :
    ∃ r, per_prefix_loop q l = some r ∧ (r = true ↔ ∃ f ∈ l, EntryMatches f q) := by
  induction l with
  | nil => exact ⟨false, by simp [per_prefix_loop]⟩
  | cons f rest ih =>
    have hrest : IsPrefixList rest := fun g hg => hwf g (List.mem_cons_of_mem _ hg)
    obtain ⟨r, hr, hiff⟩ := ih hrest
    have hf : f.p ≠ none := hwf f (List.mem_cons_self _ _)
    obtain ⟨fp, hfp⟩ := Option.ne_none_iff_exists'.mp hf
    by_cases hm : fp.prefixlen = q.prefixlen ∧ prefix_match fp q = true
    · refine ⟨true, by simp [per_prefix_loop, hfp, hm], ?_⟩
      simp only [true_iff]
      exact ⟨f, List.mem_cons_self _ _, fp, hfp, hm.1, (prefix_match_iff fp q).mp hm.2⟩
    · refine ⟨r, ?_, ?_⟩
      · simp only [per_prefix_loop, hfp]
        rw [if_neg hm]
        exact hr
      · rw [hiff]
        constructor
        · rintro ⟨g, hg, hgm⟩
          exact ⟨g, List.mem_cons_of_mem _ hg, hgm⟩
        · rintro ⟨g, hg, hgm⟩
          rcases List.mem_cons.mp hg with rfl | hg
          · exfalso
            obtain ⟨gp, hgp, hlen, hbits⟩ := hgm
            rw [hfp] at hgp
            cases hgp
            exact hm ⟨hlen, (prefix_match_iff fp q).mpr hbits⟩
          · exact ⟨g, hg, hgm⟩

theorem bgp_debug_per_peer_iff (peer : Option Peer) (m b : Nat) (list : FilterList) :
    bgp_debug_per_peer peer m b list = true ↔ BitSet m b ∧ MatchesNeighborFilter list peer := by
  unfold bgp_debug_per_peer BitSet MatchesNeighborFilter
  by_cases hb : m &&& b ≠ 0
  · rw [if_pos hb]
    cases list with
    | none => simp [hb]
    | some l =>
      cases l with
      | nil => simp [hb, list_isempty]
      | cons f rest =>
        cases peer with
        | none => simp [hb, list_isempty]
        | some q =>
          simp only [list_isempty, List.isEmpty_cons, Bool.false_eq_true, if_false]
          rw [per_peer_loop_iff]
          simp [hb]
  · rw [if_neg hb]
    simp [hb]

theorem bgp_debug_per_prefix_spec (p : Option Prefix) (m b : Nat) (list : FilterList)
    (hwf : ∀ l, list = some l → IsPrefixList l) :
    ∃ r, ( bgp_debug_per_prefix p m b list) = some r ∧
      (r = true ↔ BitSet m b ∧ MatchesPrefixFilter list p) := by
  unfold bgp_debug_per_prefix BitSet MatchesPrefixFilter
  by_cases hb : m &&& b ≠ 0
  · rw [if_pos hb]
    cases list with
    | none => exact ⟨true, by simp [hb]⟩
    | some l =>
      cases l with
      | nil => exact ⟨true, by simp [hb, list_isempty]⟩
      | cons f rest =>
        cases p with
        | none => exact ⟨false, by simp [hb, list_isempty]⟩
        | some q =>
          obtain ⟨r, hr, hiff⟩ := per_prefix_loop_spec q (f :: rest) (hwf _ rfl)
          refine ⟨r, ?_, ?_⟩
          · simp only [list_isempty, List.isEmpty_cons, Bool.false_eq_true, if_false]
            exact hr
          · rw [hiff]
            simp [hb]
  · rw [if_neg hb]
    exact ⟨false, by simp [hb]⟩

theorem bgp_debug_per_peer_bit_unset (peer : Option Peer) (m b : Nat) (list : FilterList)
    (h : ¬ BitSet m b) : bgp_debug_per_peer peer m b list = false := by
  unfold BitSet at h
  simp [bgp_debug_per_peer, h]

theorem bgp_debug_per_prefix_bit_unset (p : Option Prefix) (m b : Nat) (list : FilterList)
    (h : ¬ BitSet m b) : ( bgp_debug_per_prefix p m b list) = some false := by
  unfold BitSet at h
  simp [ bgp_debug_per_prefix, h]

theorem bgp_debug_update_tail_spec (K : DebugConsts) (s : DebugState) (p : Option Prefix)
    (hwf : ∀ l, s.bgp_debug_update_prefixes = some l → IsPrefixList l) :
    ∃ r, bgp_debug_update_tail K s p = some r ∧
      (r = true ↔ BitSet s.term_bgp_debug_update K.BGP_DEBUG_UPDATE_PREFIX ∧
        MatchesPrefixFilter s.bgp_debug_update_prefixes p) := by
  obtain ⟨r, hr, hiff⟩ := bgp_debug_per_prefix_spec p s.term_bgp_debug_update
    K.BGP_DEBUG_UPDATE_PREFIX s.bgp_debug_update_prefixes hwf
  unfold bgp_debug_update_tail
  by_cases hb : BGP_DEBUG s.term_bgp_debug_update K.BGP_DEBUG_UPDATE_PREFIX = true
  · rw [if_pos hb, hr]
    cases r with
    | true => exact ⟨true, rfl, hiff⟩
    | false => exact ⟨false, rfl, hiff⟩
  · rw [if_neg hb]
    refine ⟨false, rfl, ?_⟩
    rw [BGP_DEBUG_eq_true_iff] at hb
    simp [hb]

theorem per_prefix_loop_sound (q : Prefix) (l : List bgp_debug_filter) (r : Bool)
    (h : per_prefix_loop q l = some r) : r = true ↔ ∃ f ∈ l, EntryMatches f q := by
  induction l with
  | nil =>
    simp only [per_prefix_loop, Option.some.injEq] at h
    subst h
    simp
  | cons f rest ih =>
    cases hfp : f.p with
    | none => simp [per_prefix_loop, hfp] at h
    | some fp =>
      simp only [per_prefix_loop, hfp] at h
      by_cases hm : fp.prefixlen = q.prefixlen ∧ prefix_match fp q = true
      · rw [if_pos hm, Option.some.injEq] at h
        subst h
        simp only [true_iff]
        exact ⟨f, List.mem_cons_self _ _, fp, hfp, hm.1, (prefix_match_iff fp q).mp hm.2⟩
      · rw [if_neg hm] at h
        rw [ih h]
        constructor
        · rintro ⟨g, hg, hgm⟩
          exact ⟨g, List.mem_cons_of_mem _ hg, hgm⟩
        · rintro ⟨g, hg, hgm⟩
          rcases List.mem_cons.mp hg with rfl | hg
          · exfalso
            obtain ⟨gp, hgp, hlen, hbits⟩ := hgm
            rw [hfp] at hgp
            cases hgp
            exact hm ⟨hlen, (prefix_match_iff fp q).mpr hbits⟩
          · exact ⟨g, hg, hgm⟩

theorem bgp_debug_per_prefix_sound (p : Option Prefix) (m b : Nat) (list : FilterList)
    (r : Bool) (h : ( bgp_debug_per_prefix p m b list) = some r) :
    r = true ↔ BitSet m b ∧ MatchesPrefixFilter list p := by
  unfold bgp_debug_per_prefix at h
  unfold BitSet MatchesPrefixFilter
  by_cases hb : m &&& b ≠ 0
  · rw [if_pos hb] at h
    cases list with
    | none =>
      simp only [Option.some.injEq] at h
      subst h
      simp [hb]
    | some l =>
      cases l with
      | nil =>
        simp only [list_isempty, List.isEmpty_nil, if_true, Option.some.injEq] at h
        subst h
        simp [hb]
      | cons f rest =>
        simp only [list_isempty, List.isEmpty_cons, Bool.false_eq_true, if_false] at h
        cases p with
        | none =>
          simp only [Option.some.injEq] at h
          subst h
          simp
        | some q =>
          simp only at h
          rw [per_prefix_loop_sound q (f :: rest) r h]
          simp [hb]
  · rw [if_neg hb, Option.some.injEq] at h
    subst h
    simp [hb]

theorem bgp_debug_update_tail_sound (K : DebugConsts) (s : DebugState) (p : Option Prefix)
    (r : Bool) (h : bgp_debug_update_tail K s p = some r) :
    r = true ↔ BitSet s.term_bgp_debug_update K.BGP_DEBUG_UPDATE_PREFIX ∧
      MatchesPrefixFilter s.bgp_debug_update_prefixes p := by
  unfold bgp_debug_update_tail at h
  by_cases hb : BGP_DEBUG s.term_bgp_debug_update K.BGP_DEBUG_UPDATE_PREFIX = true
  · rw [if_pos hb] at h
    cases hpp : ( bgp_debug_per_prefix p s.term_bgp_debug_update K.BGP_DEBUG_UPDATE_PREFIX
        s.bgp_debug_update_prefixes) with
    | none => simp [hpp] at h
    | some r2 =>
      have hr2 := bgp_debug_per_prefix_sound _ _ _ _ _ hpp
      rw [hpp] at h
      cases r2 with
      | true =>
        simp only [Option.some.injEq] at h
        subst h
        exact hr2
      | false =>
        simp only [Option.some.injEq] at h
        subst h
        exact hr2
  · rw [if_neg hb, Option.some.injEq] at h
    subst h
    rw [BGP_DEBUG_eq_true_iff] at hb
    simp [hb]

/-! ## Lemmas on the sample states -/

theorem isPrefixList_filter10 : IsPrefixList [filter10] := by
  intro f hf
  rw [List.mem_singleton] at hf
  subst hf
  simp [filter10]

theorem sampleState_update_prefixes_wf :
    ∀ l, sampleState.bgp_debug_update_prefixes = some l → IsPrefixList l := by
  intro l hl
  have h : l = [filter10] := by
    simp only [sampleState, DebugState.init] at hl
    exact (Option.some.inj hl).symm
  rw [h]
  exact isPrefixList_filter10

theorem sampleState_zebra_prefixes_wf :
    ∀ l, sampleState.bgp_debug_zebra_prefixes = some l → IsPrefixList l := by
  intro l hl
  have h : l = [filter10] := by
    simp only [sampleState, DebugState.init] at hl
    exact (Option.some.inj hl).symm
  rw [h]
  exact isPrefixList_filter10

theorem per_prefix_loop_singleton_false (fp q : Prefix)
    (h : ¬ (fp.prefixlen = q.prefixlen ∧ LeadingBitsEq fp.prefixlen q fp)) :
    per_prefix_loop q [⟨none, some fp⟩] = some false := by
  have h2 : ¬ (fp.prefixlen = q.prefixlen ∧ prefix_match fp q = true) := by
    rw [prefix_match_iff]
    exact h
  simp only [per_prefix_loop]
  rw [if_neg h2]

theorem not_bitSet_zero (b : Nat) : ¬ BitSet 0 b := by
  simp [BitSet]

/-! ## The gating predicates: claims C1 to C7 -/

/-- C1: whenever `bgp_debug_update` returns, its result is true exactly when (the bit of
the requested direction is set and the neighbor matches that direction's neighbor list) or
(the update-prefix bit is set and the prefix matches the update-prefix list), the logical
OR of the two clauses; and it does return in every state whose update-prefix list holds
prefix entries. -/
theorem bgp_debug_update_iff (K : DebugConsts) (s : DebugState) (peer : Option Peer)
    (p : Option Prefix) (inbound : Nat) :
    (∀ r, bgp_debug_update K s peer p inbound = some r →
      (r = true ↔
        (BitSet s.term_bgp_debug_update
            (if inbound ≠ 0 then K.BGP_DEBUG_UPDATE_IN else K.BGP_DEBUG_UPDATE_OUT) ∧
          MatchesNeighborFilter
            (if inbound ≠ 0 then s.bgp_debug_update_in_peers else s.bgp_debug_update_out_peers)
            peer) ∨
        (BitSet s.term_bgp_debug_update K.BGP_DEBUG_UPDATE_PREFIX ∧
          MatchesPrefixFilter s.bgp_debug_update_prefixes p))) ∧
    ((∀ l, s.bgp_debug_update_prefixes = some l → IsPrefixList l) →
      ∃ r, bgp_debug_update K s peer p inbound = some r) := by
  constructor
  · intro r h
    unfold bgp_debug_update at h
    by_cases hin : inbound ≠ 0
    · simp only [if_pos hin] at h ⊢
      by_cases hpeer : bgp_debug_per_peer peer s.term_bgp_debug_update K.BGP_DEBUG_UPDATE_IN
          s.bgp_debug_update_in_peers = true
      · rw [if_pos hpeer, Option.some.injEq] at h
        subst h
        simp [(bgp_debug_per_peer_iff _ _ _ _).mp hpeer]
      · rw [if_neg hpeer] at h
        rw [bgp_debug_per_peer_iff] at hpeer
        rw [bgp_debug_update_tail_sound K s p r h]
        exact ⟨Or.inr, fun h2 => h2.resolve_left hpeer⟩
    · simp only [if_neg hin] at h ⊢
      by_cases hpeer : bgp_debug_per_peer peer s.term_bgp_debug_update K.BGP_DEBUG_UPDATE_OUT
          s.bgp_debug_update_out_peers = true
      · rw [if_pos hpeer, Option.some.injEq] at h
        subst h
        simp [(bgp_debug_per_peer_iff _ _ _ _).mp hpeer]
      · rw [if_neg hpeer] at h
        rw [bgp_debug_per_peer_iff] at hpeer
        rw [bgp_debug_update_tail_sound K s p r h]
        exact ⟨Or.inr, fun h2 => h2.resolve_left hpeer⟩
  · intro hwf
    obtain ⟨r, hr, -⟩ := bgp_debug_update_tail_spec K s p hwf
    unfold bgp_debug_update
    by_cases hin : inbound ≠ 0
    · simp only [if_pos hin]
      by_cases hpeer : bgp_debug_per_peer peer s.term_bgp_debug_update K.BGP_DEBUG_UPDATE_IN
          s.bgp_debug_update_in_peers = true
      · exact ⟨true, by rw [if_pos hpeer]⟩
      · exact ⟨r, by rw [if_neg hpeer]; exact hr⟩
    · simp only [if_neg hin]
      by_cases hpeer : bgp_debug_per_peer peer s.term_bgp_debug_update K.BGP_DEBUG_UPDATE_OUT
          s.bgp_debug_update_out_peers = true
      · exact ⟨true, by rw [if_pos hpeer]⟩
      · exact ⟨r, by rw [if_neg hpeer]; exact hr⟩

theorem bgp_debug_update_iff_witness :
    (∀ l, sampleState.bgp_debug_update_prefixes = some l → IsPrefixList l) ∧
    ∃ r, bgp_debug_update sampleDebugConsts sampleState (some 9)
        (some ⟨2, 8, [10, 0, 0, 0]⟩) 1 = some r :=
  ⟨sampleState_update_prefixes_wf,
    (bgp_debug_update_iff sampleDebugConsts sampleState (some 9)
      (some ⟨2, 8, [10, 0, 0, 0]⟩) 1).2 sampleState_update_prefixes_wf⟩

/-- C2: for a non-empty list of prefix entries, a present queried prefix `q` and a set
category bit, `bgp_debug_per_prefix` returns, and returns true exactly when some entry
holds a prefix of the same length as `q` whose leading bits over that length are those of
`q`. Hence a single filter of length `L` matches neither a query of length `L + 1` nor a
query of length `L` that differs in one of the first `L` bits; the filter 10.0.0.0/8
matches the query 10.0.0.0/8 but neither 10.1.0.0/16 nor 11.0.0.0/8. -/
theorem bgp_debug_per_prefix_exact_match (m b : Nat) (l : List bgp_debug_filter) (q : Prefix)
    (hbit : BitSet m b) (hne : l ≠ []) (hwf : IsPrefixList l) :
    (∃ r, ( bgp_debug_per_prefix (some q) m b (some l)) = some r ∧
      (r = true ↔ ∃ f ∈ l, ∃ fp, f.p = some fp ∧ fp.prefixlen = q.prefixlen ∧
        ∀ i, i < fp.prefixlen → addrBit q.u i = addrBit fp.u i)) ∧
    (∀ fp q2 : Prefix, q2.prefixlen = fp.prefixlen + 1 →
      ( bgp_debug_per_prefix (some q2) m b (some [⟨none, some fp⟩])) = some false) ∧
    (∀ fp q2 : Prefix, q2.prefixlen = fp.prefixlen →
      (∃ i, i < fp.prefixlen ∧ addrBit q2.u i ≠ addrBit fp.u i) →
      ( bgp_debug_per_prefix (some q2) m b (some [⟨none, some fp⟩])) = some false) ∧
    ( bgp_debug_per_prefix (some ⟨2, 8, [10, 0, 0, 0]⟩) m b
        (some [⟨none, some ⟨2, 8, [10, 0, 0, 0]⟩⟩])) = some true ∧
    ( bgp_debug_per_prefix (some ⟨2, 16, [10, 1, 0, 0]⟩) m b
        (some [⟨none, some ⟨2, 8, [10, 0, 0, 0]⟩⟩])) = some false ∧
    ( bgp_debug_per_prefix (some ⟨2, 8, [11, 0, 0, 0]⟩) m b
        (some [⟨none, some ⟨2, 8, [10, 0, 0, 0]⟩⟩])) = some false := by
  have hb : m &&& b ≠ 0 := hbit
  have hsingle : ∀ fp q2 : Prefix,
      ( bgp_debug_per_prefix (some q2) m b (some [⟨none, some fp⟩])) =
        per_prefix_loop q2 [⟨none, some fp⟩] := by
    intro fp q2
    simp [ bgp_debug_per_prefix, hb, list_isempty]
  refine ⟨?_, ?_, ?_, ?_, ?_, ?_⟩
  · obtain ⟨r, hr, hiff⟩ := per_prefix_loop_spec q l hwf
    refine ⟨r, ?_, hiff⟩
    cases l with
    | nil => exact absurd rfl hne
    | cons f rest =>
      simp only [ bgp_debug_per_prefix, if_pos hb, list_isempty, List.isEmpty_cons,
        Bool.false_eq_true, if_false]
      exact hr
  · intro fp q2 hlen
    rw [hsingle]
    apply per_prefix_loop_singleton_false
    rintro ⟨h, -⟩
    omega
  · intro fp q2 _ hdiff
    rw [hsingle]
    apply per_prefix_loop_singleton_false
    rintro ⟨-, hbits⟩
    obtain ⟨i, hi, hne2⟩ := hdiff
    exact hne2 (hbits i hi)
  · rw [hsingle]
    decide
  · rw [hsingle]
    decide
  · rw [hsingle]
    decide

theorem bgp_debug_per_prefix_exact_match_witness :
    (BitSet 4 4 ∧ [filter10] ≠ [] ∧ IsPrefixList [filter10]) ∧
    ( bgp_debug_per_prefix (some ⟨2, 8, [11, 0, 0, 0]⟩) 4 4
        (some [⟨none, some ⟨2, 8, [10, 0, 0, 0]⟩⟩])) = some false :=
  ⟨⟨by decide, by decide, isPrefixList_filter10⟩,
    (bgp_debug_per_prefix_exact_match 4 4 [filter10] ⟨2, 8, [10, 0, 0, 0]⟩ (by decide)
      (by decide) isPrefixList_filter10).2.2.2.2.2⟩

/-- C3: `bgp_debug_neighbor_events` (and `bgp_debug_keepalive` for the keepalive
category) is true exactly when the category's session-scope bit is set and the category's
neighbor list is absent or empty, or the neighbor is present and is the neighbor of some
entry of the list. -/
theorem bgp_debug_neighbor_events_iff (K : DebugConsts) (s : DebugState)
    (peer : Option Peer) :
    (bgp_debug_neighbor_events K s peer = true ↔
      BitSet s.term_bgp_debug_neighbor_events K.BGP_DEBUG_NEIGHBOR_EVENTS ∧
      (s.bgp_debug_neighbor_events_peers = none ∨ s.bgp_debug_neighbor_events_peers = some [] ∨
        ∃ l q, s.bgp_debug_neighbor_events_peers = some l ∧ peer = some q ∧
          ∃ f ∈ l, f.peer = some q)) ∧
    (bgp_debug_keepalive K s peer = true ↔
      BitSet s.term_bgp_debug_keepalive K.BGP_DEBUG_KEEPALIVE ∧
      (s.bgp_debug_keepalive_peers = none ∨ s.bgp_debug_keepalive_peers = some [] ∨
        ∃ l q, s.bgp_debug_keepalive_peers = some l ∧ peer = some q ∧
          ∃ f ∈ l, f.peer = some q)) :=
  ⟨bgp_debug_per_peer_iff _ _ _ _, bgp_debug_per_peer_iff _ _ _ _⟩

/-- C4: whenever `bgp_debug_zebra` returns, its result is true exactly when the
session-scope zebra bit is set and the prefix matches the zebra prefix list (list absent
or empty, or some entry has the length of `p` and the same leading bits); and it does
return in every state whose zebra prefix list holds prefix entries. -/
theorem bgp_debug_zebra_iff (K : DebugConsts) (s : DebugState) (p : Option Prefix) :
    (∀ r, bgp_debug_zebra K s p = some r →
      (r = true ↔ BitSet s.term_bgp_debug_zebra K.BGP_DEBUG_ZEBRA ∧
        (s.bgp_debug_zebra_prefixes = none ∨ s.bgp_debug_zebra_prefixes = some [] ∨
          ∃ l q, s.bgp_debug_zebra_prefixes = some l ∧ p = some q ∧
            ∃ f ∈ l, ∃ fp, f.p = some fp ∧ fp.prefixlen = q.prefixlen ∧
              ∀ i, i < fp.prefixlen → addrBit q.u i = addrBit fp.u i))) ∧
    ((∀ l, s.bgp_debug_zebra_prefixes = some l → IsPrefixList l) →
      ∃ r, bgp_debug_zebra K s p = some r) := by
  constructor
  · intro r h
    unfold bgp_debug_zebra at h
    by_cases hb : BGP_DEBUG s.term_bgp_debug_zebra K.BGP_DEBUG_ZEBRA = true
    · rw [if_pos hb] at h
      cases hpp : ( bgp_debug_per_prefix p s.term_bgp_debug_zebra K.BGP_DEBUG_ZEBRA
          s.bgp_debug_zebra_prefixes) with
      | none => simp [hpp] at h
      | some r2 =>
        have hr2 := bgp_debug_per_prefix_sound _ _ _ _ _ hpp
        rw [hpp] at h
        cases r2 with
        | true =>
          simp only [Option.some.injEq] at h
          subst h
          exact hr2
        | false =>
          simp only [Option.some.injEq] at h
          subst h
          exact hr2
    · rw [if_neg hb, Option.some.injEq] at h
      subst h
      rw [BGP_DEBUG_eq_true_iff] at hb
      simp [hb]
  · intro hwf
    obtain ⟨r, hr, -⟩ := bgp_debug_per_prefix_spec p s.term_bgp_debug_zebra
      K.BGP_DEBUG_ZEBRA s.bgp_debug_zebra_prefixes hwf
    unfold bgp_debug_zebra
    by_cases hb : BGP_DEBUG s.term_bgp_debug_zebra K.BGP_DEBUG_ZEBRA = true
    · rw [if_pos hb, hr]
      cases r with
      | true => exact ⟨true, rfl⟩
      | false => exact ⟨false, rfl⟩
    · rw [if_neg hb]
      exact ⟨false, rfl⟩

theorem bgp_debug_zebra_iff_witness :
    (∀ l, sampleState.bgp_debug_zebra_prefixes = some l → IsPrefixList l) ∧
    ∃ r, bgp_debug_zebra sampleDebugConsts sampleState (some ⟨2, 8, [10, 0, 0, 0]⟩) = some r :=
  ⟨sampleState_zebra_prefixes_wf,
    (bgp_debug_zebra_iff sampleDebugConsts sampleState (some ⟨2, 8, [10, 0, 0, 0]⟩)).2
      sampleState_zebra_prefixes_wf⟩

/-- C5: each gating predicate is false when the session-scope bits it consults are unset,
whatever the filter lists and the config-scope masks hold: `bgp_debug_neighbor_events` and
`bgp_debug_keepalive` on their category bit, `bgp_debug_update` on the bit of the
requested direction and the update-prefix bit, `bgp_debug_zebra` on the zebra bit. In
particular all four are false in the initial state. -/
theorem gating_false_when_bits_unset (K : DebugConsts) (s : DebugState) (peer : Option Peer)
    (p : Option Prefix) (inbound : Nat) :
    (¬ BitSet s.term_bgp_debug_neighbor_events K.BGP_DEBUG_NEIGHBOR_EVENTS →
      bgp_debug_neighbor_events K s peer = false) ∧
    (¬ BitSet s.term_bgp_debug_keepalive K.BGP_DEBUG_KEEPALIVE →
      bgp_debug_keepalive K s peer = false) ∧
    (¬ BitSet s.term_bgp_debug_update
        (if inbound ≠ 0 then K.BGP_DEBUG_UPDATE_IN else K.BGP_DEBUG_UPDATE_OUT) →
      ¬ BitSet s.term_bgp_debug_update K.BGP_DEBUG_UPDATE_PREFIX →
      bgp_debug_update K s peer p inbound = some false) ∧
    (¬ BitSet s.term_bgp_debug_zebra K.BGP_DEBUG_ZEBRA →
      bgp_debug_zebra K s p = some false) ∧
    bgp_debug_neighbor_events K DebugState.init peer = false ∧
    bgp_debug_keepalive K DebugState.init peer = false ∧
    bgp_debug_update K DebugState.init peer p inbound = some false ∧
    bgp_debug_zebra K DebugState.init p = some false := by
  have hupd : ∀ t : DebugState,
      ¬ BitSet t.term_bgp_debug_update
        (if inbound ≠ 0 then K.BGP_DEBUG_UPDATE_IN else K.BGP_DEBUG_UPDATE_OUT) →
      ¬ BitSet t.term_bgp_debug_update K.BGP_DEBUG_UPDATE_PREFIX →
      bgp_debug_update K t peer p inbound = some false := by
    intro t hdir hpre
    have htail : bgp_debug_update_tail K t p = some false := by
      unfold bgp_debug_update_tail
      rw [if_neg (by rw [BGP_DEBUG_eq_true_iff]; exact hpre)]
    unfold bgp_debug_update
    by_cases hin : inbound ≠ 0
    · rw [if_pos hin] at hdir
      rw [if_pos hin, bgp_debug_per_peer_bit_unset _ _ _ _ hdir]
      simpa using htail
    · rw [if_neg hin] at hdir
      rw [if_neg hin, bgp_debug_per_peer_bit_unset _ _ _ _ hdir]
      simpa using htail
  have hzeb : ∀ t : DebugState, ¬ BitSet t.term_bgp_debug_zebra K.BGP_DEBUG_ZEBRA →
      bgp_debug_zebra K t p = some false := by
    intro t h
    unfold bgp_debug_zebra
    rw [if_neg (by rw [BGP_DEBUG_eq_true_iff]; exact h)]
  refine ⟨fun h => bgp_debug_per_peer_bit_unset _ _ _ _ h,
    fun h => bgp_debug_per_peer_bit_unset _ _ _ _ h, hupd s, hzeb s,
    bgp_debug_per_peer_bit_unset _ _ _ _ (not_bitSet_zero _),
    bgp_debug_per_peer_bit_unset _ _ _ _ (not_bitSet_zero _),
    hupd DebugState.init (not_bitSet_zero _) (not_bitSet_zero _),
    hzeb DebugState.init (not_bitSet_zero _)⟩

theorem gating_false_when_bits_unset_witness :
    (¬ BitSet quietState.term_bgp_debug_zebra sampleDebugConsts.BGP_DEBUG_ZEBRA ∧
      quietState.bgp_debug_zebra_prefixes = some [filter10] ∧
      quietState.conf_bgp_debug_keepalive = 1) ∧
    bgp_debug_zebra sampleDebugConsts quietState (some ⟨2, 8, [10, 0, 0, 0]⟩) = some false :=
  ⟨⟨by decide, rfl, rfl⟩,
    (gating_false_when_bits_unset sampleDebugConsts quietState (some 7)
      (some ⟨2, 8, [10, 0, 0, 0]⟩) 1).2.2.2.1 (by decide)⟩

theorem per_peer_per_prefix_unfiltered (m b : Nat) (list : FilterList) (peer : Option Peer)
    (p : Option Prefix) (hbit : BitSet m b) (hempty : list = none ∨ list = some []) :
    bgp_debug_per_peer peer m b list = true ∧
    ( bgp_debug_per_prefix p m b list) = some true := by
  have hb : m &&& b ≠ 0 := hbit
  rcases hempty with rfl | rfl
  · simp [bgp_debug_per_peer, bgp_debug_per_prefix, hb]
  · simp [bgp_debug_per_peer, bgp_debug_per_prefix, hb, list_isempty]

/-- C6: when the category bit is set and the filter list is absent or empty,
`bgp_debug_per_peer` and `bgp_debug_per_prefix` return true for every neighbor and every
prefix argument, present or absent ("debug everything"). -/
theorem debug_everything (m b : Nat) (list : FilterList) (peer : Option Peer)
    (p : Option Prefix) (hbit : BitSet m b) (hempty : list = none ∨ list = some []) :
    bgp_debug_per_peer peer m b list = true ∧
    ( bgp_debug_per_prefix p m b list) = some true :=
  per_peer_per_prefix_unfiltered m b list peer p hbit hempty

theorem debug_everything_witness :
    (BitSet 1 1 ∧ ((some [] : FilterList) = none ∨ (some [] : FilterList) = some [])) ∧
    bgp_debug_per_peer (some 7) 1 1 (some []) = true ∧
    ( bgp_debug_per_prefix (some ⟨2, 8, [10, 0, 0, 0]⟩) 1 1 (some [])) = some true :=
  ⟨⟨by decide, Or.inr rfl⟩,
    debug_everything 1 1 (some []) (some 7) (some ⟨2, 8, [10, 0, 0, 0]⟩) (by decide)
      (Or.inr rfl)⟩

/-- C7, as stated, fails: with the category bit set and an empty filter list both matchers
return true for an absent key, so they do not return false for every filter list. -/
theorem absent_key_not_always_false :
    ( bgp_debug_per_prefix none 1 1 (some [])) = some true ∧
    bgp_debug_per_peer none 1 1 (some []) = true ∧
    ¬ (∀ (m b : Nat) (list : FilterList),
        ( bgp_debug_per_prefix none m b list) = some false ∧
        bgp_debug_per_peer none m b list = false) := by
  refine ⟨by decide, by decide, ?_⟩
  intro h
  have h1 := (h 1 1 (some [])).2
  revert h1
  decide

/-- C7, amended: for an absent queried key both matchers return false whenever the
category bit is unset or the filter list is non-empty; when the bit is set and the list is
absent or empty they return true. -/
theorem absent_key_result (m b : Nat) (list : FilterList) :
    ((¬ BitSet m b ∨ ∃ f rest, list = some (f :: rest)) →
      ( bgp_debug_per_prefix none m b list) = some false ∧
      bgp_debug_per_peer none m b list = false) ∧
    ((BitSet m b ∧ (list = none ∨ list = some [])) →
      ( bgp_debug_per_prefix none m b list) = some true ∧
      bgp_debug_per_peer none m b list = true) := by
  constructor
  · rintro (h | ⟨f, rest, rfl⟩)
    · exact ⟨bgp_debug_per_prefix_bit_unset _ _ _ _ h, bgp_debug_per_peer_bit_unset _ _ _ _ h⟩
    · by_cases hb : m &&& b ≠ 0
      · simp [bgp_debug_per_peer, bgp_debug_per_prefix, hb, list_isempty]
      · simp [bgp_debug_per_peer, bgp_debug_per_prefix, hb]
  · rintro ⟨hbit, hempty⟩
    exact (per_peer_per_prefix_unfiltered m b list none none hbit hempty).symm

theorem absent_key_result_witness :
    (¬ BitSet 1 1 ∨ ∃ f rest, (some [filter10] : FilterList) = some (f :: rest)) ∧
    ( bgp_debug_per_prefix none 1 1 (some [filter10])) = some false ∧
    bgp_debug_per_peer none 1 1 (some [filter10]) = false :=
  ⟨Or.inr ⟨filter10, [], rfl⟩,
    (absent_key_result 1 1 (some [filter10])).1 (Or.inr ⟨filter10, [], rfl⟩)⟩

/-! ## The notification decoder: claims C8 to C10 -/

theorem LOOKUP_DEF_miss (x : List message) (y : Int) (dflt : String)
    (h : ∀ m ∈ x, m.key ≠ y) : LOOKUP_DEF x y dflt = dflt := by
  induction x with
  | nil => rfl
  | cons m ms ih =>
    have hm : m.key ≠ y := h m (List.mem_cons_self _ _)
    simp only [LOOKUP_DEF]
    rw [if_neg hm]
    exact ih (fun k hk => h k (List.mem_cons_of_mem _ hk))

/-- C8: for each code that has a subcode table (header, OPEN, UPDATE, cease, capability)
and every subcode that is not a key of that table, the decoder yields the code's outer
label paired with the fallback "Unrecognized Error Subcode". The seven `case` labels of
the `switch` are taken to be pairwise distinct, as C requires of them. -/
theorem bgp_notify_print_unknown_subcode (N : NotifyConsts) (subcode : Int)
    (hd : (caseLabels N).Nodup) :
    ((∀ m ∈ bgp_notify_head_msg N, m.key ≠ subcode) →
      bgp_notify_print N N.BGP_NOTIFY_HEADER_ERR subcode =
        ("Message Header Error", "Unrecognized Error Subcode")) ∧
    ((∀ m ∈ bgp_notify_open_msg N, m.key ≠ subcode) →
      bgp_notify_print N N.BGP_NOTIFY_OPEN_ERR subcode =
        ("OPEN Message Error", "Unrecognized Error Subcode")) ∧
    ((∀ m ∈ bgp_notify_update_msg N, m.key ≠ subcode) →
      bgp_notify_print N N.BGP_NOTIFY_UPDATE_ERR subcode =
        ("UPDATE Message Error", "Unrecognized Error Subcode")) ∧
    ((∀ m ∈ bgp_notify_cease_msg N, m.key ≠ subcode) →
      bgp_notify_print N N.BGP_NOTIFY_CEASE subcode =
        ("Cease", "Unrecognized Error Subcode")) ∧
    ((∀ m ∈ bgp_notify_capability_msg N, m.key ≠ subcode) →
      bgp_notify_print N N.BGP_NOTIFY_CAPABILITY_ERR subcode =
        ("CAPABILITY Message Error", "Unrecognized Error Subcode")) := by
  simp only [caseLabels, List.nodup_cons, List.mem_cons, List.mem_singleton, not_or,
    List.not_mem_nil, not_false_eq_true, List.nodup_nil, and_true] at hd
  obtain ⟨⟨h12, h13, h14, h15, h16, h17⟩, ⟨h23, h24, h25, h26, h27⟩, ⟨h34, h35, h36, h37⟩,
    ⟨h45, h46, h47⟩, ⟨h56, h57⟩, h67⟩ := hd
  refine ⟨?_, ?_, ?_, ?_, ?_⟩
  · intro h
    refine Prod.ext ?_ ?_
    · simp [bgp_notify_print, bgp_notify_msg, LOOKUP_DEF]
    · simp only [bgp_notify_print, bgp_notify_print_subcode_str, if_true]
      exact LOOKUP_DEF_miss _ _ _ h
  · intro h
    refine Prod.ext ?_ ?_
    · simp [bgp_notify_print, bgp_notify_msg, LOOKUP_DEF, h12]
    · simp only [bgp_notify_print, bgp_notify_print_subcode_str, if_true, if_neg (Ne.symm h12)]
      exact LOOKUP_DEF_miss _ _ _ h
  · intro h
    refine Prod.ext ?_ ?_
    · simp [bgp_notify_print, bgp_notify_msg, LOOKUP_DEF, h13, h23]
    · simp only [bgp_notify_print, bgp_notify_print_subcode_str, if_true,
        if_neg (Ne.symm h13), if_neg (Ne.symm h23)]
      exact LOOKUP_DEF_miss _ _ _ h
  · intro h
    refine Prod.ext ?_ ?_
    · simp [bgp_notify_print, bgp_notify_msg, LOOKUP_DEF, h16, h26, h36, h46, h56]
    · simp only [bgp_notify_print, bgp_notify_print_subcode_str, if_true,
        if_neg (Ne.symm h16), if_neg (Ne.symm h26), if_neg (Ne.symm h36),
        if_neg (Ne.symm h46), if_neg (Ne.symm h56)]
      exact LOOKUP_DEF_miss _ _ _ h
  · intro h
    refine Prod.ext ?_ ?_
    · simp [bgp_notify_print, bgp_notify_msg, LOOKUP_DEF, h17, h27, h37, h47, h57, h67]
    · simp only [bgp_notify_print, bgp_notify_print_subcode_str, if_true,
        if_neg (Ne.symm h17), if_neg (Ne.symm h27), if_neg (Ne.symm h37),
        if_neg (Ne.symm h47), if_neg (Ne.symm h57), if_neg (Ne.symm h67)]
      exact LOOKUP_DEF_miss _ _ _ h

theorem bgp_notify_print_unknown_subcode_witness :
    ((caseLabels rfcNotifyConsts).Nodup ∧
      ∀ m ∈ bgp_notify_update_msg rfcNotifyConsts, m.key ≠ 9999) ∧
    bgp_notify_print rfcNotifyConsts rfcNotifyConsts.BGP_NOTIFY_UPDATE_ERR 9999 =
      ("UPDATE Message Error", "Unrecognized Error Subcode") :=
  ⟨⟨by decide, by decide⟩,
    (bgp_notify_print_unknown_subcode rfcNotifyConsts 9999 (by decide)).2.2.1 (by decide)⟩

/-- C9: for every code that is not a key of `bgp_notify_msg` and every subcode, the decoder
yields the outer label "Unrecognized Error Code" and the empty subcode label. -/
theorem bgp_notify_print_unknown_code (N : NotifyConsts) (code subcode : Int)
    (h : ∀ m ∈ bgp_notify_msg N, m.key ≠ code) :
    bgp_notify_print N code subcode = ("Unrecognized Error Code", "") := by
  have houter := LOOKUP_DEF_miss (bgp_notify_msg N) code "Unrecognized Error Code" h
  simp only [bgp_notify_msg, List.mem_cons, List.mem_singleton, List.not_mem_nil, or_false,
    forall_eq_or_imp, forall_eq] at h
  obtain ⟨h1, h2, h3, h4, h5, h6, h7⟩ := h
  simp [bgp_notify_print, houter, bgp_notify_print_subcode_str, Ne.symm h1, Ne.symm h2,
    Ne.symm h3, Ne.symm h4, Ne.symm h5, Ne.symm h6, Ne.symm h7]

theorem bgp_notify_print_unknown_code_witness :
    (∀ m ∈ bgp_notify_msg rfcNotifyConsts, m.key ≠ 9999) ∧
    bgp_notify_print rfcNotifyConsts 9999 3 = ("Unrecognized Error Code", "") :=
  ⟨by decide, bgp_notify_print_unknown_code rfcNotifyConsts 9999 3 (by decide)⟩

/-- C10: for the two codes without a subcode table, `BGP_NOTIFY_HOLD_ERR` and
`BGP_NOTIFY_FSM_ERR`, and every subcode, the decoder yields the code's outer label
("Hold Timer Expired", "Neighbor Events Error") and the empty subcode label. The seven
`case` labels of the `switch` are taken to be pairwise distinct, as C requires of them. -/
theorem bgp_notify_print_no_subtable (N : NotifyConsts) (subcode : Int)
    (hd : (caseLabels N).Nodup) :
    bgp_notify_print N N.BGP_NOTIFY_HOLD_ERR subcode = ("Hold Timer Expired", "") ∧
    bgp_notify_print N N.BGP_NOTIFY_FSM_ERR subcode = ("Neighbor Events Error", "") := by
  simp only [caseLabels, List.nodup_cons, List.mem_cons, List.mem_singleton, not_or,
    List.not_mem_nil, not_false_eq_true, List.nodup_nil, and_true] at hd
  obtain ⟨⟨h12, h13, h14, h15, h16, h17⟩, ⟨h23, h24, h25, h26, h27⟩, ⟨h34, h35, h36, h37⟩,
    ⟨h45, h46, h47⟩, ⟨h56, h57⟩, h67⟩ := hd
  constructor
  · simp [bgp_notify_print, bgp_notify_print_subcode_str, bgp_notify_msg, LOOKUP_DEF,
      h14, h24, h34, Ne.symm h14, Ne.symm h24, Ne.symm h34]
  · simp [bgp_notify_print, bgp_notify_print_subcode_str, bgp_notify_msg, LOOKUP_DEF,
      h15, h25, h35, h45, Ne.symm h15, Ne.symm h25, Ne.symm h35, Ne.symm h45]

theorem bgp_notify_print_no_subtable_witness :
    (caseLabels rfcNotifyConsts).Nodup ∧
    bgp_notify_print rfcNotifyConsts rfcNotifyConsts.BGP_NOTIFY_HOLD_ERR 9999 =
      ("Hold Timer Expired", "") ∧
    bgp_notify_print rfcNotifyConsts rfcNotifyConsts.BGP_NOTIFY_FSM_ERR 9999 =
      ("Neighbor Events Error", "") :=
  ⟨by decide, bgp_notify_print_no_subtable rfcNotifyConsts 9999 (by decide)⟩

/-! ## Lemmas on the scope masks -/

theorem and_eq_zero_iff_testBit (m b : Nat) :
    m &&& b = 0 ↔ ∀ i, ¬ (m.testBit i = true ∧ b.testBit i = true) := by
  constructor
  · intro h i hi
    have := congrArg (fun n => n.testBit i) h
    simp [Nat.testBit_and, hi.1, hi.2] at this
  · intro h
    apply Nat.eq_of_testBit_eq
    intro i
    have := h i
    simp only [Nat.testBit_and, Nat.zero_testBit]
    cases h1 : m.testBit i <;> cases h2 : b.testBit i <;> simp_all

theorem testBit_clearBits (m b i : Nat) :
    (clearBits m b).testBit i = (m.testBit i && !b.testBit i) := by
  simp only [clearBits, Nat.testBit_xor, Nat.testBit_and]
  cases m.testBit i <;> cases b.testBit i <;> rfl

theorem not_bitSet_clearBits_self (m b : Nat) : ¬ BitSet (clearBits m b) b := by
  have h : clearBits m b &&& b = 0 := by
    rw [and_eq_zero_iff_testBit]
    intro i
    rw [testBit_clearBits]
    cases m.testBit i <;> cases b.testBit i <;> simp
  simp [BitSet, h]

theorem not_bitSet_clearBits_of_not (m b c : Nat) (h : ¬ BitSet m c) :
    ¬ BitSet (clearBits m b) c := by
  simp only [BitSet, ne_eq, not_not] at h ⊢
  rw [and_eq_zero_iff_testBit] at h ⊢
  intro i
  rw [testBit_clearBits]
  have := h i
  cases h1 : m.testBit i <;> cases h2 : b.testBit i <;> cases h3 : c.testBit i <;> simp_all

theorem clearBits_or_of_not_bitSet (m b : Nat) (h : ¬ BitSet m b) :
    clearBits (m ||| b) b = m := by
  simp only [BitSet, ne_eq, not_not] at h
  rw [and_eq_zero_iff_testBit] at h
  apply Nat.eq_of_testBit_eq
  intro i
  rw [testBit_clearBits, Nat.testBit_or]
  have := h i
  cases h1 : m.testBit i <;> cases h2 : b.testBit i <;> simp_all

theorem bitSet_or_iff_of_disjoint (m b c : Nat) (h : b &&& c = 0) :
    BitSet (m ||| b) c ↔ BitSet m c := by
  have key : (m ||| b) &&& c = m &&& c := by
    rw [and_eq_zero_iff_testBit] at h
    apply Nat.eq_of_testBit_eq
    intro i
    simp only [Nat.testBit_and, Nat.testBit_or]
    have := h i
    cases h1 : m.testBit i <;> cases h2 : b.testBit i <;> cases h3 : c.testBit i <;> simp_all
  simp [BitSet, key]

theorem bitSet_clearBits_iff_of_disjoint (m b c : Nat) (h : b &&& c = 0) :
    BitSet (clearBits m b) c ↔ BitSet m c := by
  have key : clearBits m b &&& c = m &&& c := by
    rw [and_eq_zero_iff_testBit] at h
    apply Nat.eq_of_testBit_eq
    intro i
    simp only [Nat.testBit_and, testBit_clearBits]
    have := h i
    cases h1 : m.testBit i <;> cases h2 : b.testBit i <;> cases h3 : c.testBit i <;> simp_all
  simp [BitSet, key]

theorem modifyConf_list_fields (a : DebugVar) (f : Nat → Nat) (s : DebugState) :
    (s.modifyConf a f).bgp_debug_neighbor_events_peers = s.bgp_debug_neighbor_events_peers ∧
    (s.modifyConf a f).bgp_debug_keepalive_peers = s.bgp_debug_keepalive_peers ∧
    (s.modifyConf a f).bgp_debug_update_in_peers = s.bgp_debug_update_in_peers ∧
    (s.modifyConf a f).bgp_debug_update_out_peers = s.bgp_debug_update_out_peers ∧
    (s.modifyConf a f).bgp_debug_update_prefixes = s.bgp_debug_update_prefixes ∧
    (s.modifyConf a f).bgp_debug_zebra_prefixes = s.bgp_debug_zebra_prefixes := by
  cases a <;> exact ⟨rfl, rfl, rfl, rfl, rfl, rfl⟩

theorem modifyTerm_list_fields (a : DebugVar) (f : Nat → Nat) (s : DebugState) :
    (s.modifyTerm a f).bgp_debug_neighbor_events_peers = s.bgp_debug_neighbor_events_peers ∧
    (s.modifyTerm a f).bgp_debug_keepalive_peers = s.bgp_debug_keepalive_peers ∧
    (s.modifyTerm a f).bgp_debug_update_in_peers = s.bgp_debug_update_in_peers ∧
    (s.modifyTerm a f).bgp_debug_update_out_peers = s.bgp_debug_update_out_peers ∧
    (s.modifyTerm a f).bgp_debug_update_prefixes = s.bgp_debug_update_prefixes ∧
    (s.modifyTerm a f).bgp_debug_zebra_prefixes = s.bgp_debug_zebra_prefixes := by
  cases a <;> exact ⟨rfl, rfl, rfl, rfl, rfl, rfl⟩

theorem lists_modifyConf (a : DebugVar) (f : Nat → Nat) (s : DebugState) :
    (s.modifyConf a f).lists = s.lists := by
  cases a <;> rfl

theorem lists_modifyTerm (a : DebugVar) (f : Nat → Nat) (s : DebugState) :
    (s.modifyTerm a f).lists = s.lists := by
  cases a <;> rfl

theorem termMasks_modifyConf (a : DebugVar) (f : Nat → Nat) (s : DebugState) :
    (s.modifyConf a f).termMasks = s.termMasks := by
  cases a <;> rfl

theorem has_entry_peer (q : Peer) (p : Option Prefix) (l : List bgp_debug_filter) :
    bgp_debug_list_has_entry (some q) p l = some (l.any (fun f => decide (f.peer = some q))) := by
  induction l with
  | nil => rfl
  | cons f rest ih =>
    by_cases h : f.peer = some q
    · simp [bgp_debug_list_has_entry, h]
    · simp [bgp_debug_list_has_entry, h, ih]

theorem leadingBitsEq_refl (n : Nat) (a : Prefix) : LeadingBitsEq n a a :=
  fun _ _ => rfl

theorem prefix_match_self (a : Prefix) : prefix_match a a = true :=
  (prefix_match_iff a a).mpr (leadingBitsEq_refl _ a)

theorem free_loop_apply (l : List bgp_debug_filter) (lock : Peer → Nat) (q : Peer) :
    bgp_debug_list_free_loop lock l q = lock q - l.countP (fun f => decide (f.peer = some q)) := by
  induction l generalizing lock with
  | nil => simp [bgp_debug_list_free_loop]
  | cons f rest ih =>
    cases hf : f.peer with
    | none => simp [bgp_debug_list_free_loop, hf, ih, List.countP_cons]
    | some pr =>
      simp only [bgp_debug_list_free_loop, hf, ih, List.countP_cons, peer_unlock]
      by_cases hq : q = pr
      · subst hq
        simp
        omega
      · have : ¬ pr = q := fun h => hq h.symm
        simp [hq, this]

theorem list_free_fst (list : FilterList) (lock : Peer → Nat) :
    NoEntries (bgp_debug_list_free list lock).1 := by
  cases list with
  | none => exact Or.inl rfl
  | some l => exact Or.inr rfl

theorem list_free_snd (list : FilterList) (lock : Peer → Nat) (q : Peer) :
    (bgp_debug_list_free list lock).2 q = lock q - peerRefs q list := by
  cases list with
  | none => simp [bgp_debug_list_free, peerRefs, list_new_if_null]
  | some l => simp [bgp_debug_list_free, peerRefs, list_new_if_null, free_loop_apply]

theorem peerRefs_of_noEntries (q : Peer) (list : FilterList) (h : NoEntries list) :
    peerRefs q list = 0 := by
  rcases h with rfl | rfl <;> rfl

/-! ## The bare `no debug bgp`: claims C16 and C17 -/

/-- C16: after the bare `no debug bgp`, run in any state, each of the six filter lists
(neighbor-events, keepalive, update-in, update-out, update-prefix, zebra) has no entries:
a list that was `NULL` stays `NULL`, every other list is empty. -/
theorem no_debug_bgp_lists_empty (E : Collab) (K : DebugConsts) (w : World) :
    NoEntries (no_debug_bgp E K w).world.dbg.bgp_debug_neighbor_events_peers ∧
    NoEntries (no_debug_bgp E K w).world.dbg.bgp_debug_keepalive_peers ∧
    NoEntries (no_debug_bgp E K w).world.dbg.bgp_debug_update_in_peers ∧
    NoEntries (no_debug_bgp E K w).world.dbg.bgp_debug_update_out_peers ∧
    NoEntries (no_debug_bgp E K w).world.dbg.bgp_debug_update_prefixes ∧
    NoEntries (no_debug_bgp E K w).world.dbg.bgp_debug_zebra_prefixes := by
  simp only [no_debug_bgp, TERM_DEBUG_OFF, DebugState.modifyTerm]
  exact ⟨list_free_fst _ _, list_free_fst _ _, list_free_fst _ _, list_free_fst _ _,
    list_free_fst _ _, list_free_fst _ _⟩

/-- C17, as stated, fails: `debug bgp keepalives` in config context sets the config-scope
keepalive bit, and the bare `no debug bgp` that follows leaves it set. -/
theorem no_debug_bgp_keeps_config_scope :
    (no_debug_bgp sampleEnv sampleDebugConsts
      (debug_bgp_keepalive sampleEnv sampleDebugConsts node_type.CONFIG_NODE
        world0).world).world.dbg.conf_bgp_debug_keepalive = 1 ∧
    Reachable sampleDebugConsts (fun _ => 1)
      (debug_bgp_keepalive sampleEnv sampleDebugConsts node_type.CONFIG_NODE world0).world ∧
    ¬ (∀ w : World, Reachable sampleDebugConsts (fun _ => 1) w →
        (no_debug_bgp sampleEnv sampleDebugConsts w).world.dbg.conf_bgp_debug_keepalive = 0) := by
  have hreach : Reachable sampleDebugConsts (fun _ => 1)
      (debug_bgp_keepalive sampleEnv sampleDebugConsts node_type.CONFIG_NODE world0).world :=
    Reachable.step sampleEnv Command.debug_bgp_keepalive_cmd node_type.CONFIG_NODE world0 _
      Reachable.init rfl rfl
  have hval : (no_debug_bgp sampleEnv sampleDebugConsts
      (debug_bgp_keepalive sampleEnv sampleDebugConsts node_type.CONFIG_NODE
        world0).world).world.dbg.conf_bgp_debug_keepalive = 1 := by decide
  refine ⟨hval, hreach, ?_⟩
  intro h
  have h0 := h _ hreach
  rw [hval] at h0
  exact absurd h0 (by decide)

/-- C17, amended: after the bare `no debug bgp`, run in any state, the session-scope bits
of as4 (both), neighbor-events, keepalive, update (inbound, outbound, prefix) and zebra
are unset, and every config-scope mask is as it was. -/
theorem no_debug_bgp_session_bits_unset (E : Collab) (K : DebugConsts) (w : World) :
    ¬ BitSet (no_debug_bgp E K w).world.dbg.term_bgp_debug_keepalive K.BGP_DEBUG_KEEPALIVE ∧
    ¬ BitSet (no_debug_bgp E K w).world.dbg.term_bgp_debug_update K.BGP_DEBUG_UPDATE_IN ∧
    ¬ BitSet (no_debug_bgp E K w).world.dbg.term_bgp_debug_update K.BGP_DEBUG_UPDATE_OUT ∧
    ¬ BitSet (no_debug_bgp E K w).world.dbg.term_bgp_debug_update K.BGP_DEBUG_UPDATE_PREFIX ∧
    ¬ BitSet (no_debug_bgp E K w).world.dbg.term_bgp_debug_as4 K.BGP_DEBUG_AS4 ∧
    ¬ BitSet (no_debug_bgp E K w).world.dbg.term_bgp_debug_as4 K.BGP_DEBUG_AS4_SEGMENT ∧
    ¬ BitSet (no_debug_bgp E K w).world.dbg.term_bgp_debug_neighbor_events
        K.BGP_DEBUG_NEIGHBOR_EVENTS ∧
    ¬ BitSet (no_debug_bgp E K w).world.dbg.term_bgp_debug_zebra K.BGP_DEBUG_ZEBRA ∧
    (no_debug_bgp E K w).world.dbg.confMasks = w.dbg.confMasks := by
  simp only [no_debug_bgp, TERM_DEBUG_OFF, DebugState.modifyTerm, DebugState.confMasks]
  refine ⟨not_bitSet_clearBits_self _ _, ?_, ?_, not_bitSet_clearBits_self _ _, ?_,
    not_bitSet_clearBits_self _ _, not_bitSet_clearBits_self _ _,
    not_bitSet_clearBits_self _ _, trivial⟩
  · exact not_bitSet_clearBits_of_not _ _ _
      (not_bitSet_clearBits_of_not _ _ _ (not_bitSet_clearBits_self _ _))
  · exact not_bitSet_clearBits_of_not _ _ _ (not_bitSet_clearBits_self _ _)
  · exact not_bitSet_clearBits_of_not _ _ _ (not_bitSet_clearBits_self _ _)

/-! ## Rejected arguments and the two scopes: claims C19 and C15 -/

/-- C19: a command whose neighbor token does not resolve to a configured neighbor, or
whose prefix text is malformed, returns `CMD_WARNING` and leaves the state (every scope
mask, every filter list, every reference count) as it was. -/
theorem rejected_argument_no_change (E : Collab) (K : DebugConsts) (c : Command)
    (node : node_type) (w : World) (h : argumentRejected E c) :
    ∃ out, exec E K c node w = some ⟨cmd_status.CMD_WARNING, w, out⟩ := by
  cases c <;> simp only [argumentRejected] at h <;>
    first
    | exact absurd h id
    | simp [exec, debug_bgp_neighbor_events_peer, no_debug_bgp_neighbor_events_peer,
        debug_bgp_keepalive_peer, no_debug_bgp_keepalive_peer, debug_bgp_update_direct_peer,
        no_debug_bgp_update_direct_peer, debug_bgp_update_prefix, no_debug_bgp_update_prefix,
        debug_bgp_zebra_prefix, no_debug_bgp_zebra_prefix, h]

theorem rejected_argument_no_change_witness :
    argumentRejected rejectingEnv (Command.debug_bgp_update_prefix_cmd "10.0.0.0/40") ∧
    ∃ out, exec rejectingEnv sampleDebugConsts (Command.debug_bgp_update_prefix_cmd "10.0.0.0/40")
      node_type.ENABLE_NODE world0 = some ⟨cmd_status.CMD_WARNING, world0, out⟩ :=
  ⟨rfl, rejected_argument_no_change rejectingEnv sampleDebugConsts
    (Command.debug_bgp_update_prefix_cmd "10.0.0.0/40") node_type.ENABLE_NODE world0 rfl⟩

theorem countP_peer_pos_of_any (q : Peer) (l : List bgp_debug_filter)
    (h : l.any (fun f => decide (f.peer = some q)) = true) :
    0 < l.countP (fun f => decide (f.peer = some q)) := by
  rw [List.countP_pos_iff]
  simpa using h

theorem countP_peer_zero_of_not_any (q : Peer) (l : List bgp_debug_filter)
    (h : ¬ l.any (fun f => decide (f.peer = some q)) = true) :
    l.countP (fun f => decide (f.peer = some q)) = 0 := by
  rw [List.countP_eq_zero]
  simpa using h

theorem list_new_if_null_some (l : List bgp_debug_filter) :
    list_new_if_null (some l) = l := rfl

theorem neighbor_events_peer_twice (E : Collab) (K : DebugConsts) (n1 n2 : node_type)
    (arg : String) (q : Peer) (w : World) (hq : bgp_find_peer E arg = some q) :
    ∃ r1, debug_bgp_neighbor_events_peer E K n1 arg w = some r1 ∧
      debug_bgp_neighbor_events_peer E K n2 arg r1.world =
        some ⟨cmd_status.CMD_SUCCESS, r1.world,
          ["BGP neighbor-events debugging is already enabled for " ++ E.host q ++
            E.VTY_NEWLINE]⟩ ∧
      (peerRefs q w.dbg.bgp_debug_neighbor_events_peers ≤ 1 →
        peerRefs q r1.world.dbg.bgp_debug_neighbor_events_peers = 1) := by
  by_cases hany : (list_new_if_null w.dbg.bgp_debug_neighbor_events_peers).any
      (fun f => decide (f.peer = some q)) = true
  · simp only [debug_bgp_neighbor_events_peer, hq, has_entry_peer, hany]
    refine ⟨_, rfl, ?_, ?_⟩
    · simp only [list_new_if_null_some, hany]
    · intro hle
      have := countP_peer_pos_of_any q _ hany
      simp only [peerRefs, list_new_if_null_some] at hle ⊢
      omega
  · have h0 := countP_peer_zero_of_not_any q _ hany
    rw [Bool.not_eq_true] at hany
    cases n1 with
    | ENABLE_NODE =>
      simp only [debug_bgp_neighbor_events_peer, hq, has_entry_peer, hany, reduceCtorEq,
        if_false]
      refine ⟨_, rfl, ?_, ?_⟩
      · simp [list_new_if_null_some, bgp_debug_list_add_entry, TERM_DEBUG_ON,
          DebugState.modifyTerm]
      · intro _
        simp [peerRefs, list_new_if_null_some, bgp_debug_list_add_entry, TERM_DEBUG_ON,
          DebugState.modifyTerm, List.countP_append, h0]
    | CONFIG_NODE =>
      simp only [debug_bgp_neighbor_events_peer, hq, has_entry_peer, hany, if_true]
      refine ⟨_, rfl, ?_, ?_⟩
      · simp [list_new_if_null_some, bgp_debug_list_add_entry, DEBUG_ON, DebugState.modifyConf,
          DebugState.modifyTerm]
      · intro _
        simp [peerRefs, list_new_if_null_some, bgp_debug_list_add_entry, DEBUG_ON,
          DebugState.modifyConf, DebugState.modifyTerm, List.countP_append, h0]

theorem keepalive_peer_twice (E : Collab) (K : DebugConsts) (n1 n2 : node_type)
    (arg : String) (q : Peer) (w : World) (hq : bgp_find_peer E arg = some q) :
    ∃ r1, debug_bgp_keepalive_peer E K n1 arg w = some r1 ∧
      debug_bgp_keepalive_peer E K n2 arg r1.world =
        some ⟨cmd_status.CMD_SUCCESS, r1.world,
          ["BGP keepalive debugging is already enabled for " ++ E.host q ++
            E.VTY_NEWLINE]⟩ ∧
      (peerRefs q w.dbg.bgp_debug_keepalive_peers ≤ 1 →
        peerRefs q r1.world.dbg.bgp_debug_keepalive_peers = 1) := by
  by_cases hany : (list_new_if_null w.dbg.bgp_debug_keepalive_peers).any
      (fun f => decide (f.peer = some q)) = true
  · simp only [debug_bgp_keepalive_peer, hq, has_entry_peer, hany]
    refine ⟨_, rfl, ?_, ?_⟩
    · simp only [list_new_if_null_some, hany]
    · intro hle
      have := countP_peer_pos_of_any q _ hany
      simp only [peerRefs, list_new_if_null_some] at hle ⊢
      omega
  · have h0 := countP_peer_zero_of_not_any q _ hany
    rw [Bool.not_eq_true] at hany
    cases n1 with
    | ENABLE_NODE =>
      simp only [debug_bgp_keepalive_peer, hq, has_entry_peer, hany, reduceCtorEq,
        if_false]
      refine ⟨_, rfl, ?_, ?_⟩
      · simp [list_new_if_null_some, bgp_debug_list_add_entry, TERM_DEBUG_ON,
          DebugState.modifyTerm]
      · intro _
        simp [peerRefs, list_new_if_null_some, bgp_debug_list_add_entry, TERM_DEBUG_ON,
          DebugState.modifyTerm, List.countP_append, h0]
    | CONFIG_NODE =>
      simp only [debug_bgp_keepalive_peer, hq, has_entry_peer, hany, if_true]
      refine ⟨_, rfl, ?_, ?_⟩
      · simp [list_new_if_null_some, bgp_debug_list_add_entry, DEBUG_ON, DebugState.modifyConf,
          DebugState.modifyTerm]
      · intro _
        simp [peerRefs, list_new_if_null_some, bgp_debug_list_add_entry, DEBUG_ON,
          DebugState.modifyConf, DebugState.modifyTerm, List.countP_append, h0]

theorem update_direct_peer_twice (E : Collab) (K : DebugConsts) (n1 n2 : node_type)
    (dir arg : String) (q : Peer) (w : World) (hq : bgp_find_peer E arg = some q) :
    ∃ r1, debug_bgp_update_direct_peer E K n1 dir arg w = some r1 ∧
      debug_bgp_update_direct_peer E K n2 dir arg r1.world =
        some ⟨cmd_status.CMD_SUCCESS, r1.world,
          [(if strncmp_i dir = true then "BGP inbound update debugging is already enabled for "
              else "BGP outbound update debugging is already enabled for ") ++ E.host q ++
            E.VTY_NEWLINE]⟩ ∧
      (peerRefs q (if strncmp_i dir = true then w.dbg.bgp_debug_update_in_peers
          else w.dbg.bgp_debug_update_out_peers) ≤ 1 →
        peerRefs q (if strncmp_i dir = true then r1.world.dbg.bgp_debug_update_in_peers
          else r1.world.dbg.bgp_debug_update_out_peers) = 1) := by
  cases hdir : strncmp_i dir with
  | true =>
    by_cases hany : (list_new_if_null w.dbg.bgp_debug_update_in_peers).any
        (fun f => decide (f.peer = some q)) = true
    · simp only [debug_bgp_update_direct_peer, hq, has_entry_peer, hany, hdir, if_true]
      refine ⟨_, rfl, ?_, ?_⟩
      · simp only [list_new_if_null_some, hany]
      · intro hle
        have := countP_peer_pos_of_any q _ hany
        simp only [peerRefs, list_new_if_null_some] at hle ⊢
        omega
    · have h0 := countP_peer_zero_of_not_any q _ hany
      rw [Bool.not_eq_true] at hany
      cases n1 with
      | ENABLE_NODE =>
        simp only [debug_bgp_update_direct_peer, hq, has_entry_peer, hany, hdir, reduceCtorEq,
          if_false, if_true]
        refine ⟨_, rfl, ?_, ?_⟩
        · simp [list_new_if_null_some, bgp_debug_list_add_entry, TERM_DEBUG_ON, TERM_DEBUG_OFF,
            DebugState.modifyTerm]
        · intro _
          simp [peerRefs, list_new_if_null_some, bgp_debug_list_add_entry, TERM_DEBUG_ON,
            TERM_DEBUG_OFF, DebugState.modifyTerm, List.countP_append, h0]
      | CONFIG_NODE =>
        simp only [debug_bgp_update_direct_peer, hq, has_entry_peer, hany, hdir, if_true]
        refine ⟨_, rfl, ?_, ?_⟩
        · simp [list_new_if_null_some, bgp_debug_list_add_entry, DEBUG_ON, DEBUG_OFF,
            DebugState.modifyConf, DebugState.modifyTerm]
        · intro _
          simp [peerRefs, list_new_if_null_some, bgp_debug_list_add_entry, DEBUG_ON,
            DEBUG_OFF, DebugState.modifyConf, DebugState.modifyTerm, List.countP_append, h0]
  | false =>
    by_cases hany : (list_new_if_null w.dbg.bgp_debug_update_out_peers).any
        (fun f => decide (f.peer = some q)) = true
    · simp only [debug_bgp_update_direct_peer, hq, has_entry_peer, hany, hdir,
        Bool.false_eq_true, if_false]
      refine ⟨_, rfl, ?_, ?_⟩
      · simp only [list_new_if_null_some, hany]
      · intro hle
        have := countP_peer_pos_of_any q _ hany
        simp only [peerRefs, list_new_if_null_some] at hle ⊢
        omega
    · have h0 := countP_peer_zero_of_not_any q _ hany
      rw [Bool.not_eq_true] at hany
      cases n1 with
      | ENABLE_NODE =>
        simp only [debug_bgp_update_direct_peer, hq, has_entry_peer, hany, hdir, reduceCtorEq,
          Bool.false_eq_true, if_false]
        refine ⟨_, rfl, ?_, ?_⟩
        · simp [list_new_if_null_some, bgp_debug_list_add_entry, TERM_DEBUG_ON, TERM_DEBUG_OFF,
            DebugState.modifyTerm]
        · intro _
          simp [peerRefs, list_new_if_null_some, bgp_debug_list_add_entry, TERM_DEBUG_ON,
            TERM_DEBUG_OFF, DebugState.modifyTerm, List.countP_append, h0]
      | CONFIG_NODE =>
        simp only [debug_bgp_update_direct_peer, hq, has_entry_peer, hany, hdir,
          Bool.false_eq_true, if_false, if_true]
        refine ⟨_, rfl, ?_, ?_⟩
        · simp [list_new_if_null_some, bgp_debug_list_add_entry, DEBUG_ON, DEBUG_OFF,
            DebugState.modifyConf, DebugState.modifyTerm]
        · intro _
          simp [peerRefs, list_new_if_null_some, bgp_debug_list_add_entry, DEBUG_ON,
            DEBUG_OFF, DebugState.modifyConf, DebugState.modifyTerm, List.countP_append, h0]

/-! ## Adding and removing filters: claims C12 and C13 -/

theorem neighbor_events_add_remove (E : Collab) (K : DebugConsts) (node : node_type)
    (arg : String) (q : Peer) (w : World) (hq : bgp_find_peer E arg = some q)
    (hempty : NoEntries w.dbg.bgp_debug_neighbor_events_peers) :
    ∃ r2, (debug_bgp_neighbor_events_peer E K node arg w).bind
        (fun r1 => no_debug_bgp_neighbor_events_peer E K node arg r1.world) = some r2 ∧
      r2.world.dbg.bgp_debug_neighbor_events_peers = some [] ∧
      ¬ BitSet (r2.world.dbg.written node .neighbor_events) K.BGP_DEBUG_NEIGHBOR_EVENTS ∧
      ¬ BitSet (r2.world.dbg.term .neighbor_events) K.BGP_DEBUG_NEIGHBOR_EVENTS ∧
      (node = node_type.ENABLE_NODE →
        r2.world.dbg.conf .neighbor_events = w.dbg.conf .neighbor_events) ∧
      (¬ BitSet (w.dbg.written node .neighbor_events) K.BGP_DEBUG_NEIGHBOR_EVENTS →
        ¬ BitSet (w.dbg.term .neighbor_events) K.BGP_DEBUG_NEIGHBOR_EVENTS →
        r2.world.dbg.conf .neighbor_events = w.dbg.conf .neighbor_events ∧
        r2.world.dbg.term .neighbor_events = w.dbg.term .neighbor_events) := by
  have hl : list_new_if_null w.dbg.bgp_debug_neighbor_events_peers = [] := by
    rcases hempty with h | h <;> rw [h] <;> rfl
  cases node with
  | ENABLE_NODE =>
    simp only [debug_bgp_neighbor_events_peer, no_debug_bgp_neighbor_events_peer, hq, hl,
      has_entry_peer, List.any_nil, reduceCtorEq, if_false, Option.some_bind,
      bgp_debug_list_add_entry, TERM_DEBUG_ON, TERM_DEBUG_OFF, DebugState.modifyTerm,
      list_isempty, bgp_debug_list_remove_entry, List.nil_append, List.isEmpty_cons,
      List.isEmpty_nil, Bool.false_eq_true, decide_True, if_true]
    refine ⟨_, rfl, rfl, not_bitSet_clearBits_self _ _, not_bitSet_clearBits_self _ _,
      fun _ => rfl, ?_⟩
    intro h _
    exact ⟨rfl, clearBits_or_of_not_bitSet _ _ h⟩
  | CONFIG_NODE =>
    simp only [debug_bgp_neighbor_events_peer, no_debug_bgp_neighbor_events_peer, hq, hl,
      has_entry_peer, List.any_nil, reduceCtorEq, if_false, Option.some_bind,
      bgp_debug_list_add_entry, DEBUG_ON, DEBUG_OFF, DebugState.modifyConf,
      DebugState.modifyTerm, list_isempty, bgp_debug_list_remove_entry, List.nil_append, List.isEmpty_cons,
      List.isEmpty_nil, Bool.false_eq_true, decide_True, if_true]
    refine ⟨_, rfl, rfl, not_bitSet_clearBits_self _ _, not_bitSet_clearBits_self _ _,
      fun h => absurd h (by decide), ?_⟩
    intro h ht
    exact ⟨clearBits_or_of_not_bitSet _ _ h, clearBits_or_of_not_bitSet _ _ ht⟩

theorem keepalive_add_remove (E : Collab) (K : DebugConsts) (node : node_type)
    (arg : String) (q : Peer) (w : World) (hq : bgp_find_peer E arg = some q)
    (hempty : NoEntries w.dbg.bgp_debug_keepalive_peers) :
    ∃ r2, (debug_bgp_keepalive_peer E K node arg w).bind
        (fun r1 => no_debug_bgp_keepalive_peer E K node arg r1.world) = some r2 ∧
      r2.world.dbg.bgp_debug_keepalive_peers = some [] ∧
      ¬ BitSet (r2.world.dbg.written node .keepalive) K.BGP_DEBUG_KEEPALIVE ∧
      ¬ BitSet (r2.world.dbg.term .keepalive) K.BGP_DEBUG_KEEPALIVE ∧
      (node = node_type.ENABLE_NODE →
        r2.world.dbg.conf .keepalive = w.dbg.conf .keepalive) ∧
      (¬ BitSet (w.dbg.written node .keepalive) K.BGP_DEBUG_KEEPALIVE →
        ¬ BitSet (w.dbg.term .keepalive) K.BGP_DEBUG_KEEPALIVE →
        r2.world.dbg.conf .keepalive = w.dbg.conf .keepalive ∧
        r2.world.dbg.term .keepalive = w.dbg.term .keepalive) := by
  have hl : list_new_if_null w.dbg.bgp_debug_keepalive_peers = [] := by
    rcases hempty with h | h <;> rw [h] <;> rfl
  cases node with
  | ENABLE_NODE =>
    simp only [debug_bgp_keepalive_peer, no_debug_bgp_keepalive_peer, hq, hl,
      has_entry_peer, List.any_nil, reduceCtorEq, if_false, Option.some_bind,
      bgp_debug_list_add_entry, TERM_DEBUG_ON, TERM_DEBUG_OFF, DebugState.modifyTerm,
      list_isempty, bgp_debug_list_remove_entry, List.nil_append, List.isEmpty_cons,
      List.isEmpty_nil, Bool.false_eq_true, decide_True, if_true]
    refine ⟨_, rfl, rfl, not_bitSet_clearBits_self _ _, not_bitSet_clearBits_self _ _,
      fun _ => rfl, ?_⟩
    intro h _
    exact ⟨rfl, clearBits_or_of_not_bitSet _ _ h⟩
  | CONFIG_NODE =>
    simp only [debug_bgp_keepalive_peer, no_debug_bgp_keepalive_peer, hq, hl,
      has_entry_peer, List.any_nil, reduceCtorEq, if_false, Option.some_bind,
      bgp_debug_list_add_entry, DEBUG_ON, DEBUG_OFF, DebugState.modifyConf,
      DebugState.modifyTerm, list_isempty, bgp_debug_list_remove_entry, List.nil_append, List.isEmpty_cons,
      List.isEmpty_nil, Bool.false_eq_true, decide_True, if_true]
    refine ⟨_, rfl, rfl, not_bitSet_clearBits_self _ _, not_bitSet_clearBits_self _ _,
      fun h => absurd h (by decide), ?_⟩
    intro h ht
    exact ⟨clearBits_or_of_not_bitSet _ _ h, clearBits_or_of_not_bitSet _ _ ht⟩

theorem update_direct_add_remove (E : Collab) (K : DebugConsts) (node : node_type)
    (dir arg : String) (q : Peer) (w : World) (hq : bgp_find_peer E arg = some q)
    (hempty : NoEntries (if strncmp_i dir = true then w.dbg.bgp_debug_update_in_peers
      else w.dbg.bgp_debug_update_out_peers)) :
    ∃ r2, (debug_bgp_update_direct_peer E K node dir arg w).bind
        (fun r1 => no_debug_bgp_update_direct_peer E K node dir arg r1.world) = some r2 ∧
      (if strncmp_i dir = true then r2.world.dbg.bgp_debug_update_in_peers
        else r2.world.dbg.bgp_debug_update_out_peers) = some [] ∧
      ¬ BitSet (r2.world.dbg.written node .update)
        (if strncmp_i dir = true then K.BGP_DEBUG_UPDATE_IN else K.BGP_DEBUG_UPDATE_OUT) ∧
      ¬ BitSet (r2.world.dbg.term .update)
        (if strncmp_i dir = true then K.BGP_DEBUG_UPDATE_IN else K.BGP_DEBUG_UPDATE_OUT) ∧
      (node = node_type.ENABLE_NODE → r2.world.dbg.conf .update = w.dbg.conf .update) ∧
      (¬ BitSet (w.dbg.written node .update)
          (if strncmp_i dir = true then K.BGP_DEBUG_UPDATE_IN else K.BGP_DEBUG_UPDATE_OUT) →
        ¬ BitSet (w.dbg.term .update)
          (if strncmp_i dir = true then K.BGP_DEBUG_UPDATE_IN else K.BGP_DEBUG_UPDATE_OUT) →
        (BitSet (r2.world.dbg.conf .update)
            (if strncmp_i dir = true then K.BGP_DEBUG_UPDATE_IN else K.BGP_DEBUG_UPDATE_OUT) ↔
          BitSet (w.dbg.conf .update)
            (if strncmp_i dir = true then K.BGP_DEBUG_UPDATE_IN else K.BGP_DEBUG_UPDATE_OUT)) ∧
        (BitSet (r2.world.dbg.term .update)
            (if strncmp_i dir = true then K.BGP_DEBUG_UPDATE_IN else K.BGP_DEBUG_UPDATE_OUT) ↔
          BitSet (w.dbg.term .update)
            (if strncmp_i dir = true then K.BGP_DEBUG_UPDATE_IN
              else K.BGP_DEBUG_UPDATE_OUT))) := by
  cases hdir : strncmp_i dir with
  | true =>
    simp only [hdir, if_true] at hempty ⊢
    have hl : list_new_if_null w.dbg.bgp_debug_update_in_peers = [] := by
      rcases hempty with h | h <;> rw [h] <;> rfl
    cases node with
    | ENABLE_NODE =>
      simp only [debug_bgp_update_direct_peer, no_debug_bgp_update_direct_peer, hq, hl, hdir,
        has_entry_peer, List.any_nil, reduceCtorEq, if_false, Option.some_bind,
        bgp_debug_list_add_entry, TERM_DEBUG_ON, TERM_DEBUG_OFF, DebugState.modifyTerm,
        list_isempty, bgp_debug_list_remove_entry, List.nil_append, List.isEmpty_cons,
        List.isEmpty_nil, Bool.false_eq_true, decide_True, if_true]
      refine ⟨_, rfl, rfl, not_bitSet_clearBits_self _ _, not_bitSet_clearBits_self _ _,
        fun _ => rfl, ?_⟩
      intro h _
      exact ⟨Iff.rfl, iff_of_false (not_bitSet_clearBits_self _ _) h⟩
    | CONFIG_NODE =>
      simp only [debug_bgp_update_direct_peer, no_debug_bgp_update_direct_peer, hq, hl, hdir,
        has_entry_peer, List.any_nil, reduceCtorEq, if_false, Option.some_bind,
        bgp_debug_list_add_entry, DEBUG_ON, DEBUG_OFF, DebugState.modifyConf,
        DebugState.modifyTerm, list_isempty, bgp_debug_list_remove_entry, List.nil_append, List.isEmpty_cons,
        List.isEmpty_nil, Bool.false_eq_true, decide_True, if_true]
      refine ⟨_, rfl, rfl, not_bitSet_clearBits_self _ _, not_bitSet_clearBits_self _ _,
        fun h => absurd h (by decide), ?_⟩
      intro h ht
      exact ⟨iff_of_false (not_bitSet_clearBits_self _ _) h,
        iff_of_false (not_bitSet_clearBits_self _ _) ht⟩
  | false =>
    simp only [hdir, Bool.false_eq_true, if_false] at hempty ⊢
    have hl : list_new_if_null w.dbg.bgp_debug_update_out_peers = [] := by
      rcases hempty with h | h <;> rw [h] <;> rfl
    cases node with
    | ENABLE_NODE =>
      simp only [debug_bgp_update_direct_peer, no_debug_bgp_update_direct_peer, hq, hl, hdir,
        has_entry_peer, List.any_nil, reduceCtorEq, if_false, Option.some_bind,
        bgp_debug_list_add_entry, TERM_DEBUG_ON, TERM_DEBUG_OFF, DebugState.modifyTerm,
        list_isempty, bgp_debug_list_remove_entry, List.nil_append, List.isEmpty_cons,
        List.isEmpty_nil, Bool.false_eq_true, decide_True, if_true]
      refine ⟨_, rfl, rfl, not_bitSet_clearBits_self _ _, not_bitSet_clearBits_self _ _,
        fun _ => rfl, ?_⟩
      intro h _
      exact ⟨Iff.rfl, iff_of_false (not_bitSet_clearBits_self _ _) h⟩
    | CONFIG_NODE =>
      simp only [debug_bgp_update_direct_peer, no_debug_bgp_update_direct_peer, hq, hl, hdir,
        has_entry_peer, List.any_nil, reduceCtorEq, if_false, Option.some_bind,
        bgp_debug_list_add_entry, DEBUG_ON, DEBUG_OFF, DebugState.modifyConf,
        DebugState.modifyTerm, list_isempty, bgp_debug_list_remove_entry, List.nil_append, List.isEmpty_cons,
        List.isEmpty_nil, Bool.false_eq_true, decide_True, if_true]
      refine ⟨_, rfl, rfl, not_bitSet_clearBits_self _ _, not_bitSet_clearBits_self _ _,
        fun h => absurd h (by decide), ?_⟩
      intro h ht
      exact ⟨iff_of_false (not_bitSet_clearBits_self _ _) h,
        iff_of_false (not_bitSet_clearBits_self _ _) ht⟩

/-- C12, as stated, fails: after `debug bgp neighbor-events` the session-scope bit is set
and the neighbor list is absent; adding and removing a filter for peer 7 in the same
(interactive) context then leaves the list empty and the bit unset, not at its value
before the add. -/
theorem neighbor_add_remove_clears_set_bit :
    (execAll sampleEnv sampleDebugConsts
      [(.debug_bgp_neighbor_events_cmd, .ENABLE_NODE)] world0).map
        (fun w => (w.dbg.bgp_debug_neighbor_events_peers,
          w.dbg.term_bgp_debug_neighbor_events)) = some (none, 1) ∧
    (execAll sampleEnv sampleDebugConsts
      [(.debug_bgp_neighbor_events_cmd, .ENABLE_NODE),
       (.debug_bgp_neighbor_events_peer_cmd "swp1", .ENABLE_NODE),
       (.no_debug_bgp_neighbor_events_peer_cmd "swp1", .ENABLE_NODE)] world0).map
        (fun w => (w.dbg.bgp_debug_neighbor_events_peers,
          w.dbg.term_bgp_debug_neighbor_events)) = some (some [], 0) := by
  decide

/-- C12, amended: for each neighbor-filtered category (neighbor-events, keepalive, updates
inbound or outbound as `dir` chooses), a neighbor token that resolves to `q` and a state in
which the category's list has no entries, `debug <category> q` followed by
`no debug <category> q` at the same node leaves the list empty and the category's bit unset
in every scope the commands write: the session scope at either node, and the config scope
as well at `CONFIG_NODE`; at `ENABLE_NODE` the config-scope mask is as it was. The
category's config-scope and session-scope bits are back at their values before the add if
the bit was unset in those scopes before the add (for neighbor-events and keepalive the
whole masks are). -/
theorem peer_add_remove (E : Collab) (K : DebugConsts) (node : node_type)
    (dir arg : String) (q : Peer) (w : World) (hq : bgp_find_peer E arg = some q) :
    (NoEntries w.dbg.bgp_debug_neighbor_events_peers →
      ∃ r2, (debug_bgp_neighbor_events_peer E K node arg w).bind
          (fun r1 => no_debug_bgp_neighbor_events_peer E K node arg r1.world) = some r2 ∧
        r2.world.dbg.bgp_debug_neighbor_events_peers = some [] ∧
        ¬ BitSet (r2.world.dbg.written node .neighbor_events) K.BGP_DEBUG_NEIGHBOR_EVENTS ∧
        ¬ BitSet (r2.world.dbg.term .neighbor_events) K.BGP_DEBUG_NEIGHBOR_EVENTS ∧
        (node = node_type.ENABLE_NODE →
          r2.world.dbg.conf .neighbor_events = w.dbg.conf .neighbor_events) ∧
        (¬ BitSet (w.dbg.written node .neighbor_events) K.BGP_DEBUG_NEIGHBOR_EVENTS →
          ¬ BitSet (w.dbg.term .neighbor_events) K.BGP_DEBUG_NEIGHBOR_EVENTS →
          r2.world.dbg.conf .neighbor_events = w.dbg.conf .neighbor_events ∧
          r2.world.dbg.term .neighbor_events = w.dbg.term .neighbor_events)) ∧
    (NoEntries w.dbg.bgp_debug_keepalive_peers →
      ∃ r2, (debug_bgp_keepalive_peer E K node arg w).bind
          (fun r1 => no_debug_bgp_keepalive_peer E K node arg r1.world) = some r2 ∧
        r2.world.dbg.bgp_debug_keepalive_peers = some [] ∧
        ¬ BitSet (r2.world.dbg.written node .keepalive) K.BGP_DEBUG_KEEPALIVE ∧
        ¬ BitSet (r2.world.dbg.term .keepalive) K.BGP_DEBUG_KEEPALIVE ∧
        (node = node_type.ENABLE_NODE →
          r2.world.dbg.conf .keepalive = w.dbg.conf .keepalive) ∧
        (¬ BitSet (w.dbg.written node .keepalive) K.BGP_DEBUG_KEEPALIVE →
          ¬ BitSet (w.dbg.term .keepalive) K.BGP_DEBUG_KEEPALIVE →
          r2.world.dbg.conf .keepalive = w.dbg.conf .keepalive ∧
          r2.world.dbg.term .keepalive = w.dbg.term .keepalive)) ∧
    (NoEntries (if strncmp_i dir = true then w.dbg.bgp_debug_update_in_peers
        else w.dbg.bgp_debug_update_out_peers) →
      ∃ r2, (debug_bgp_update_direct_peer E K node dir arg w).bind
          (fun r1 => no_debug_bgp_update_direct_peer E K node dir arg r1.world) = some r2 ∧
        (if strncmp_i dir = true then r2.world.dbg.bgp_debug_update_in_peers
          else r2.world.dbg.bgp_debug_update_out_peers) = some [] ∧
        ¬ BitSet (r2.world.dbg.written node .update)
          (if strncmp_i dir = true then K.BGP_DEBUG_UPDATE_IN else K.BGP_DEBUG_UPDATE_OUT) ∧
        ¬ BitSet (r2.world.dbg.term .update)
          (if strncmp_i dir = true then K.BGP_DEBUG_UPDATE_IN else K.BGP_DEBUG_UPDATE_OUT) ∧
        (node = node_type.ENABLE_NODE → r2.world.dbg.conf .update = w.dbg.conf .update) ∧
        (¬ BitSet (w.dbg.written node .update)
            (if strncmp_i dir = true then K.BGP_DEBUG_UPDATE_IN else K.BGP_DEBUG_UPDATE_OUT) →
          ¬ BitSet (w.dbg.term .update)
            (if strncmp_i dir = true then K.BGP_DEBUG_UPDATE_IN else K.BGP_DEBUG_UPDATE_OUT) →
          (BitSet (r2.world.dbg.conf .update)
              (if strncmp_i dir = true then K.BGP_DEBUG_UPDATE_IN
                else K.BGP_DEBUG_UPDATE_OUT) ↔
            BitSet (w.dbg.conf .update)
              (if strncmp_i dir = true then K.BGP_DEBUG_UPDATE_IN
                else K.BGP_DEBUG_UPDATE_OUT)) ∧
          (BitSet (r2.world.dbg.term .update)
              (if strncmp_i dir = true then K.BGP_DEBUG_UPDATE_IN
                else K.BGP_DEBUG_UPDATE_OUT) ↔
            BitSet (w.dbg.term .update)
              (if strncmp_i dir = true then K.BGP_DEBUG_UPDATE_IN
                else K.BGP_DEBUG_UPDATE_OUT)))) :=
  ⟨neighbor_events_add_remove E K node arg q w hq, keepalive_add_remove E K node arg q w hq,
    update_direct_add_remove E K node dir arg q w hq⟩

theorem peer_add_remove_witness :
    (bgp_find_peer sampleEnv "swp1" = some 7 ∧
      NoEntries sampleWorld5.dbg.bgp_debug_neighbor_events_peers ∧
      BitSet (sampleWorld5.dbg.term .neighbor_events)
        sampleDebugConsts.BGP_DEBUG_NEIGHBOR_EVENTS) ∧
    ∃ r2, (debug_bgp_neighbor_events_peer sampleEnv sampleDebugConsts node_type.CONFIG_NODE
          "swp1" sampleWorld5).bind
        (fun r1 => no_debug_bgp_neighbor_events_peer sampleEnv sampleDebugConsts
          node_type.CONFIG_NODE "swp1" r1.world) = some r2 ∧
      r2.world.dbg.bgp_debug_neighbor_events_peers = some [] ∧
      ¬ BitSet (r2.world.dbg.conf .neighbor_events)
        sampleDebugConsts.BGP_DEBUG_NEIGHBOR_EVENTS ∧
      ¬ BitSet (r2.world.dbg.term .neighbor_events)
        sampleDebugConsts.BGP_DEBUG_NEIGHBOR_EVENTS :=
  ⟨⟨rfl, Or.inl rfl, by decide⟩,
    let ⟨r2, h1, h2, h3, h4, _⟩ := (peer_add_remove sampleEnv sampleDebugConsts
      node_type.CONFIG_NODE "in" "swp1" 7 sampleWorld5 rfl).1 (Or.inl rfl)
    ⟨r2, h1, h2, h3, h4⟩⟩

/-- C13, as stated, fails: adding 10.0.0.0/8 in config context and removing it in
interactive context leaves the update-prefix list empty with the config-scope
update-prefix bit set; adding and removing 10.0.0.0/8 in config context then leaves the
list empty and the bit unset, not at its value before the add. -/
theorem update_prefix_add_remove_clears_set_bit :
    (execAll sampleEnv sampleDebugConsts
      [(.debug_bgp_update_prefix_cmd "10.0.0.0/8", .CONFIG_NODE),
       (.no_debug_bgp_update_prefix_cmd "10.0.0.0/8", .ENABLE_NODE)] world0).map
        (fun w => (w.dbg.bgp_debug_update_prefixes, w.dbg.conf_bgp_debug_update)) =
      some (some [], 4) ∧
    (execAll sampleEnv sampleDebugConsts
      [(.debug_bgp_update_prefix_cmd "10.0.0.0/8", .CONFIG_NODE),
       (.no_debug_bgp_update_prefix_cmd "10.0.0.0/8", .ENABLE_NODE),
       (.debug_bgp_update_prefix_cmd "10.0.0.0/8", .CONFIG_NODE),
       (.no_debug_bgp_update_prefix_cmd "10.0.0.0/8", .CONFIG_NODE)] world0).map
        (fun w => (w.dbg.bgp_debug_update_prefixes, w.dbg.conf_bgp_debug_update)) =
      some (some [], 0) := by
  decide

/-- C13, amended: for a prefix text that reads as `x` and a state in which the
update-prefix list has no entries, `debug bgp updates prefix x` followed by
`no debug bgp updates prefix x` at the same node leaves the update-prefix list empty, the
other five lists as they were and the update-prefix bit unset in every scope the commands
write: the session scope at either node, and the config scope as well at `CONFIG_NODE`;
at `ENABLE_NODE` the config-scope update mask is as it was. The config-scope and
session-scope update masks are back at their values before the add if that bit was unset
in those scopes before the add; and when the update-prefix bit shares no bit with the
inbound and outbound bits, those two bits are unchanged in both scopes. -/
theorem update_prefix_add_remove (E : Collab) (K : DebugConsts) (node : node_type)
    (arg : String) (x : Prefix) (w : World) (hx : E.str2prefix arg = some x)
    (hempty : NoEntries w.dbg.bgp_debug_update_prefixes) :
    ∃ r2, ( debug_bgp_update_prefix E K node arg w).bind
        (fun r1 => no_debug_bgp_update_prefix E K node arg r1.world) = some r2 ∧
      r2.world.dbg.bgp_debug_update_prefixes = some [] ∧
      (r2.world.dbg.bgp_debug_neighbor_events_peers = w.dbg.bgp_debug_neighbor_events_peers ∧
        r2.world.dbg.bgp_debug_keepalive_peers = w.dbg.bgp_debug_keepalive_peers ∧
        r2.world.dbg.bgp_debug_update_in_peers = w.dbg.bgp_debug_update_in_peers ∧
        r2.world.dbg.bgp_debug_update_out_peers = w.dbg.bgp_debug_update_out_peers ∧
        r2.world.dbg.bgp_debug_zebra_prefixes = w.dbg.bgp_debug_zebra_prefixes) ∧
      ¬ BitSet (r2.world.dbg.written node .update) K.BGP_DEBUG_UPDATE_PREFIX ∧
      ¬ BitSet (r2.world.dbg.term .update) K.BGP_DEBUG_UPDATE_PREFIX ∧
      (node = node_type.ENABLE_NODE → r2.world.dbg.conf .update = w.dbg.conf .update) ∧
      (¬ BitSet (w.dbg.written node .update) K.BGP_DEBUG_UPDATE_PREFIX →
        ¬ BitSet (w.dbg.term .update) K.BGP_DEBUG_UPDATE_PREFIX →
        r2.world.dbg.conf .update = w.dbg.conf .update ∧
        r2.world.dbg.term .update = w.dbg.term .update) ∧
      (K.BGP_DEBUG_UPDATE_PREFIX &&& K.BGP_DEBUG_UPDATE_IN = 0 →
        K.BGP_DEBUG_UPDATE_PREFIX &&& K.BGP_DEBUG_UPDATE_OUT = 0 →
        (BitSet (r2.world.dbg.conf .update) K.BGP_DEBUG_UPDATE_IN ↔
          BitSet (w.dbg.conf .update) K.BGP_DEBUG_UPDATE_IN) ∧
        (BitSet (r2.world.dbg.conf .update) K.BGP_DEBUG_UPDATE_OUT ↔
          BitSet (w.dbg.conf .update) K.BGP_DEBUG_UPDATE_OUT) ∧
        (BitSet (r2.world.dbg.term .update) K.BGP_DEBUG_UPDATE_IN ↔
          BitSet (w.dbg.term .update) K.BGP_DEBUG_UPDATE_IN) ∧
        (BitSet (r2.world.dbg.term .update) K.BGP_DEBUG_UPDATE_OUT ↔
          BitSet (w.dbg.term .update) K.BGP_DEBUG_UPDATE_OUT)) := by
  have hl : list_new_if_null w.dbg.bgp_debug_update_prefixes = [] := by
    rcases hempty with h | h <;> rw [h] <;> rfl
  have hbits : ∀ m c : Nat, K.BGP_DEBUG_UPDATE_PREFIX &&& c = 0 →
      (BitSet (clearBits (m ||| K.BGP_DEBUG_UPDATE_PREFIX) K.BGP_DEBUG_UPDATE_PREFIX) c ↔
        BitSet m c) := fun m c h =>
    (bitSet_clearBits_iff_of_disjoint _ _ _ h).trans (bitSet_or_iff_of_disjoint _ _ _ h)
  cases node with
  | ENABLE_NODE =>
    simp only [ debug_bgp_update_prefix, no_debug_bgp_update_prefix, hx, hl,
      bgp_debug_list_has_entry, reduceCtorEq, if_false, Option.some_bind,
      bgp_debug_list_add_entry, TERM_DEBUG_ON, TERM_DEBUG_OFF, DebugState.modifyTerm,
      list_isempty, bgp_debug_list_remove_entry, List.nil_append, List.isEmpty_cons,
      List.isEmpty_nil, Bool.false_eq_true, decide_False, decide_True, if_true,
      prefix_match_self, and_self]
    refine ⟨_, rfl, rfl, ⟨rfl, rfl, rfl, rfl, rfl⟩, not_bitSet_clearBits_self _ _,
      not_bitSet_clearBits_self _ _, fun _ => rfl, ?_, ?_⟩
    · intro h _
      exact ⟨rfl, clearBits_or_of_not_bitSet _ _ h⟩
    · intro h1 h2
      exact ⟨Iff.rfl, Iff.rfl, hbits _ _ h1, hbits _ _ h2⟩
  | CONFIG_NODE =>
    simp only [ debug_bgp_update_prefix, no_debug_bgp_update_prefix, hx, hl,
      bgp_debug_list_has_entry, reduceCtorEq, if_false, Option.some_bind,
      bgp_debug_list_add_entry, DEBUG_ON, DEBUG_OFF, DebugState.modifyConf,
      DebugState.modifyTerm, list_isempty, bgp_debug_list_remove_entry, List.nil_append, List.isEmpty_cons,
      List.isEmpty_nil, Bool.false_eq_true, decide_False, decide_True, if_true,
      prefix_match_self, and_self]
    refine ⟨_, rfl, rfl, ⟨rfl, rfl, rfl, rfl, rfl⟩, not_bitSet_clearBits_self _ _,
      not_bitSet_clearBits_self _ _, fun h => absurd h (by decide), ?_, ?_⟩
    · intro h ht
      exact ⟨clearBits_or_of_not_bitSet _ _ h, clearBits_or_of_not_bitSet _ _ ht⟩
    · intro h1 h2
      exact ⟨hbits _ _ h1, hbits _ _ h2, hbits _ _ h1, hbits _ _ h2⟩

theorem update_prefix_add_remove_witness :
    (sampleEnv.str2prefix "10.0.0.0/8" = some ⟨2, 8, [10, 0, 0, 0]⟩ ∧
      NoEntries world0.dbg.bgp_debug_update_prefixes) ∧
    ∃ r2, ( debug_bgp_update_prefix sampleEnv sampleDebugConsts node_type.CONFIG_NODE
          "10.0.0.0/8" world0).bind
        (fun r1 => no_debug_bgp_update_prefix sampleEnv sampleDebugConsts node_type.CONFIG_NODE
          "10.0.0.0/8" r1.world) = some r2 ∧
      r2.world.dbg.bgp_debug_update_prefixes = some [] :=
  ⟨⟨rfl, Or.inl rfl⟩,
    let ⟨r2, h1, h2, _⟩ := update_prefix_add_remove sampleEnv sampleDebugConsts
      node_type.CONFIG_NODE "10.0.0.0/8" ⟨2, 8, [10, 0, 0, 0]⟩ world0 rfl (Or.inl rfl)
    ⟨r2, h1, h2⟩⟩

/-! ## The reference-count invariant: claim C18 -/

theorem remove_entry_spec (peer : Option Peer) (p : Option Prefix) (l : List bgp_debug_filter) :
    ∀ (lock : Peer → Nat) (found : Nat) (l2 : List bgp_debug_filter) (lock2 : Peer → Nat),
      bgp_debug_list_remove_entry peer p lock l = some (found, l2, lock2) →
      (∀ f ∈ l, NotBoth f) →
      (∀ q, l.countP (fun f => decide (f.peer = some q)) ≤ lock q) →
      (∀ f ∈ l2, f ∈ l) ∧
      ∀ q, lock2 q + l.countP (fun f => decide (f.peer = some q)) =
        lock q + l2.countP (fun f => decide (f.peer = some q)) := by
  induction l with
  | nil =>
    intro lock found l2 lock2 h _ _
    simp only [bgp_debug_list_remove_entry, Option.some.injEq, Prod.mk.injEq] at h
    obtain ⟨-, rfl, rfl⟩ := h
    exact ⟨fun f hf => hf, fun q => rfl⟩
  | cons f rest ih =>
    intro lock found l2 lock2 h hnb hle
    have hnb_rest : ∀ g ∈ rest, NotBoth g := fun g hg => hnb g (List.mem_cons_of_mem _ hg)
    have hle_rest : ∀ q, rest.countP (fun f => decide (f.peer = some q)) ≤ lock q := by
      intro q
      have := hle q
      rw [List.countP_cons] at this
      omega
    -- the two ways the scan goes on to the rest of the list
    have hrec : (bgp_debug_list_remove_entry peer p lock rest).map
          (fun r => (r.1, f :: r.2.1, r.2.2)) = some (found, l2, lock2) →
        (∀ g ∈ l2, g ∈ f :: rest) ∧
        ∀ q, lock2 q + (f :: rest).countP (fun f => decide (f.peer = some q)) =
          lock q + l2.countP (fun f => decide (f.peer = some q)) := by
      intro hmap
      cases hr : bgp_debug_list_remove_entry peer p lock rest with
      | none => simp [hr] at hmap
      | some r =>
        obtain ⟨fd, l3, lock3⟩ := r
        simp only [hr, Option.map_some', Option.some.injEq, Prod.mk.injEq] at hmap
        obtain ⟨-, rfl, rfl⟩ := hmap
        obtain ⟨hsub, hcnt⟩ := ih lock fd l3 lock3 hr hnb_rest hle_rest
        refine ⟨?_, ?_⟩
        · intro g hg
          rcases List.mem_cons.mp hg with rfl | hg
          · exact List.mem_cons_self _ _
          · exact List.mem_cons_of_mem _ (hsub g hg)
        · intro q
          have := hcnt q
          simp only [List.countP_cons]
          omega
    -- a prefix match removes an entry without a peer
    have hprefix : f.p ≠ none → found = 1 → l2 = rest → lock2 = lock →
        (∀ g ∈ l2, g ∈ f :: rest) ∧
        ∀ q, lock2 q + (f :: rest).countP (fun f => decide (f.peer = some q)) =
          lock q + l2.countP (fun f => decide (f.peer = some q)) := by
      intro hp _ h2 h3
      subst h2 h3
      have hpeer : f.peer = none := (hnb f (List.mem_cons_self _ _)).resolve_right hp
      refine ⟨fun g hg => List.mem_cons_of_mem _ hg, fun q => ?_⟩
      simp [List.countP_cons, hpeer]
    have htail : (match p with
        | none =>
          (bgp_debug_list_remove_entry peer p lock rest).map
            (fun r => (r.1, f :: r.2.1, r.2.2))
        | some q =>
          match f.p with
          | none => none
          | some fp =>
            if fp.prefixlen = q.prefixlen ∧ prefix_match fp q = true then some (1, rest, lock)
            else
              (bgp_debug_list_remove_entry peer p lock rest).map
                (fun r => (r.1, f :: r.2.1, r.2.2))) = some (found, l2, lock2) →
        (∀ g ∈ l2, g ∈ f :: rest) ∧
        ∀ q, lock2 q + (f :: rest).countP (fun f => decide (f.peer = some q)) =
          lock q + l2.countP (fun f => decide (f.peer = some q)) := by
      intro ht
      cases p with
      | none => exact hrec ht
      | some x =>
        cases hfp : f.p with
        | none => simp [hfp] at ht
        | some fp =>
          simp only [hfp] at ht
          by_cases hm : fp.prefixlen = x.prefixlen ∧ prefix_match fp x = true
          · rw [if_pos hm] at ht
            simp only [Option.some.injEq, Prod.mk.injEq] at ht
            obtain ⟨h1, h2, h3⟩ := ht
            exact hprefix (by simp [hfp]) h1.symm h2.symm h3.symm
          · rw [if_neg hm] at ht
            exact hrec ht
    cases peer with
    | none =>
      simp only [bgp_debug_list_remove_entry] at h
      exact htail h
    | some pr =>
      by_cases hpeer : f.peer = some pr
      · simp only [bgp_debug_list_remove_entry, hpeer, decide_True, Option.some.injEq,
          Prod.mk.injEq] at h
        obtain ⟨-, rfl, rfl⟩ := h
        refine ⟨fun g hg => List.mem_cons_of_mem _ hg, fun q => ?_⟩
        have h1 := hle pr
        simp only [List.countP_cons, hpeer, peer_unlock] at h1 ⊢
        by_cases hq : q = pr
        · subst hq
          simp at h1 ⊢
          omega
        · have : ¬ pr = q := fun h => hq h.symm
          simp [hq, this]
      · simp only [bgp_debug_list_remove_entry, hpeer, decide_False] at h
        exact htail h

theorem refInv_iff (L0 : Peer → Nat) (w : World) :
    RefInv L0 w ↔
      (EntriesNotBoth w.dbg.bgp_debug_neighbor_events_peers ∧
        EntriesNotBoth w.dbg.bgp_debug_keepalive_peers ∧
        EntriesNotBoth w.dbg.bgp_debug_update_in_peers ∧
        EntriesNotBoth w.dbg.bgp_debug_update_out_peers ∧
        EntriesNotBoth w.dbg.bgp_debug_update_prefixes ∧
        EntriesNotBoth w.dbg.bgp_debug_zebra_prefixes) ∧
      ∀ q, w.lock q = L0 q +
        (peerRefs q w.dbg.bgp_debug_neighbor_events_peers +
          peerRefs q w.dbg.bgp_debug_keepalive_peers +
          peerRefs q w.dbg.bgp_debug_update_in_peers +
          peerRefs q w.dbg.bgp_debug_update_out_peers +
          peerRefs q w.dbg.bgp_debug_update_prefixes +
          peerRefs q w.dbg.bgp_debug_zebra_prefixes) := by
  simp only [RefInv, DebugState.lists, DebugState.allRefs, EntriesNotBoth, List.mem_cons,
    List.mem_singleton, List.not_mem_nil, or_false, forall_eq_or_imp, forall_eq, List.map_cons,
    List.map_nil, List.sum_cons, List.sum_nil, Nat.add_zero, and_assoc, Nat.add_assoc]

theorem entriesNotBoth_free (list : FilterList) (lock : Peer → Nat) :
    EntriesNotBoth (bgp_debug_list_free list lock).1 := by
  intro l hl f hf
  cases list with
  | none => simp [bgp_debug_list_free] at hl
  | some l0 =>
    simp only [bgp_debug_list_free, Option.some.injEq] at hl
    subst hl
    simp at hf

theorem peerRefs_free (q : Peer) (list : FilterList) (lock : Peer → Nat) :
    peerRefs q (bgp_debug_list_free list lock).1 = 0 :=
  peerRefs_of_noEntries q _ (list_free_fst list lock)

theorem entriesNotBoth_new (list : FilterList) (h : EntriesNotBoth list) :
    EntriesNotBoth (some (list_new_if_null list)) := by
  intro l hl f hf
  cases list with
  | none =>
    simp only [list_new_if_null, Option.some.injEq] at hl
    subst hl
    simp at hf
  | some l0 =>
    simp only [list_new_if_null, Option.some.injEq] at hl
    subst hl
    exact h _ rfl f hf

theorem peerRefs_new (q : Peer) (list : FilterList) :
    peerRefs q (some (list_new_if_null list)) = peerRefs q list := by
  cases list <;> rfl

theorem entriesNotBoth_add (l : List bgp_debug_filter) (peer : Option Peer)
    (p : Option Prefix) (lock : Peer → Nat) (h : EntriesNotBoth (some l)) :
    EntriesNotBoth (some (bgp_debug_list_add_entry l peer p lock).1) := by
  intro l2 hl2 f hf
  simp only [Option.some.injEq] at hl2
  subst hl2
  cases peer with
  | some pr =>
    simp only [bgp_debug_list_add_entry, List.mem_append, List.mem_singleton] at hf
    rcases hf with hf | rfl
    · exact h _ rfl f hf
    · exact Or.inr rfl
  | none =>
    cases p with
    | some x =>
      simp only [bgp_debug_list_add_entry, List.mem_append, List.mem_singleton] at hf
      rcases hf with hf | rfl
      · exact h _ rfl f hf
      · exact Or.inl rfl
    | none =>
      simp only [bgp_debug_list_add_entry, List.mem_append, List.mem_singleton] at hf
      rcases hf with hf | rfl
      · exact h _ rfl f hf
      · exact Or.inl rfl

theorem add_entry_peer_refs (l : List bgp_debug_filter) (pr : Peer) (p : Option Prefix)
    (lock : Peer → Nat) (q : Peer) :
    peerRefs q (some (bgp_debug_list_add_entry l (some pr) p lock).1) =
        peerRefs q (some l) + (if q = pr then 1 else 0) ∧
      (bgp_debug_list_add_entry l (some pr) p lock).2 q = lock q + (if q = pr then 1 else 0) := by
  simp only [bgp_debug_list_add_entry, peerRefs, list_new_if_null, List.countP_append,
    peer_lock]
  by_cases hq : q = pr
  · subst hq
    simp
  · have : ¬ pr = q := fun h => hq h.symm
    simp [hq, this]

theorem add_entry_prefix_refs (l : List bgp_debug_filter) (x : Prefix)
    (lock : Peer → Nat) (q : Peer) :
    peerRefs q (some (bgp_debug_list_add_entry l none (some x) lock).1) = peerRefs q (some l) ∧
      (bgp_debug_list_add_entry l none (some x) lock).2 = lock := by
  simp [bgp_debug_list_add_entry, peerRefs, list_new_if_null, List.countP_append]

theorem remove_entry_refs (peer : Option Peer) (p : Option Prefix) (l : List bgp_debug_filter)
    (lock : Peer → Nat) (found : Nat) (l2 : List bgp_debug_filter) (lock2 : Peer → Nat)
    (h : bgp_debug_list_remove_entry peer p lock l = some (found, l2, lock2))
    (hnb : EntriesNotBoth (some l)) (hle : ∀ q, peerRefs q (some l) ≤ lock q) :
    EntriesNotBoth (some l2) ∧
      ∀ q, lock2 q + peerRefs q (some l) = lock q + peerRefs q (some l2) := by
  obtain ⟨hsub, hcnt⟩ := remove_entry_spec peer p l lock found l2 lock2 h (hnb l rfl) hle
  refine ⟨?_, hcnt⟩
  intro l3 hl3 f hf
  simp only [Option.some.injEq] at hl3
  subst hl3
  exact hnb l rfl f (hsub f hf)

theorem add_entry_peer_refs_fst (l : List bgp_debug_filter) (pr : Peer) (p : Option Prefix)
    (lock : Peer → Nat) (q : Peer) :
    peerRefs q (some (bgp_debug_list_add_entry l (some pr) p lock).1) =
      peerRefs q (some l) + (if q = pr then 1 else 0) :=
  (add_entry_peer_refs l pr p lock q).1

theorem add_entry_peer_refs_snd (l : List bgp_debug_filter) (pr : Peer) (p : Option Prefix)
    (lock : Peer → Nat) (q : Peer) :
    (bgp_debug_list_add_entry l (some pr) p lock).2 q = lock q + (if q = pr then 1 else 0) :=
  (add_entry_peer_refs l pr p lock q).2

theorem add_entry_prefix_refs_fst (l : List bgp_debug_filter) (x : Prefix)
    (lock : Peer → Nat) (q : Peer) :
    peerRefs q (some (bgp_debug_list_add_entry l none (some x) lock).1) = peerRefs q (some l) :=
  (add_entry_prefix_refs l x lock q).1

theorem add_entry_prefix_refs_snd (l : List bgp_debug_filter) (x : Prefix)
    (lock : Peer → Nat) :
    (bgp_debug_list_add_entry l none (some x) lock).2 = lock :=
  (add_entry_prefix_refs l x lock 0).2

theorem neighbor_events_peer_preserves (E : Collab) (K : DebugConsts) (L0 : Peer → Nat)
    (node : node_type) (a : String) (w : World) (r : CmdResult) (hinv : RefInv L0 w)
    (h : debug_bgp_neighbor_events_peer E K node a w = some r) : RefInv L0 r.world := by
  rw [refInv_iff] at hinv ⊢
  obtain ⟨⟨n1, n2, n3, n4, n5, n6⟩, hlock⟩ := hinv
  simp only [debug_bgp_neighbor_events_peer, has_entry_peer] at h
  cases node <;> (repeat' split at h) <;>
    simp only [Option.some.injEq, reduceCtorEq] at h <;> subst h <;>
    (try simp only [TERM_DEBUG_ON, DEBUG_ON, TERM_DEBUG_OFF, DEBUG_OFF, DebugState.modifyTerm,
      DebugState.modifyConf]) <;>
    refine ⟨⟨?_, ?_, ?_, ?_, ?_, ?_⟩, fun q => ?_⟩ <;>
    first
    | assumption
    | exact hlock q
    | exact entriesNotBoth_new _ ‹_›
    | exact entriesNotBoth_add _ _ _ _ (entriesNotBoth_new _ ‹_›)
    | (have hq0 := hlock q
       simp only [add_entry_peer_refs_fst, add_entry_peer_refs_snd, add_entry_prefix_refs_fst,
         add_entry_prefix_refs_snd, peerRefs_new]
       split_ifs <;> omega)

theorem keepalive_peer_preserves (E : Collab) (K : DebugConsts) (L0 : Peer → Nat)
    (node : node_type) (a : String) (w : World) (r : CmdResult) (hinv : RefInv L0 w)
    (h : debug_bgp_keepalive_peer E K node a w = some r) : RefInv L0 r.world := by
  rw [refInv_iff] at hinv ⊢
  obtain ⟨⟨n1, n2, n3, n4, n5, n6⟩, hlock⟩ := hinv
  simp only [debug_bgp_keepalive_peer, has_entry_peer] at h
  cases node <;> (repeat' split at h) <;>
    simp only [Option.some.injEq, reduceCtorEq] at h <;> subst h <;>
    (try simp only [TERM_DEBUG_ON, DEBUG_ON, TERM_DEBUG_OFF, DEBUG_OFF, DebugState.modifyTerm,
      DebugState.modifyConf]) <;>
    refine ⟨⟨?_, ?_, ?_, ?_, ?_, ?_⟩, fun q => ?_⟩ <;>
    first
    | assumption
    | exact hlock q
    | exact entriesNotBoth_new _ ‹_›
    | exact entriesNotBoth_add _ _ _ _ (entriesNotBoth_new _ ‹_›)
    | (have hq0 := hlock q
       simp only [add_entry_peer_refs_fst, add_entry_peer_refs_snd, add_entry_prefix_refs_fst,
         add_entry_prefix_refs_snd, peerRefs_new]
       split_ifs <;> omega)

theorem update_direct_peer_preserves (E : Collab) (K : DebugConsts) (L0 : Peer → Nat)
    (node : node_type) (a b : String) (w : World) (r : CmdResult) (hinv : RefInv L0 w)
    (h : debug_bgp_update_direct_peer E K node a b w = some r) : RefInv L0 r.world := by
  rw [refInv_iff] at hinv ⊢
  obtain ⟨⟨n1, n2, n3, n4, n5, n6⟩, hlock⟩ := hinv
  simp only [debug_bgp_update_direct_peer, has_entry_peer] at h
  cases node <;> (repeat' split at h) <;>
    simp only [Option.some.injEq, reduceCtorEq] at h <;> subst h <;>
    (try simp only [TERM_DEBUG_ON, DEBUG_ON, TERM_DEBUG_OFF, DEBUG_OFF, DebugState.modifyTerm,
      DebugState.modifyConf]) <;>
    refine ⟨⟨?_, ?_, ?_, ?_, ?_, ?_⟩, fun q => ?_⟩ <;>
    first
    | assumption
    | exact hlock q
    | exact entriesNotBoth_new _ ‹_›
    | exact entriesNotBoth_add _ _ _ _ (entriesNotBoth_new _ ‹_›)
    | (have hq0 := hlock q
       simp only [add_entry_peer_refs_fst, add_entry_peer_refs_snd, add_entry_prefix_refs_fst,
         add_entry_prefix_refs_snd, peerRefs_new]
       split_ifs <;> omega)

theorem update_prefix_cmd_preserves (E : Collab) (K : DebugConsts) (L0 : Peer → Nat)
    (node : node_type) (a : String) (w : World) (r : CmdResult) (hinv : RefInv L0 w)
    (h : debug_bgp_update_prefix E K node a w = some r) : RefInv L0 r.world := by
  rw [refInv_iff] at hinv ⊢
  obtain ⟨⟨n1, n2, n3, n4, n5, n6⟩, hlock⟩ := hinv
  simp only [ debug_bgp_update_prefix, has_entry_peer] at h
  cases node <;> (repeat' split at h) <;>
    simp only [Option.some.injEq, reduceCtorEq] at h <;> subst h <;>
    (try simp only [TERM_DEBUG_ON, DEBUG_ON, TERM_DEBUG_OFF, DEBUG_OFF, DebugState.modifyTerm,
      DebugState.modifyConf]) <;>
    refine ⟨⟨?_, ?_, ?_, ?_, ?_, ?_⟩, fun q => ?_⟩ <;>
    first
    | assumption
    | exact hlock q
    | exact entriesNotBoth_new _ ‹_›
    | exact entriesNotBoth_add _ _ _ _ (entriesNotBoth_new _ ‹_›)
    | (have hq0 := hlock q
       simp only [add_entry_peer_refs_fst, add_entry_peer_refs_snd, add_entry_prefix_refs_fst,
         add_entry_prefix_refs_snd, peerRefs_new]
       omega)

theorem zebra_prefix_cmd_preserves (E : Collab) (K : DebugConsts) (L0 : Peer → Nat)
    (node : node_type) (a : String) (w : World) (r : CmdResult) (hinv : RefInv L0 w)
    (h : debug_bgp_zebra_prefix E K node a w = some r) : RefInv L0 r.world := by
  rw [refInv_iff] at hinv ⊢
  obtain ⟨⟨n1, n2, n3, n4, n5, n6⟩, hlock⟩ := hinv
  simp only [ debug_bgp_zebra_prefix, has_entry_peer] at h
  cases node <;> (repeat' split at h) <;>
    simp only [Option.some.injEq, reduceCtorEq] at h <;> subst h <;>
    (try simp only [TERM_DEBUG_ON, DEBUG_ON, TERM_DEBUG_OFF, DEBUG_OFF, DebugState.modifyTerm,
      DebugState.modifyConf]) <;>
    refine ⟨⟨?_, ?_, ?_, ?_, ?_, ?_⟩, fun q => ?_⟩ <;>
    first
    | assumption
    | exact hlock q
    | exact entriesNotBoth_new _ ‹_›
    | exact entriesNotBoth_add _ _ _ _ (entriesNotBoth_new _ ‹_›)
    | (have hq0 := hlock q
       simp only [add_entry_peer_refs_fst, add_entry_peer_refs_snd, add_entry_prefix_refs_fst,
         add_entry_prefix_refs_snd, peerRefs_new]
       omega)

theorem no_neighbor_events_peer_preserves (E : Collab) (K : DebugConsts) (L0 : Peer → Nat)
    (node : node_type) (a : String) (w : World) (r : CmdResult) (hinv : RefInv L0 w)
    (h : no_debug_bgp_neighbor_events_peer E K node a w = some r) : RefInv L0 r.world := by
  rw [refInv_iff] at hinv ⊢
  obtain ⟨⟨n1, n2, n3, n4, n5, n6⟩, hlock⟩ := hinv
  simp only [no_debug_bgp_neighbor_events_peer] at h
  split at h
  · simp only [Option.some.injEq] at h
    subst h
    exact ⟨⟨n1, n2, n3, n4, n5, n6⟩, hlock⟩
  · split at h
    · simp only [Option.some.injEq] at h
      subst h
      exact ⟨⟨n1, n2, n3, n4, n5, n6⟩, hlock⟩
    · rename_i l hl
      split at h
      · simp only [Option.some.injEq] at h
        subst h
        exact ⟨⟨n1, n2, n3, n4, n5, n6⟩, hlock⟩
      · split at h
        · exact absurd h (by simp)
        · rename_i found l2 lock2 hrem
          have hle : ∀ q, peerRefs q (some l) ≤ w.lock q := by
            intro q
            have := hlock q
            rw [hl] at this
            omega
          rw [hl] at n1
          obtain ⟨hnb2, hcnt⟩ := remove_entry_refs _ _ _ _ _ _ _ hrem n1 hle
          simp only [Option.some.injEq] at h
          subst h
          cases node <;> split_ifs <;>
            (try simp only [TERM_DEBUG_OFF, DEBUG_OFF, DebugState.modifyTerm,
              DebugState.modifyConf]) <;>
            refine ⟨⟨?_, ?_, ?_, ?_, ?_, ?_⟩, fun q => ?_⟩ <;>
            first
            | assumption
            | (have h1 := hlock q
               have h2 := hcnt q
               rw [hl] at h1
               omega)

theorem no_keepalive_peer_preserves (E : Collab) (K : DebugConsts) (L0 : Peer → Nat)
    (node : node_type) (a : String) (w : World) (r : CmdResult) (hinv : RefInv L0 w)
    (h : no_debug_bgp_keepalive_peer E K node a w = some r) : RefInv L0 r.world := by
  rw [refInv_iff] at hinv ⊢
  obtain ⟨⟨n1, n2, n3, n4, n5, n6⟩, hlock⟩ := hinv
  simp only [no_debug_bgp_keepalive_peer] at h
  split at h
  · simp only [Option.some.injEq] at h
    subst h
    exact ⟨⟨n1, n2, n3, n4, n5, n6⟩, hlock⟩
  · split at h
    · simp only [Option.some.injEq] at h
      subst h
      exact ⟨⟨n1, n2, n3, n4, n5, n6⟩, hlock⟩
    · rename_i l hl
      split at h
      · simp only [Option.some.injEq] at h
        subst h
        exact ⟨⟨n1, n2, n3, n4, n5, n6⟩, hlock⟩
      · split at h
        · exact absurd h (by simp)
        · rename_i found l2 lock2 hrem
          have hle : ∀ q, peerRefs q (some l) ≤ w.lock q := by
            intro q
            have := hlock q
            rw [hl] at this
            omega
          rw [hl] at n2
          obtain ⟨hnb2, hcnt⟩ := remove_entry_refs _ _ _ _ _ _ _ hrem n2 hle
          simp only [Option.some.injEq] at h
          subst h
          cases node <;> split_ifs <;>
            (try simp only [TERM_DEBUG_OFF, DEBUG_OFF, DebugState.modifyTerm,
              DebugState.modifyConf]) <;>
            refine ⟨⟨?_, ?_, ?_, ?_, ?_, ?_⟩, fun q => ?_⟩ <;>
            first
            | assumption
            | (have h1 := hlock q
               have h2 := hcnt q
               rw [hl] at h1
               omega)

theorem no_update_prefix_cmd_preserves (E : Collab) (K : DebugConsts) (L0 : Peer → Nat)
    (node : node_type) (a : String) (w : World) (r : CmdResult) (hinv : RefInv L0 w)
    (h : no_debug_bgp_update_prefix E K node a w = some r) : RefInv L0 r.world := by
  rw [refInv_iff] at hinv ⊢
  obtain ⟨⟨n1, n2, n3, n4, n5, n6⟩, hlock⟩ := hinv
  simp only [ no_debug_bgp_update_prefix] at h
  split at h
  · simp only [Option.some.injEq] at h
    subst h
    exact ⟨⟨n1, n2, n3, n4, n5, n6⟩, hlock⟩
  · split at h
    · simp only [Option.some.injEq] at h
      subst h
      exact ⟨⟨n1, n2, n3, n4, n5, n6⟩, hlock⟩
    · rename_i l hl
      split at h
      · simp only [Option.some.injEq] at h
        subst h
        exact ⟨⟨n1, n2, n3, n4, n5, n6⟩, hlock⟩
      · split at h
        · exact absurd h (by simp)
        · rename_i found l2 lock2 hrem
          have hle : ∀ q, peerRefs q (some l) ≤ w.lock q := by
            intro q
            have := hlock q
            rw [hl] at this
            omega
          rw [hl] at n5
          obtain ⟨hnb2, hcnt⟩ := remove_entry_refs _ _ _ _ _ _ _ hrem n5 hle
          simp only [Option.some.injEq] at h
          subst h
          cases node <;> split_ifs <;>
            (try simp only [TERM_DEBUG_OFF, DEBUG_OFF, DebugState.modifyTerm,
              DebugState.modifyConf]) <;>
            refine ⟨⟨?_, ?_, ?_, ?_, ?_, ?_⟩, fun q => ?_⟩ <;>
            first
            | assumption
            | (have h1 := hlock q
               have h2 := hcnt q
               rw [hl] at h1
               omega)

theorem no_update_direct_peer_preserves (E : Collab) (K : DebugConsts) (L0 : Peer → Nat)
    (node : node_type) (a b : String) (w : World) (r : CmdResult) (hinv : RefInv L0 w)
    (h : no_debug_bgp_update_direct_peer E K node a b w = some r) : RefInv L0 r.world := by
  rw [refInv_iff] at hinv ⊢
  obtain ⟨⟨n1, n2, n3, n4, n5, n6⟩, hlock⟩ := hinv
  simp only [no_debug_bgp_update_direct_peer] at h
  split at h
  · simp only [Option.some.injEq] at h
    subst h
    exact ⟨⟨n1, n2, n3, n4, n5, n6⟩, hlock⟩
  · split at h
    · split at h
      · simp only [Option.some.injEq] at h
        subst h
        exact ⟨⟨n1, n2, n3, n4, n5, n6⟩, hlock⟩
      · rename_i l hl
        split at h
        · simp only [Option.some.injEq] at h
          subst h
          exact ⟨⟨n1, n2, n3, n4, n5, n6⟩, hlock⟩
        · split at h
          · exact absurd h (by simp)
          · rename_i found l2 lock2 hrem
            have hle : ∀ q, peerRefs q (some l) ≤ w.lock q := by
              intro q
              have := hlock q
              rw [hl] at this
              omega
            rw [hl] at n3
            obtain ⟨hnb2, hcnt⟩ := remove_entry_refs _ _ _ _ _ _ _ hrem n3 hle
            simp only [Option.some.injEq] at h
            subst h
            cases node <;> split_ifs <;>
              (try simp only [TERM_DEBUG_OFF, DEBUG_OFF, DebugState.modifyTerm,
                DebugState.modifyConf]) <;>
              refine ⟨⟨?_, ?_, ?_, ?_, ?_, ?_⟩, fun q => ?_⟩ <;>
              first
              | assumption
              | (have h1 := hlock q
                 have h2 := hcnt q
                 rw [hl] at h1
                 omega)
    · split at h
      · simp only [Option.some.injEq] at h
        subst h
        exact ⟨⟨n1, n2, n3, n4, n5, n6⟩, hlock⟩
      · rename_i l hl
        split at h
        · simp only [Option.some.injEq] at h
          subst h
          exact ⟨⟨n1, n2, n3, n4, n5, n6⟩, hlock⟩
        · split at h
          · exact absurd h (by simp)
          · rename_i found l2 lock2 hrem
            have hle : ∀ q, peerRefs q (some l) ≤ w.lock q := by
              intro q
              have := hlock q
              rw [hl] at this
              omega
            rw [hl] at n4
            obtain ⟨hnb2, hcnt⟩ := remove_entry_refs _ _ _ _ _ _ _ hrem n4 hle
            simp only [Option.some.injEq] at h
            subst h
            cases node <;> split_ifs <;>
              (try simp only [TERM_DEBUG_OFF, DEBUG_OFF, DebugState.modifyTerm,
                DebugState.modifyConf]) <;>
              refine ⟨⟨?_, ?_, ?_, ?_, ?_, ?_⟩, fun q => ?_⟩ <;>
              first
              | assumption
              | (have h1 := hlock q
                 have h2 := hcnt q
                 rw [hl] at h1
                 omega)

theorem no_zebra_prefix_cmd_preserves (E : Collab) (K : DebugConsts) (L0 : Peer → Nat)
    (node : node_type) (a : String) (w : World) (r : CmdResult) (hinv : RefInv L0 w)
    (h : no_debug_bgp_zebra_prefix E K node a w = some r) : RefInv L0 r.world := by
  rw [refInv_iff] at hinv ⊢
  obtain ⟨⟨n1, n2, n3, n4, n5, n6⟩, hlock⟩ := hinv
  simp only [ no_debug_bgp_zebra_prefix] at h
  split at h
  · simp only [Option.some.injEq] at h
    subst h
    exact ⟨⟨n1, n2, n3, n4, n5, n6⟩, hlock⟩
  · split at h
    · simp only [Option.some.injEq] at h
      subst h
      exact ⟨⟨n1, n2, n3, n4, n5, n6⟩, hlock⟩
    · split at h
      · simp only [Option.some.injEq] at h
        subst h
        exact ⟨⟨n1, n2, n3, n4, n5, n6⟩, hlock⟩
      · split at h
        · exact absurd h (by simp)
        · rename_i l hl
          split at h
          · exact absurd h (by simp)
          · rename_i found l2 lock2 hrem
            have hle : ∀ q, peerRefs q (some l) ≤ w.lock q := by
              intro q
              have := hlock q
              rw [hl] at this
              omega
            rw [hl] at n1
            obtain ⟨hnb2, hcnt⟩ := remove_entry_refs _ _ _ _ _ _ _ hrem n1 hle
            simp only [Option.some.injEq] at h
            subst h
            cases node <;> split_ifs <;>
              (try simp only [TERM_DEBUG_OFF, DEBUG_OFF, DebugState.modifyTerm,
                DebugState.modifyConf]) <;>
              refine ⟨⟨?_, ?_, ?_, ?_, ?_, ?_⟩, fun q => ?_⟩ <;>
              first
              | assumption
              | (have h1 := hlock q
                 have h2 := hcnt q
                 rw [hl] at h1
                 omega)

/-- Every command that returns keeps the reference-count invariant. -/
theorem exec_preserves_refInv (E : Collab) (K : DebugConsts) (L0 : Peer → Nat) (c : Command)
    (node : node_type) (w : World) (r : CmdResult) (hinv : RefInv L0 w)
    (h : exec E K c node w = some r) : RefInv L0 r.world := by
  cases c
  case debug_bgp_neighbor_events_peer_cmd a =>
    exact neighbor_events_peer_preserves E K L0 node a w r hinv h
  case no_debug_bgp_neighbor_events_peer_cmd a =>
    exact no_neighbor_events_peer_preserves E K L0 node a w r hinv h
  case debug_bgp_keepalive_peer_cmd a =>
    exact keepalive_peer_preserves E K L0 node a w r hinv h
  case no_debug_bgp_keepalive_peer_cmd a =>
    exact no_keepalive_peer_preserves E K L0 node a w r hinv h
  case debug_bgp_update_direct_peer_cmd a b =>
    exact update_direct_peer_preserves E K L0 node a b w r hinv h
  case no_debug_bgp_update_direct_peer_cmd a b =>
    exact no_update_direct_peer_preserves E K L0 node a b w r hinv h
  case debug_bgp_update_prefix_cmd a =>
    exact update_prefix_cmd_preserves E K L0 node a w r hinv h
  case no_debug_bgp_update_prefix_cmd a =>
    exact no_update_prefix_cmd_preserves E K L0 node a w r hinv h
  case debug_bgp_zebra_prefix_cmd a =>
    exact zebra_prefix_cmd_preserves E K L0 node a w r hinv h
  case no_debug_bgp_zebra_prefix_cmd a =>
    exact no_zebra_prefix_cmd_preserves E K L0 node a w r hinv h
  all_goals
    rw [refInv_iff] at hinv ⊢
    obtain ⟨⟨n1, n2, n3, n4, n5, n6⟩, hlock⟩ := hinv
    simp only [exec, Option.some.injEq] at h
    subst h
    cases node <;>
    simp only [reduceCtorEq, if_true, if_false,
      debug_bgp_as4, no_debug_bgp_as4, debug_bgp_as4_segment, no_debug_bgp_as4_segment,
      debug_bgp_neighbor_events, no_debug_bgp_neighbor_events, debug_bgp_nht, no_debug_bgp_nht,
      debug_bgp_keepalive, no_debug_bgp_keepalive, debug_bgp_update, debug_bgp_update_direct,
      no_debug_bgp_update, debug_bgp_zebra, no_debug_bgp_zebra, no_debug_bgp,
      TERM_DEBUG_ON, TERM_DEBUG_OFF, DEBUG_ON, DEBUG_OFF, modifyTerm_list_fields,
      modifyConf_list_fields] <;>
    (try split_ifs) <;>
    refine ⟨⟨?_, ?_, ?_, ?_, ?_, ?_⟩, fun q => ?_⟩ <;>
    first
    | assumption
    | exact hlock q
    | exact entriesNotBoth_free _ _
    | (have hq0 := hlock q
       simp only [list_free_snd, peerRefs_free]
       omega)

/-- Every reachable state satisfies the reference-count invariant. -/
theorem reachable_refInv (K : DebugConsts) (L0 : Peer → Nat) (w : World)
    (h : Reachable K L0 w) : RefInv L0 w := by
  induction h with
  | init =>
    rw [refInv_iff]
    refine ⟨⟨?_, ?_, ?_, ?_, ?_, ?_⟩, fun q => ?_⟩ <;>
      first
      | (intro l hl; exact absurd hl (by simp [DebugState.init]))
      | simp [DebugState.init, peerRefs, list_new_if_null]
  | step E c node w r _ _ hexec ih => exact exec_preserves_refInv E K L0 c node w r ih hexec

/-- A sequence of installed commands that returns leads from a reachable state to a
reachable state. -/
theorem reachable_of_execAll (E : Collab) (K : DebugConsts) (L0 : Peer → Nat)
    (cs : List (Command × node_type)) :
    ∀ (w0 w : World), Reachable K L0 w0 → (∀ c ∈ cs, installed c.1 c.2 = true) →
      execAll E K cs w0 = some w → Reachable K L0 w := by
  induction cs with
  | nil =>
    intro w0 w h0 _ h
    simp only [execAll, Option.some.injEq] at h
    exact h ▸ h0
  | cons c cs ih =>
    intro w0 w h0 hinst h
    obtain ⟨c, node⟩ := c
    simp only [execAll] at h
    split at h
    · exact absurd h (by simp)
    · rename_i r hr
      exact ih r.world w
        (Reachable.step E c node w0 r h0 (hinst (c, node) (List.mem_cons_self _ _)) hr)
        (fun c2 hc2 => hinst c2 (List.mem_cons_of_mem _ hc2)) h

/-- C18: in every state reachable from the startup state, in which each neighbor `q`
has the reference count `L0 q`, by installed commands, the bare command `no debug bgp`
leaves every neighbor with its baseline reference count `L0 q`. -/
theorem no_debug_bgp_restores_refcounts (E : Collab) (K : DebugConsts) (L0 : Peer → Nat)
    (w : World) (h : Reachable K L0 w) : (no_debug_bgp E K w).world.lock = L0 := by
  have hinv := reachable_refInv K L0 w h
  rw [refInv_iff] at hinv
  obtain ⟨-, hlock⟩ := hinv
  funext q
  have := hlock q
  simp only [no_debug_bgp, TERM_DEBUG_OFF, DebugState.modifyTerm, list_free_snd]
  omega

theorem no_debug_bgp_restores_refcounts_witness :
    Reachable sampleDebugConsts (fun _ => 1) sampleWorld1 ∧
    sampleWorld1.lock 7 = 3 ∧
    (no_debug_bgp sampleEnv sampleDebugConsts sampleWorld1).world.lock = fun _ => 1 :=
  have hr : Reachable sampleDebugConsts (fun _ => 1) sampleWorld1 :=
    reachable_of_execAll sampleEnv sampleDebugConsts (fun _ => 1)
      [(Command.debug_bgp_neighbor_events_peer_cmd "swp1", node_type.ENABLE_NODE),
       (Command.debug_bgp_keepalive_peer_cmd "swp1", node_type.ENABLE_NODE)] world0 sampleWorld1
      Reachable.init (by decide) rfl
  ⟨hr, by decide,
    no_debug_bgp_restores_refcounts sampleEnv sampleDebugConsts (fun _ => 1) sampleWorld1 hr⟩

/-! ## The removal of a zebra prefix filter: claims C14 and C20 -/

/-- C14, evaluation: from the startup state, `debug bgp neighbor-events swp1` and
`no debug bgp neighbor-events swp1` leave the neighbor-events list allocated and empty;
after `debug bgp zebra prefix 10.0.0.0/8` the zebra list holds the one entry `10.0.0.0/8`;
then `no debug bgp zebra prefix 10.0.0.0/8` returns `CMD_SUCCESS`, prints that debugging
was not enabled for `10.0.0.0/8`, and the zebra list still holds the entry. -/
theorem no_debug_bgp_zebra_prefix_keeps_entry :
    (execAll sampleEnv sampleDebugConsts
      [(Command.debug_bgp_neighbor_events_peer_cmd "swp1", node_type.ENABLE_NODE),
       (Command.no_debug_bgp_neighbor_events_peer_cmd "swp1", node_type.ENABLE_NODE),
       (Command.debug_bgp_zebra_prefix_cmd "10.0.0.0/8", node_type.ENABLE_NODE)] world0).map
      (fun w => (w.dbg.bgp_debug_neighbor_events_peers, w.dbg.bgp_debug_zebra_prefixes)) =
      some (some [], some [⟨none, some ⟨2, 8, [10, 0, 0, 0]⟩⟩]) ∧
    (execAll sampleEnv sampleDebugConsts
      [(Command.debug_bgp_neighbor_events_peer_cmd "swp1", node_type.ENABLE_NODE),
       (Command.no_debug_bgp_neighbor_events_peer_cmd "swp1", node_type.ENABLE_NODE),
       (Command.debug_bgp_zebra_prefix_cmd "10.0.0.0/8", node_type.ENABLE_NODE)] world0).bind
      (fun w => (exec sampleEnv sampleDebugConsts
        (Command.no_debug_bgp_zebra_prefix_cmd "10.0.0.0/8") node_type.ENABLE_NODE w).map
        (fun r => (r.ret, r.out, r.world.dbg.bgp_debug_zebra_prefixes,
          r.world.dbg.term_bgp_debug_zebra))) =
      some (cmd_status.CMD_SUCCESS,
        ["BGP zebra debugging was not enabled for 10.0.0.0/8\n"],
        some [⟨none, some ⟨2, 8, [10, 0, 0, 0]⟩⟩],
        sampleDebugConsts.BGP_DEBUG_ZEBRA) := by
  decide

/-- C20, evaluation: from the startup state, after `debug bgp neighbor-events swp1`
and `debug bgp zebra prefix 10.0.0.0/8` the neighbor-events list holds the entry of the
neighbor (no prefix) and the zebra list holds `10.0.0.0/8` only; then
`no debug bgp zebra prefix 11.0.0.0/8`, whose key is not in the zebra list, reads the
prefix of the neighbor-events entry, which is `NULL`: it has no defined result. -/
theorem no_debug_bgp_zebra_prefix_absent_key_undefined :
    (execAll sampleEnv sampleDebugConsts
      [(Command.debug_bgp_neighbor_events_peer_cmd "swp1", node_type.ENABLE_NODE),
       (Command.debug_bgp_zebra_prefix_cmd "10.0.0.0/8", node_type.ENABLE_NODE)] world0).map
      (fun w => (w.dbg.bgp_debug_neighbor_events_peers, w.dbg.bgp_debug_zebra_prefixes)) =
      some (some [⟨some 7, none⟩], some [⟨none, some ⟨2, 8, [10, 0, 0, 0]⟩⟩]) ∧
    (execAll sampleEnv sampleDebugConsts
      [(Command.debug_bgp_neighbor_events_peer_cmd "swp1", node_type.ENABLE_NODE),
       (Command.debug_bgp_zebra_prefix_cmd "10.0.0.0/8", node_type.ENABLE_NODE)] world0).bind
      (fun w => (exec sampleEnv sampleDebugConsts
        (Command.no_debug_bgp_zebra_prefix_cmd "11.0.0.0/8") node_type.ENABLE_NODE w).map
        (fun r => r.ret)) = none := by
  decide

theorem remove_entry_absent_peer (q : Peer) (lock : Peer → Nat) (l : List bgp_debug_filter)
    (h : bgp_debug_list_has_entry (some q) none l = some false) :
    bgp_debug_list_remove_entry (some q) none lock l = some (0, l, lock) := by
  induction l with
  | nil => rfl
  | cons f rest ih =>
    by_cases hf : f.peer = some q
    · simp [bgp_debug_list_has_entry, hf] at h
    · simp only [bgp_debug_list_has_entry, hf, if_false] at h
      simp [bgp_debug_list_remove_entry, hf, ih h]

theorem remove_entry_absent_prefix (x : Prefix) (lock : Peer → Nat) (l : List bgp_debug_filter)
    (h : bgp_debug_list_has_entry none (some x) l = some false) :
    bgp_debug_list_remove_entry none (some x) lock l = some (0, l, lock) := by
  induction l with
  | nil => rfl
  | cons f rest ih =>
    cases hfp : f.p with
    | none => simp [bgp_debug_list_has_entry, hfp] at h
    | some fp =>
      simp only [bgp_debug_list_has_entry, hfp] at h
      by_cases hm : fp.prefixlen = x.prefixlen ∧ prefix_match fp x = true
      · simp [hm] at h
      · simp only [hm, if_false] at h
        simp [bgp_debug_list_remove_entry, hfp, hm, ih h]

/-- Removal with an absent key: each of the five removal commands that scan their own list
(neighbor-events, keepalive, updates inbound and outbound, update prefix), run with a key
that `bgp_debug_list_has_entry` does not find in that list, returns `CMD_SUCCESS`, prints
that debugging was not enabled for the key, and leaves the whole state as it was. -/
theorem absent_key_removal_own_list (E : Collab) (K : DebugConsts) (node : node_type)
    (dir arg : String) (w : World) :
    (∀ q, bgp_find_peer E arg = some q →
      bgp_debug_list_has_entry (some q) none
        (list_new_if_null w.dbg.bgp_debug_neighbor_events_peers) = some false →
      no_debug_bgp_neighbor_events_peer E K node arg w = some ⟨.CMD_SUCCESS, w,
        ["BGP neighbor-events debugging was not enabled for " ++ arg ++ E.VTY_NEWLINE]⟩) ∧
    (∀ q, bgp_find_peer E arg = some q →
      bgp_debug_list_has_entry (some q) none
        (list_new_if_null w.dbg.bgp_debug_keepalive_peers) = some false →
      no_debug_bgp_keepalive_peer E K node arg w = some ⟨.CMD_SUCCESS, w,
        ["BGP keepalives debugging was not enabled for " ++ arg ++ E.VTY_NEWLINE]⟩) ∧
    (∀ q, bgp_find_peer E arg = some q → strncmp_i dir = true →
      bgp_debug_list_has_entry (some q) none
        (list_new_if_null w.dbg.bgp_debug_update_in_peers) = some false →
      no_debug_bgp_update_direct_peer E K node dir arg w = some ⟨.CMD_SUCCESS, w,
        ["BGP updates debugging (inbound) was not enabled for " ++ arg ++ E.VTY_NEWLINE]⟩) ∧
    (∀ q, bgp_find_peer E arg = some q → ¬ strncmp_i dir = true →
      bgp_debug_list_has_entry (some q) none
        (list_new_if_null w.dbg.bgp_debug_update_out_peers) = some false →
      no_debug_bgp_update_direct_peer E K node dir arg w = some ⟨.CMD_SUCCESS, w,
        ["BGP updates debugging (outbound) was not enabled for " ++ arg ++ E.VTY_NEWLINE]⟩) ∧
    (∀ x, E.str2prefix arg = some x →
      bgp_debug_list_has_entry none (some x)
        (list_new_if_null w.dbg.bgp_debug_update_prefixes) = some false →
      no_debug_bgp_update_prefix E K node arg w = some ⟨.CMD_SUCCESS, w,
        ["BGP updates debugging was not enabled for " ++ arg ++ E.VTY_NEWLINE]⟩) := by
  refine ⟨?_, ?_, ?_, ?_, ?_⟩
  · intro q hq habs
    simp only [no_debug_bgp_neighbor_events_peer, hq]
    cases hl : w.dbg.bgp_debug_neighbor_events_peers with
    | none => rfl
    | some l =>
      rw [hl] at habs
      simp only [list_new_if_null] at habs
      by_cases he : list_isempty l = true
      · simp only [he, if_true]
      · obtain ⟨dbg, lock⟩ := w
        cases dbg
        simp only at hl
        subst hl
        simp [he, remove_entry_absent_peer q lock l habs]
  · intro q hq habs
    simp only [no_debug_bgp_keepalive_peer, hq]
    cases hl : w.dbg.bgp_debug_keepalive_peers with
    | none => rfl
    | some l =>
      rw [hl] at habs
      simp only [list_new_if_null] at habs
      by_cases he : list_isempty l = true
      · simp only [he, if_true]
      · obtain ⟨dbg, lock⟩ := w
        cases dbg
        simp only at hl
        subst hl
        simp [he, remove_entry_absent_peer q lock l habs]
  · intro q hq hd habs
    simp only [no_debug_bgp_update_direct_peer, hq, hd, if_true]
    cases hl : w.dbg.bgp_debug_update_in_peers with
    | none => rfl
    | some l =>
      rw [hl] at habs
      simp only [list_new_if_null] at habs
      by_cases he : list_isempty l = true
      · simp only [he, if_true]
      · obtain ⟨dbg, lock⟩ := w
        cases dbg
        simp only at hl
        subst hl
        simp [he, remove_entry_absent_peer q lock l habs]
  · intro q hq hd habs
    simp only [no_debug_bgp_update_direct_peer, hq, hd, Bool.false_eq_true, if_false]
    cases hl : w.dbg.bgp_debug_update_out_peers with
    | none => rfl
    | some l =>
      rw [hl] at habs
      simp only [list_new_if_null] at habs
      by_cases he : list_isempty l = true
      · simp only [he, if_true]
      · obtain ⟨dbg, lock⟩ := w
        cases dbg
        simp only at hl
        subst hl
        simp [he, remove_entry_absent_peer q lock l habs]
  · intro x hx habs
    simp only [ no_debug_bgp_update_prefix, hx]
    cases hl : w.dbg.bgp_debug_update_prefixes with
    | none => rfl
    | some l =>
      rw [hl] at habs
      simp only [list_new_if_null] at habs
      by_cases he : list_isempty l = true
      · simp only [he, if_true]
      · obtain ⟨dbg, lock⟩ := w
        cases dbg
        simp only at hl
        subst hl
        simp [he, remove_entry_absent_prefix x lock l habs]

theorem remove_entry_sublist (peer : Option Peer) (p : Option Prefix)
    (l : List bgp_debug_filter) :
    ∀ (lock : Peer → Nat) (found : Nat) (l2 : List bgp_debug_filter) (lock2 : Peer → Nat),
      bgp_debug_list_remove_entry peer p lock l = some (found, l2, lock2) →
      l2.Sublist l := by
  induction l with
  | nil =>
    intro lock found l2 lock2 h
    simp only [bgp_debug_list_remove_entry, Option.some.injEq, Prod.mk.injEq] at h
    obtain ⟨-, rfl, rfl⟩ := h
    exact List.Sublist.refl _
  | cons f rest ih =>
    intro lock found l2 lock2 h
    have hrec : (bgp_debug_list_remove_entry peer p lock rest).map
          (fun r => (r.1, f :: r.2.1, r.2.2)) = some (found, l2, lock2) →
        l2.Sublist (f :: rest) := by
      intro hmap
      cases hr : bgp_debug_list_remove_entry peer p lock rest with
      | none => simp [hr] at hmap
      | some r =>
        obtain ⟨fd, l3, lock3⟩ := r
        simp only [hr, Option.map_some', Option.some.injEq, Prod.mk.injEq] at hmap
        obtain ⟨-, rfl, rfl⟩ := hmap
        exact (ih lock fd l3 lock3 hr).cons₂ f
    simp only [bgp_debug_list_remove_entry] at h
    repeat' split at h
    all_goals
      first
      | exact hrec h
      | (simp only [Option.some.injEq, Prod.mk.injEq] at h
         obtain ⟨-, rfl, -⟩ := h
         exact List.sublist_cons_self _ _)
      | simp only [reduceCtorEq] at h

theorem remove_entry_peerRefs_le (peer : Option Peer) (p : Option Prefix)
    (l : List bgp_debug_filter) (lock : Peer → Nat) (found : Nat) (l2 : List bgp_debug_filter)
    (lock2 : Peer → Nat)
    (h : bgp_debug_list_remove_entry peer p lock l = some (found, l2, lock2)) (q : Peer) :
    peerRefs q (some l2) ≤ peerRefs q (some l) :=
  (remove_entry_sublist peer p l lock found l2 lock2 h).countP_le _

theorem neighbor_events_peer_atMostOnce (E : Collab) (K : DebugConsts)
    (node : node_type) (a : String) (w : World) (r : CmdResult) (hinv : AtMostOnce w.dbg)
    (h : debug_bgp_neighbor_events_peer E K node a w = some r) : AtMostOnce r.world.dbg := by
  cases hfind : bgp_find_peer E a with
  | none =>
    simp only [debug_bgp_neighbor_events_peer, hfind, Option.some.injEq] at h
    subst h
    exact hinv
  | some pr =>
    by_cases hany : (list_new_if_null w.dbg.bgp_debug_neighbor_events_peers).any
        (fun f => decide (f.peer = some pr)) = true
    · simp only [debug_bgp_neighbor_events_peer, hfind, has_entry_peer, hany, Option.some.injEq] at h
      subst h
      intro q
      have := hinv q
      simp only [peerRefs_new]
      exact this
    · have h0 : peerRefs pr w.dbg.bgp_debug_neighbor_events_peers = 0 :=
        countP_peer_zero_of_not_any pr _ hany
      simp only [debug_bgp_neighbor_events_peer, hfind, has_entry_peer, hany] at h
      cases node <;> simp only [reduceCtorEq, if_true, if_false, Option.some.injEq] at h <;>
        subst h <;> intro q <;> have := hinv q <;>
        simp only [TERM_DEBUG_ON, DEBUG_ON, TERM_DEBUG_OFF, DEBUG_OFF, DebugState.modifyTerm,
          DebugState.modifyConf, add_entry_peer_refs_fst, peerRefs_new] <;>
        by_cases hq : q = pr <;>
        first
        | (subst hq
           simp only [if_true]
           omega)
        | (simp only [hq, if_false]
           omega)

theorem keepalive_peer_atMostOnce (E : Collab) (K : DebugConsts)
    (node : node_type) (a : String) (w : World) (r : CmdResult) (hinv : AtMostOnce w.dbg)
    (h : debug_bgp_keepalive_peer E K node a w = some r) : AtMostOnce r.world.dbg := by
  cases hfind : bgp_find_peer E a with
  | none =>
    simp only [debug_bgp_keepalive_peer, hfind, Option.some.injEq] at h
    subst h
    exact hinv
  | some pr =>
    by_cases hany : (list_new_if_null w.dbg.bgp_debug_keepalive_peers).any
        (fun f => decide (f.peer = some pr)) = true
    · simp only [debug_bgp_keepalive_peer, hfind, has_entry_peer, hany, Option.some.injEq] at h
      subst h
      intro q
      have := hinv q
      simp only [peerRefs_new]
      exact this
    · have h0 : peerRefs pr w.dbg.bgp_debug_keepalive_peers = 0 :=
        countP_peer_zero_of_not_any pr _ hany
      simp only [debug_bgp_keepalive_peer, hfind, has_entry_peer, hany] at h
      cases node <;> simp only [reduceCtorEq, if_true, if_false, Option.some.injEq] at h <;>
        subst h <;> intro q <;> have := hinv q <;>
        simp only [TERM_DEBUG_ON, DEBUG_ON, TERM_DEBUG_OFF, DEBUG_OFF, DebugState.modifyTerm,
          DebugState.modifyConf, add_entry_peer_refs_fst, peerRefs_new] <;>
        by_cases hq : q = pr <;>
        first
        | (subst hq
           simp only [if_true]
           omega)
        | (simp only [hq, if_false]
           omega)

theorem update_direct_peer_atMostOnce (E : Collab) (K : DebugConsts)
    (node : node_type) (dir a : String) (w : World) (r : CmdResult) (hinv : AtMostOnce w.dbg)
    (h : debug_bgp_update_direct_peer E K node dir a w = some r) : AtMostOnce r.world.dbg := by
  cases hfind : bgp_find_peer E a with
  | none =>
    simp only [debug_bgp_update_direct_peer, hfind, Option.some.injEq] at h
    subst h
    exact hinv
  | some pr =>
    by_cases hd : strncmp_i dir = true
    · by_cases hany : (list_new_if_null w.dbg.bgp_debug_update_in_peers).any
          (fun f => decide (f.peer = some pr)) = true
      · simp only [debug_bgp_update_direct_peer, hfind, hd, if_true, has_entry_peer, hany,
          Option.some.injEq] at h
        subst h
        intro q
        have := hinv q
        simp only [peerRefs_new]
        exact this
      · have h0 : peerRefs pr w.dbg.bgp_debug_update_in_peers = 0 :=
          countP_peer_zero_of_not_any pr _ hany
        simp only [debug_bgp_update_direct_peer, hfind, hd, if_true, has_entry_peer, hany] at h
        cases node <;> simp only [reduceCtorEq, if_true, if_false, Option.some.injEq] at h <;>
          subst h <;> intro q <;> have := hinv q <;>
          simp only [TERM_DEBUG_ON, DEBUG_ON, TERM_DEBUG_OFF, DEBUG_OFF, DebugState.modifyTerm,
            DebugState.modifyConf, add_entry_peer_refs_fst, peerRefs_new] <;>
          by_cases hq : q = pr <;>
          first
          | (subst hq
             simp only [if_true]
             omega)
          | (simp only [hq, if_false]
             omega)
    · by_cases hany : (list_new_if_null w.dbg.bgp_debug_update_out_peers).any
          (fun f => decide (f.peer = some pr)) = true
      · simp only [debug_bgp_update_direct_peer, hfind, hd, Bool.false_eq_true, if_false, has_entry_peer, hany,
          Option.some.injEq] at h
        subst h
        intro q
        have := hinv q
        simp only [peerRefs_new]
        exact this
      · have h0 : peerRefs pr w.dbg.bgp_debug_update_out_peers = 0 :=
          countP_peer_zero_of_not_any pr _ hany
        simp only [debug_bgp_update_direct_peer, hfind, hd, Bool.false_eq_true, if_false, has_entry_peer, hany] at h
        cases node <;> simp only [reduceCtorEq, if_true, if_false, Option.some.injEq] at h <;>
          subst h <;> intro q <;> have := hinv q <;>
          simp only [TERM_DEBUG_ON, DEBUG_ON, TERM_DEBUG_OFF, DEBUG_OFF, DebugState.modifyTerm,
            DebugState.modifyConf, add_entry_peer_refs_fst, peerRefs_new] <;>
          by_cases hq : q = pr <;>
          first
          | (subst hq
             simp only [if_true]
             omega)
          | (simp only [hq, if_false]
             omega)

theorem update_prefix_cmd_atMostOnce (E : Collab) (K : DebugConsts)
    (node : node_type) (a : String) (w : World) (r : CmdResult) (hinv : AtMostOnce w.dbg)
    (h : debug_bgp_update_prefix E K node a w = some r) : AtMostOnce r.world.dbg := by
  simp only [ debug_bgp_update_prefix] at h
  cases node <;> (repeat' split at h) <;>
    simp only [Option.some.injEq, reduceCtorEq] at h <;> subst h <;>
    exact hinv

theorem zebra_prefix_cmd_atMostOnce (E : Collab) (K : DebugConsts)
    (node : node_type) (a : String) (w : World) (r : CmdResult) (hinv : AtMostOnce w.dbg)
    (h : debug_bgp_zebra_prefix E K node a w = some r) : AtMostOnce r.world.dbg := by
  simp only [ debug_bgp_zebra_prefix] at h
  cases node <;> (repeat' split at h) <;>
    simp only [Option.some.injEq, reduceCtorEq] at h <;> subst h <;>
    exact hinv

theorem no_neighbor_events_peer_atMostOnce (E : Collab) (K : DebugConsts)
    (node : node_type) (a : String) (w : World) (r : CmdResult) (hinv : AtMostOnce w.dbg)
    (h : no_debug_bgp_neighbor_events_peer E K node a w = some r) : AtMostOnce r.world.dbg := by
  simp only [ no_debug_bgp_neighbor_events_peer] at h
  split at h
  · simp only [Option.some.injEq] at h
    subst h
    exact hinv
  · split at h
    · simp only [Option.some.injEq] at h
      subst h
      exact hinv
    · rename_i l hl
      split at h
      · simp only [Option.some.injEq] at h
        subst h
        exact hinv
      · split at h
        · exact absurd h (by simp)
        · rename_i found l2 lock2 hrem
          have hle := remove_entry_peerRefs_le _ _ _ _ _ _ _ hrem
          simp only [Option.some.injEq] at h
          subst h
          intro q
          have h1 := hinv q
          have h2 := hle q
          rw [hl] at h1
          cases node <;> split_ifs <;>
            (try simp only [TERM_DEBUG_OFF, DEBUG_OFF, DebugState.modifyTerm,
              DebugState.modifyConf]) <;>
            first
            | exact h1
            | (refine ⟨?_, ?_, ?_, ?_⟩ <;> omega)

theorem no_keepalive_peer_atMostOnce (E : Collab) (K : DebugConsts)
    (node : node_type) (a : String) (w : World) (r : CmdResult) (hinv : AtMostOnce w.dbg)
    (h : no_debug_bgp_keepalive_peer E K node a w = some r) : AtMostOnce r.world.dbg := by
  simp only [ no_debug_bgp_keepalive_peer] at h
  split at h
  · simp only [Option.some.injEq] at h
    subst h
    exact hinv
  · split at h
    · simp only [Option.some.injEq] at h
      subst h
      exact hinv
    · rename_i l hl
      split at h
      · simp only [Option.some.injEq] at h
        subst h
        exact hinv
      · split at h
        · exact absurd h (by simp)
        · rename_i found l2 lock2 hrem
          have hle := remove_entry_peerRefs_le _ _ _ _ _ _ _ hrem
          simp only [Option.some.injEq] at h
          subst h
          intro q
          have h1 := hinv q
          have h2 := hle q
          rw [hl] at h1
          cases node <;> split_ifs <;>
            (try simp only [TERM_DEBUG_OFF, DEBUG_OFF, DebugState.modifyTerm,
              DebugState.modifyConf]) <;>
            first
            | exact h1
            | (refine ⟨?_, ?_, ?_, ?_⟩ <;> omega)

theorem no_update_prefix_cmd_atMostOnce (E : Collab) (K : DebugConsts)
    (node : node_type) (a : String) (w : World) (r : CmdResult) (hinv : AtMostOnce w.dbg)
    (h : no_debug_bgp_update_prefix E K node a w = some r) : AtMostOnce r.world.dbg := by
  simp only [ no_debug_bgp_update_prefix] at h
  split at h
  · simp only [Option.some.injEq] at h
    subst h
    exact hinv
  · split at h
    · simp only [Option.some.injEq] at h
      subst h
      exact hinv
    · rename_i l hl
      split at h
      · simp only [Option.some.injEq] at h
        subst h
        exact hinv
      · split at h
        · exact absurd h (by simp)
        · simp only [Option.some.injEq] at h
          subst h
          intro q
          have h1 := hinv q
          cases node <;> split_ifs <;>
            (try simp only [TERM_DEBUG_OFF, DEBUG_OFF, DebugState.modifyTerm,
              DebugState.modifyConf]) <;>
            exact h1

theorem no_update_direct_peer_atMostOnce (E : Collab) (K : DebugConsts)
    (node : node_type) (a b : String) (w : World) (r : CmdResult) (hinv : AtMostOnce w.dbg)
    (h : no_debug_bgp_update_direct_peer E K node a b w = some r) : AtMostOnce r.world.dbg := by
  simp only [ no_debug_bgp_update_direct_peer] at h
  split at h
  · simp only [Option.some.injEq] at h
    subst h
    exact hinv
  · split at h
    · split at h
      · simp only [Option.some.injEq] at h
        subst h
        exact hinv
      · rename_i l hl
        split at h
        · simp only [Option.some.injEq] at h
          subst h
          exact hinv
        · split at h
          · exact absurd h (by simp)
          · rename_i found l2 lock2 hrem
            have hle := remove_entry_peerRefs_le _ _ _ _ _ _ _ hrem
            simp only [Option.some.injEq] at h
            subst h
            intro q
            have h1 := hinv q
            have h2 := hle q
            rw [hl] at h1
            cases node <;> split_ifs <;>
              (try simp only [TERM_DEBUG_OFF, DEBUG_OFF, DebugState.modifyTerm,
                DebugState.modifyConf]) <;>
              first
              | exact h1
              | (refine ⟨?_, ?_, ?_, ?_⟩ <;> omega)
    · split at h
      · simp only [Option.some.injEq] at h
        subst h
        exact hinv
      · rename_i l hl
        split at h
        · simp only [Option.some.injEq] at h
          subst h
          exact hinv
        · split at h
          · exact absurd h (by simp)
          · rename_i found l2 lock2 hrem
            have hle := remove_entry_peerRefs_le _ _ _ _ _ _ _ hrem
            simp only [Option.some.injEq] at h
            subst h
            intro q
            have h1 := hinv q
            have h2 := hle q
            rw [hl] at h1
            cases node <;> split_ifs <;>
              (try simp only [TERM_DEBUG_OFF, DEBUG_OFF, DebugState.modifyTerm,
                DebugState.modifyConf]) <;>
              first
              | exact h1
              | (refine ⟨?_, ?_, ?_, ?_⟩ <;> omega)

theorem no_zebra_prefix_cmd_atMostOnce (E : Collab) (K : DebugConsts)
    (node : node_type) (a : String) (w : World) (r : CmdResult) (hinv : AtMostOnce w.dbg)
    (h : no_debug_bgp_zebra_prefix E K node a w = some r) : AtMostOnce r.world.dbg := by
  simp only [ no_debug_bgp_zebra_prefix] at h
  split at h
  · simp only [Option.some.injEq] at h
    subst h
    exact hinv
  · split at h
    · simp only [Option.some.injEq] at h
      subst h
      exact hinv
    · split at h
      · simp only [Option.some.injEq] at h
        subst h
        exact hinv
      · split at h
        · exact absurd h (by simp)
        · rename_i l hl
          split at h
          · exact absurd h (by simp)
          · rename_i found l2 lock2 hrem
            have hle := remove_entry_peerRefs_le _ _ _ _ _ _ _ hrem
            simp only [Option.some.injEq] at h
            subst h
            intro q
            have h1 := hinv q
            have h2 := hle q
            rw [hl] at h1
            cases node <;> split_ifs <;>
              (try simp only [TERM_DEBUG_OFF, DEBUG_OFF, DebugState.modifyTerm,
                DebugState.modifyConf]) <;>
              first
              | exact h1
              | (refine ⟨?_, ?_, ?_, ?_⟩ <;> omega)

/-- Every command that returns keeps each neighbor at most once in each neighbor list. -/
theorem exec_preserves_atMostOnce (E : Collab) (K : DebugConsts) (c : Command)
    (node : node_type) (w : World) (r : CmdResult) (hinv : AtMostOnce w.dbg)
    (h : exec E K c node w = some r) : AtMostOnce r.world.dbg := by
  cases c
  case debug_bgp_neighbor_events_peer_cmd a =>
    exact neighbor_events_peer_atMostOnce E K node a w r hinv h
  case no_debug_bgp_neighbor_events_peer_cmd a =>
    exact no_neighbor_events_peer_atMostOnce E K node a w r hinv h
  case debug_bgp_keepalive_peer_cmd a =>
    exact keepalive_peer_atMostOnce E K node a w r hinv h
  case no_debug_bgp_keepalive_peer_cmd a =>
    exact no_keepalive_peer_atMostOnce E K node a w r hinv h
  case debug_bgp_update_direct_peer_cmd a b =>
    exact update_direct_peer_atMostOnce E K node a b w r hinv h
  case no_debug_bgp_update_direct_peer_cmd a b =>
    exact no_update_direct_peer_atMostOnce E K node a b w r hinv h
  case debug_bgp_update_prefix_cmd a =>
    exact update_prefix_cmd_atMostOnce E K node a w r hinv h
  case no_debug_bgp_update_prefix_cmd a =>
    exact no_update_prefix_cmd_atMostOnce E K node a w r hinv h
  case debug_bgp_zebra_prefix_cmd a =>
    exact zebra_prefix_cmd_atMostOnce E K node a w r hinv h
  case no_debug_bgp_zebra_prefix_cmd a =>
    exact no_zebra_prefix_cmd_atMostOnce E K node a w r hinv h
  all_goals
    simp only [exec, Option.some.injEq] at h
    subst h
    intro q
    have := hinv q
    cases node <;>
    simp only [reduceCtorEq, if_true, if_false,
      debug_bgp_as4, no_debug_bgp_as4, debug_bgp_as4_segment, no_debug_bgp_as4_segment,
      debug_bgp_neighbor_events, no_debug_bgp_neighbor_events, debug_bgp_nht, no_debug_bgp_nht,
      debug_bgp_keepalive, no_debug_bgp_keepalive, debug_bgp_update, debug_bgp_update_direct,
      no_debug_bgp_update, debug_bgp_zebra, no_debug_bgp_zebra, no_debug_bgp,
      TERM_DEBUG_ON, TERM_DEBUG_OFF, DEBUG_ON, DEBUG_OFF, modifyTerm_list_fields,
      modifyConf_list_fields] <;>
    (try split_ifs) <;>
    first
    | exact this
    | (simp only [peerRefs_free]
       omega)

/-- In every reachable state no neighbor has more than one entry in a neighbor list. -/
theorem reachable_atMostOnce (K : DebugConsts) (L0 : Peer → Nat) (w : World)
    (h : Reachable K L0 w) : AtMostOnce w.dbg := by
  induction h with
  | init =>
    intro q
    simp [DebugState.init, peerRefs, list_new_if_null]
  | step E c node w r _ _ hexec ih => exact exec_preserves_atMostOnce E K c node w r ih hexec

/-! ## Adding a neighbor filter twice: claim C11 -/

/-- C11: for each neighbor-filtered category (neighbor-events, keepalive, updates inbound,
updates outbound, the direction being chosen by `dir`) and a neighbor token that resolves
to `q`, the command `debug <category> q` run twice in a row succeeds the first time, and
the second run returns `CMD_SUCCESS`, reports "already enabled" and leaves the state
(masks, lists, reference counts) exactly as the first run left it; when the state the
commands start from is reachable from startup, the category's list then has exactly one
entry for `q`. -/
theorem debug_peer_twice (E : Collab) (K : DebugConsts) (L0 : Peer → Nat) (n1 n2 : node_type)
    (dir arg : String) (q : Peer) (w : World) (hq : bgp_find_peer E arg = some q) :
    (∃ r1, debug_bgp_neighbor_events_peer E K n1 arg w = some r1 ∧
      debug_bgp_neighbor_events_peer E K n2 arg r1.world =
        some ⟨cmd_status.CMD_SUCCESS, r1.world,
          ["BGP neighbor-events debugging is already enabled for " ++ E.host q ++
            E.VTY_NEWLINE]⟩ ∧
      (Reachable K L0 w →
        peerRefs q r1.world.dbg.bgp_debug_neighbor_events_peers = 1)) ∧
    (∃ r1, debug_bgp_keepalive_peer E K n1 arg w = some r1 ∧
      debug_bgp_keepalive_peer E K n2 arg r1.world =
        some ⟨cmd_status.CMD_SUCCESS, r1.world,
          ["BGP keepalive debugging is already enabled for " ++ E.host q ++
            E.VTY_NEWLINE]⟩ ∧
      (Reachable K L0 w →
        peerRefs q r1.world.dbg.bgp_debug_keepalive_peers = 1)) ∧
    (∃ r1, debug_bgp_update_direct_peer E K n1 dir arg w = some r1 ∧
      debug_bgp_update_direct_peer E K n2 dir arg r1.world =
        some ⟨cmd_status.CMD_SUCCESS, r1.world,
          [(if strncmp_i dir = true then "BGP inbound update debugging is already enabled for "
              else "BGP outbound update debugging is already enabled for ") ++ E.host q ++
            E.VTY_NEWLINE]⟩ ∧
      (Reachable K L0 w →
        peerRefs q (if strncmp_i dir = true then r1.world.dbg.bgp_debug_update_in_peers
          else r1.world.dbg.bgp_debug_update_out_peers) = 1)) := by
  obtain ⟨r1, a1, a2, a3⟩ := neighbor_events_peer_twice E K n1 n2 arg q w hq
  obtain ⟨r2, b1, b2, b3⟩ := keepalive_peer_twice E K n1 n2 arg q w hq
  obtain ⟨r3, c1, c2, c3⟩ := update_direct_peer_twice E K n1 n2 dir arg q w hq
  refine ⟨⟨r1, a1, a2, fun hr => a3 (reachable_atMostOnce K L0 w hr q).1⟩,
    ⟨r2, b1, b2, fun hr => b3 (reachable_atMostOnce K L0 w hr q).2.1⟩,
    ⟨r3, c1, c2, fun hr => c3 ?_⟩⟩
  have h := reachable_atMostOnce K L0 w hr q
  split_ifs
  · exact h.2.2.1
  · exact h.2.2.2

theorem debug_peer_twice_witness :
    (bgp_find_peer sampleEnv "swp1" = some 7 ∧
      Reachable sampleDebugConsts (fun _ => 1) world0) ∧
    ∃ r1, debug_bgp_neighbor_events_peer sampleEnv sampleDebugConsts node_type.ENABLE_NODE
        "swp1" world0 = some r1 ∧
      debug_bgp_neighbor_events_peer sampleEnv sampleDebugConsts node_type.ENABLE_NODE "swp1"
          r1.world =
        some ⟨cmd_status.CMD_SUCCESS, r1.world,
          ["BGP neighbor-events debugging is already enabled for " ++ sampleEnv.host 7 ++
            sampleEnv.VTY_NEWLINE]⟩ ∧
      peerRefs 7 r1.world.dbg.bgp_debug_neighbor_events_peers = 1 :=
  ⟨⟨rfl, Reachable.init⟩,
    let ⟨r1, h1, h2, h3⟩ := (debug_peer_twice sampleEnv sampleDebugConsts (fun _ => 1)
      node_type.ENABLE_NODE node_type.ENABLE_NODE "in" "swp1" 7 world0 rfl).1
    ⟨r1, h1, h2, h3 Reachable.init⟩⟩

/-! ## One direction of updates: claim C21 -/

theorem bitSet_or_self (m b : Nat) (h : b ≠ 0) : BitSet (m ||| b) b := by
  have key : (m ||| b) &&& b = b := by
    apply Nat.eq_of_testBit_eq
    intro i
    simp only [Nat.testBit_and, Nat.testBit_or]
    cases m.testBit i <;> cases b.testBit i <;> rfl
  simp [BitSet, key, h]

theorem update_direct_mask (m d o p : Nat) (hd : d ≠ 0) (hdo : d &&& o = 0)
    (hpd : p &&& d = 0) (hpo : p &&& o = 0) :
    BitSet (clearBits m o ||| d) d ∧ ¬ BitSet (clearBits m o ||| d) o ∧
      (BitSet (clearBits m o ||| d) p ↔ BitSet m p) := by
  refine ⟨bitSet_or_self _ _ hd, ?_, ?_⟩
  · rw [bitSet_or_iff_of_disjoint _ _ _ hdo]
    exact not_bitSet_clearBits_self _ _
  · rw [bitSet_or_iff_of_disjoint _ _ _ (by rw [Nat.land_comm]; exact hpd),
      bitSet_clearBits_iff_of_disjoint _ _ _ (by rw [Nat.land_comm]; exact hpo)]

/-- C21: after `debug bgp updates (in|out)`, run at either node in any state, the bit of
the requested direction is set and the bit of the opposite direction is unset in every
update mask the command writes: the session-scope mask at either node, and the config-scope
mask as well at `CONFIG_NODE`. The update-prefix bit is as it was in both scopes; at
`ENABLE_NODE` every config-scope mask is as it was; the masks of the other categories in
both scopes, all six filter lists and the reference counts are unchanged. The three update
bits are taken to be non-zero for the two directions and to share no bit with one
another. -/
theorem debug_bgp_update_direct_one_direction (E : Collab) (K : DebugConsts)
    (node : node_type) (arg : String) (w : World)
    (hin : K.BGP_DEBUG_UPDATE_IN ≠ 0) (hout : K.BGP_DEBUG_UPDATE_OUT ≠ 0)
    (hio : K.BGP_DEBUG_UPDATE_IN &&& K.BGP_DEBUG_UPDATE_OUT = 0)
    (hpi : K.BGP_DEBUG_UPDATE_PREFIX &&& K.BGP_DEBUG_UPDATE_IN = 0)
    (hpo : K.BGP_DEBUG_UPDATE_PREFIX &&& K.BGP_DEBUG_UPDATE_OUT = 0) :
    (debug_bgp_update_direct E K node arg w).ret = cmd_status.CMD_SUCCESS ∧
    (strncmp_i arg = true →
      BitSet ((debug_bgp_update_direct E K node arg w).world.dbg.written node .update)
        K.BGP_DEBUG_UPDATE_IN ∧
      ¬ BitSet ((debug_bgp_update_direct E K node arg w).world.dbg.written node .update)
        K.BGP_DEBUG_UPDATE_OUT ∧
      BitSet ((debug_bgp_update_direct E K node arg w).world.dbg.term .update)
        K.BGP_DEBUG_UPDATE_IN ∧
      ¬ BitSet ((debug_bgp_update_direct E K node arg w).world.dbg.term .update)
        K.BGP_DEBUG_UPDATE_OUT) ∧
    (¬ strncmp_i arg = true →
      BitSet ((debug_bgp_update_direct E K node arg w).world.dbg.written node .update)
        K.BGP_DEBUG_UPDATE_OUT ∧
      ¬ BitSet ((debug_bgp_update_direct E K node arg w).world.dbg.written node .update)
        K.BGP_DEBUG_UPDATE_IN ∧
      BitSet ((debug_bgp_update_direct E K node arg w).world.dbg.term .update)
        K.BGP_DEBUG_UPDATE_OUT ∧
      ¬ BitSet ((debug_bgp_update_direct E K node arg w).world.dbg.term .update)
        K.BGP_DEBUG_UPDATE_IN) ∧
    (BitSet ((debug_bgp_update_direct E K node arg w).world.dbg.conf .update)
        K.BGP_DEBUG_UPDATE_PREFIX ↔
      BitSet (w.dbg.conf .update) K.BGP_DEBUG_UPDATE_PREFIX) ∧
    (BitSet ((debug_bgp_update_direct E K node arg w).world.dbg.term .update)
        K.BGP_DEBUG_UPDATE_PREFIX ↔
      BitSet (w.dbg.term .update) K.BGP_DEBUG_UPDATE_PREFIX) ∧
    (node = node_type.ENABLE_NODE →
      (debug_bgp_update_direct E K node arg w).world.dbg.confMasks = w.dbg.confMasks) ∧
    (∀ a, a ≠ DebugVar.update →
      (debug_bgp_update_direct E K node arg w).world.dbg.conf a = w.dbg.conf a ∧
      (debug_bgp_update_direct E K node arg w).world.dbg.term a = w.dbg.term a) ∧
    (debug_bgp_update_direct E K node arg w).world.dbg.lists = w.dbg.lists ∧
    (debug_bgp_update_direct E K node arg w).world.lock = w.lock := by
  have hoi : K.BGP_DEBUG_UPDATE_OUT &&& K.BGP_DEBUG_UPDATE_IN = 0 := by
    rw [Nat.land_comm]
    exact hio
  have hframe : ∀ (s : DebugState) (f : Nat → Nat) (a : DebugVar), a ≠ DebugVar.update →
      ((s.modifyConf .update f).conf a = s.conf a ∧
        (s.modifyConf .update f).term a = s.term a) ∧
      ((s.modifyTerm .update f).conf a = s.conf a ∧
        (s.modifyTerm .update f).term a = s.term a) := by
    intro s f a ha
    cases a <;> first | exact absurd rfl ha | exact ⟨⟨rfl, rfl⟩, ⟨rfl, rfl⟩⟩
  have hboth : ∀ (s : DebugState) (f g : Nat → Nat) (a : DebugVar), a ≠ DebugVar.update →
      (((s.modifyConf .update f).modifyTerm .update g).conf a = s.conf a ∧
        ((s.modifyConf .update f).modifyTerm .update g).term a = s.term a) := by
    intro s f g a ha
    cases a <;> first | exact absurd rfl ha | exact ⟨rfl, rfl⟩
  cases node <;> by_cases hd : strncmp_i arg = true
  · obtain ⟨h1, h2, h3⟩ := update_direct_mask w.dbg.term_bgp_debug_update
      K.BGP_DEBUG_UPDATE_IN K.BGP_DEBUG_UPDATE_OUT K.BGP_DEBUG_UPDATE_PREFIX hin hio hpi hpo
    have hR : debug_bgp_update_direct E K node_type.ENABLE_NODE arg w =
        ⟨cmd_status.CMD_SUCCESS,
          { w with dbg := (TERM_DEBUG_ON .update K.BGP_DEBUG_UPDATE_IN
            (TERM_DEBUG_OFF .update K.BGP_DEBUG_UPDATE_OUT w.dbg)) },
          ["BGP updates debugging is on (inbound)" ++ E.VTY_NEWLINE]⟩ := by
      simp [debug_bgp_update_direct, hd]
    rw [hR]
    exact ⟨rfl, fun _ => ⟨h1, h2, h1, h2⟩, fun h => absurd hd h, Iff.rfl, h3, fun _ => rfl,
      fun a ha => ⟨rfl, (hframe _ _ a ha).2.2.trans (hframe _ _ a ha).2.2⟩, rfl, rfl⟩
  · obtain ⟨h1, h2, h3⟩ := update_direct_mask w.dbg.term_bgp_debug_update
      K.BGP_DEBUG_UPDATE_OUT K.BGP_DEBUG_UPDATE_IN K.BGP_DEBUG_UPDATE_PREFIX hout hoi hpo hpi
    have hR : debug_bgp_update_direct E K node_type.ENABLE_NODE arg w =
        ⟨cmd_status.CMD_SUCCESS,
          { w with dbg := (TERM_DEBUG_ON .update K.BGP_DEBUG_UPDATE_OUT
            (TERM_DEBUG_OFF .update K.BGP_DEBUG_UPDATE_IN w.dbg)) },
          ["BGP updates debugging is on (outbound)" ++ E.VTY_NEWLINE]⟩ := by
      simp [debug_bgp_update_direct, hd]
    rw [hR]
    exact ⟨rfl, fun h => absurd h hd, fun _ => ⟨h1, h2, h1, h2⟩, Iff.rfl, h3, fun _ => rfl,
      fun a ha => ⟨rfl, (hframe _ _ a ha).2.2.trans (hframe _ _ a ha).2.2⟩, rfl, rfl⟩
  · obtain ⟨h1, h2, h3⟩ := update_direct_mask w.dbg.conf_bgp_debug_update
      K.BGP_DEBUG_UPDATE_IN K.BGP_DEBUG_UPDATE_OUT K.BGP_DEBUG_UPDATE_PREFIX hin hio hpi hpo
    obtain ⟨t1, t2, t3⟩ := update_direct_mask w.dbg.term_bgp_debug_update
      K.BGP_DEBUG_UPDATE_IN K.BGP_DEBUG_UPDATE_OUT K.BGP_DEBUG_UPDATE_PREFIX hin hio hpi hpo
    have hR : debug_bgp_update_direct E K node_type.CONFIG_NODE arg w =
        ⟨cmd_status.CMD_SUCCESS,
          { w with dbg := (DEBUG_ON .update K.BGP_DEBUG_UPDATE_IN
            (DEBUG_OFF .update K.BGP_DEBUG_UPDATE_OUT w.dbg)) }, []⟩ := by
      simp [debug_bgp_update_direct, hd]
    rw [hR]
    exact ⟨rfl, fun _ => ⟨h1, h2, t1, t2⟩, fun h => absurd hd h, h3, t3,
      fun h => absurd h (by simp),
      fun a ha => ⟨(hboth _ _ _ a ha).1.trans (hboth _ _ _ a ha).1,
        (hboth _ _ _ a ha).2.trans (hboth _ _ _ a ha).2⟩, rfl, rfl⟩
  · obtain ⟨h1, h2, h3⟩ := update_direct_mask w.dbg.conf_bgp_debug_update
      K.BGP_DEBUG_UPDATE_OUT K.BGP_DEBUG_UPDATE_IN K.BGP_DEBUG_UPDATE_PREFIX hout hoi hpo hpi
    obtain ⟨t1, t2, t3⟩ := update_direct_mask w.dbg.term_bgp_debug_update
      K.BGP_DEBUG_UPDATE_OUT K.BGP_DEBUG_UPDATE_IN K.BGP_DEBUG_UPDATE_PREFIX hout hoi hpo hpi
    have hR : debug_bgp_update_direct E K node_type.CONFIG_NODE arg w =
        ⟨cmd_status.CMD_SUCCESS,
          { w with dbg := (DEBUG_ON .update K.BGP_DEBUG_UPDATE_OUT
            (DEBUG_OFF .update K.BGP_DEBUG_UPDATE_IN w.dbg)) }, []⟩ := by
      simp [debug_bgp_update_direct, hd]
    rw [hR]
    exact ⟨rfl, fun h => absurd h hd, fun _ => ⟨h1, h2, t1, t2⟩, h3, t3,
      fun h => absurd h (by simp),
      fun a ha => ⟨(hboth _ _ _ a ha).1.trans (hboth _ _ _ a ha).1,
        (hboth _ _ _ a ha).2.trans (hboth _ _ _ a ha).2⟩, rfl, rfl⟩

theorem debug_bgp_update_direct_one_direction_witness :
    (sampleDebugConsts.BGP_DEBUG_UPDATE_IN ≠ 0 ∧ sampleDebugConsts.BGP_DEBUG_UPDATE_OUT ≠ 0 ∧
      sampleDebugConsts.BGP_DEBUG_UPDATE_IN &&& sampleDebugConsts.BGP_DEBUG_UPDATE_OUT = 0 ∧
      sampleDebugConsts.BGP_DEBUG_UPDATE_PREFIX &&& sampleDebugConsts.BGP_DEBUG_UPDATE_IN = 0 ∧
      sampleDebugConsts.BGP_DEBUG_UPDATE_PREFIX &&& sampleDebugConsts.BGP_DEBUG_UPDATE_OUT = 0 ∧
      strncmp_i "in" = true) ∧
    BitSet ((debug_bgp_update_direct sampleEnv sampleDebugConsts node_type.CONFIG_NODE "in"
        (debug_bgp_update sampleEnv sampleDebugConsts node_type.ENABLE_NODE
          world0).world).world.dbg.conf .update)
      sampleDebugConsts.BGP_DEBUG_UPDATE_IN ∧
    ¬ BitSet ((debug_bgp_update_direct sampleEnv sampleDebugConsts node_type.CONFIG_NODE "in"
        (debug_bgp_update sampleEnv sampleDebugConsts node_type.ENABLE_NODE
          world0).world).world.dbg.conf .update)
      sampleDebugConsts.BGP_DEBUG_UPDATE_OUT ∧
    BitSet ((debug_bgp_update_direct sampleEnv sampleDebugConsts node_type.CONFIG_NODE "in"
        (debug_bgp_update sampleEnv sampleDebugConsts node_type.ENABLE_NODE
          world0).world).world.dbg.term .update)
      sampleDebugConsts.BGP_DEBUG_UPDATE_IN ∧
    ¬ BitSet ((debug_bgp_update_direct sampleEnv sampleDebugConsts node_type.CONFIG_NODE "in"
        (debug_bgp_update sampleEnv sampleDebugConsts node_type.ENABLE_NODE
          world0).world).world.dbg.term .update)
      sampleDebugConsts.BGP_DEBUG_UPDATE_OUT :=
  ⟨⟨by decide, by decide, by decide, by decide, by decide, by decide⟩,
    (debug_bgp_update_direct_one_direction sampleEnv sampleDebugConsts node_type.CONFIG_NODE
      "in" (debug_bgp_update sampleEnv sampleDebugConsts node_type.ENABLE_NODE world0).world
      (by decide) (by decide) (by decide) (by decide) (by decide)).2.1 (by decide)⟩

/-! ## Disabling a list-backed category: claim C22 -/

theorem clearBits_idem (m b : Nat) : clearBits (clearBits m b) b = clearBits m b := by
  apply Nat.eq_of_testBit_eq
  intro i
  simp only [testBit_clearBits]
  cases m.testBit i <;> cases b.testBit i <;> rfl

theorem clearBits_three_idem (m a b c : Nat) :
    clearBits (clearBits (clearBits (clearBits (clearBits (clearBits m a) b) c) a) b) c =
      clearBits (clearBits (clearBits m a) b) c := by
  apply Nat.eq_of_testBit_eq
  intro i
  simp only [testBit_clearBits]
  cases m.testBit i <;> cases a.testBit i <;> cases b.testBit i <;> cases c.testBit i <;> rfl

theorem list_free_idem (list : FilterList) (lock lock2 : Peer → Nat) :
    bgp_debug_list_free (bgp_debug_list_free list lock).1 lock2 =
      ((bgp_debug_list_free list lock).1, lock2) := by
  cases list <;> rfl

/-- C22: after `no debug bgp neighbor-events`, `no debug bgp keepalives`,
`no debug bgp updates` or `no debug bgp zebra`, run at either node in any state, the bit of
the category (for updates: the inbound, the outbound and the prefix bit) is unset in every
scope the command writes (the session scope at either node, and the config scope as well
at `CONFIG_NODE`) and each filter list of the category (for updates: the inbound, the
outbound and the prefix list) has no entries; running the command a second time at the
same node leaves the state (masks, lists, reference counts) as the first run left it. -/
theorem no_debug_category_clears (E : Collab) (K : DebugConsts) (node : node_type)
    (w : World) :
    (¬ BitSet ((no_debug_bgp_neighbor_events E K node w).world.dbg.written node
        .neighbor_events) K.BGP_DEBUG_NEIGHBOR_EVENTS ∧
      ¬ BitSet ((no_debug_bgp_neighbor_events E K node w).world.dbg.term
        .neighbor_events) K.BGP_DEBUG_NEIGHBOR_EVENTS ∧
      NoEntries (no_debug_bgp_neighbor_events E K node w).world.dbg.bgp_debug_neighbor_events_peers ∧
      (no_debug_bgp_neighbor_events E K node
        (no_debug_bgp_neighbor_events E K node w).world).world =
        (no_debug_bgp_neighbor_events E K node w).world) ∧
    (¬ BitSet ((no_debug_bgp_keepalive E K node w).world.dbg.written node .keepalive)
        K.BGP_DEBUG_KEEPALIVE ∧
      ¬ BitSet ((no_debug_bgp_keepalive E K node w).world.dbg.term .keepalive)
        K.BGP_DEBUG_KEEPALIVE ∧
      NoEntries (no_debug_bgp_keepalive E K node w).world.dbg.bgp_debug_keepalive_peers ∧
      (no_debug_bgp_keepalive E K node (no_debug_bgp_keepalive E K node w).world).world =
        (no_debug_bgp_keepalive E K node w).world) ∧
    (¬ BitSet ((no_debug_bgp_update E K node w).world.dbg.written node .update)
        K.BGP_DEBUG_UPDATE_IN ∧
      ¬ BitSet ((no_debug_bgp_update E K node w).world.dbg.written node .update)
        K.BGP_DEBUG_UPDATE_OUT ∧
      ¬ BitSet ((no_debug_bgp_update E K node w).world.dbg.written node .update)
        K.BGP_DEBUG_UPDATE_PREFIX ∧
      ¬ BitSet ((no_debug_bgp_update E K node w).world.dbg.term .update)
        K.BGP_DEBUG_UPDATE_IN ∧
      ¬ BitSet ((no_debug_bgp_update E K node w).world.dbg.term .update)
        K.BGP_DEBUG_UPDATE_OUT ∧
      ¬ BitSet ((no_debug_bgp_update E K node w).world.dbg.term .update)
        K.BGP_DEBUG_UPDATE_PREFIX ∧
      NoEntries (no_debug_bgp_update E K node w).world.dbg.bgp_debug_update_in_peers ∧
      NoEntries (no_debug_bgp_update E K node w).world.dbg.bgp_debug_update_out_peers ∧
      NoEntries (no_debug_bgp_update E K node w).world.dbg.bgp_debug_update_prefixes ∧
      (no_debug_bgp_update E K node (no_debug_bgp_update E K node w).world).world =
        (no_debug_bgp_update E K node w).world) ∧
    (¬ BitSet ((no_debug_bgp_zebra E K node w).world.dbg.written node .zebra)
        K.BGP_DEBUG_ZEBRA ∧
      ¬ BitSet ((no_debug_bgp_zebra E K node w).world.dbg.term .zebra)
        K.BGP_DEBUG_ZEBRA ∧
      NoEntries (no_debug_bgp_zebra E K node w).world.dbg.bgp_debug_zebra_prefixes ∧
      (no_debug_bgp_zebra E K node (no_debug_bgp_zebra E K node w).world).world =
        (no_debug_bgp_zebra E K node w).world) := by
  have h3 : ∀ m a b c : Nat, ¬ BitSet (clearBits (clearBits (clearBits m a) b) c) a ∧
      ¬ BitSet (clearBits (clearBits (clearBits m a) b) c) b ∧
      ¬ BitSet (clearBits (clearBits (clearBits m a) b) c) c := fun m a b c =>
    ⟨not_bitSet_clearBits_of_not _ _ _
        (not_bitSet_clearBits_of_not _ _ _ (not_bitSet_clearBits_self _ _)),
      not_bitSet_clearBits_of_not _ _ _ (not_bitSet_clearBits_self _ _),
      not_bitSet_clearBits_self _ _⟩
  cases node
  · refine ⟨⟨not_bitSet_clearBits_self _ _, not_bitSet_clearBits_self _ _,
        list_free_fst _ _, ?_⟩,
      ⟨not_bitSet_clearBits_self _ _, not_bitSet_clearBits_self _ _, list_free_fst _ _, ?_⟩,
      ⟨(h3 _ _ _ _).1, (h3 _ _ _ _).2.1, (h3 _ _ _ _).2.2, (h3 _ _ _ _).1, (h3 _ _ _ _).2.1,
        (h3 _ _ _ _).2.2, list_free_fst _ _, list_free_fst _ _, list_free_fst _ _, ?_⟩,
      ⟨not_bitSet_clearBits_self _ _, not_bitSet_clearBits_self _ _,
        list_free_fst _ _, ?_⟩⟩ <;>
    simp [no_debug_bgp_neighbor_events, no_debug_bgp_keepalive, no_debug_bgp_update,
      no_debug_bgp_zebra, TERM_DEBUG_OFF, DebugState.modifyTerm, list_free_idem,
      clearBits_idem, clearBits_three_idem]
  · refine ⟨⟨not_bitSet_clearBits_self _ _, not_bitSet_clearBits_self _ _,
        list_free_fst _ _, ?_⟩,
      ⟨not_bitSet_clearBits_self _ _, not_bitSet_clearBits_self _ _, list_free_fst _ _, ?_⟩,
      ⟨(h3 _ _ _ _).1, (h3 _ _ _ _).2.1, (h3 _ _ _ _).2.2, (h3 _ _ _ _).1, (h3 _ _ _ _).2.1,
        (h3 _ _ _ _).2.2, list_free_fst _ _, list_free_fst _ _, list_free_fst _ _, ?_⟩,
      ⟨not_bitSet_clearBits_self _ _, not_bitSet_clearBits_self _ _,
        list_free_fst _ _, ?_⟩⟩ <;>
    simp [no_debug_bgp_neighbor_events, no_debug_bgp_keepalive, no_debug_bgp_update,
      no_debug_bgp_zebra, DEBUG_OFF, DebugState.modifyConf, DebugState.modifyTerm,
      list_free_idem, clearBits_idem, clearBits_three_idem]

/-! ## Removing one neighbor filter: claims C23 and C28 -/

theorem remove_entry_peer_eq (q : Peer) (lock : Peer → Nat) (l : List bgp_debug_filter) :
    bgp_debug_list_remove_entry (some q) none lock l =
      some (if l.any (fun f => decide (f.peer = some q)) = true then 1 else 0,
        l.eraseP (fun f => decide (f.peer = some q)),
        if l.any (fun f => decide (f.peer = some q)) = true then peer_unlock lock q
          else lock) := by
  induction l with
  | nil => rfl
  | cons f rest ih =>
    by_cases hf : f.peer = some q
    · simp [bgp_debug_list_remove_entry, hf]
    · simp [bgp_debug_list_remove_entry, hf, ih]

theorem eraseP_peer_split (q : Peer) (l : List bgp_debug_filter)
    (h : ∃ f ∈ l, f.peer = some q) :
    ∃ l1 f l2, l = l1 ++ f :: l2 ∧ f.peer = some q ∧ (∀ g ∈ l1, g.peer ≠ some q) ∧
      l.eraseP (fun f => decide (f.peer = some q)) = l1 ++ l2 := by
  obtain ⟨f, hf, hfq⟩ := h
  obtain ⟨a, l1, l2, h1, h2, h3, h4⟩ :=
    List.exists_of_eraseP (p := fun f => decide (f.peer = some q)) hf (by simpa using hfq)
  exact ⟨l1, a, l2, h3, by simpa using h2, fun g hg => by simpa using h1 g hg, h4⟩

theorem eraseP_peer_none_left (q : Peer) (l : List bgp_debug_filter)
    (h : l.countP (fun f => decide (f.peer = some q)) ≤ 1) :
    ∀ g ∈ l.eraseP (fun f => decide (f.peer = some q)), g.peer ≠ some q := by
  induction l with
  | nil => simp
  | cons f rest ih =>
    by_cases hf : f.peer = some q
    · have h0 : rest.countP (fun f => decide (f.peer = some q)) = 0 := by
        simp [List.countP_cons, hf] at h
        simpa using h
      intro g hg
      simp only [List.eraseP_cons, hf, decide_True, cond_true] at hg
      rw [List.countP_eq_zero] at h0
      simpa using h0 g hg
    · intro g hg
      simp only [List.eraseP_cons, hf, decide_False, cond_false, List.mem_cons] at hg
      rcases hg with rfl | hg
      · exact hf
      · exact ih (by simpa [List.countP_cons, hf] using h) g hg

theorem neighbor_events_peer_removed (E : Collab) (K : DebugConsts) (node : node_type)
    (arg : String) (q : Peer) (w : World) (l : List bgp_debug_filter)
    (hq : bgp_find_peer E arg = some q)
    (hl : w.dbg.bgp_debug_neighbor_events_peers = some l)
    (hin : ∃ f ∈ l, f.peer = some q) :
    ∃ r, no_debug_bgp_neighbor_events_peer E K node arg w = some r ∧
      r.ret = cmd_status.CMD_SUCCESS ∧
      r.world.dbg.bgp_debug_neighbor_events_peers =
        some (l.eraseP (fun f => decide (f.peer = some q))) ∧
      r.world.lock = peer_unlock w.lock q ∧
      (l.eraseP (fun f => decide (f.peer = some q)) = [] →
        ¬ BitSet (r.world.dbg.written node .neighbor_events) K.BGP_DEBUG_NEIGHBOR_EVENTS) ∧
      (l.eraseP (fun f => decide (f.peer = some q)) ≠ [] →
        r.world.dbg.confMasks = w.dbg.confMasks ∧ r.world.dbg.termMasks = w.dbg.termMasks) := by
  have hany : l.any (fun f => decide (f.peer = some q)) = true := by
    simpa using hin
  have hne : list_isempty l = false := by
    obtain ⟨f, hf, -⟩ := hin
    cases l with
    | nil => simp at hf
    | cons a t => rfl
  have hnil : list_isempty ([] : List bgp_debug_filter) = true := rfl
  by_cases he : l.eraseP (fun f => decide (f.peer = some q)) = []
  · cases node <;>
      simp only [no_debug_bgp_neighbor_events_peer, hq, hl, hne, remove_entry_peer_eq, hany,
        if_true, he, hnil, reduceCtorEq, if_false, Bool.false_eq_true] <;>
      refine ⟨_, rfl, rfl, rfl, rfl, fun _ => ?_, fun h => absurd rfl h⟩ <;>
      exact not_bitSet_clearBits_self _ _
  · have he2 : list_isempty (l.eraseP (fun f => decide (f.peer = some q))) = false := by
      cases hh : l.eraseP (fun f => decide (f.peer = some q)) with
      | nil => exact absurd hh he
      | cons a t => rfl
    cases node <;>
      simp only [no_debug_bgp_neighbor_events_peer, hq, hl, hne, remove_entry_peer_eq, hany,
        if_true, he2, reduceCtorEq, if_false, Bool.false_eq_true] <;>
      exact ⟨_, rfl, rfl, rfl, rfl, fun h => absurd h he, fun _ => ⟨rfl, rfl⟩⟩

theorem keepalive_peer_removed (E : Collab) (K : DebugConsts) (node : node_type)
    (arg : String) (q : Peer) (w : World) (l : List bgp_debug_filter)
    (hq : bgp_find_peer E arg = some q)
    (hl : w.dbg.bgp_debug_keepalive_peers = some l)
    (hin : ∃ f ∈ l, f.peer = some q) :
    ∃ r, no_debug_bgp_keepalive_peer E K node arg w = some r ∧
      r.ret = cmd_status.CMD_SUCCESS ∧
      r.world.dbg.bgp_debug_keepalive_peers =
        some (l.eraseP (fun f => decide (f.peer = some q))) ∧
      r.world.lock = peer_unlock w.lock q ∧
      (l.eraseP (fun f => decide (f.peer = some q)) = [] →
        ¬ BitSet (r.world.dbg.written node .keepalive) K.BGP_DEBUG_KEEPALIVE) ∧
      (l.eraseP (fun f => decide (f.peer = some q)) ≠ [] →
        r.world.dbg.confMasks = w.dbg.confMasks ∧ r.world.dbg.termMasks = w.dbg.termMasks) := by
  have hany : l.any (fun f => decide (f.peer = some q)) = true := by
    simpa using hin
  have hne : list_isempty l = false := by
    obtain ⟨f, hf, -⟩ := hin
    cases l with
    | nil => simp at hf
    | cons a t => rfl
  have hnil : list_isempty ([] : List bgp_debug_filter) = true := rfl
  by_cases he : l.eraseP (fun f => decide (f.peer = some q)) = []
  · cases node <;>
      simp only [no_debug_bgp_keepalive_peer, hq, hl, hne, remove_entry_peer_eq, hany,
        if_true, he, hnil, reduceCtorEq, if_false, Bool.false_eq_true] <;>
      refine ⟨_, rfl, rfl, rfl, rfl, fun _ => ?_, fun h => absurd rfl h⟩ <;>
      exact not_bitSet_clearBits_self _ _
  · have he2 : list_isempty (l.eraseP (fun f => decide (f.peer = some q))) = false := by
      cases hh : l.eraseP (fun f => decide (f.peer = some q)) with
      | nil => exact absurd hh he
      | cons a t => rfl
    cases node <;>
      simp only [no_debug_bgp_keepalive_peer, hq, hl, hne, remove_entry_peer_eq, hany,
        if_true, he2, reduceCtorEq, if_false, Bool.false_eq_true] <;>
      exact ⟨_, rfl, rfl, rfl, rfl, fun h => absurd h he, fun _ => ⟨rfl, rfl⟩⟩

theorem update_in_peer_removed (E : Collab) (K : DebugConsts) (node : node_type)
    (dir arg : String) (q : Peer) (w : World) (l : List bgp_debug_filter)
    (hq : bgp_find_peer E arg = some q)
    (hd : strncmp_i dir = true)
    (hl : w.dbg.bgp_debug_update_in_peers = some l)
    (hin : ∃ f ∈ l, f.peer = some q) :
    ∃ r, no_debug_bgp_update_direct_peer E K node dir arg w = some r ∧
      r.ret = cmd_status.CMD_SUCCESS ∧
      r.world.dbg.bgp_debug_update_in_peers =
        some (l.eraseP (fun f => decide (f.peer = some q))) ∧
      r.world.lock = peer_unlock w.lock q ∧
      (l.eraseP (fun f => decide (f.peer = some q)) = [] →
        ¬ BitSet (r.world.dbg.written node .update) K.BGP_DEBUG_UPDATE_IN) ∧
      (l.eraseP (fun f => decide (f.peer = some q)) ≠ [] →
        r.world.dbg.confMasks = w.dbg.confMasks ∧ r.world.dbg.termMasks = w.dbg.termMasks) := by
  have hany : l.any (fun f => decide (f.peer = some q)) = true := by
    simpa using hin
  have hne : list_isempty l = false := by
    obtain ⟨f, hf, -⟩ := hin
    cases l with
    | nil => simp at hf
    | cons a t => rfl
  have hnil : list_isempty ([] : List bgp_debug_filter) = true := rfl
  by_cases he : l.eraseP (fun f => decide (f.peer = some q)) = []
  · cases node <;>
      simp only [no_debug_bgp_update_direct_peer, hq, hd, hl, hne, remove_entry_peer_eq, hany,
        if_true, he, hnil, reduceCtorEq, if_false, Bool.false_eq_true] <;>
      refine ⟨_, rfl, rfl, rfl, rfl, fun _ => ?_, fun h => absurd rfl h⟩ <;>
      exact not_bitSet_clearBits_self _ _
  · have he2 : list_isempty (l.eraseP (fun f => decide (f.peer = some q))) = false := by
      cases hh : l.eraseP (fun f => decide (f.peer = some q)) with
      | nil => exact absurd hh he
      | cons a t => rfl
    cases node <;>
      simp only [no_debug_bgp_update_direct_peer, hq, hd, hl, hne, remove_entry_peer_eq, hany,
        if_true, he2, reduceCtorEq, if_false, Bool.false_eq_true] <;>
      exact ⟨_, rfl, rfl, rfl, rfl, fun h => absurd h he, fun _ => ⟨rfl, rfl⟩⟩

theorem update_out_peer_removed (E : Collab) (K : DebugConsts) (node : node_type)
    (dir arg : String) (q : Peer) (w : World) (l : List bgp_debug_filter)
    (hq : bgp_find_peer E arg = some q)
    (hd : ¬ strncmp_i dir = true)
    (hl : w.dbg.bgp_debug_update_out_peers = some l)
    (hin : ∃ f ∈ l, f.peer = some q) :
    ∃ r, no_debug_bgp_update_direct_peer E K node dir arg w = some r ∧
      r.ret = cmd_status.CMD_SUCCESS ∧
      r.world.dbg.bgp_debug_update_out_peers =
        some (l.eraseP (fun f => decide (f.peer = some q))) ∧
      r.world.lock = peer_unlock w.lock q ∧
      (l.eraseP (fun f => decide (f.peer = some q)) = [] →
        ¬ BitSet (r.world.dbg.written node .update) K.BGP_DEBUG_UPDATE_OUT) ∧
      (l.eraseP (fun f => decide (f.peer = some q)) ≠ [] →
        r.world.dbg.confMasks = w.dbg.confMasks ∧ r.world.dbg.termMasks = w.dbg.termMasks) := by
  have hany : l.any (fun f => decide (f.peer = some q)) = true := by
    simpa using hin
  have hne : list_isempty l = false := by
    obtain ⟨f, hf, -⟩ := hin
    cases l with
    | nil => simp at hf
    | cons a t => rfl
  have hnil : list_isempty ([] : List bgp_debug_filter) = true := rfl
  by_cases he : l.eraseP (fun f => decide (f.peer = some q)) = []
  · cases node <;>
      simp only [no_debug_bgp_update_direct_peer, hq, hd, hl, hne, remove_entry_peer_eq, hany,
        if_true, he, hnil, reduceCtorEq, if_false, Bool.false_eq_true] <;>
      refine ⟨_, rfl, rfl, rfl, rfl, fun _ => ?_, fun h => absurd rfl h⟩ <;>
      exact not_bitSet_clearBits_self _ _
  · have he2 : list_isempty (l.eraseP (fun f => decide (f.peer = some q))) = false := by
      cases hh : l.eraseP (fun f => decide (f.peer = some q)) with
      | nil => exact absurd hh he
      | cons a t => rfl
    cases node <;>
      simp only [no_debug_bgp_update_direct_peer, hq, hd, hl, hne, remove_entry_peer_eq, hany,
        if_true, he2, reduceCtorEq, if_false, Bool.false_eq_true] <;>
      exact ⟨_, rfl, rfl, rfl, rfl, fun h => absurd h he, fun _ => ⟨rfl, rfl⟩⟩

/-- C23: for each neighbor-filtered category (neighbor-events, keepalive, updates inbound,
updates outbound as `dir` chooses), a neighbor token that resolves to `q` and a state in
which the category's list holds an entry for `q`, `no debug <category> q` returns
`CMD_SUCCESS`, removes the first entry for `q` and leaves the other entries in their order
(when `q` has one entry, as in every reachable state, no entry for `q` is left), releases
one reference to `q`, and the category's bit in the scope the command writes is unset when
the list is empty afterwards, while all masks are as they were when it is not. -/
theorem no_debug_peer_removes_entry (E : Collab) (K : DebugConsts) (node : node_type)
    (dir arg : String) (q : Peer) (w : World) (hq : bgp_find_peer E arg = some q) :
    (∀ l, w.dbg.bgp_debug_neighbor_events_peers = some l → (∃ f ∈ l, f.peer = some q) →
      ∃ r l2, no_debug_bgp_neighbor_events_peer E K node arg w = some r ∧
        r.ret = cmd_status.CMD_SUCCESS ∧
        r.world.dbg.bgp_debug_neighbor_events_peers = some l2 ∧ RemovedFirstPeer q l l2 ∧
        (peerRefs q (some l) ≤ 1 → ∀ g ∈ l2, g.peer ≠ some q) ∧
        r.world.lock = peer_unlock w.lock q ∧
        (l2 = [] → ¬ BitSet (r.world.dbg.written node .neighbor_events) K.BGP_DEBUG_NEIGHBOR_EVENTS) ∧
        (l2 ≠ [] →
          r.world.dbg.confMasks = w.dbg.confMasks ∧ r.world.dbg.termMasks = w.dbg.termMasks)) ∧
    (∀ l, w.dbg.bgp_debug_keepalive_peers = some l → (∃ f ∈ l, f.peer = some q) →
      ∃ r l2, no_debug_bgp_keepalive_peer E K node arg w = some r ∧
        r.ret = cmd_status.CMD_SUCCESS ∧
        r.world.dbg.bgp_debug_keepalive_peers = some l2 ∧ RemovedFirstPeer q l l2 ∧
        (peerRefs q (some l) ≤ 1 → ∀ g ∈ l2, g.peer ≠ some q) ∧
        r.world.lock = peer_unlock w.lock q ∧
        (l2 = [] → ¬ BitSet (r.world.dbg.written node .keepalive) K.BGP_DEBUG_KEEPALIVE) ∧
        (l2 ≠ [] →
          r.world.dbg.confMasks = w.dbg.confMasks ∧ r.world.dbg.termMasks = w.dbg.termMasks)) ∧
    (strncmp_i dir = true → ∀ l, w.dbg.bgp_debug_update_in_peers = some l → (∃ f ∈ l, f.peer = some q) →
      ∃ r l2, no_debug_bgp_update_direct_peer E K node dir arg w = some r ∧
        r.ret = cmd_status.CMD_SUCCESS ∧
        r.world.dbg.bgp_debug_update_in_peers = some l2 ∧ RemovedFirstPeer q l l2 ∧
        (peerRefs q (some l) ≤ 1 → ∀ g ∈ l2, g.peer ≠ some q) ∧
        r.world.lock = peer_unlock w.lock q ∧
        (l2 = [] → ¬ BitSet (r.world.dbg.written node .update) K.BGP_DEBUG_UPDATE_IN) ∧
        (l2 ≠ [] →
          r.world.dbg.confMasks = w.dbg.confMasks ∧ r.world.dbg.termMasks = w.dbg.termMasks)) ∧
    (¬ strncmp_i dir = true → ∀ l, w.dbg.bgp_debug_update_out_peers = some l → (∃ f ∈ l, f.peer = some q) →
      ∃ r l2, no_debug_bgp_update_direct_peer E K node dir arg w = some r ∧
        r.ret = cmd_status.CMD_SUCCESS ∧
        r.world.dbg.bgp_debug_update_out_peers = some l2 ∧ RemovedFirstPeer q l l2 ∧
        (peerRefs q (some l) ≤ 1 → ∀ g ∈ l2, g.peer ≠ some q) ∧
        r.world.lock = peer_unlock w.lock q ∧
        (l2 = [] → ¬ BitSet (r.world.dbg.written node .update) K.BGP_DEBUG_UPDATE_OUT) ∧
        (l2 ≠ [] →
          r.world.dbg.confMasks = w.dbg.confMasks ∧ r.world.dbg.termMasks = w.dbg.termMasks)) := by
  have hsplit : ∀ l : List bgp_debug_filter, (∃ f ∈ l, f.peer = some q) →
      RemovedFirstPeer q l (l.eraseP (fun f => decide (f.peer = some q))) := by
    intro l hin
    obtain ⟨l1, f, l3, a1, a2, a3, a4⟩ := eraseP_peer_split q l hin
    exact ⟨l1, f, l3, a1, a2, a3, a4⟩
  refine ⟨?_, ?_, ?_, ?_⟩
  · intro l hl hin
    obtain ⟨r, h1, h2, h3, h4, h5, h6⟩ := neighbor_events_peer_removed E K node arg q w l hq hl hin
    exact ⟨r, _, h1, h2, h3, hsplit l hin, eraseP_peer_none_left q l, h4, h5, h6⟩
  · intro l hl hin
    obtain ⟨r, h1, h2, h3, h4, h5, h6⟩ := keepalive_peer_removed E K node arg q w l hq hl hin
    exact ⟨r, _, h1, h2, h3, hsplit l hin, eraseP_peer_none_left q l, h4, h5, h6⟩
  · intro hd l hl hin
    obtain ⟨r, h1, h2, h3, h4, h5, h6⟩ := update_in_peer_removed E K node dir arg q w l hq hd hl hin
    exact ⟨r, _, h1, h2, h3, hsplit l hin, eraseP_peer_none_left q l, h4, h5, h6⟩
  · intro hd l hl hin
    obtain ⟨r, h1, h2, h3, h4, h5, h6⟩ := update_out_peer_removed E K node dir arg q w l hq hd hl hin
    exact ⟨r, _, h1, h2, h3, hsplit l hin, eraseP_peer_none_left q l, h4, h5, h6⟩

theorem no_debug_peer_removes_entry_witness :
    (bgp_find_peer sampleEnv "swp1" = some 7 ∧
      sampleWorld1.dbg.bgp_debug_neighbor_events_peers = some [⟨some 7, none⟩] ∧
      ∃ f ∈ [(⟨some 7, none⟩ : bgp_debug_filter)], f.peer = some 7) ∧
    ∃ r l2, no_debug_bgp_neighbor_events_peer sampleEnv sampleDebugConsts
        node_type.ENABLE_NODE "swp1" sampleWorld1 = some r ∧
      r.ret = cmd_status.CMD_SUCCESS ∧
      r.world.dbg.bgp_debug_neighbor_events_peers = some l2 ∧
      RemovedFirstPeer 7 [⟨some 7, none⟩] l2 :=
  ⟨⟨rfl, rfl, ⟨_, List.mem_singleton.mpr rfl, rfl⟩⟩,
    let ⟨r, l2, h1, h2, h3, h4, _⟩ := (no_debug_peer_removes_entry sampleEnv sampleDebugConsts
      node_type.ENABLE_NODE "in" "swp1" 7 sampleWorld1 rfl).1 [⟨some 7, none⟩] rfl
      ⟨_, List.mem_singleton.mpr rfl, rfl⟩
    ⟨r, l2, h1, h2, h3, h4⟩⟩

theorem remove_entry_prefix_spec (x : Prefix) (lock : Peer → Nat)
    (l : List bgp_debug_filter) (hwf : IsPrefixList l) :
    ∃ b found l2, bgp_debug_list_has_entry none (some x) l = some b ∧
      bgp_debug_list_remove_entry none (some x) lock l = some (found, l2, lock) ∧
      (b = true ↔ ∃ f ∈ l, EntryMatches f x) ∧
      (b = true → found = 1 ∧ RemovedFirstPrefix x l l2) ∧
      (b = false → found = 0 ∧ l2 = l) := by
  induction l with
  | nil =>
    exact ⟨false, 0, [], rfl, rfl, by simp, fun h => absurd h (by simp), fun _ => ⟨rfl, rfl⟩⟩
  | cons f rest ih =>
    have hrest : IsPrefixList rest := fun g hg => hwf g (List.mem_cons_of_mem _ hg)
    obtain ⟨b, found, l2, hb, hr, hiff, ht, hf0⟩ := ih hrest
    have hf : f.p ≠ none := hwf f (List.mem_cons_self _ _)
    obtain ⟨fp, hfp⟩ := Option.ne_none_iff_exists'.mp hf
    by_cases hm : fp.prefixlen = x.prefixlen ∧ prefix_match fp x = true
    · have hmatch : EntryMatches f x :=
        ⟨fp, hfp, hm.1, (prefix_match_iff fp x).mp hm.2⟩
      refine ⟨true, 1, rest, by simp [bgp_debug_list_has_entry, hfp, hm],
        by simp [bgp_debug_list_remove_entry, hfp, hm], ?_, ?_, fun h => absurd h (by simp)⟩
      · simp only [true_iff]
        exact ⟨f, List.mem_cons_self _ _, hmatch⟩
      · intro _
        exact ⟨rfl, [], f, rest, rfl, hmatch, by simp, rfl⟩
    · have hnot : ¬ EntryMatches f x := by
        rintro ⟨gp, hgp, hlen, hbits⟩
        rw [hfp] at hgp
        cases hgp
        exact hm ⟨hlen, (prefix_match_iff fp x).mpr hbits⟩
      refine ⟨b, found, f :: l2, ?_, ?_, ?_, ?_, ?_⟩
      · simp only [bgp_debug_list_has_entry, hfp]
        rw [if_neg hm]
        exact hb
      · simp only [bgp_debug_list_remove_entry, hfp]
        rw [if_neg hm, hr]
        rfl
      · rw [hiff]
        constructor
        · rintro ⟨g, hg, hgm⟩
          exact ⟨g, List.mem_cons_of_mem _ hg, hgm⟩
        · rintro ⟨g, hg, hgm⟩
          rcases List.mem_cons.mp hg with rfl | hg
          · exact absurd hgm hnot
          · exact ⟨g, hg, hgm⟩
      · intro hbt
        obtain ⟨h1, l1, g, l3, a1, a2, a3, a4⟩ := ht hbt
        refine ⟨h1, f :: l1, g, l3, by rw [a1]; rfl, a2, ?_, by rw [a4]; rfl⟩
        intro k hk
        rcases List.mem_cons.mp hk with rfl | hk
        · exact hnot
        · exact a3 k hk
      · intro hbf
        obtain ⟨h1, h2⟩ := hf0 hbf
        exact ⟨h1, by rw [h2]⟩

/-- C28: on any list and a neighbor key `q` (no prefix), and on a list of prefix entries and
a prefix key `x` (no neighbor), `bgp_debug_list_has_entry` (which only reads the list) and
`bgp_debug_list_remove_entry` both return, removal returns 1 exactly when the membership
test returns true, which is exactly when some entry matches the key; when it returns 1 the
list is left without its first matching entry, the other entries in their order (and one
reference to `q` is released for a neighbor key); otherwise it returns 0 and the list and
the reference counts are as they were. -/
theorem remove_entry_agrees_with_has_entry (lock : Peer → Nat) (l : List bgp_debug_filter) :
    (∀ q : Peer, ∃ b found l2 lock2,
      bgp_debug_list_has_entry (some q) none l = some b ∧
      bgp_debug_list_remove_entry (some q) none lock l = some (found, l2, lock2) ∧
      (found = 1 ↔ b = true) ∧ (b = true ↔ ∃ f ∈ l, f.peer = some q) ∧
      (found = 1 → RemovedFirstPeer q l l2 ∧ lock2 = peer_unlock lock q) ∧
      (found ≠ 1 → found = 0 ∧ l2 = l ∧ lock2 = lock)) ∧
    (∀ x : Prefix, IsPrefixList l → ∃ b found l2,
      bgp_debug_list_has_entry none (some x) l = some b ∧
      bgp_debug_list_remove_entry none (some x) lock l = some (found, l2, lock) ∧
      (found = 1 ↔ b = true) ∧ (b = true ↔ ∃ f ∈ l, EntryMatches f x) ∧
      (found = 1 → RemovedFirstPrefix x l l2) ∧
      (found ≠ 1 → found = 0 ∧ l2 = l)) := by
  constructor
  · intro q
    refine ⟨_, _, _, _, has_entry_peer q none l, remove_entry_peer_eq q lock l, ?_, ?_, ?_, ?_⟩
    · by_cases h : l.any (fun f => decide (f.peer = some q)) = true <;> simp [h]
    · simp
    · intro h
      have hany : l.any (fun f => decide (f.peer = some q)) = true := by
        by_cases h2 : l.any (fun f => decide (f.peer = some q)) = true
        · exact h2
        · simp [h2] at h
      obtain ⟨l1, f, l3, a1, a2, a3, a4⟩ := eraseP_peer_split q l (by simpa using hany)
      exact ⟨⟨l1, f, l3, a1, a2, a3, a4⟩, by simp [hany]⟩
    · intro h
      have hany : ¬ l.any (fun f => decide (f.peer = some q)) = true := by
        intro h2
        simp [h2] at h
      refine ⟨by simp [hany], ?_, by simp [hany]⟩
      apply List.eraseP_of_forall_not
      intro a ha
      simp only [List.any_eq_true, not_exists, not_and] at hany
      exact hany a ha
  · intro x hwf
    obtain ⟨b, found, l2, hb, hr, hiff, ht, hf0⟩ := remove_entry_prefix_spec x lock l hwf
    refine ⟨b, found, l2, hb, hr, ?_, hiff, ?_, ?_⟩
    · cases b
      · simp [(hf0 rfl).1]
      · simp [(ht rfl).1]
    · intro h
      cases b
      · rw [(hf0 rfl).1] at h
        exact absurd h (by decide)
      · exact (ht rfl).2
    · intro h
      cases b
      · exact hf0 rfl
      · exact absurd (ht rfl).1 h

theorem remove_entry_agrees_with_has_entry_witness :
    IsPrefixList [filter10] ∧
    ∃ b found l2,
      bgp_debug_list_has_entry none (some ⟨2, 8, [10, 0, 0, 0]⟩) [filter10] = some b ∧
      bgp_debug_list_remove_entry none (some ⟨2, 8, [10, 0, 0, 0]⟩) (fun _ => 1) [filter10] =
        some (found, l2, fun _ => 1) ∧
      (found = 1 ↔ b = true) :=
  ⟨isPrefixList_filter10,
    let ⟨b, found, l2, h1, h2, h3, _⟩ := (remove_entry_agrees_with_has_entry (fun _ => 1)
      [filter10]).2 ⟨2, 8, [10, 0, 0, 0]⟩ isPrefixList_filter10
    ⟨b, found, l2, h1, h2, h3⟩⟩

/-! ## The invariant of the filter lists: claims C26 and C27 -/

theorem peerListOK_free (list : FilterList) (lock : Peer → Nat) :
    PeerListOK (bgp_debug_list_free list lock).1 := by
  cases list <;> intro f hf <;> simp [bgp_debug_list_free, list_new_if_null] at hf

theorem prefixListOK_free (list : FilterList) (lock : Peer → Nat) :
    PrefixListOK (bgp_debug_list_free list lock).1 := by
  cases list <;> simp [PrefixListOK, bgp_debug_list_free, list_new_if_null]

theorem peerListOK_new (list : FilterList) (h : PeerListOK list) :
    PeerListOK (some (list_new_if_null list)) := h

theorem prefixListOK_new (list : FilterList) (h : PrefixListOK list) :
    PrefixListOK (some (list_new_if_null list)) := h

theorem peerListOK_add (l : List bgp_debug_filter) (pr : Peer) (lock : Peer → Nat)
    (h : PeerListOK (some l)) :
    PeerListOK (some (bgp_debug_list_add_entry l (some pr) none lock).1) := by
  intro f hf
  simp only [bgp_debug_list_add_entry, list_new_if_null, List.mem_append,
    List.mem_singleton] at hf
  rcases hf with hf | rfl
  · exact h f hf
  · exact ⟨by simp, rfl⟩

theorem isPrefixList_of_prefixListOK (l : List bgp_debug_filter)
    (h : PrefixListOK (some l)) : IsPrefixList l :=
  fun f hf => (h.1 f hf).2

theorem prefixListOK_add (l : List bgp_debug_filter) (x : Prefix) (lock : Peer → Nat)
    (h : PrefixListOK (some l))
    (hno : bgp_debug_list_has_entry none (some x) l = some false) :
    PrefixListOK (some (bgp_debug_list_add_entry l none (some x) lock).1) := by
  obtain ⟨b, found, l2, hb, -, hiff, -, -⟩ :=
    remove_entry_prefix_spec x lock l (isPrefixList_of_prefixListOK l h)
  rw [hno] at hb
  simp only [Option.some.injEq] at hb
  subst hb
  have hnone : ∀ f ∈ l, ¬ EntryMatches f x := by
    intro f hf hm
    have := hiff.mpr ⟨f, hf, hm⟩
    exact absurd this (by simp)
  constructor
  · intro f hf
    simp only [bgp_debug_list_add_entry, list_new_if_null, List.mem_append,
      List.mem_singleton] at hf
    rcases hf with hf | rfl
    · exact h.1 f hf
    · exact ⟨rfl, by simp⟩
  · simp only [bgp_debug_list_add_entry, list_new_if_null]
    rw [List.pairwise_append]
    refine ⟨h.2, List.pairwise_singleton _ _, ?_⟩
    intro f hf g hg a b ha hb hsame
    rw [List.mem_singleton] at hg
    subst hg
    simp only [Option.some.injEq] at hb
    subst hb
    exact hnone f hf ⟨a, ha, hsame.1, fun i hi => (hsame.2 i hi).symm⟩

theorem peerListOK_remove (peer : Option Peer) (p : Option Prefix)
    (l : List bgp_debug_filter) (lock : Peer → Nat) (found : Nat) (l2 : List bgp_debug_filter)
    (lock2 : Peer → Nat)
    (h : bgp_debug_list_remove_entry peer p lock l = some (found, l2, lock2))
    (hok : PeerListOK (some l)) : PeerListOK (some l2) :=
  fun f hf => hok f ((remove_entry_sublist peer p l lock found l2 lock2 h).subset hf)

theorem prefixListOK_remove (peer : Option Peer) (p : Option Prefix)
    (l : List bgp_debug_filter) (lock : Peer → Nat) (found : Nat) (l2 : List bgp_debug_filter)
    (lock2 : Peer → Nat)
    (h : bgp_debug_list_remove_entry peer p lock l = some (found, l2, lock2))
    (hok : PrefixListOK (some l)) : PrefixListOK (some l2) :=
  ⟨fun f hf => hok.1 f ((remove_entry_sublist peer p l lock found l2 lock2 h).subset hf),
    hok.2.sublist (remove_entry_sublist peer p l lock found l2 lock2 h)⟩

theorem neighbor_events_peer_listsInv (E : Collab) (K : DebugConsts)
    (node : node_type) (a : String) (w : World) (r : CmdResult) (hinv : ListsInv w.dbg)
    (h : debug_bgp_neighbor_events_peer E K node a w = some r) : ListsInv r.world.dbg := by
  obtain ⟨n1, n2, n3, n4, n5, n6⟩ := hinv
  simp only [ debug_bgp_neighbor_events_peer, has_entry_peer] at h
  cases node <;> (repeat' split at h) <;>
    simp only [Option.some.injEq, reduceCtorEq] at h <;> subst h <;>
    (try simp only [TERM_DEBUG_ON, DEBUG_ON, TERM_DEBUG_OFF, DEBUG_OFF, DebugState.modifyTerm,
      DebugState.modifyConf]) <;>
    refine ⟨?_, ?_, ?_, ?_, ?_, ?_⟩ <;>
    first
    | assumption
    | exact peerListOK_new _ ‹_›
    | exact prefixListOK_new _ ‹_›
    | exact peerListOK_add _ _ _ (peerListOK_new _ ‹_›)

theorem keepalive_peer_listsInv (E : Collab) (K : DebugConsts)
    (node : node_type) (a : String) (w : World) (r : CmdResult) (hinv : ListsInv w.dbg)
    (h : debug_bgp_keepalive_peer E K node a w = some r) : ListsInv r.world.dbg := by
  obtain ⟨n1, n2, n3, n4, n5, n6⟩ := hinv
  simp only [ debug_bgp_keepalive_peer, has_entry_peer] at h
  cases node <;> (repeat' split at h) <;>
    simp only [Option.some.injEq, reduceCtorEq] at h <;> subst h <;>
    (try simp only [TERM_DEBUG_ON, DEBUG_ON, TERM_DEBUG_OFF, DEBUG_OFF, DebugState.modifyTerm,
      DebugState.modifyConf]) <;>
    refine ⟨?_, ?_, ?_, ?_, ?_, ?_⟩ <;>
    first
    | assumption
    | exact peerListOK_new _ ‹_›
    | exact prefixListOK_new _ ‹_›
    | exact peerListOK_add _ _ _ (peerListOK_new _ ‹_›)

theorem update_direct_peer_listsInv (E : Collab) (K : DebugConsts)
    (node : node_type) (a b : String) (w : World) (r : CmdResult) (hinv : ListsInv w.dbg)
    (h : debug_bgp_update_direct_peer E K node a b w = some r) : ListsInv r.world.dbg := by
  obtain ⟨n1, n2, n3, n4, n5, n6⟩ := hinv
  simp only [ debug_bgp_update_direct_peer, has_entry_peer] at h
  cases node <;> (repeat' split at h) <;>
    simp only [Option.some.injEq, reduceCtorEq] at h <;> subst h <;>
    (try simp only [TERM_DEBUG_ON, DEBUG_ON, TERM_DEBUG_OFF, DEBUG_OFF, DebugState.modifyTerm,
      DebugState.modifyConf]) <;>
    refine ⟨?_, ?_, ?_, ?_, ?_, ?_⟩ <;>
    first
    | assumption
    | exact peerListOK_new _ ‹_›
    | exact prefixListOK_new _ ‹_›
    | exact peerListOK_add _ _ _ (peerListOK_new _ ‹_›)

theorem update_prefix_cmd_listsInv (E : Collab) (K : DebugConsts)
    (node : node_type) (a : String) (w : World) (r : CmdResult) (hinv : ListsInv w.dbg)
    (h : debug_bgp_update_prefix E K node a w = some r) : ListsInv r.world.dbg := by
  obtain ⟨n1, n2, n3, n4, n5, n6⟩ := hinv
  simp only [ debug_bgp_update_prefix, has_entry_peer] at h
  cases node <;> (repeat' split at h) <;>
    simp only [Option.some.injEq, reduceCtorEq] at h <;> subst h <;>
    (try simp only [TERM_DEBUG_ON, DEBUG_ON, TERM_DEBUG_OFF, DEBUG_OFF, DebugState.modifyTerm,
      DebugState.modifyConf]) <;>
    refine ⟨?_, ?_, ?_, ?_, ?_, ?_⟩ <;>
    first
    | assumption
    | exact peerListOK_new _ ‹_›
    | exact prefixListOK_new _ ‹_›
    | exact peerListOK_add _ _ _ (peerListOK_new _ ‹_›)
    | exact prefixListOK_add _ _ _ (prefixListOK_new _ ‹_›) ‹_›

theorem zebra_prefix_cmd_listsInv (E : Collab) (K : DebugConsts)
    (node : node_type) (a : String) (w : World) (r : CmdResult) (hinv : ListsInv w.dbg)
    (h : debug_bgp_zebra_prefix E K node a w = some r) : ListsInv r.world.dbg := by
  obtain ⟨n1, n2, n3, n4, n5, n6⟩ := hinv
  simp only [ debug_bgp_zebra_prefix, has_entry_peer] at h
  cases node <;> (repeat' split at h) <;>
    simp only [Option.some.injEq, reduceCtorEq] at h <;> subst h <;>
    (try simp only [TERM_DEBUG_ON, DEBUG_ON, TERM_DEBUG_OFF, DEBUG_OFF, DebugState.modifyTerm,
      DebugState.modifyConf]) <;>
    refine ⟨?_, ?_, ?_, ?_, ?_, ?_⟩ <;>
    first
    | assumption
    | exact peerListOK_new _ ‹_›
    | exact prefixListOK_new _ ‹_›
    | exact peerListOK_add _ _ _ (peerListOK_new _ ‹_›)
    | exact prefixListOK_add _ _ _ (prefixListOK_new _ ‹_›) ‹_›

theorem no_neighbor_events_peer_listsInv (E : Collab) (K : DebugConsts)
    (node : node_type) (a : String) (w : World) (r : CmdResult) (hinv : ListsInv w.dbg)
    (h : no_debug_bgp_neighbor_events_peer E K node a w = some r) : ListsInv r.world.dbg := by
  obtain ⟨n1, n2, n3, n4, n5, n6⟩ := hinv
  simp only [ no_debug_bgp_neighbor_events_peer] at h
  split at h
  · simp only [Option.some.injEq] at h
    subst h
    exact ⟨n1, n2, n3, n4, n5, n6⟩
  · split at h
    · simp only [Option.some.injEq] at h
      subst h
      exact ⟨n1, n2, n3, n4, n5, n6⟩
    · rename_i l hl
      split at h
      · simp only [Option.some.injEq] at h
        subst h
        exact ⟨n1, n2, n3, n4, n5, n6⟩
      · split at h
        · exact absurd h (by simp)
        · rename_i found l2 lock2 hrem
          rw [hl] at n1
          have hnew := peerListOK_remove _ _ _ _ _ _ _ hrem n1
          simp only [Option.some.injEq] at h
          subst h
          cases node <;> split_ifs <;>
            (try simp only [TERM_DEBUG_OFF, DEBUG_OFF, DebugState.modifyTerm,
              DebugState.modifyConf]) <;>
            exact ⟨hnew, n2, n3, n4, n5, n6⟩

theorem no_keepalive_peer_listsInv (E : Collab) (K : DebugConsts)
    (node : node_type) (a : String) (w : World) (r : CmdResult) (hinv : ListsInv w.dbg)
    (h : no_debug_bgp_keepalive_peer E K node a w = some r) : ListsInv r.world.dbg := by
  obtain ⟨n1, n2, n3, n4, n5, n6⟩ := hinv
  simp only [ no_debug_bgp_keepalive_peer] at h
  split at h
  · simp only [Option.some.injEq] at h
    subst h
    exact ⟨n1, n2, n3, n4, n5, n6⟩
  · split at h
    · simp only [Option.some.injEq] at h
      subst h
      exact ⟨n1, n2, n3, n4, n5, n6⟩
    · rename_i l hl
      split at h
      · simp only [Option.some.injEq] at h
        subst h
        exact ⟨n1, n2, n3, n4, n5, n6⟩
      · split at h
        · exact absurd h (by simp)
        · rename_i found l2 lock2 hrem
          rw [hl] at n2
          have hnew := peerListOK_remove _ _ _ _ _ _ _ hrem n2
          simp only [Option.some.injEq] at h
          subst h
          cases node <;> split_ifs <;>
            (try simp only [TERM_DEBUG_OFF, DEBUG_OFF, DebugState.modifyTerm,
              DebugState.modifyConf]) <;>
            exact ⟨n1, hnew, n3, n4, n5, n6⟩

theorem no_update_prefix_cmd_listsInv (E : Collab) (K : DebugConsts)
    (node : node_type) (a : String) (w : World) (r : CmdResult) (hinv : ListsInv w.dbg)
    (h : no_debug_bgp_update_prefix E K node a w = some r) : ListsInv r.world.dbg := by
  obtain ⟨n1, n2, n3, n4, n5, n6⟩ := hinv
  simp only [ no_debug_bgp_update_prefix] at h
  split at h
  · simp only [Option.some.injEq] at h
    subst h
    exact ⟨n1, n2, n3, n4, n5, n6⟩
  · split at h
    · simp only [Option.some.injEq] at h
      subst h
      exact ⟨n1, n2, n3, n4, n5, n6⟩
    · rename_i l hl
      split at h
      · simp only [Option.some.injEq] at h
        subst h
        exact ⟨n1, n2, n3, n4, n5, n6⟩
      · split at h
        · exact absurd h (by simp)
        · rename_i found l2 lock2 hrem
          rw [hl] at n5
          have hnew := prefixListOK_remove _ _ _ _ _ _ _ hrem n5
          simp only [Option.some.injEq] at h
          subst h
          cases node <;> split_ifs <;>
            (try simp only [TERM_DEBUG_OFF, DEBUG_OFF, DebugState.modifyTerm,
              DebugState.modifyConf]) <;>
            exact ⟨n1, n2, n3, n4, hnew, n6⟩

theorem no_update_direct_peer_listsInv (E : Collab) (K : DebugConsts)
    (node : node_type) (a b : String) (w : World) (r : CmdResult) (hinv : ListsInv w.dbg)
    (h : no_debug_bgp_update_direct_peer E K node a b w = some r) : ListsInv r.world.dbg := by
  obtain ⟨n1, n2, n3, n4, n5, n6⟩ := hinv
  simp only [ no_debug_bgp_update_direct_peer] at h
  split at h
  · simp only [Option.some.injEq] at h
    subst h
    exact ⟨n1, n2, n3, n4, n5, n6⟩
  · split at h
    · split at h
      · simp only [Option.some.injEq] at h
        subst h
        exact ⟨n1, n2, n3, n4, n5, n6⟩
      · rename_i l hl
        split at h
        · simp only [Option.some.injEq] at h
          subst h
          exact ⟨n1, n2, n3, n4, n5, n6⟩
        · split at h
          · exact absurd h (by simp)
          · rename_i found l2 lock2 hrem
            rw [hl] at n3
            have hnew := peerListOK_remove _ _ _ _ _ _ _ hrem n3
            simp only [Option.some.injEq] at h
            subst h
            cases node <;> split_ifs <;>
              (try simp only [TERM_DEBUG_OFF, DEBUG_OFF, DebugState.modifyTerm,
                DebugState.modifyConf]) <;>
              exact ⟨n1, n2, hnew, n4, n5, n6⟩
    · split at h
      · simp only [Option.some.injEq] at h
        subst h
        exact ⟨n1, n2, n3, n4, n5, n6⟩
      · rename_i l hl
        split at h
        · simp only [Option.some.injEq] at h
          subst h
          exact ⟨n1, n2, n3, n4, n5, n6⟩
        · split at h
          · exact absurd h (by simp)
          · rename_i found l2 lock2 hrem
            rw [hl] at n4
            have hnew := peerListOK_remove _ _ _ _ _ _ _ hrem n4
            simp only [Option.some.injEq] at h
            subst h
            cases node <;> split_ifs <;>
              (try simp only [TERM_DEBUG_OFF, DEBUG_OFF, DebugState.modifyTerm,
                DebugState.modifyConf]) <;>
              exact ⟨n1, n2, n3, hnew, n5, n6⟩

theorem no_zebra_prefix_cmd_listsInv (E : Collab) (K : DebugConsts)
    (node : node_type) (a : String) (w : World) (r : CmdResult) (hinv : ListsInv w.dbg)
    (h : no_debug_bgp_zebra_prefix E K node a w = some r) : ListsInv r.world.dbg := by
  obtain ⟨n1, n2, n3, n4, n5, n6⟩ := hinv
  simp only [ no_debug_bgp_zebra_prefix] at h
  split at h
  · simp only [Option.some.injEq] at h
    subst h
    exact ⟨n1, n2, n3, n4, n5, n6⟩
  · split at h
    · simp only [Option.some.injEq] at h
      subst h
      exact ⟨n1, n2, n3, n4, n5, n6⟩
    · split at h
      · simp only [Option.some.injEq] at h
        subst h
        exact ⟨n1, n2, n3, n4, n5, n6⟩
      · split at h
        · exact absurd h (by simp)
        · rename_i l hl
          split at h
          · exact absurd h (by simp)
          · rename_i found l2 lock2 hrem
            rw [hl] at n1
            have hnew := peerListOK_remove _ _ _ _ _ _ _ hrem n1
            simp only [Option.some.injEq] at h
            subst h
            cases node <;> split_ifs <;>
              (try simp only [TERM_DEBUG_OFF, DEBUG_OFF, DebugState.modifyTerm,
                DebugState.modifyConf]) <;>
              exact ⟨hnew, n2, n3, n4, n5, n6⟩

/-- Every command that returns keeps the invariant of the filter lists. -/
theorem exec_preserves_listsInv (E : Collab) (K : DebugConsts) (c : Command)
    (node : node_type) (w : World) (r : CmdResult) (hinv : ListsInv w.dbg)
    (h : exec E K c node w = some r) : ListsInv r.world.dbg := by
  cases c
  case debug_bgp_neighbor_events_peer_cmd a =>
    exact neighbor_events_peer_listsInv E K node a w r hinv h
  case no_debug_bgp_neighbor_events_peer_cmd a =>
    exact no_neighbor_events_peer_listsInv E K node a w r hinv h
  case debug_bgp_keepalive_peer_cmd a =>
    exact keepalive_peer_listsInv E K node a w r hinv h
  case no_debug_bgp_keepalive_peer_cmd a =>
    exact no_keepalive_peer_listsInv E K node a w r hinv h
  case debug_bgp_update_direct_peer_cmd a b =>
    exact update_direct_peer_listsInv E K node a b w r hinv h
  case no_debug_bgp_update_direct_peer_cmd a b =>
    exact no_update_direct_peer_listsInv E K node a b w r hinv h
  case debug_bgp_update_prefix_cmd a =>
    exact update_prefix_cmd_listsInv E K node a w r hinv h
  case no_debug_bgp_update_prefix_cmd a =>
    exact no_update_prefix_cmd_listsInv E K node a w r hinv h
  case debug_bgp_zebra_prefix_cmd a =>
    exact zebra_prefix_cmd_listsInv E K node a w r hinv h
  case no_debug_bgp_zebra_prefix_cmd a =>
    exact no_zebra_prefix_cmd_listsInv E K node a w r hinv h
  all_goals
    obtain ⟨n1, n2, n3, n4, n5, n6⟩ := hinv
    simp only [exec, Option.some.injEq] at h
    subst h
    cases node <;>
    simp only [reduceCtorEq, if_true, if_false,
      debug_bgp_as4, no_debug_bgp_as4, debug_bgp_as4_segment, no_debug_bgp_as4_segment,
      debug_bgp_neighbor_events, no_debug_bgp_neighbor_events, debug_bgp_nht, no_debug_bgp_nht,
      debug_bgp_keepalive, no_debug_bgp_keepalive, debug_bgp_update, debug_bgp_update_direct,
      no_debug_bgp_update, debug_bgp_zebra, no_debug_bgp_zebra, no_debug_bgp,
      TERM_DEBUG_ON, TERM_DEBUG_OFF, DEBUG_ON, DEBUG_OFF, ListsInv, modifyTerm_list_fields,
      modifyConf_list_fields] <;>
    (try split_ifs) <;>
    refine ⟨?_, ?_, ?_, ?_, ?_, ?_⟩ <;>
    first
    | assumption
    | exact peerListOK_free _ _
    | exact prefixListOK_free _ _

/-- Every reachable state satisfies the invariant of the filter lists. -/
theorem reachable_listsInv (K : DebugConsts) (L0 : Peer → Nat) (w : World)
    (h : Reachable K L0 w) : ListsInv w.dbg := by
  induction h with
  | init =>
    refine ⟨?_, ?_, ?_, ?_, ?_, ?_⟩ <;>
      simp [DebugState.init, PeerListOK, PrefixListOK, list_new_if_null]
  | step E c node w r _ _ hexec ih => exact exec_preserves_listsInv E K c node w r ih hexec

theorem pairwise_peer_of_count (l : List bgp_debug_filter)
    (hty : ∀ f ∈ l, f.peer ≠ none)
    (hcnt : ∀ q, l.countP (fun f => decide (f.peer = some q)) ≤ 1) :
    l.Pairwise (fun f g => f.peer ≠ g.peer) := by
  induction l with
  | nil => exact List.Pairwise.nil
  | cons f rest ih =>
    obtain ⟨q, hq⟩ := Option.ne_none_iff_exists'.mp (hty f (List.mem_cons_self _ _))
    have h0 : rest.countP (fun f => decide (f.peer = some q)) = 0 := by
      have := hcnt q
      simp only [List.countP_cons, hq, decide_True, if_true] at this
      omega
    rw [List.countP_eq_zero] at h0
    refine List.Pairwise.cons ?_ (ih (fun g hg => hty g (List.mem_cons_of_mem _ hg)) ?_)
    · intro g hg heq
      have := h0 g hg
      rw [← heq, hq] at this
      simp at this
    · intro q2
      have := hcnt q2
      rw [List.countP_cons] at this
      omega

/-- C26: in every state reachable from startup, every entry of the four neighbor lists
holds a neighbor and no prefix, and every entry of the two prefix lists holds a prefix and
no neighbor; so every entry of every filter list holds exactly one of the two. -/
theorem reachable_entries_exactly_one (K : DebugConsts) (L0 : Peer → Nat) (w : World)
    (h : Reachable K L0 w) :
    PeerListOK w.dbg.bgp_debug_neighbor_events_peers ∧
    PeerListOK w.dbg.bgp_debug_keepalive_peers ∧
    PeerListOK w.dbg.bgp_debug_update_in_peers ∧
    PeerListOK w.dbg.bgp_debug_update_out_peers ∧
    (∀ f ∈ list_new_if_null w.dbg.bgp_debug_update_prefixes, f.peer = none ∧ f.p ≠ none) ∧
    (∀ f ∈ list_new_if_null w.dbg.bgp_debug_zebra_prefixes, f.peer = none ∧ f.p ≠ none) ∧
    ∀ list ∈ w.dbg.lists, ∀ l, list = some l → ∀ f ∈ l, ExactlyOne f := by
  obtain ⟨n1, n2, n3, n4, n5, n6⟩ := reachable_listsInv K L0 w h
  refine ⟨n1, n2, n3, n4, n5.1, n6.1, ?_⟩
  intro list hlist l hl f hf
  subst hl
  simp only [DebugState.lists, List.mem_cons, List.mem_singleton, List.not_mem_nil,
    or_false] at hlist
  rcases hlist with h1 | h1 | h1 | h1 | h1 | h1
  · exact Or.inl (n1 f (by rw [← h1]; exact hf))
  · exact Or.inl (n2 f (by rw [← h1]; exact hf))
  · exact Or.inl (n3 f (by rw [← h1]; exact hf))
  · exact Or.inl (n4 f (by rw [← h1]; exact hf))
  · exact Or.inr (n5.1 f (by rw [← h1]; exact hf))
  · exact Or.inr (n6.1 f (by rw [← h1]; exact hf))

theorem reachable_entries_exactly_one_witness :
    Reachable sampleDebugConsts (fun _ => 1) sampleWorld1 ∧
    sampleWorld1.dbg.bgp_debug_neighbor_events_peers = some [⟨some 7, none⟩] ∧
    ∀ list ∈ sampleWorld1.dbg.lists, ∀ l, list = some l → ∀ f ∈ l, ExactlyOne f :=
  have hr : Reachable sampleDebugConsts (fun _ => 1) sampleWorld1 :=
    reachable_of_execAll sampleEnv sampleDebugConsts (fun _ => 1)
      [(Command.debug_bgp_neighbor_events_peer_cmd "swp1", node_type.ENABLE_NODE),
       (Command.debug_bgp_keepalive_peer_cmd "swp1", node_type.ENABLE_NODE)] world0 sampleWorld1
      Reachable.init (by decide) rfl
  ⟨hr, rfl, (reachable_entries_exactly_one sampleDebugConsts (fun _ => 1) sampleWorld1
    hr).2.2.2.2.2.2⟩

/-- C27: in every state reachable from startup, no two entries of a neighbor list
(neighbor-events, keepalive, updates inbound, updates outbound) reference the same
neighbor, and no two entries of a prefix list (update prefixes, zebra prefixes) hold
prefixes of the same length with the same leading bits over that length. -/
theorem reachable_no_duplicates (K : DebugConsts) (L0 : Peer → Nat) (w : World)
    (h : Reachable K L0 w) :
    (list_new_if_null w.dbg.bgp_debug_neighbor_events_peers).Pairwise
      (fun f g => f.peer ≠ g.peer) ∧
    (list_new_if_null w.dbg.bgp_debug_keepalive_peers).Pairwise
      (fun f g => f.peer ≠ g.peer) ∧
    (list_new_if_null w.dbg.bgp_debug_update_in_peers).Pairwise
      (fun f g => f.peer ≠ g.peer) ∧
    (list_new_if_null w.dbg.bgp_debug_update_out_peers).Pairwise
      (fun f g => f.peer ≠ g.peer) ∧
    (list_new_if_null w.dbg.bgp_debug_update_prefixes).Pairwise
      (fun f g => ∀ a b, f.p = some a → g.p = some b → ¬ SamePrefix a b) ∧
    (list_new_if_null w.dbg.bgp_debug_zebra_prefixes).Pairwise
      (fun f g => ∀ a b, f.p = some a → g.p = some b → ¬ SamePrefix a b) := by
  obtain ⟨n1, n2, n3, n4, n5, n6⟩ := reachable_listsInv K L0 w h
  have hc := reachable_atMostOnce K L0 w h
  exact ⟨pairwise_peer_of_count _ (fun f hf => (n1 f hf).1) (fun q => (hc q).1),
    pairwise_peer_of_count _ (fun f hf => (n2 f hf).1) (fun q => (hc q).2.1),
    pairwise_peer_of_count _ (fun f hf => (n3 f hf).1) (fun q => (hc q).2.2.1),
    pairwise_peer_of_count _ (fun f hf => (n4 f hf).1) (fun q => (hc q).2.2.2),
    n5.2, n6.2⟩

theorem reachable_no_duplicates_witness :
    Reachable sampleDebugConsts (fun _ => 1) sampleWorld1 ∧
    (list_new_if_null sampleWorld1.dbg.bgp_debug_neighbor_events_peers).Pairwise
      (fun f g => f.peer ≠ g.peer) :=
  have hr : Reachable sampleDebugConsts (fun _ => 1) sampleWorld1 :=
    reachable_of_execAll sampleEnv sampleDebugConsts (fun _ => 1)
      [(Command.debug_bgp_neighbor_events_peer_cmd "swp1", node_type.ENABLE_NODE),
       (Command.debug_bgp_keepalive_peer_cmd "swp1", node_type.ENABLE_NODE)] world0 sampleWorld1
      Reachable.init (by decide) rfl
  ⟨hr, (reachable_no_duplicates sampleDebugConsts (fun _ => 1) sampleWorld1 hr).1⟩

/-- C30: in every state reachable from the startup state, in which each neighbor `q` has
the reference count `L0 q`, the reference count of every neighbor is `L0 q` plus the
number of entries, over the six filter lists, that reference it: the references this
subsystem holds are exactly its filter entries. -/
theorem reachable_refs_are_entries (K : DebugConsts) (L0 : Peer → Nat) (w : World)
    (h : Reachable K L0 w) :
    ∀ q, w.lock q = L0 q + w.dbg.allRefs q ∧ w.lock q - L0 q = w.dbg.allRefs q := by
  intro q
  have := (reachable_refInv K L0 w h).2 q
  exact ⟨this, by omega⟩

theorem reachable_refs_are_entries_witness :
    Reachable sampleDebugConsts (fun _ => 1) sampleWorld1 ∧
    sampleWorld1.dbg.allRefs 7 = 2 ∧
    sampleWorld1.lock 7 = 1 + sampleWorld1.dbg.allRefs 7 :=
  have hr : Reachable sampleDebugConsts (fun _ => 1) sampleWorld1 :=
    reachable_of_execAll sampleEnv sampleDebugConsts (fun _ => 1)
      [(Command.debug_bgp_neighbor_events_peer_cmd "swp1", node_type.ENABLE_NODE),
       (Command.debug_bgp_keepalive_peer_cmd "swp1", node_type.ENABLE_NODE)] world0 sampleWorld1
      Reachable.init (by decide) rfl
  ⟨hr, by decide,
    ((reachable_refs_are_entries sampleDebugConsts (fun _ => 1) sampleWorld1 hr) 7).1⟩

/-! ## Labels of known codes and subcodes: claim C29 -/

theorem LOOKUP_DEF_hit (x : List message) (dflt : String)
    (hd : (x.map (fun m => m.key)).Nodup) (m : message) (hm : m ∈ x) :
    LOOKUP_DEF x m.key dflt = m.str := by
  induction x with
  | nil => simp at hm
  | cons a rest ih =>
    simp only [List.map_cons, List.nodup_cons, List.mem_map, not_exists, not_and] at hd
    rcases List.mem_cons.mp hm with rfl | hrest
    · simp [LOOKUP_DEF]
    · have hne : a.key ≠ m.key := fun heq => hd.1 m hrest heq.symm
      simp only [LOOKUP_DEF]
      rw [if_neg hne]
      exact ih hd.2 hrest

theorem subcode_tables_slash (N : NotifyConsts) :
    ∀ m ∈ bgp_notify_head_msg N ++ bgp_notify_open_msg N ++ bgp_notify_update_msg N ++
        bgp_notify_cease_msg N ++ bgp_notify_capability_msg N,
      m.str.toList.head? = some '/' := by
  intro m hm
  simp only [bgp_notify_head_msg, bgp_notify_open_msg, bgp_notify_update_msg,
    bgp_notify_cease_msg, bgp_notify_capability_msg, List.cons_append, List.nil_append,
    List.mem_cons, List.mem_singleton, List.not_mem_nil, or_false] at hm
  rcases hm with h | h | h | h | h | h | h | h | h | h | h | h | h | h | h | h | h | h |
    h | h | h | h | h | h | h | h | h | h | h | h | h | h | h | h | h | h <;>
    (subst h; rfl)

/-- C29: for every entry of `bgp_notify_msg` the decoder's outer label for the entry's code
is the entry's text, whatever the subcode; for each of the five codes with a subcode table
and every entry of that table, the decoder's subcode label for the entry's subcode is the
entry's text; and every text stored in the five subcode tables begins with `/`. The seven
`case` labels of the `switch` (the keys of `bgp_notify_msg`) are taken to be pairwise
distinct, as are the keys within a subcode table. -/
theorem bgp_notify_print_known (N : NotifyConsts) (hd : (caseLabels N).Nodup) :
    (∀ m ∈ bgp_notify_msg N, ∀ subcode, (bgp_notify_print N m.key subcode).1 = m.str) ∧
    (((bgp_notify_head_msg N).map (fun m => m.key)).Nodup →
      ∀ m ∈ bgp_notify_head_msg N,
        bgp_notify_print N N.BGP_NOTIFY_HEADER_ERR m.key = ("Message Header Error", m.str)) ∧
    (((bgp_notify_open_msg N).map (fun m => m.key)).Nodup →
      ∀ m ∈ bgp_notify_open_msg N,
        bgp_notify_print N N.BGP_NOTIFY_OPEN_ERR m.key = ("OPEN Message Error", m.str)) ∧
    (((bgp_notify_update_msg N).map (fun m => m.key)).Nodup →
      ∀ m ∈ bgp_notify_update_msg N,
        bgp_notify_print N N.BGP_NOTIFY_UPDATE_ERR m.key = ("UPDATE Message Error", m.str)) ∧
    (((bgp_notify_cease_msg N).map (fun m => m.key)).Nodup →
      ∀ m ∈ bgp_notify_cease_msg N,
        bgp_notify_print N N.BGP_NOTIFY_CEASE m.key = ("Cease", m.str)) ∧
    (((bgp_notify_capability_msg N).map (fun m => m.key)).Nodup →
      ∀ m ∈ bgp_notify_capability_msg N,
        bgp_notify_print N N.BGP_NOTIFY_CAPABILITY_ERR m.key =
          ("CAPABILITY Message Error", m.str)) ∧
    (∀ m ∈ bgp_notify_head_msg N ++ bgp_notify_open_msg N ++ bgp_notify_update_msg N ++
        bgp_notify_cease_msg N ++ bgp_notify_capability_msg N,
      m.str.toList.head? = some '/') := by
  have houter : ∀ m ∈ bgp_notify_msg N, ∀ subcode,
      (bgp_notify_print N m.key subcode).1 = m.str := fun m hm _ =>
    LOOKUP_DEF_hit (bgp_notify_msg N) "Unrecognized Error Code" hd m hm
  have hmem : ∀ (k : Int) (s : String), (⟨k, s⟩ : message) ∈ bgp_notify_msg N →
      ∀ subcode, (bgp_notify_print N k subcode).1 = s := fun k s hm sub =>
    houter ⟨k, s⟩ hm sub
  simp only [caseLabels, List.nodup_cons, List.mem_cons, List.mem_singleton, not_or,
    List.not_mem_nil, not_false_eq_true, List.nodup_nil, and_true] at hd
  obtain ⟨⟨h12, h13, h14, h15, h16, h17⟩, ⟨h23, h24, h25, h26, h27⟩, ⟨h34, h35, h36, h37⟩,
    ⟨h45, h46, h47⟩, ⟨h56, h57⟩, h67⟩ := hd
  refine ⟨houter, ?_, ?_, ?_, ?_, ?_, subcode_tables_slash N⟩
  · intro hn m hm
    refine Prod.ext (hmem _ _ (by simp [bgp_notify_msg]) _) ?_
    simp only [bgp_notify_print, bgp_notify_print_subcode_str, if_true]
    exact LOOKUP_DEF_hit _ _ hn m hm
  · intro hn m hm
    refine Prod.ext (hmem _ _ (by simp [bgp_notify_msg]) _) ?_
    simp only [bgp_notify_print, bgp_notify_print_subcode_str, if_true, if_neg (Ne.symm h12)]
    exact LOOKUP_DEF_hit _ _ hn m hm
  · intro hn m hm
    refine Prod.ext (hmem _ _ (by simp [bgp_notify_msg]) _) ?_
    simp only [bgp_notify_print, bgp_notify_print_subcode_str, if_true,
      if_neg (Ne.symm h13), if_neg (Ne.symm h23)]
    exact LOOKUP_DEF_hit _ _ hn m hm
  · intro hn m hm
    refine Prod.ext (hmem _ _ (by simp [bgp_notify_msg]) _) ?_
    simp only [bgp_notify_print, bgp_notify_print_subcode_str, if_true,
      if_neg (Ne.symm h16), if_neg (Ne.symm h26), if_neg (Ne.symm h36),
      if_neg (Ne.symm h46), if_neg (Ne.symm h56)]
    exact LOOKUP_DEF_hit _ _ hn m hm
  · intro hn m hm
    refine Prod.ext (hmem _ _ (by simp [bgp_notify_msg]) _) ?_
    simp only [bgp_notify_print, bgp_notify_print_subcode_str, if_true,
      if_neg (Ne.symm h17), if_neg (Ne.symm h27), if_neg (Ne.symm h37),
      if_neg (Ne.symm h47), if_neg (Ne.symm h57), if_neg (Ne.symm h67)]
    exact LOOKUP_DEF_hit _ _ hn m hm

theorem bgp_notify_print_known_witness :
    ((caseLabels rfcNotifyConsts).Nodup ∧
      ((bgp_notify_update_msg rfcNotifyConsts).map (fun m => m.key)).Nodup ∧
      (⟨3, "/Missing Well-known Attribute"⟩ : message) ∈
        bgp_notify_update_msg rfcNotifyConsts) ∧
    bgp_notify_print rfcNotifyConsts rfcNotifyConsts.BGP_NOTIFY_UPDATE_ERR 3 =
      ("UPDATE Message Error", "/Missing Well-known Attribute") :=
  ⟨⟨by decide, by decide, by decide⟩,
    (bgp_notify_print_known rfcNotifyConsts (by decide)).2.2.2.1 (by decide)
      ⟨3, "/Missing Well-known Attribute"⟩ (by decide)⟩

/-! ## Output in declarative context: claim C25 -/

theorem sameRegistry_refl (w : World) : SameRegistry w w :=
  ⟨rfl, rfl, rfl, rfl⟩

theorem config_silent_or_same (E : Collab) (K : DebugConsts) (c : Command) (w : World)
    (r : CmdResult) (hc : keyedRemoval c = false)
    (hinst : installed c node_type.CONFIG_NODE = true)
    (h : exec E K c node_type.CONFIG_NODE w = some r) :
    r.out = [] ∨ SameRegistry w r.world := by
  cases c <;> simp only [keyedRemoval, reduceCtorEq] at hc <;>
    simp only [installed, decide_eq_true_eq, reduceCtorEq] at hinst <;>
    simp only [exec, debug_bgp_as4, no_debug_bgp_as4, debug_bgp_as4_segment,
      no_debug_bgp_as4_segment, debug_bgp_neighbor_events, no_debug_bgp_neighbor_events,
      debug_bgp_nht, no_debug_bgp_nht, debug_bgp_keepalive, no_debug_bgp_keepalive,
      debug_bgp_update, debug_bgp_update_direct, no_debug_bgp_update, debug_bgp_zebra,
      no_debug_bgp_zebra, debug_bgp_neighbor_events_peer, debug_bgp_keepalive_peer,
      debug_bgp_update_direct_peer, debug_bgp_update_prefix, debug_bgp_zebra_prefix,
      if_true] at h <;>
    (repeat' split at h) <;>
    simp only [Option.some.injEq, reduceCtorEq] at h <;>
    subst h <;>
    first
    | exact Or.inl rfl
    | exact Or.inr ⟨rfl, rfl, rfl, rfl⟩

theorem remove_entry_found (peer : Option Peer) (p : Option Prefix)
    (l : List bgp_debug_filter) :
    ∀ (lock : Peer → Nat) (found : Nat) (l2 : List bgp_debug_filter) (lock2 : Peer → Nat),
      bgp_debug_list_remove_entry peer p lock l = some (found, l2, lock2) →
      (found = 0 ∧ l2 = l ∧ lock2 = lock) ∨ (found = 1 ∧ l2.length + 1 = l.length) := by
  induction l with
  | nil =>
    intro lock found l2 lock2 h
    simp only [bgp_debug_list_remove_entry, Option.some.injEq, Prod.mk.injEq] at h
    obtain ⟨rfl, rfl, rfl⟩ := h
    exact Or.inl ⟨rfl, rfl, rfl⟩
  | cons f rest ih =>
    intro lock found l2 lock2 h
    have hrec : (bgp_debug_list_remove_entry peer p lock rest).map
          (fun r => (r.1, f :: r.2.1, r.2.2)) = some (found, l2, lock2) →
        (found = 0 ∧ l2 = f :: rest ∧ lock2 = lock) ∨
          (found = 1 ∧ l2.length + 1 = (f :: rest).length) := by
      intro hmap
      cases hr : bgp_debug_list_remove_entry peer p lock rest with
      | none => simp [hr] at hmap
      | some r =>
        obtain ⟨fd, l3, lock3⟩ := r
        simp only [hr, Option.map_some', Option.some.injEq, Prod.mk.injEq] at hmap
        obtain ⟨rfl, rfl, rfl⟩ := hmap
        rcases ih lock fd l3 lock3 hr with ⟨h1, h2, h3⟩ | ⟨h1, h2⟩
        · exact Or.inl ⟨h1, by rw [h2], h3⟩
        · exact Or.inr ⟨h1, by simp [h2]⟩
    simp only [bgp_debug_list_remove_entry] at h
    repeat' split at h
    all_goals
      first
      | exact hrec h
      | (simp only [Option.some.injEq, Prod.mk.injEq] at h
         obtain ⟨rfl, rfl, -⟩ := h
         exact Or.inr ⟨rfl, rfl⟩)
      | simp only [reduceCtorEq] at h

theorem not_sameRegistry_of_length (w r : World)
    (h : (w.dbg.lists.map (fun l => (list_new_if_null l).length)) ≠
      (r.dbg.lists.map (fun l => (list_new_if_null l).length))) : ¬ SameRegistry w r := by
  intro hs
  apply h
  have := congrArg (List.map List.length) hs.2.2.1
  simpa [List.map_map, Function.comp_def] using this

theorem no_neighbor_events_peer_config_out (E : Collab) (K : DebugConsts) (a : String)
    (w : World) (r : CmdResult)
    (h : no_debug_bgp_neighbor_events_peer E K node_type.CONFIG_NODE a w = some r)
    (hret : r.ret = cmd_status.CMD_SUCCESS) :
    (r.out = ["BGP neighbor-events debugging is off for " ++ a ++ E.VTY_NEWLINE] ∧
        ¬ SameRegistry w r.world) ∨
      (r.out = ["BGP neighbor-events debugging was not enabled for " ++ a ++ E.VTY_NEWLINE] ∧
        r.world = w) := by
  simp only [no_debug_bgp_neighbor_events_peer] at h
  split at h
  · simp only [Option.some.injEq] at h
    subst h
    exact absurd hret (by simp)
  · split at h
    · simp only [Option.some.injEq] at h
      subst h
      exact Or.inr ⟨rfl, rfl⟩
    · rename_i l hl
      split at h
      · simp only [Option.some.injEq] at h
        subst h
        exact Or.inr ⟨rfl, rfl⟩
      · rename_i hne
        split at h
        · exact absurd h (by simp)
        · rename_i found l2 lock2 hrem
          simp only [Option.some.injEq] at h
          subst h
          rcases remove_entry_found _ _ _ _ _ _ _ hrem with ⟨h1, h2, h3⟩ | ⟨h1, h2⟩
          · rw [h1, h2, h3]
            refine Or.inr ⟨by simp, ?_⟩
            simp only [hne, if_false]
            obtain ⟨dbg, lock⟩ := w
            cases dbg
            simp only at hl
            subst hl
            rfl
          · rw [h1]
            refine Or.inl ⟨by simp, ?_⟩
            apply not_sameRegistry_of_length
            split_ifs <;>
              simp [DebugState.lists, DEBUG_OFF, DebugState.modifyConf,
                DebugState.modifyTerm, hl, list_new_if_null] <;>
              omega

theorem no_keepalive_peer_config_out (E : Collab) (K : DebugConsts) (a : String)
    (w : World) (r : CmdResult)
    (h : no_debug_bgp_keepalive_peer E K node_type.CONFIG_NODE a w = some r)
    (hret : r.ret = cmd_status.CMD_SUCCESS) :
    (r.out = ["BGP keepalives debugging is off for " ++ a ++ E.VTY_NEWLINE] ∧
        ¬ SameRegistry w r.world) ∨
      (r.out = ["BGP keepalives debugging was not enabled for " ++ a ++ E.VTY_NEWLINE] ∧
        r.world = w) := by
  simp only [ no_debug_bgp_keepalive_peer] at h
  split at h
  · simp only [Option.some.injEq] at h
    subst h
    exact absurd hret (by simp)
  · split at h
    · simp only [Option.some.injEq] at h
      subst h
      exact Or.inr ⟨rfl, rfl⟩
    · rename_i l hl
      split at h
      · simp only [Option.some.injEq] at h
        subst h
        exact Or.inr ⟨rfl, rfl⟩
      · rename_i hne
        split at h
        · exact absurd h (by simp)
        · rename_i found l2 lock2 hrem
          simp only [Option.some.injEq] at h
          subst h
          rcases remove_entry_found _ _ _ _ _ _ _ hrem with ⟨h1, h2, h3⟩ | ⟨h1, h2⟩
          · rw [h1, h2, h3]
            refine Or.inr ⟨by simp, ?_⟩
            simp only [hne, if_false]
            obtain ⟨dbg, lock⟩ := w
            cases dbg
            simp only at hl
            subst hl
            rfl
          · rw [h1]
            refine Or.inl ⟨by simp, ?_⟩
            apply not_sameRegistry_of_length
            split_ifs <;>
              simp [DebugState.lists, DEBUG_OFF, DebugState.modifyConf,
                DebugState.modifyTerm, hl, list_new_if_null] <;>
              omega

theorem no_update_in_peer_config_out (E : Collab) (K : DebugConsts) (a b : String)
    (w : World) (r : CmdResult)
    (h : no_debug_bgp_update_direct_peer E K node_type.CONFIG_NODE a b w = some r)
    (hd : strncmp_i a = true)
    (hret : r.ret = cmd_status.CMD_SUCCESS) :
    (r.out = ["BGP updates debugging (inbound) is off for " ++ b ++ E.VTY_NEWLINE] ∧
        ¬ SameRegistry w r.world) ∨
      (r.out = ["BGP updates debugging (inbound) was not enabled for " ++ b ++ E.VTY_NEWLINE] ∧
        r.world = w) := by
  simp only [ no_debug_bgp_update_direct_peer, hd, if_true] at h
  split at h
  · simp only [Option.some.injEq] at h
    subst h
    exact absurd hret (by simp)
  · split at h
    · simp only [Option.some.injEq] at h
      subst h
      exact Or.inr ⟨rfl, rfl⟩
    · rename_i l hl
      split at h
      · simp only [Option.some.injEq] at h
        subst h
        exact Or.inr ⟨rfl, rfl⟩
      · rename_i hne
        split at h
        · exact absurd h (by simp)
        · rename_i found l2 lock2 hrem
          simp only [Option.some.injEq] at h
          subst h
          rcases remove_entry_found _ _ _ _ _ _ _ hrem with ⟨h1, h2, h3⟩ | ⟨h1, h2⟩
          · rw [h1, h2, h3]
            refine Or.inr ⟨by simp, ?_⟩
            simp only [hne, if_false]
            obtain ⟨dbg, lock⟩ := w
            cases dbg
            simp only at hl
            subst hl
            rfl
          · rw [h1]
            refine Or.inl ⟨by simp, ?_⟩
            apply not_sameRegistry_of_length
            split_ifs <;>
              simp [DebugState.lists, DEBUG_OFF, DebugState.modifyConf,
                DebugState.modifyTerm, hl, list_new_if_null] <;>
              omega

theorem no_update_out_peer_config_out (E : Collab) (K : DebugConsts) (a b : String)
    (w : World) (r : CmdResult)
    (h : no_debug_bgp_update_direct_peer E K node_type.CONFIG_NODE a b w = some r)
    (hd : ¬ strncmp_i a = true)
    (hret : r.ret = cmd_status.CMD_SUCCESS) :
    (r.out = ["BGP updates debugging (outbound) is off for " ++ b ++ E.VTY_NEWLINE] ∧
        ¬ SameRegistry w r.world) ∨
      (r.out = ["BGP updates debugging (outbound) was not enabled for " ++ b ++ E.VTY_NEWLINE] ∧
        r.world = w) := by
  simp only [ no_debug_bgp_update_direct_peer, hd, Bool.false_eq_true, if_false] at h
  split at h
  · simp only [Option.some.injEq] at h
    subst h
    exact absurd hret (by simp)
  · split at h
    · simp only [Option.some.injEq] at h
      subst h
      exact Or.inr ⟨rfl, rfl⟩
    · rename_i l hl
      split at h
      · simp only [Option.some.injEq] at h
        subst h
        exact Or.inr ⟨rfl, rfl⟩
      · rename_i hne
        split at h
        · exact absurd h (by simp)
        · rename_i found l2 lock2 hrem
          simp only [Option.some.injEq] at h
          subst h
          rcases remove_entry_found _ _ _ _ _ _ _ hrem with ⟨h1, h2, h3⟩ | ⟨h1, h2⟩
          · rw [h1, h2, h3]
            refine Or.inr ⟨by simp, ?_⟩
            simp only [hne, if_false]
            obtain ⟨dbg, lock⟩ := w
            cases dbg
            simp only at hl
            subst hl
            rfl
          · rw [h1]
            refine Or.inl ⟨by simp, ?_⟩
            apply not_sameRegistry_of_length
            split_ifs <;>
              simp [DebugState.lists, DEBUG_OFF, DebugState.modifyConf,
                DebugState.modifyTerm, hl, list_new_if_null] <;>
              omega

theorem no_update_prefix_config_out (E : Collab) (K : DebugConsts) (a : String)
    (w : World) (r : CmdResult)
    (h : no_debug_bgp_update_prefix E K node_type.CONFIG_NODE a w = some r)
    (hret : r.ret = cmd_status.CMD_SUCCESS) :
    (r.out = ["BGP updates debugging is off for " ++ a ++ E.VTY_NEWLINE] ∧
        ¬ SameRegistry w r.world) ∨
      (r.out = ["BGP updates debugging was not enabled for " ++ a ++ E.VTY_NEWLINE] ∧
        r.world = w) := by
  simp only [ no_debug_bgp_update_prefix] at h
  split at h
  · simp only [Option.some.injEq] at h
    subst h
    exact absurd hret (by simp)
  · split at h
    · simp only [Option.some.injEq] at h
      subst h
      exact Or.inr ⟨rfl, rfl⟩
    · rename_i l hl
      split at h
      · simp only [Option.some.injEq] at h
        subst h
        exact Or.inr ⟨rfl, rfl⟩
      · rename_i hne
        split at h
        · exact absurd h (by simp)
        · rename_i found l2 lock2 hrem
          simp only [Option.some.injEq] at h
          subst h
          rcases remove_entry_found _ _ _ _ _ _ _ hrem with ⟨h1, h2, h3⟩ | ⟨h1, h2⟩
          · rw [h1, h2, h3]
            refine Or.inr ⟨by simp, ?_⟩
            simp only [hne, if_false]
            obtain ⟨dbg, lock⟩ := w
            cases dbg
            simp only at hl
            subst hl
            rfl
          · rw [h1]
            refine Or.inl ⟨by simp, ?_⟩
            apply not_sameRegistry_of_length
            split_ifs <;>
              simp [DebugState.lists, DEBUG_OFF, DebugState.modifyConf,
                DebugState.modifyTerm, hl, list_new_if_null] <;>
              omega

/-- C25, as stated, fails: in declarative context (`CONFIG_NODE`), after
`debug bgp neighbor-events swp1` has put peer 7 in the neighbor-events list and set the
config-scope bit, `no debug bgp neighbor-events swp1` returns `CMD_SUCCESS`, empties the
list, clears the bit and writes the line "BGP neighbor-events debugging is off for swp1". -/
theorem config_removal_prints_confirmation :
    (execAll sampleEnv sampleDebugConsts
      [(Command.debug_bgp_neighbor_events_peer_cmd "swp1", node_type.CONFIG_NODE)]
      world0).map
      (fun w => (w.dbg.bgp_debug_neighbor_events_peers,
        w.dbg.conf_bgp_debug_neighbor_events)) = some (some [⟨some 7, none⟩], 1) ∧
    (execAll sampleEnv sampleDebugConsts
      [(Command.debug_bgp_neighbor_events_peer_cmd "swp1", node_type.CONFIG_NODE)]
      world0).bind
      (fun w => (exec sampleEnv sampleDebugConsts
        (Command.no_debug_bgp_neighbor_events_peer_cmd "swp1") node_type.CONFIG_NODE w).map
        (fun r => (r.ret, r.out, r.world.dbg.bgp_debug_neighbor_events_peers,
          r.world.dbg.conf_bgp_debug_neighbor_events))) =
      some (cmd_status.CMD_SUCCESS, ["BGP neighbor-events debugging is off for swp1\n"],
        some [], 0) := by
  decide

/-- C25, amended: a command run in declarative context (`CONFIG_NODE`) that returns
`CMD_SUCCESS` and changes the registry (a mask, the entries of a list or a reference
count) writes nothing, unless it is a removal with a neighbor or prefix argument; of those,
the four that scan the list of their own category (neighbor-events, keepalives, updates
inbound or outbound, updates prefix) write their one line
"... debugging is off for <argument>" and nothing else. -/
theorem config_context_output (E : Collab) (K : DebugConsts) (c : Command) (w : World)
    (r : CmdResult) (hinst : installed c node_type.CONFIG_NODE = true)
    (h : exec E K c node_type.CONFIG_NODE w = some r)
    (hret : r.ret = cmd_status.CMD_SUCCESS) (hchg : ¬ SameRegistry w r.world) :
    (keyedRemoval c = false → r.out = []) ∧
    (∀ a, c = Command.no_debug_bgp_neighbor_events_peer_cmd a →
      r.out = ["BGP neighbor-events debugging is off for " ++ a ++ E.VTY_NEWLINE]) ∧
    (∀ a, c = Command.no_debug_bgp_keepalive_peer_cmd a →
      r.out = ["BGP keepalives debugging is off for " ++ a ++ E.VTY_NEWLINE]) ∧
    (∀ a b, c = Command.no_debug_bgp_update_direct_peer_cmd a b →
      r.out = [(if strncmp_i a = true then "BGP updates debugging (inbound) is off for "
        else "BGP updates debugging (outbound) is off for ") ++ b ++ E.VTY_NEWLINE]) ∧
    (∀ a, c = Command.no_debug_bgp_update_prefix_cmd a →
      r.out = ["BGP updates debugging is off for " ++ a ++ E.VTY_NEWLINE]) := by
  have hsame : r.world = w → SameRegistry w r.world := fun hw => by
    rw [hw]
    exact sameRegistry_refl w
  refine ⟨?_, ?_, ?_, ?_, ?_⟩
  · intro hc
    rcases config_silent_or_same E K c w r hc hinst h with h1 | h1
    · exact h1
    · exact absurd h1 hchg
  · intro a hc
    subst hc
    rcases no_neighbor_events_peer_config_out E K a w r h hret with h1 | h1
    · exact h1.1
    · exact absurd (hsame h1.2) hchg
  · intro a hc
    subst hc
    rcases no_keepalive_peer_config_out E K a w r h hret with h1 | h1
    · exact h1.1
    · exact absurd (hsame h1.2) hchg
  · intro a b hc
    subst hc
    by_cases hd : strncmp_i a = true
    · rcases no_update_in_peer_config_out E K a b w r h hd hret with h1 | h1
      · rw [if_pos hd]
        exact h1.1
      · exact absurd (hsame h1.2) hchg
    · rcases no_update_out_peer_config_out E K a b w r h hd hret with h1 | h1
      · rw [if_neg hd]
        exact h1.1
      · exact absurd (hsame h1.2) hchg
  · intro a hc
    subst hc
    rcases no_update_prefix_config_out E K a w r h hret with h1 | h1
    · exact h1.1
    · exact absurd (hsame h1.2) hchg

theorem config_context_output_witness :
    ∃ r, (installed (Command.no_debug_bgp_neighbor_events_peer_cmd "swp1")
          node_type.CONFIG_NODE = true ∧
        exec sampleEnv sampleDebugConsts (Command.no_debug_bgp_neighbor_events_peer_cmd "swp1")
          node_type.CONFIG_NODE sampleWorld4 = some r ∧
        r.ret = cmd_status.CMD_SUCCESS ∧ ¬ SameRegistry sampleWorld4 r.world) ∧
      r.out = ["BGP neighbor-events debugging is off for " ++ "swp1" ++
        sampleEnv.VTY_NEWLINE] := by
  obtain ⟨r, hr⟩ := Option.isSome_iff_exists.mp
    (by decide : (exec sampleEnv sampleDebugConsts
      (Command.no_debug_bgp_neighbor_events_peer_cmd "swp1") node_type.CONFIG_NODE
      sampleWorld4).isSome = true)
  have hret : r.ret = cmd_status.CMD_SUCCESS := by
    have h0 : (exec sampleEnv sampleDebugConsts
        (Command.no_debug_bgp_neighbor_events_peer_cmd "swp1") node_type.CONFIG_NODE
        sampleWorld4).map (fun x => x.ret) = some cmd_status.CMD_SUCCESS := by decide
    rw [hr] at h0
    simpa using h0
  have hchg : ¬ SameRegistry sampleWorld4 r.world := by
    apply not_sameRegistry_of_length
    have h0 : (exec sampleEnv sampleDebugConsts
        (Command.no_debug_bgp_neighbor_events_peer_cmd "swp1") node_type.CONFIG_NODE
        sampleWorld4).map
        (fun x => x.world.dbg.lists.map (fun l => (list_new_if_null l).length)) =
        some [0, 0, 0, 0, 0, 0] := by decide
    rw [hr] at h0
    simp only [Option.map_some', Option.some.injEq] at h0
    rw [h0]
    decide
  exact ⟨r, ⟨rfl, hr, hret, hchg⟩,
    (config_context_output sampleEnv sampleDebugConsts
      (Command.no_debug_bgp_neighbor_events_peer_cmd "swp1") sampleWorld4 r rfl hr hret
      hchg).2.1 "swp1" rfl⟩

/-! ## Writing the configuration and replaying it: claim C24 -/

theorem execAll_seg (E : Collab) (K : DebugConsts) (cond : Prop) [Decidable cond]
    (t : String) (c : Command) (hnd : World → CmdResult)
    (hexec : ∀ w, exec E K c node_type.CONFIG_NODE w = some (hnd w))
    (rest : List (String × Command)) (w : World) :
    execAll E K (((if cond then [(t, c)] else []) ++ rest).map
        (fun l => (l.2, node_type.CONFIG_NODE))) w =
      execAll E K (rest.map (fun l => (l.2, node_type.CONFIG_NODE)))
        (if cond then (hnd w).world else w) := by
  by_cases h : cond <;> simp [h, execAll, hexec]

theorem conf_modifyConf (a b : DebugVar) (f : Nat → Nat) (s : DebugState) :
    (s.modifyConf a f).conf b = if a = b then f (s.conf b) else s.conf b := by
  cases a <;> cases b <;> rfl

theorem conf_modifyTerm (a b : DebugVar) (f : Nat → Nat) (s : DebugState) :
    (s.modifyTerm a f).conf b = s.conf b := by
  cases a <;> cases b <;> rfl

theorem execAll_seg3 (E : Collab) (K : DebugConsts) (c1 c2 c3 : Prop) [Decidable c1]
    [Decidable c2] [Decidable c3] (t1 t2 t3 : String) (cmd1 cmd2 cmd3 : Command)
    (h1 h2 h3 : World → CmdResult)
    (e1 : ∀ w, exec E K cmd1 node_type.CONFIG_NODE w = some (h1 w))
    (e2 : ∀ w, exec E K cmd2 node_type.CONFIG_NODE w = some (h2 w))
    (e3 : ∀ w, exec E K cmd3 node_type.CONFIG_NODE w = some (h3 w))
    (rest : List (String × Command)) (w : World) :
    execAll E K (((if c1 then [(t1, cmd1)] else if c2 then [(t2, cmd2)]
        else if c3 then [(t3, cmd3)] else []) ++ rest).map
        (fun l => (l.2, node_type.CONFIG_NODE))) w =
      execAll E K (rest.map (fun l => (l.2, node_type.CONFIG_NODE)))
        (if c1 then (h1 w).world else if c2 then (h2 w).world
          else if c3 then (h3 w).world else w) := by
  by_cases a1 : c1
  · simp [a1, execAll, e1]
  · by_cases a2 : c2
    · simp [a1, a2, execAll, e2]
    · by_cases a3 : c3 <;> simp [a1, a2, a3, execAll, e3]

theorem seg_on_spec (E : Collab) (K : DebugConsts) (cond : Prop) [Decidable cond]
    (t : String) (c : Command) (hnd : World → CmdResult) (v : DebugVar) (b : Nat)
    (hexec : ∀ w, exec E K c node_type.CONFIG_NODE w = some (hnd w))
    (hworld : ∀ w, (hnd w).world = { w with dbg := DEBUG_ON v b w.dbg }) (w : World) :
    ∃ w2, (∀ rest : List (String × Command),
        execAll E K (((if cond then [(t, c)] else []) ++ rest).map
          (fun l => (l.2, node_type.CONFIG_NODE))) w =
        execAll E K (rest.map (fun l => (l.2, node_type.CONFIG_NODE))) w2) ∧
      ∀ a, w2.dbg.conf a =
        if v = a then w.dbg.conf a ||| (if cond then b else 0) else w.dbg.conf a := by
  refine ⟨_, fun rest => execAll_seg E K cond t c hnd hexec rest w, ?_⟩
  intro a
  by_cases h : cond <;> by_cases hv : v = a <;>
    simp [h, hv, hworld, DEBUG_ON, conf_modifyConf, conf_modifyTerm]

theorem seg_update_spec (E : Collab) (K : DebugConsts) (c1 c2 : Prop) [Decidable c1]
    [Decidable c2] (w : World) :
    ∃ w2, (∀ rest : List (String × Command),
        execAll E K (((if c1 ∧ c2 then [("debug bgp updates", Command.debug_bgp_update_cmd)]
          else if c1 then [("debug bgp updates in", Command.debug_bgp_update_direct_cmd "in")]
          else if c2 then
            [("debug bgp updates out", Command.debug_bgp_update_direct_cmd "out")]
          else []) ++ rest).map (fun l => (l.2, node_type.CONFIG_NODE))) w =
        execAll E K (rest.map (fun l => (l.2, node_type.CONFIG_NODE))) w2) ∧
      (∀ a, a ≠ DebugVar.update → w2.dbg.conf a = w.dbg.conf a) ∧
      w2.dbg.conf .update =
        (if c1 ∧ c2 then
          (w.dbg.conf .update ||| K.BGP_DEBUG_UPDATE_IN) ||| K.BGP_DEBUG_UPDATE_OUT
        else if c1 then
          clearBits (w.dbg.conf .update) K.BGP_DEBUG_UPDATE_OUT ||| K.BGP_DEBUG_UPDATE_IN
        else if c2 then
          clearBits (w.dbg.conf .update) K.BGP_DEBUG_UPDATE_IN ||| K.BGP_DEBUG_UPDATE_OUT
        else w.dbg.conf .update) := by
  refine ⟨_, fun rest => execAll_seg3 E K (c1 ∧ c2) c1 c2 _ _ _ Command.debug_bgp_update_cmd
    (Command.debug_bgp_update_direct_cmd "in") (Command.debug_bgp_update_direct_cmd "out")
    (debug_bgp_update E K node_type.CONFIG_NODE)
    (debug_bgp_update_direct E K node_type.CONFIG_NODE "in")
    (debug_bgp_update_direct E K node_type.CONFIG_NODE "out")
    (fun _ => rfl) (fun _ => rfl) (fun _ => rfl) rest w, ?_, ?_⟩
  · intro a ha
    have hin : strncmp_i "in" = true := by decide
    have hout : strncmp_i "out" = false := by decide
    split_ifs <;>
      simp [debug_bgp_update, debug_bgp_update_direct, hin, hout, DEBUG_ON, DEBUG_OFF,
        conf_modifyConf, conf_modifyTerm, Ne.symm ha]
  · have hin : strncmp_i "in" = true := by decide
    have hout : strncmp_i "out" = false := by decide
    split_ifs <;>
      simp [debug_bgp_update, debug_bgp_update_direct, hin, hout, DEBUG_ON, DEBUG_OFF,
        conf_modifyConf, conf_modifyTerm]

theorem config_replay_conf (E : Collab) (K : DebugConsts) (s : DebugState)
    (lock : Peer → Nat) :
    ∃ w, config_replay E K s lock = some w ∧
      w.dbg.conf .as4 =
        (0 ||| (if CONF_BGP_DEBUG s.conf_bgp_debug_as4 K.BGP_DEBUG_AS4 = true
          then K.BGP_DEBUG_AS4 else 0)) |||
        (if CONF_BGP_DEBUG s.conf_bgp_debug_as4 K.BGP_DEBUG_AS4_SEGMENT = true
          then K.BGP_DEBUG_AS4_SEGMENT else 0) ∧
      w.dbg.conf .keepalive =
        0 ||| (if CONF_BGP_DEBUG s.conf_bgp_debug_keepalive K.BGP_DEBUG_KEEPALIVE = true
          then K.BGP_DEBUG_KEEPALIVE else 0) ∧
      w.dbg.conf .update =
        (if CONF_BGP_DEBUG s.conf_bgp_debug_update K.BGP_DEBUG_UPDATE_IN = true ∧
            CONF_BGP_DEBUG s.conf_bgp_debug_update K.BGP_DEBUG_UPDATE_OUT = true then
          (0 ||| K.BGP_DEBUG_UPDATE_IN) ||| K.BGP_DEBUG_UPDATE_OUT
        else if CONF_BGP_DEBUG s.conf_bgp_debug_update K.BGP_DEBUG_UPDATE_IN = true then
          clearBits 0 K.BGP_DEBUG_UPDATE_OUT ||| K.BGP_DEBUG_UPDATE_IN
        else if CONF_BGP_DEBUG s.conf_bgp_debug_update K.BGP_DEBUG_UPDATE_OUT = true then
          clearBits 0 K.BGP_DEBUG_UPDATE_IN ||| K.BGP_DEBUG_UPDATE_OUT
        else 0) ∧
      w.dbg.conf .neighbor_events =
        0 ||| (if CONF_BGP_DEBUG s.conf_bgp_debug_neighbor_events
            K.BGP_DEBUG_NEIGHBOR_EVENTS = true
          then K.BGP_DEBUG_NEIGHBOR_EVENTS else 0) ∧
      w.dbg.conf .zebra =
        0 ||| (if CONF_BGP_DEBUG s.conf_bgp_debug_zebra K.BGP_DEBUG_ZEBRA = true
          then K.BGP_DEBUG_ZEBRA else 0) ∧
      w.dbg.conf .nht =
        0 ||| (if CONF_BGP_DEBUG s.conf_bgp_debug_nht K.BGP_DEBUG_NHT = true
          then K.BGP_DEBUG_NHT else 0) := by
  have hinit : ∀ a, (⟨DebugState.init, lock⟩ : World).dbg.conf a = 0 := by
    intro a
    cases a <;> rfl
  unfold config_replay bgp_config_write_debug_lines
  obtain ⟨w1, e1, c1⟩ := seg_on_spec E K (CONF_BGP_DEBUG s.conf_bgp_debug_as4 K.BGP_DEBUG_AS4 = true)
    "debug bgp as4" Command.debug_bgp_as4_cmd
    (debug_bgp_as4 E K node_type.CONFIG_NODE) .as4 K.BGP_DEBUG_AS4 (fun _ => rfl)
    (fun _ => rfl) ⟨DebugState.init, lock⟩
  rw [e1]
  obtain ⟨w2, e2, c2⟩ := seg_on_spec E K
    (CONF_BGP_DEBUG s.conf_bgp_debug_as4 K.BGP_DEBUG_AS4_SEGMENT = true) "debug bgp as4 segment"
    Command.debug_bgp_as4_segment_cmd (debug_bgp_as4_segment E K node_type.CONFIG_NODE)
    .as4 K.BGP_DEBUG_AS4_SEGMENT (fun _ => rfl) (fun _ => rfl) w1
  rw [e2]
  obtain ⟨w3, e3, c3⟩ := seg_on_spec E K
    (CONF_BGP_DEBUG s.conf_bgp_debug_keepalive K.BGP_DEBUG_KEEPALIVE = true) "debug bgp keepalives"
    Command.debug_bgp_keepalive_cmd (debug_bgp_keepalive E K node_type.CONFIG_NODE)
    .keepalive K.BGP_DEBUG_KEEPALIVE (fun _ => rfl) (fun _ => rfl) w2
  rw [e3]
  obtain ⟨w4, e4, c4, u4⟩ := seg_update_spec E K
    (CONF_BGP_DEBUG s.conf_bgp_debug_update K.BGP_DEBUG_UPDATE_IN = true)
    (CONF_BGP_DEBUG s.conf_bgp_debug_update K.BGP_DEBUG_UPDATE_OUT = true) w3
  rw [e4]
  obtain ⟨w5, e5, c5⟩ := seg_on_spec E K
    (CONF_BGP_DEBUG s.conf_bgp_debug_neighbor_events K.BGP_DEBUG_NEIGHBOR_EVENTS = true)
    "debug bgp neighbor-events"
    Command.debug_bgp_neighbor_events_cmd
    (debug_bgp_neighbor_events E K node_type.CONFIG_NODE)
    .neighbor_events K.BGP_DEBUG_NEIGHBOR_EVENTS (fun _ => rfl) (fun _ => rfl) w4
  rw [e5]
  obtain ⟨w6, e6, c6⟩ := seg_on_spec E K
    (CONF_BGP_DEBUG s.conf_bgp_debug_zebra K.BGP_DEBUG_ZEBRA = true) "debug bgp zebra" Command.debug_bgp_zebra_cmd
    (debug_bgp_zebra E K node_type.CONFIG_NODE) .zebra K.BGP_DEBUG_ZEBRA (fun _ => rfl)
    (fun _ => rfl) w5
  rw [e6]
  obtain ⟨w7, e7, c7⟩ := seg_on_spec E K
    (CONF_BGP_DEBUG s.conf_bgp_debug_nht K.BGP_DEBUG_NHT = true) "debug bgp nht" Command.debug_bgp_nht_cmd
    (debug_bgp_nht E K node_type.CONFIG_NODE) .nht K.BGP_DEBUG_NHT (fun _ => rfl)
    (fun _ => rfl) w6
  rw [e7]
  refine ⟨w7, rfl, ?_, ?_, ?_, ?_, ?_, ?_⟩
  · rw [c7, c6, c5, c4 _ (by decide), c3, c2, c1, hinit]
    simp
  · rw [c7, c6, c5, c4 _ (by decide), c3, c2, c1, hinit]
    simp
  · rw [c7, c6, c5, u4, c3, c2, c1, hinit]
    simp
  · rw [c7, c6, c5, c4 _ (by decide), c3, c2, c1, hinit]
    simp
  · rw [c7, c6, c5, c4 _ (by decide), c3, c2, c1, hinit]
    simp
  · rw [c7, c6, c5, c4 _ (by decide), c3, c2, c1, hinit]
    simp

theorem CONF_BGP_DEBUG_eq_true_iff (m b : Nat) : CONF_BGP_DEBUG m b = true ↔ BitSet m b := by
  simp [CONF_BGP_DEBUG, BitSet]

theorem ne_zero_of_bitSet (m b : Nat) (h : BitSet m b) : b ≠ 0 := by
  intro hb
  simp [BitSet, hb] at h

theorem bitSet_self (b : Nat) (h : b ≠ 0) : BitSet b b := by
  simp [BitSet, Nat.and_self, h]

theorem not_bitSet_of_disjoint (a c : Nat) (h : a &&& c = 0) : ¬ BitSet a c := by
  simp [BitSet, h]

theorem replay_one_bit (m b : Nat) :
    BitSet (0 ||| (if CONF_BGP_DEBUG m b = true then b else 0)) b ↔ BitSet m b := by
  by_cases h : BitSet m b
  · simp only [(CONF_BGP_DEBUG_eq_true_iff m b).mpr h, if_true, Nat.zero_or, h, iff_true]
    exact bitSet_self b (ne_zero_of_bitSet m b h)
  · have hc : ¬ CONF_BGP_DEBUG m b = true := fun hc => h ((CONF_BGP_DEBUG_eq_true_iff m b).mp hc)
    rw [if_neg hc, Nat.zero_or]
    simp only [h, iff_false]
    exact not_bitSet_zero b

theorem replay_two_bits (m a b : Nat) (hab : a &&& b = 0) :
    (BitSet ((0 ||| (if CONF_BGP_DEBUG m a = true then a else 0)) |||
        (if CONF_BGP_DEBUG m b = true then b else 0)) a ↔ BitSet m a) ∧
    (BitSet ((0 ||| (if CONF_BGP_DEBUG m a = true then a else 0)) |||
        (if CONF_BGP_DEBUG m b = true then b else 0)) b ↔ BitSet m b) := by
  have hba : b &&& a = 0 := by
    rw [Nat.land_comm]
    exact hab
  have h0 : ∀ x : Nat, (0 : Nat) &&& x = 0 := fun x => Nat.zero_and x
  constructor
  · rw [bitSet_or_iff_of_disjoint _ _ _
      (show (if CONF_BGP_DEBUG m b = true then b else 0) &&& a = 0 by
        split_ifs
        · exact hba
        · exact h0 a)]
    exact replay_one_bit m a
  · by_cases h : BitSet m b
    · simp only [(CONF_BGP_DEBUG_eq_true_iff m b).mpr h, if_true, h, iff_true]
      exact bitSet_or_self _ _ (ne_zero_of_bitSet m b h)
    · have hc : ¬ CONF_BGP_DEBUG m b = true :=
        fun hc => h ((CONF_BGP_DEBUG_eq_true_iff m b).mp hc)
      rw [if_neg hc, Nat.or_zero, Nat.zero_or]
      simp only [h, iff_false]
      split_ifs
      · exact not_bitSet_of_disjoint a b hab
      · exact not_bitSet_zero b

theorem replay_update_bits (m i o p : Nat) (hio : i &&& o = 0) (hpi : p &&& i = 0)
    (hpo : p &&& o = 0) :
    (BitSet (if CONF_BGP_DEBUG m i = true ∧ CONF_BGP_DEBUG m o = true then (0 ||| i) ||| o
        else if CONF_BGP_DEBUG m i = true then clearBits 0 o ||| i
        else if CONF_BGP_DEBUG m o = true then clearBits 0 i ||| o else 0) i ↔ BitSet m i) ∧
    (BitSet (if CONF_BGP_DEBUG m i = true ∧ CONF_BGP_DEBUG m o = true then (0 ||| i) ||| o
        else if CONF_BGP_DEBUG m i = true then clearBits 0 o ||| i
        else if CONF_BGP_DEBUG m o = true then clearBits 0 i ||| o else 0) o ↔ BitSet m o) ∧
    ¬ BitSet (if CONF_BGP_DEBUG m i = true ∧ CONF_BGP_DEBUG m o = true then (0 ||| i) ||| o
        else if CONF_BGP_DEBUG m i = true then clearBits 0 o ||| i
        else if CONF_BGP_DEBUG m o = true then clearBits 0 i ||| o else 0) p := by
  have hoi : o &&& i = 0 := by
    rw [Nat.land_comm]
    exact hio
  have hip : i &&& p = 0 := by
    rw [Nat.land_comm]
    exact hpi
  have hop : o &&& p = 0 := by
    rw [Nat.land_comm]
    exact hpo
  have hclr : ∀ b : Nat, clearBits 0 b = 0 := fun b => by simp [clearBits]
  by_cases hi : BitSet m i <;> by_cases ho : BitSet m o
  · have ci := (CONF_BGP_DEBUG_eq_true_iff m i).mpr hi
    have co := (CONF_BGP_DEBUG_eq_true_iff m o).mpr ho
    rw [if_pos ⟨ci, co⟩, Nat.zero_or]
    refine ⟨⟨fun _ => hi, fun _ => ?_⟩, ⟨fun _ => ho, fun _ => ?_⟩, ?_⟩
    · rw [bitSet_or_iff_of_disjoint _ _ _ hoi]
      exact bitSet_self i (ne_zero_of_bitSet m i hi)
    · exact bitSet_or_self _ _ (ne_zero_of_bitSet m o ho)
    · rw [bitSet_or_iff_of_disjoint _ _ _ hop]
      exact not_bitSet_of_disjoint i p hip
  · have ci := (CONF_BGP_DEBUG_eq_true_iff m i).mpr hi
    have co : ¬ CONF_BGP_DEBUG m o = true :=
      fun hc => ho ((CONF_BGP_DEBUG_eq_true_iff m o).mp hc)
    rw [if_neg (fun h => co h.2), if_pos ci, hclr, Nat.zero_or]
    exact ⟨⟨fun _ => hi, fun _ => bitSet_self i (ne_zero_of_bitSet m i hi)⟩,
      ⟨fun h => absurd h (not_bitSet_of_disjoint i o hio), fun h => absurd h ho⟩,
      not_bitSet_of_disjoint i p hip⟩
  · have ci : ¬ CONF_BGP_DEBUG m i = true :=
      fun hc => hi ((CONF_BGP_DEBUG_eq_true_iff m i).mp hc)
    have co := (CONF_BGP_DEBUG_eq_true_iff m o).mpr ho
    rw [if_neg (fun h => ci h.1), if_neg ci, if_pos co, hclr, Nat.zero_or]
    exact ⟨⟨fun h => absurd h (not_bitSet_of_disjoint o i hoi), fun h => absurd h hi⟩,
      ⟨fun _ => ho, fun _ => bitSet_self o (ne_zero_of_bitSet m o ho)⟩,
      not_bitSet_of_disjoint o p hop⟩
  · have ci : ¬ CONF_BGP_DEBUG m i = true :=
      fun hc => hi ((CONF_BGP_DEBUG_eq_true_iff m i).mp hc)
    have co : ¬ CONF_BGP_DEBUG m o = true :=
      fun hc => ho ((CONF_BGP_DEBUG_eq_true_iff m o).mp hc)
    rw [if_neg (fun h => ci h.1), if_neg ci, if_neg co]
    exact ⟨⟨fun h => absurd h (not_bitSet_zero i), fun h => absurd h hi⟩,
      ⟨fun h => absurd h (not_bitSet_zero o), fun h => absurd h ho⟩, not_bitSet_zero p⟩

/-- C24, evaluation: `debug bgp updates prefix 10.0.0.0/8` in declarative context, from
startup, sets the update-prefix bit of the config-scope update mask (the mask is 4);
`bgp_config_write_debug` then writes no line and returns 0, and the replay of its lines
from the startup state leaves the config-scope update mask 0, not 4. -/
theorem config_replay_loses_update_prefix :
    (execAll sampleEnv sampleDebugConsts
      [(Command.debug_bgp_update_prefix_cmd "10.0.0.0/8", node_type.CONFIG_NODE)]
      world0).map
      (fun w => (w.dbg.conf_bgp_debug_update,
        bgp_config_write_debug sampleEnv sampleDebugConsts w.dbg)) = some (4, 0, []) ∧
    (execAll sampleEnv sampleDebugConsts
      [(Command.debug_bgp_update_prefix_cmd "10.0.0.0/8", node_type.CONFIG_NODE)]
      world0).bind
      (fun w => (config_replay sampleEnv sampleDebugConsts w.dbg (fun _ => 1)).map
        (fun w2 => w2.dbg.conf_bgp_debug_update)) = some 0 := by
  decide

/-- The bits for which `bgp_config_write_debug` has a line: for every state `s`, the lines
written for `s`, run as commands in declarative context from the startup state, all return,
and in the state they lead to each config-scope bit that has a line (as4, as4 segment,
keepalive, updates inbound, updates outbound, neighbor-events, zebra, nht) is set exactly
when it is set in `s`. The two as4 bits are taken to share no bit, and so are the three
update bits. -/
theorem config_replay_bits (E : Collab) (K : DebugConsts) (s : DebugState)
    (lock : Peer → Nat)
    (has4 : K.BGP_DEBUG_AS4 &&& K.BGP_DEBUG_AS4_SEGMENT = 0)
    (hio : K.BGP_DEBUG_UPDATE_IN &&& K.BGP_DEBUG_UPDATE_OUT = 0)
    (hpi : K.BGP_DEBUG_UPDATE_PREFIX &&& K.BGP_DEBUG_UPDATE_IN = 0)
    (hpo : K.BGP_DEBUG_UPDATE_PREFIX &&& K.BGP_DEBUG_UPDATE_OUT = 0) :
    ∃ w, config_replay E K s lock = some w ∧
      (BitSet (w.dbg.conf .as4) K.BGP_DEBUG_AS4 ↔ BitSet (s.conf .as4) K.BGP_DEBUG_AS4) ∧
      (BitSet (w.dbg.conf .as4) K.BGP_DEBUG_AS4_SEGMENT ↔
        BitSet (s.conf .as4) K.BGP_DEBUG_AS4_SEGMENT) ∧
      (BitSet (w.dbg.conf .keepalive) K.BGP_DEBUG_KEEPALIVE ↔
        BitSet (s.conf .keepalive) K.BGP_DEBUG_KEEPALIVE) ∧
      (BitSet (w.dbg.conf .update) K.BGP_DEBUG_UPDATE_IN ↔
        BitSet (s.conf .update) K.BGP_DEBUG_UPDATE_IN) ∧
      (BitSet (w.dbg.conf .update) K.BGP_DEBUG_UPDATE_OUT ↔
        BitSet (s.conf .update) K.BGP_DEBUG_UPDATE_OUT) ∧
      (BitSet (w.dbg.conf .neighbor_events) K.BGP_DEBUG_NEIGHBOR_EVENTS ↔
        BitSet (s.conf .neighbor_events) K.BGP_DEBUG_NEIGHBOR_EVENTS) ∧
      (BitSet (w.dbg.conf .zebra) K.BGP_DEBUG_ZEBRA ↔
        BitSet (s.conf .zebra) K.BGP_DEBUG_ZEBRA) ∧
      (BitSet (w.dbg.conf .nht) K.BGP_DEBUG_NHT ↔ BitSet (s.conf .nht) K.BGP_DEBUG_NHT) := by
  obtain ⟨w, hw, a1, a2, a3, a4, a5, a6⟩ := config_replay_conf E K s lock
  refine ⟨w, hw, ?_, ?_, ?_, ?_, ?_, ?_, ?_, ?_⟩
  · rw [a1]
    exact (replay_two_bits _ _ _ has4).1
  · rw [a1]
    exact (replay_two_bits _ _ _ has4).2
  · rw [a2]
    exact replay_one_bit _ _
  · rw [a3]
    exact (replay_update_bits _ _ _ _ hio hpi hpo).1
  · rw [a3]
    exact (replay_update_bits _ _ _ _ hio hpi hpo).2.1
  · rw [a4]
    exact replay_one_bit _ _
  · rw [a5]
    exact replay_one_bit _ _
  · rw [a6]
    exact replay_one_bit _ _

theorem config_replay_bits_witness :
    (sampleDebugConsts.BGP_DEBUG_AS4 &&& sampleDebugConsts.BGP_DEBUG_AS4_SEGMENT = 0 ∧
      sampleDebugConsts.BGP_DEBUG_UPDATE_IN &&& sampleDebugConsts.BGP_DEBUG_UPDATE_OUT = 0 ∧
      sampleDebugConsts.BGP_DEBUG_UPDATE_PREFIX &&& sampleDebugConsts.BGP_DEBUG_UPDATE_IN = 0 ∧
      sampleDebugConsts.BGP_DEBUG_UPDATE_PREFIX &&& sampleDebugConsts.BGP_DEBUG_UPDATE_OUT = 0) ∧
    ∃ w, config_replay sampleEnv sampleDebugConsts
        (debug_bgp_update_direct sampleEnv sampleDebugConsts node_type.CONFIG_NODE "in"
          world0).world.dbg (fun _ => 1) = some w ∧
      (BitSet (w.dbg.conf .update) sampleDebugConsts.BGP_DEBUG_UPDATE_IN ↔
        BitSet ((debug_bgp_update_direct sampleEnv sampleDebugConsts node_type.CONFIG_NODE "in"
          world0).world.dbg.conf .update) sampleDebugConsts.BGP_DEBUG_UPDATE_IN) :=
  ⟨⟨by decide, by decide, by decide, by decide⟩,
    let ⟨w, h1, _, _, _, h5, _⟩ := config_replay_bits sampleEnv sampleDebugConsts
      (debug_bgp_update_direct sampleEnv sampleDebugConsts node_type.CONFIG_NODE "in"
        world0).world.dbg (fun _ => 1) (by decide) (by decide) (by decide) (by decide)
    ⟨w, h1, h5⟩⟩

/-! ## The gating predicates after `no debug bgp`: claim C34 -/

theorem bgp_debug_update_bits_unset (K : DebugConsts) (s : DebugState) (peer : Option Peer)
    (p : Option Prefix) (inbound : Nat)
    (hin : ¬ BitSet s.term_bgp_debug_update K.BGP_DEBUG_UPDATE_IN)
    (hout : ¬ BitSet s.term_bgp_debug_update K.BGP_DEBUG_UPDATE_OUT)
    (hpre : ¬ BitSet s.term_bgp_debug_update K.BGP_DEBUG_UPDATE_PREFIX) :
    bgp_debug_update K s peer p inbound = some false := by
  have htail : bgp_debug_update_tail K s p = some false := by
    unfold bgp_debug_update_tail
    rw [if_neg (by rw [BGP_DEBUG_eq_true_iff]; exact hpre)]
  unfold bgp_debug_update
  rw [bgp_debug_per_peer_bit_unset _ _ _ _ hin, bgp_debug_per_peer_bit_unset _ _ _ _ hout]
  simpa using htail

theorem bgp_debug_zebra_bit_unset (K : DebugConsts) (s : DebugState) (p : Option Prefix)
    (h : ¬ BitSet s.term_bgp_debug_zebra K.BGP_DEBUG_ZEBRA) :
    bgp_debug_zebra K s p = some false := by
  unfold bgp_debug_zebra
  rw [if_neg (by rw [BGP_DEBUG_eq_true_iff]; exact h)]

/-- C34: in every state, reachable or not, the bare `no debug bgp` runs at the enable node
and in the state it returns `bgp_debug_neighbor_events`, `bgp_debug_keepalive`,
`bgp_debug_update` (inbound and outbound) and `bgp_debug_zebra` return false for every
neighbor and prefix argument, present or absent. -/
theorem no_debug_bgp_gating_false (E : Collab) (K : DebugConsts) (w : World) :
    installed Command.no_debug_bgp_cmd node_type.ENABLE_NODE = true ∧
    exec E K Command.no_debug_bgp_cmd node_type.ENABLE_NODE w = some (no_debug_bgp E K w) ∧
    ∀ (peer : Option Peer) (p : Option Prefix) (inbound : Nat),
      bgp_debug_neighbor_events K (no_debug_bgp E K w).world.dbg peer = false ∧
      bgp_debug_keepalive K (no_debug_bgp E K w).world.dbg peer = false ∧
      bgp_debug_update K (no_debug_bgp E K w).world.dbg peer p inbound = some false ∧
      bgp_debug_zebra K (no_debug_bgp E K w).world.dbg p = some false := by
  refine ⟨rfl, rfl, fun peer p inbound => ⟨?_, ?_, ?_, ?_⟩⟩
  · refine bgp_debug_per_peer_bit_unset _ _ _ _ ?_
    simp only [no_debug_bgp, TERM_DEBUG_OFF, DebugState.modifyTerm]
    exact not_bitSet_clearBits_self _ _
  · refine bgp_debug_per_peer_bit_unset _ _ _ _ ?_
    simp only [no_debug_bgp, TERM_DEBUG_OFF, DebugState.modifyTerm]
    exact not_bitSet_clearBits_self _ _
  · refine bgp_debug_update_bits_unset K _ peer p inbound ?_ ?_ ?_ <;>
      simp only [no_debug_bgp, TERM_DEBUG_OFF, DebugState.modifyTerm]
    · exact not_bitSet_clearBits_of_not _ _ _
        (not_bitSet_clearBits_of_not _ _ _ (not_bitSet_clearBits_self _ _))
    · exact not_bitSet_clearBits_of_not _ _ _ (not_bitSet_clearBits_self _ _)
    · exact not_bitSet_clearBits_self _ _
  · refine bgp_debug_zebra_bit_unset K _ p ?_
    simp only [no_debug_bgp, TERM_DEBUG_OFF, DebugState.modifyTerm]
    exact not_bitSet_clearBits_self _ _

/-! ## The update direction bits and the neighbor lists: claim C32 -/

theorem prefix_scan_defined (x : Prefix) (lock : Peer → Nat) (list : FilterList)
    (h : PrefixListOK list) :
    (∃ b, bgp_debug_list_has_entry none (some x) (list_new_if_null list) = some b) ∧
    (∃ r, bgp_debug_list_remove_entry none (some x) lock (list_new_if_null list) = some r) := by
  obtain ⟨b, found, l2, hb, hr, _⟩ :=
    remove_entry_prefix_spec x lock _
      (isPrefixList_of_prefixListOK _ (prefixListOK_new list h))
  exact ⟨⟨b, hb⟩, ⟨_, hr⟩⟩

theorem gating_defined_of_listsInv (K : DebugConsts) (s : DebugState) (h : ListsInv s)
    (peer : Option Peer) (p : Option Prefix) (inbound : Nat) :
    (∃ b, bgp_debug_update K s peer p inbound = some b) ∧
    (∃ b, bgp_debug_zebra K s p = some b) := by
  obtain ⟨_, _, _, _, hup, hz⟩ := h
  have hup2 : ∀ l, s.bgp_debug_update_prefixes = some l → IsPrefixList l := by
    intro l hl
    rw [hl] at hup
    exact isPrefixList_of_prefixListOK l hup
  have hz2 : ∀ l, s.bgp_debug_zebra_prefixes = some l → IsPrefixList l := by
    intro l hl
    rw [hl] at hz
    exact isPrefixList_of_prefixListOK l hz
  obtain ⟨r, hr, _⟩ := bgp_debug_update_tail_spec K s p hup2
  obtain ⟨z, hzr, _⟩ := bgp_debug_per_prefix_spec p s.term_bgp_debug_zebra K.BGP_DEBUG_ZEBRA
    s.bgp_debug_zebra_prefixes hz2
  constructor
  · unfold bgp_debug_update
    split_ifs <;> first | exact ⟨_, rfl⟩ | exact ⟨r, hr⟩
  · unfold bgp_debug_zebra
    rw [hzr]
    split_ifs <;> cases z <;> exact ⟨_, rfl⟩

theorem exec_defined_of_listsInv (E : Collab) (K : DebugConsts) (c : Command)
    (node : node_type) (w : World) (h : ListsInv w.dbg)
    (hc : ∀ a, c ≠ Command.no_debug_bgp_zebra_prefix_cmd a) :
    ∃ r, exec E K c node w = some r := by
  obtain ⟨_, _, _, _, hup, hz⟩ := h
  cases c with
  | no_debug_bgp_zebra_prefix_cmd a => exact absurd rfl (hc a)
  | debug_bgp_update_prefix_cmd a =>
    simp only [exec, debug_bgp_update_prefix]
    cases hx : E.str2prefix a with
    | none => exact ⟨_, rfl⟩
    | some x =>
      obtain ⟨⟨b, hb⟩, _⟩ := prefix_scan_defined x w.lock _ hup
      simp only [hb]
      cases b <;> simp only <;> first | exact ⟨_, rfl⟩ | (split_ifs <;> exact ⟨_, rfl⟩)
  | debug_bgp_zebra_prefix_cmd a =>
    simp only [exec, debug_bgp_zebra_prefix]
    cases hx : E.str2prefix a with
    | none => exact ⟨_, rfl⟩
    | some x =>
      obtain ⟨⟨b, hb⟩, _⟩ := prefix_scan_defined x w.lock _ hz
      simp only [hb]
      cases b <;> simp only <;> first | exact ⟨_, rfl⟩ | (split_ifs <;> exact ⟨_, rfl⟩)
  | no_debug_bgp_update_prefix_cmd a =>
    simp only [exec, no_debug_bgp_update_prefix]
    cases hx : E.str2prefix a with
    | none => exact ⟨_, rfl⟩
    | some x =>
      cases hl : w.dbg.bgp_debug_update_prefixes with
      | none => exact ⟨_, rfl⟩
      | some l =>
        rw [hl] at hup
        obtain ⟨_, ⟨r, hr⟩⟩ := prefix_scan_defined x w.lock _ hup
        simp only [list_new_if_null_some] at hr
        simp only [hr]
        split_ifs <;> exact ⟨_, rfl⟩
  | debug_bgp_neighbor_events_peer_cmd a =>
    simp only [exec, debug_bgp_neighbor_events_peer, has_entry_peer]
    repeat' split
    all_goals first | exact ⟨_, rfl⟩ | simp_all
  | debug_bgp_keepalive_peer_cmd a =>
    simp only [exec, debug_bgp_keepalive_peer, has_entry_peer]
    repeat' split
    all_goals first | exact ⟨_, rfl⟩ | simp_all
  | debug_bgp_update_direct_peer_cmd a b =>
    simp only [exec, debug_bgp_update_direct_peer, has_entry_peer]
    repeat' split
    all_goals first | exact ⟨_, rfl⟩ | simp_all
  | no_debug_bgp_neighbor_events_peer_cmd a =>
    simp only [exec, no_debug_bgp_neighbor_events_peer, remove_entry_peer_eq]
    repeat' split
    all_goals exact ⟨_, rfl⟩
  | no_debug_bgp_keepalive_peer_cmd a =>
    simp only [exec, no_debug_bgp_keepalive_peer, remove_entry_peer_eq]
    repeat' split
    all_goals exact ⟨_, rfl⟩
  | no_debug_bgp_update_direct_peer_cmd a b =>
    simp only [exec, no_debug_bgp_update_direct_peer, remove_entry_peer_eq]
    repeat' split
    all_goals exact ⟨_, rfl⟩
  | _ => exact ⟨_, rfl⟩

/-- C33, evaluation: in the state reached from startup by `debug bgp neighbor-events swp1`
and `debug bgp zebra prefix 10.0.0.0/8`, the neighbor-events list holds the entry of the
neighbor, which has no prefix, and the zebra list holds `10.0.0.0/8`; the scan that
`no debug bgp zebra prefix 10.0.0.0/8` runs there, with the prefix as key over the
neighbor-events list, reads the prefix of that entry and has no defined result, and so
has the command. -/
theorem prefix_key_scan_of_neighbor_list :
    Reachable sampleDebugConsts (fun _ => 1) sampleWorld3 ∧
    sampleWorld3.dbg.bgp_debug_neighbor_events_peers = some [⟨some 7, none⟩] ∧
    sampleWorld3.dbg.bgp_debug_zebra_prefixes = some [⟨none, some ⟨2, 8, [10, 0, 0, 0]⟩⟩] ∧
    (bgp_debug_list_remove_entry none (some ⟨2, 8, [10, 0, 0, 0]⟩) sampleWorld3.lock
      [⟨some 7, none⟩]).isNone = true ∧
    (exec sampleEnv sampleDebugConsts (Command.no_debug_bgp_zebra_prefix_cmd "10.0.0.0/8")
      node_type.ENABLE_NODE sampleWorld3).isNone = true :=
  ⟨reachable_of_execAll sampleEnv sampleDebugConsts (fun _ => 1)
      [(Command.debug_bgp_neighbor_events_peer_cmd "swp1", node_type.ENABLE_NODE),
       (Command.debug_bgp_zebra_prefix_cmd "10.0.0.0/8", node_type.ENABLE_NODE)] world0
      sampleWorld3 Reachable.init (by decide) rfl,
    by decide, by decide, by decide, by decide⟩

/-! ## Filter entries and the session-scope bits: claim C31 -/

theorem modifyConf_term_fields (a : DebugVar) (f : Nat → Nat) (s : DebugState) :
    (s.modifyConf a f).term_bgp_debug_neighbor_events = s.term_bgp_debug_neighbor_events ∧
    (s.modifyConf a f).term_bgp_debug_keepalive = s.term_bgp_debug_keepalive ∧
    (s.modifyConf a f).term_bgp_debug_update = s.term_bgp_debug_update ∧
    (s.modifyConf a f).term_bgp_debug_zebra = s.term_bgp_debug_zebra := by
  cases a <;> exact ⟨rfl, rfl, rfl, rfl⟩

theorem modifyTerm_term_fields (a : DebugVar) (f : Nat → Nat) (s : DebugState) :
    (s.modifyTerm a f).term_bgp_debug_neighbor_events =
      (if a = DebugVar.neighbor_events then f s.term_bgp_debug_neighbor_events
        else s.term_bgp_debug_neighbor_events) ∧
    (s.modifyTerm a f).term_bgp_debug_keepalive =
      (if a = DebugVar.keepalive then f s.term_bgp_debug_keepalive
        else s.term_bgp_debug_keepalive) ∧
    (s.modifyTerm a f).term_bgp_debug_update =
      (if a = DebugVar.update then f s.term_bgp_debug_update
        else s.term_bgp_debug_update) ∧
    (s.modifyTerm a f).term_bgp_debug_zebra =
      (if a = DebugVar.zebra then f s.term_bgp_debug_zebra else s.term_bgp_debug_zebra) := by
  cases a <;> exact ⟨rfl, rfl, rfl, rfl⟩

theorem et_of_noEntries (list : FilterList) (t b : Nat) (h : NoEntries list) :
    EntriesTraced list t b :=
  fun hn => absurd h hn

theorem et_free (list : FilterList) (lock : Peer → Nat) (t b : Nat) :
    EntriesTraced (bgp_debug_list_free list lock).1 t b :=
  et_of_noEntries _ _ _ (list_free_fst list lock)

theorem et_term_on (list : FilterList) (t b : Nat) (hb : b ≠ 0) :
    EntriesTraced list (t ||| b) b :=
  fun _ => bitSet_or_self t b hb

theorem et_new (list : FilterList) (t b : Nat) (h : EntriesTraced list t b) :
    EntriesTraced (some (list_new_if_null list)) t b := by
  intro hn
  apply h
  rintro (rfl | rfl) <;> exact hn (Or.inr rfl)

theorem et_isempty (l : List bgp_debug_filter) (t b : Nat)
    (h : list_isempty l = true) : EntriesTraced (some l) t b := by
  apply et_of_noEntries
  cases l with
  | nil => exact Or.inr rfl
  | cons f rest => simp [list_isempty] at h

theorem et_sublist (l l2 : List bgp_debug_filter) (t b : Nat)
    (hs : l2.Sublist l) (h : EntriesTraced (some l) t b) :
    EntriesTraced (some l2) t b := by
  intro hn
  apply h
  rintro (h0 | h0)
  · exact absurd h0 (by simp)
  · simp only [Option.some.injEq] at h0
    subst h0
    exact hn (Or.inr (by rw [List.sublist_nil.mp hs]))

theorem et_term_or (list : FilterList) (t b d : Nat) (hd : d &&& b = 0)
    (h : EntriesTraced list t b) : EntriesTraced list (t ||| d) b := by
  intro hn
  rw [bitSet_or_iff_of_disjoint _ _ _ hd]
  exact h hn

theorem et_term_clear (list : FilterList) (t b d : Nat) (hd : d &&& b = 0)
    (h : EntriesTraced list t b) : EntriesTraced list (clearBits t d) b := by
  intro hn
  rw [bitSet_clearBits_iff_of_disjoint _ _ _ hd]
  exact h hn

theorem neighbor_events_peer_tracedInv (E : Collab) (K : DebugConsts)
    (node : node_type) (a : String) (w : World) (r : CmdResult) (hK : CategoryBitsApart K)
    (hinv : TracedInv K w.dbg)
    (h : debug_bgp_neighbor_events_peer E K node a w = some r) :
    TracedInv K r.world.dbg := by
  obtain ⟨hNE, hKA, hP, hZ, hIP, hOP⟩ := hK
  obtain ⟨n1, n2, n3, n4⟩ := hinv
  simp only [debug_bgp_neighbor_events_peer, has_entry_peer] at h
  cases node <;> simp only [reduceCtorEq, if_true, if_false] at h <;>
    (repeat' split at h) <;>
    simp only [Option.some.injEq, reduceCtorEq] at h <;> subst h <;>
    simp only [TracedInv, TERM_DEBUG_ON, TERM_DEBUG_OFF, DEBUG_ON, DEBUG_OFF,
      modifyTerm_list_fields, modifyConf_list_fields, modifyConf_term_fields,
      modifyTerm_term_fields, reduceCtorEq, if_true, if_false] <;>
    refine ⟨?_, ?_, ?_, ?_⟩ <;>
    first
    | assumption
    | exact et_new _ _ _ ‹_›
    | exact et_term_on _ _ _ hNE

theorem keepalive_peer_tracedInv (E : Collab) (K : DebugConsts)
    (node : node_type) (a : String) (w : World) (r : CmdResult) (hK : CategoryBitsApart K)
    (hinv : TracedInv K w.dbg)
    (h : debug_bgp_keepalive_peer E K node a w = some r) :
    TracedInv K r.world.dbg := by
  obtain ⟨hNE, hKA, hP, hZ, hIP, hOP⟩ := hK
  obtain ⟨n1, n2, n3, n4⟩ := hinv
  simp only [debug_bgp_keepalive_peer, has_entry_peer] at h
  cases node <;> simp only [reduceCtorEq, if_true, if_false] at h <;>
    (repeat' split at h) <;>
    simp only [Option.some.injEq, reduceCtorEq] at h <;> subst h <;>
    simp only [TracedInv, TERM_DEBUG_ON, TERM_DEBUG_OFF, DEBUG_ON, DEBUG_OFF,
      modifyTerm_list_fields, modifyConf_list_fields, modifyConf_term_fields,
      modifyTerm_term_fields, reduceCtorEq, if_true, if_false] <;>
    refine ⟨?_, ?_, ?_, ?_⟩ <;>
    first
    | assumption
    | exact et_new _ _ _ ‹_›
    | exact et_term_on _ _ _ hKA

theorem update_prefix_cmd_tracedInv (E : Collab) (K : DebugConsts)
    (node : node_type) (a : String) (w : World) (r : CmdResult) (hK : CategoryBitsApart K)
    (hinv : TracedInv K w.dbg)
    (h : debug_bgp_update_prefix E K node a w = some r) :
    TracedInv K r.world.dbg := by
  obtain ⟨hNE, hKA, hP, hZ, hIP, hOP⟩ := hK
  obtain ⟨n1, n2, n3, n4⟩ := hinv
  simp only [ debug_bgp_update_prefix] at h
  cases node <;> simp only [reduceCtorEq, if_true, if_false] at h <;>
    (repeat' split at h) <;>
    simp only [Option.some.injEq, reduceCtorEq] at h <;> subst h <;>
    simp only [TracedInv, TERM_DEBUG_ON, TERM_DEBUG_OFF, DEBUG_ON, DEBUG_OFF,
      modifyTerm_list_fields, modifyConf_list_fields, modifyConf_term_fields,
      modifyTerm_term_fields, reduceCtorEq, if_true, if_false] <;>
    refine ⟨?_, ?_, ?_, ?_⟩ <;>
    first
    | assumption
    | exact et_new _ _ _ ‹_›
    | exact et_term_on _ _ _ hP

theorem zebra_prefix_cmd_tracedInv (E : Collab) (K : DebugConsts)
    (node : node_type) (a : String) (w : World) (r : CmdResult) (hK : CategoryBitsApart K)
    (hinv : TracedInv K w.dbg)
    (h : debug_bgp_zebra_prefix E K node a w = some r) :
    TracedInv K r.world.dbg := by
  obtain ⟨hNE, hKA, hP, hZ, hIP, hOP⟩ := hK
  obtain ⟨n1, n2, n3, n4⟩ := hinv
  simp only [ debug_bgp_zebra_prefix] at h
  cases node <;> simp only [reduceCtorEq, if_true, if_false] at h <;>
    (repeat' split at h) <;>
    simp only [Option.some.injEq, reduceCtorEq] at h <;> subst h <;>
    simp only [TracedInv, TERM_DEBUG_ON, TERM_DEBUG_OFF, DEBUG_ON, DEBUG_OFF,
      modifyTerm_list_fields, modifyConf_list_fields, modifyConf_term_fields,
      modifyTerm_term_fields, reduceCtorEq, if_true, if_false] <;>
    refine ⟨?_, ?_, ?_, ?_⟩ <;>
    first
    | assumption
    | exact et_new _ _ _ ‹_›
    | exact et_term_on _ _ _ hZ

theorem update_direct_peer_tracedInv (E : Collab) (K : DebugConsts)
    (node : node_type) (a b : String) (w : World) (r : CmdResult) (hK : CategoryBitsApart K)
    (hinv : TracedInv K w.dbg)
    (h : debug_bgp_update_direct_peer E K node a b w = some r) :
    TracedInv K r.world.dbg := by
  obtain ⟨hNE, hKA, hP, hZ, hIP, hOP⟩ := hK
  obtain ⟨n1, n2, n3, n4⟩ := hinv
  simp only [debug_bgp_update_direct_peer, has_entry_peer] at h
  cases node <;> simp only [reduceCtorEq, if_true, if_false] at h <;>
    (repeat' split at h) <;>
    simp only [Option.some.injEq, reduceCtorEq] at h <;> subst h <;>
    simp only [TracedInv, TERM_DEBUG_ON, TERM_DEBUG_OFF, DEBUG_ON, DEBUG_OFF,
      modifyTerm_list_fields, modifyConf_list_fields, modifyConf_term_fields,
      modifyTerm_term_fields, reduceCtorEq, if_true, if_false] <;>
    refine ⟨?_, ?_, ?_, ?_⟩ <;>
    first
    | assumption
    | exact et_term_or _ _ _ _ hIP (et_term_clear _ _ _ _ hOP n3)
    | exact et_term_or _ _ _ _ hOP (et_term_clear _ _ _ _ hIP n3)

theorem no_neighbor_events_peer_tracedInv (E : Collab) (K : DebugConsts)
    (node : node_type) (a : String) (w : World) (r : CmdResult)
    (hinv : TracedInv K w.dbg)
    (h : no_debug_bgp_neighbor_events_peer E K node a w = some r) :
    TracedInv K r.world.dbg := by
  obtain ⟨n1, n2, n3, n4⟩ := hinv
  simp only [no_debug_bgp_neighbor_events_peer] at h
  split at h
  · simp only [Option.some.injEq] at h
    subst h
    exact ⟨n1, n2, n3, n4⟩
  · split at h
    · simp only [Option.some.injEq] at h
      subst h
      exact ⟨n1, n2, n3, n4⟩
    · rename_i l hl
      split at h
      · simp only [Option.some.injEq] at h
        subst h
        exact ⟨n1, n2, n3, n4⟩
      · split at h
        · exact absurd h (by simp)
        · rename_i found l2 lock2 hrem
          rw [hl] at n1
          have hsub := remove_entry_sublist _ _ _ _ _ _ _ hrem
          have hnew := et_sublist _ _ _ _ hsub n1
          simp only [Option.some.injEq] at h
          subst h
          cases node <;> split_ifs <;>
            simp only [TracedInv, TERM_DEBUG_ON, TERM_DEBUG_OFF, DEBUG_ON, DEBUG_OFF,
      modifyTerm_list_fields, modifyConf_list_fields, modifyConf_term_fields,
      modifyTerm_term_fields, reduceCtorEq, if_true, if_false] <;>
            first
            | exact ⟨hnew, n2, n3, n4⟩
            | exact ⟨et_isempty _ _ _ ‹_›, n2, n3, n4⟩

theorem no_keepalive_peer_tracedInv (E : Collab) (K : DebugConsts)
    (node : node_type) (a : String) (w : World) (r : CmdResult)
    (hinv : TracedInv K w.dbg)
    (h : no_debug_bgp_keepalive_peer E K node a w = some r) :
    TracedInv K r.world.dbg := by
  obtain ⟨n1, n2, n3, n4⟩ := hinv
  simp only [no_debug_bgp_keepalive_peer] at h
  split at h
  · simp only [Option.some.injEq] at h
    subst h
    exact ⟨n1, n2, n3, n4⟩
  · split at h
    · simp only [Option.some.injEq] at h
      subst h
      exact ⟨n1, n2, n3, n4⟩
    · rename_i l hl
      split at h
      · simp only [Option.some.injEq] at h
        subst h
        exact ⟨n1, n2, n3, n4⟩
      · split at h
        · exact absurd h (by simp)
        · rename_i found l2 lock2 hrem
          rw [hl] at n2
          have hsub := remove_entry_sublist _ _ _ _ _ _ _ hrem
          have hnew := et_sublist _ _ _ _ hsub n2
          simp only [Option.some.injEq] at h
          subst h
          cases node <;> split_ifs <;>
            simp only [TracedInv, TERM_DEBUG_ON, TERM_DEBUG_OFF, DEBUG_ON, DEBUG_OFF,
      modifyTerm_list_fields, modifyConf_list_fields, modifyConf_term_fields,
      modifyTerm_term_fields, reduceCtorEq, if_true, if_false] <;>
            first
            | exact ⟨n1, hnew, n3, n4⟩
            | exact ⟨n1, et_isempty _ _ _ ‹_›, n3, n4⟩

theorem no_update_prefix_cmd_tracedInv (E : Collab) (K : DebugConsts)
    (node : node_type) (a : String) (w : World) (r : CmdResult)
    (hinv : TracedInv K w.dbg)
    (h : no_debug_bgp_update_prefix E K node a w = some r) :
    TracedInv K r.world.dbg := by
  obtain ⟨n1, n2, n3, n4⟩ := hinv
  simp only [ no_debug_bgp_update_prefix] at h
  split at h
  · simp only [Option.some.injEq] at h
    subst h
    exact ⟨n1, n2, n3, n4⟩
  · split at h
    · simp only [Option.some.injEq] at h
      subst h
      exact ⟨n1, n2, n3, n4⟩
    · rename_i l hl
      split at h
      · simp only [Option.some.injEq] at h
        subst h
        exact ⟨n1, n2, n3, n4⟩
      · split at h
        · exact absurd h (by simp)
        · rename_i found l2 lock2 hrem
          rw [hl] at n3
          have hsub := remove_entry_sublist _ _ _ _ _ _ _ hrem
          have hnew := et_sublist _ _ _ _ hsub n3
          simp only [Option.some.injEq] at h
          subst h
          cases node <;> split_ifs <;>
            simp only [TracedInv, TERM_DEBUG_ON, TERM_DEBUG_OFF, DEBUG_ON, DEBUG_OFF,
      modifyTerm_list_fields, modifyConf_list_fields, modifyConf_term_fields,
      modifyTerm_term_fields, reduceCtorEq, if_true, if_false] <;>
            first
            | exact ⟨n1, n2, hnew, n4⟩
            | exact ⟨n1, n2, et_isempty _ _ _ ‹_›, n4⟩

theorem no_update_direct_peer_tracedInv (E : Collab) (K : DebugConsts)
    (node : node_type) (a b : String) (w : World) (r : CmdResult) (hK : CategoryBitsApart K)
    (hinv : TracedInv K w.dbg)
    (h : no_debug_bgp_update_direct_peer E K node a b w = some r) :
    TracedInv K r.world.dbg := by
  obtain ⟨hNE, hKA, hP, hZ, hIP, hOP⟩ := hK
  obtain ⟨n1, n2, n3, n4⟩ := hinv
  simp only [no_debug_bgp_update_direct_peer] at h
  split at h
  · simp only [Option.some.injEq] at h
    subst h
    exact ⟨n1, n2, n3, n4⟩
  · split at h
    · split at h
      · simp only [Option.some.injEq] at h
        subst h
        exact ⟨n1, n2, n3, n4⟩
      · split at h
        · simp only [Option.some.injEq] at h
          subst h
          exact ⟨n1, n2, n3, n4⟩
        · split at h
          · exact absurd h (by simp)
          · simp only [Option.some.injEq] at h
            subst h
            cases node <;> split_ifs <;>
              simp only [TracedInv, TERM_DEBUG_ON, TERM_DEBUG_OFF, DEBUG_ON, DEBUG_OFF,
      modifyTerm_list_fields, modifyConf_list_fields, modifyConf_term_fields,
      modifyTerm_term_fields, reduceCtorEq, if_true, if_false] <;>
              first
              | exact ⟨n1, n2, n3, n4⟩
              | exact ⟨n1, n2, et_term_clear _ _ _ _ hIP n3, n4⟩
    · split at h
      · simp only [Option.some.injEq] at h
        subst h
        exact ⟨n1, n2, n3, n4⟩
      · split at h
        · simp only [Option.some.injEq] at h
          subst h
          exact ⟨n1, n2, n3, n4⟩
        · split at h
          · exact absurd h (by simp)
          · simp only [Option.some.injEq] at h
            subst h
            cases node <;> split_ifs <;>
              simp only [TracedInv, TERM_DEBUG_ON, TERM_DEBUG_OFF, DEBUG_ON, DEBUG_OFF,
      modifyTerm_list_fields, modifyConf_list_fields, modifyConf_term_fields,
      modifyTerm_term_fields, reduceCtorEq, if_true, if_false] <;>
              first
              | exact ⟨n1, n2, n3, n4⟩
              | exact ⟨n1, n2, et_term_clear _ _ _ _ hOP n3, n4⟩

theorem no_zebra_prefix_cmd_tracedInv (E : Collab) (K : DebugConsts)
    (node : node_type) (a : String) (w : World) (r : CmdResult)
    (hinv : TracedInv K w.dbg)
    (h : no_debug_bgp_zebra_prefix E K node a w = some r) :
    TracedInv K r.world.dbg := by
  obtain ⟨n1, n2, n3, n4⟩ := hinv
  simp only [ no_debug_bgp_zebra_prefix] at h
  split at h
  · simp only [Option.some.injEq] at h
    subst h
    exact ⟨n1, n2, n3, n4⟩
  · split at h
    · simp only [Option.some.injEq] at h
      subst h
      exact ⟨n1, n2, n3, n4⟩
    · split at h
      · simp only [Option.some.injEq] at h
        subst h
        exact ⟨n1, n2, n3, n4⟩
      · split at h
        · exact absurd h (by simp)
        · rename_i l hl
          split at h
          · exact absurd h (by simp)
          · rename_i found l2 lock2 hrem
            rw [hl] at n1
            have hsub := remove_entry_sublist _ _ _ _ _ _ _ hrem
            have hnew := et_sublist _ _ _ _ hsub n1
            simp only [Option.some.injEq] at h
            subst h
            cases node <;> split_ifs <;>
              simp only [TracedInv, TERM_DEBUG_ON, TERM_DEBUG_OFF, DEBUG_ON, DEBUG_OFF,
      modifyTerm_list_fields, modifyConf_list_fields, modifyConf_term_fields,
      modifyTerm_term_fields, reduceCtorEq, if_true, if_false] <;>
              exact ⟨hnew, n2, n3, n4⟩

/-- Every command that returns, at either node, keeps `TracedInv`. -/
theorem exec_preserves_tracedInv (E : Collab) (K : DebugConsts) (c : Command)
    (node : node_type) (w : World) (r : CmdResult) (hK : CategoryBitsApart K)
    (hinv : TracedInv K w.dbg)
    (h : exec E K c node w = some r) : TracedInv K r.world.dbg := by
  cases c
  case debug_bgp_neighbor_events_peer_cmd a =>
    exact neighbor_events_peer_tracedInv E K node a w r hK hinv h
  case no_debug_bgp_neighbor_events_peer_cmd a =>
    exact no_neighbor_events_peer_tracedInv E K node a w r hinv h
  case debug_bgp_keepalive_peer_cmd a =>
    exact keepalive_peer_tracedInv E K node a w r hK hinv h
  case no_debug_bgp_keepalive_peer_cmd a =>
    exact no_keepalive_peer_tracedInv E K node a w r hinv h
  case debug_bgp_update_direct_peer_cmd a b =>
    exact update_direct_peer_tracedInv E K node a b w r hK hinv h
  case no_debug_bgp_update_direct_peer_cmd a b =>
    exact no_update_direct_peer_tracedInv E K node a b w r hK hinv h
  case debug_bgp_update_prefix_cmd a =>
    exact update_prefix_cmd_tracedInv E K node a w r hK hinv h
  case no_debug_bgp_update_prefix_cmd a =>
    exact no_update_prefix_cmd_tracedInv E K node a w r hinv h
  case debug_bgp_zebra_prefix_cmd a =>
    exact zebra_prefix_cmd_tracedInv E K node a w r hK hinv h
  case no_debug_bgp_zebra_prefix_cmd a =>
    exact no_zebra_prefix_cmd_tracedInv E K node a w r hinv h
  all_goals
    obtain ⟨hNE, hKA, hP, hZ, hIP, hOP⟩ := hK
    obtain ⟨n1, n2, n3, n4⟩ := hinv
    simp only [exec, Option.some.injEq] at h
    subst h
    cases node <;>
    simp only [TracedInv,
      debug_bgp_as4, no_debug_bgp_as4, debug_bgp_as4_segment, no_debug_bgp_as4_segment,
      debug_bgp_neighbor_events, no_debug_bgp_neighbor_events, debug_bgp_nht,
      no_debug_bgp_nht, debug_bgp_keepalive, no_debug_bgp_keepalive, debug_bgp_update,
      debug_bgp_update_direct, no_debug_bgp_update, debug_bgp_zebra, no_debug_bgp_zebra,
      no_debug_bgp, TERM_DEBUG_ON, TERM_DEBUG_OFF, DEBUG_ON, DEBUG_OFF,
      modifyTerm_list_fields, modifyConf_list_fields, modifyConf_term_fields,
      modifyTerm_term_fields, reduceCtorEq, if_true, if_false] <;>
    (try split_ifs) <;>
    refine ⟨?_, ?_, ?_, ?_⟩ <;>
    first
    | assumption
    | exact et_free _ _ _ _
    | exact et_term_on _ _ _ hNE
    | exact et_term_on _ _ _ hKA
    | exact et_term_on _ _ _ hZ
    | exact et_term_or _ _ _ _ hOP (et_term_or _ _ _ _ hIP n3)
    | exact et_term_or _ _ _ _ hIP (et_term_clear _ _ _ _ hOP n3)
    | exact et_term_or _ _ _ _ hOP (et_term_clear _ _ _ _ hIP n3)

theorem tracedInv_init (K : DebugConsts) : TracedInv K DebugState.init := by
  refine ⟨?_, ?_, ?_, ?_⟩ <;> exact et_of_noEntries _ _ _ (Or.inl rfl)

theorem reachable_tracedInv (K : DebugConsts) (L0 : Peer → Nat) (w : World)
    (hK : CategoryBitsApart K) (h : Reachable K L0 w) : TracedInv K w.dbg := by
  induction h with
  | init => exact tracedInv_init K
  | step E c node w r _ _ hexec ih =>
    exact exec_preserves_tracedInv E K c node w r hK ih hexec

/-- C31: when the bits of neighbor-events, keepalive, update-prefix and zebra are non-zero
and the update-prefix bit shares no bit with the two update direction bits, then in every
state reachable from the startup state through the command handlers, in either command
context, a non-empty filter list of neighbor-events, keepalive, update-prefix or zebra has
its category's session-scope bit set. -/
theorem reachable_entries_traced (K : DebugConsts) (L0 : Peer → Nat) (w : World)
    (hK : CategoryBitsApart K) (h : Reachable K L0 w) :
    (¬ NoEntries w.dbg.bgp_debug_neighbor_events_peers →
      BitSet w.dbg.term_bgp_debug_neighbor_events K.BGP_DEBUG_NEIGHBOR_EVENTS) ∧
    (¬ NoEntries w.dbg.bgp_debug_keepalive_peers →
      BitSet w.dbg.term_bgp_debug_keepalive K.BGP_DEBUG_KEEPALIVE) ∧
    (¬ NoEntries w.dbg.bgp_debug_update_prefixes →
      BitSet w.dbg.term_bgp_debug_update K.BGP_DEBUG_UPDATE_PREFIX) ∧
    (¬ NoEntries w.dbg.bgp_debug_zebra_prefixes →
      BitSet w.dbg.term_bgp_debug_zebra K.BGP_DEBUG_ZEBRA) :=
  reachable_tracedInv K L0 w hK h

theorem reachable_entries_traced_witness :
    (CategoryBitsApart sampleDebugConsts ∧
      Reachable sampleDebugConsts (fun _ => 1) sampleWorld4 ∧
      sampleWorld4.dbg.bgp_debug_neighbor_events_peers = some [⟨some 7, none⟩] ∧
      ¬ NoEntries sampleWorld4.dbg.bgp_debug_neighbor_events_peers) ∧
    BitSet sampleWorld4.dbg.term_bgp_debug_neighbor_events
      sampleDebugConsts.BGP_DEBUG_NEIGHBOR_EVENTS :=
  have hK : CategoryBitsApart sampleDebugConsts := by unfold CategoryBitsApart; decide
  have h4 : Reachable sampleDebugConsts (fun _ => 1) sampleWorld4 :=
    reachable_of_execAll sampleEnv sampleDebugConsts (fun _ => 1)
      [(Command.debug_bgp_neighbor_events_peer_cmd "swp1", node_type.CONFIG_NODE)] world0
      sampleWorld4 Reachable.init (by decide) rfl
  have hn4 : ¬ NoEntries sampleWorld4.dbg.bgp_debug_neighbor_events_peers := by
    unfold NoEntries; decide
  ⟨⟨hK, h4, by decide, hn4⟩,
    (reachable_entries_traced sampleDebugConsts (fun _ => 1) sampleWorld4 hK h4).1 hn4⟩

end BgpDebug
